import Mathlib

/-!
# aSIM: the SCL/ICD catalog extractor (`icd_parser.c`)

A shallow embedding of the parser's catalogs and of the functions that fill and
query them, followed by theorems about that embedding.

Conventions of the embedding.

* A C string is a `String`; one `Char` stands for one C `char`.  A `const char*`
  that the code tests against `NULL` is an `Option String`.
* A fixed-width buffer `char buf[w]` holds at most `w - 1` characters: every
  `snprintf(buf, w, "%s", s)`, `strncpy(buf, s, w - 1)` into zeroed memory and
  `strncat` is modelled by `trunc`.
* A prepend-only linked list is a `List` whose head is the entry added last; the
  C loops `for (e = list; e; e = e->next)` walk that list from its head.
* An enumeration `icd_foreach_*` returns the list of values handed to the
  callback, in call order.
* `calloc` is assumed to succeed.
* The mutual recursion of the type resolver is bounded by a fuel argument; the
  result `none` stands for a run that did not return within that depth.
-/

namespace Icd

/-! ## Strings and fixed-width buffers -/

/-- The first `n` characters of `s`: what fits in a buffer of `n + 1` bytes. -/
def trunc (n : Nat) (s : String) : String := ⟨s.data.take n⟩

/-- The test `p && *p` on a `const char*`. -/
def nonEmpty : Option String → Bool
  | some s => s != ""
  | none => false

/-- The call `strncat(dst, src, n)`: appends at most `n` characters of `src`. -/
def strncat (dst src : String) (n : Nat) : String := dst ++ trunc n src

/-- The optional copy `if (s) snprintf(buf, n + 1, "%s", s)` into zeroed memory. -/
def copyOpt (n : Nat) : Option String → String
  | some s => trunc n s
  | none => ""

/-! ## The element tree handed over by libxml2 -/

/-- A node of the parsed document: an element, or any other node kind. -/
inductive XmlNode where
  | element (name : String) (attrs : List (String × String)) (children : List XmlNode)
  | other (content : String)

namespace XmlNode

/-- Whether `node->type == XML_ELEMENT_NODE`. -/
def isElement : XmlNode → Bool
  | element _ _ _ => true
  | other _ => false

/-- The element name (`node->name`), empty for other node kinds. -/
def tag : XmlNode → String
  | element n _ _ => n
  | other _ => ""

/-- The list `node->children`. -/
def kids : XmlNode → List XmlNode
  | element _ _ c => c
  | other _ => []

/-- The attribute list of an element. -/
def props : XmlNode → List (String × String)
  | element _ a _ => a
  | other _ => []

end XmlNode

/-- The call `xmlGetProp(node, name)`: the attribute value, `none` when absent. -/
def xmlGetProp (node : XmlNode) (name : String) : Option String :=
  (node.props.find? (fun kv => kv.1 == name)).map Prod.snd

/-- The test `node->type == XML_ELEMENT_NODE && !xmlStrcmp(node->name, name)`. -/
def isElem (node : XmlNode) (name : String) : Bool :=
  node.isElement && node.tag == name

/-- The function `find_node`: the first sibling in `nodes` that is an element
called `name` and, when both `attr` and `value` are given, carries that value. -/
def find_node (nodes : List XmlNode) (name : String) (attr value : Option String) :
    Option XmlNode :=
  nodes.find? (fun node =>
    isElem node name &&
      (match attr, value with
       | some a, some v => xmlGetProp node a == some v
       | _, _ => true))

/-- The function `xml_attr_true`. -/
def xml_attr_true : Option String → Bool
  | none => false
  | some v => v == "true" || v == "TRUE" || v == "1"

/-! ## Constants of libiec61850 (`iec61850_common.h`, not part of the repository) -/

/-- Modelled from the spec: the header that defines the trigger-option bits is not
in the repository; the values are those of libiec61850, one bit each. -/
def TRG_OPT_DATA_CHANGED : Nat := 1

/-- Modelled from the spec: see `TRG_OPT_DATA_CHANGED`. -/
def TRG_OPT_QUALITY_CHANGED : Nat := 2

/-- Modelled from the spec: see `TRG_OPT_DATA_CHANGED`. -/
def TRG_OPT_DATA_UPDATE : Nat := 4

/-- Modelled from the spec: see `TRG_OPT_DATA_CHANGED`. -/
def TRG_OPT_INTEGRITY : Nat := 8

/-- Modelled from the spec: see `TRG_OPT_DATA_CHANGED`. -/
def TRG_OPT_GI : Nat := 16

/-- Modelled from the spec: the header that defines the optional-field bits is not
in the repository; the values are those of libiec61850, one bit each. -/
def RPT_OPT_SEQ_NUM : Nat := 1

/-- Modelled from the spec: see `RPT_OPT_SEQ_NUM`. -/
def RPT_OPT_TIME_STAMP : Nat := 2

/-- Modelled from the spec: see `RPT_OPT_SEQ_NUM`. -/
def RPT_OPT_REASON_FOR_INCLUSION : Nat := 4

/-- Modelled from the spec: see `RPT_OPT_SEQ_NUM`. -/
def RPT_OPT_DATA_SET : Nat := 8

/-- Modelled from the spec: see `RPT_OPT_SEQ_NUM`. -/
def RPT_OPT_DATA_REFERENCE : Nat := 16

/-- Modelled from the spec: see `RPT_OPT_SEQ_NUM`. -/
def RPT_OPT_BUFFER_OVERFLOW : Nat := 32

/-- Modelled from the spec: see `RPT_OPT_SEQ_NUM`. -/
def RPT_OPT_ENTRY_ID : Nat := 64

/-- Modelled from the spec: see `RPT_OPT_SEQ_NUM`. -/
def RPT_OPT_CONF_REV : Nat := 128

/-- The statement `if (xml_attr_true(a)) mask |= bit;` on a `uint8_t` mask. -/
def orIf (mask : Nat) (a : Option String) (bit : Nat) : Nat :=
  if xml_attr_true a then (mask ||| bit) % 256 else mask

/-! ## Catalog records -/

/-- The record `DOEntry`. -/
structure DOEntry where
  lnType : String
  lnClass : String
  doName : String
  doType : String
  cdc : String
  deriving DecidableEq

/-- The record `DAEntry`. -/
structure DAEntry where
  doType : String
  daPath : String
  fc : String
  bType : String
  typeId : String
  trgOps : Nat
  deriving DecidableEq

/-- The record `DAInfo` of the public header. -/
structure DAInfo where
  fc : String
  bType : String
  typeId : String
  trgOps : Nat
  deriving DecidableEq

/-- The record `LNEntry`. -/
structure LNEntry where
  name : String
  lnClass : String
  deriving DecidableEq

/-- The record `LNInstEntry`; the field `pfx` is the C field `prefix`. -/
structure LNInstEntry where
  ldInst : String
  pfx : String
  lnClass : String
  lnInst : String
  lnType : String
  lnName : String
  isLn0 : Bool
  deriving DecidableEq

/-- The record `FcdaEntry`; the field `pfx` is the C field `prefix`. -/
structure FcdaEntry where
  ldInst : String
  pfx : String
  lnClass : String
  lnInst : String
  doName : String
  daName : String
  fc : String
  deriving DecidableEq

/-- The record `FCDAInfo` of the public header. -/
structure FCDAInfo where
  ldInst : String
  pfx : String
  lnClass : String
  lnInst : String
  doName : String
  daName : String
  fc : String
  deriving DecidableEq

/-- The record `DataSetEntryDef`; `members` is its prepend-only member list. -/
structure DataSetEntryDef where
  ldInst : String
  lnName : String
  name : String
  members : List FcdaEntry
  deriving DecidableEq

/-- The record `ReportEntry`. -/
structure ReportEntry where
  ldInst : String
  lnName : String
  name : String
  dataSet : String
  rptId : String
  confRev : Nat
  intgPd : Nat
  bufTime : Nat
  rptEnabledMax : Nat
  trgOps : Nat
  optFields : Nat
  buffered : Bool
  deriving DecidableEq

/-- The file-scope variables of `icd_parser.c`. -/
structure IcdState where
  do_list : List DOEntry
  da_list : List DAEntry
  ln_list : List LNEntry
  ln_instances : List LNInstEntry
  dataset_list : List DataSetEntryDef
  report_list : List ReportEntry
  selected_ied_name : String
  selected_ap_name : String
  deriving DecidableEq

/-! ## The attribute catalog -/

/-- The function `da_entry_exists`: the stored key is compared with the key as
passed, without cutting the latter to the buffer widths. -/
def da_entry_exists (da_list : List DAEntry) (doType daPath : String) : Bool :=
  da_list.any (fun e => e.doType == doType && e.daPath == daPath)

/-- The function `add_da_entry`. -/
def add_da_entry (doType daPath fc bType typeId : Option String) (trgOps : Nat)
    (da_list : List DAEntry) : List DAEntry :=
  match doType, daPath with
  | some d, some p =>
    if da_entry_exists da_list d p then da_list
    else
      { doType := trunc 63 d, daPath := trunc 127 p, fc := copyOpt 7 fc,
        bType := copyOpt 31 bType, typeId := copyOpt 63 typeId,
        trgOps := trgOps % 256 } :: da_list
  | _, _ => da_list

/-- The function `icd_find_da_info`: `none` is the return value `false`. -/
def icd_find_da_info (da_list : List DAEntry) (do_type_id da_path : String) :
    Option DAInfo :=
  (da_list.find? (fun e => e.doType == do_type_id && e.daPath == da_path)).map
    (fun e => { fc := e.fc, bType := e.bType, typeId := e.typeId, trgOps := e.trgOps })

/-- The function `icd_da_exists`. -/
def icd_da_exists (da_list : List DAEntry) (do_type_id da_path : String) : Bool :=
  da_list.any (fun e => e.doType == do_type_id && e.daPath == da_path)

/-! ## Composed node names -/

/-- The function `compose_ln_name`; the three `strncat` calls fill `out[64]`. -/
def compose_ln_name (isLn0 : Bool) (pfx lnClass inst : Option String) : String :=
  if isLn0 then trunc 63 "LLN0"
  else
    let out0 := ""
    let out1 := if nonEmpty pfx then strncat out0 (pfx.getD "") (63 - out0.length) else out0
    let out2 :=
      if nonEmpty lnClass then strncat out1 (lnClass.getD "") (63 - out1.length) else out1
    if nonEmpty inst then strncat out2 (inst.getD "") (63 - out2.length) else out2

/-! ## Report controls -/

/-- The C `isspace` test in the "C" locale. -/
def isSpaceC (c : Char) : Bool := c.toNat == 32 || (9 ≤ c.toNat && c.toNat ≤ 13)

/-- The value of a run of decimal digits. -/
def digitsValue (ds : List Char) : Nat :=
  ds.foldl (fun acc c => 10 * acc + (c.toNat - 48)) 0

/-- The call `strtoul(s, &end, 10)` with a 64-bit `unsigned long`: the value
returned and the text `end` points at. -/
def strtoul (s : String) : Nat × List Char :=
  let cs := s.data.dropWhile isSpaceC
  let neg := cs.head? == some '-'
  let cs1 := if cs.head? == some '-' || cs.head? == some '+' then cs.tail else cs
  let ds := cs1.takeWhile Char.isDigit
  if ds.isEmpty then (0, s.data)
  else
    let v := digitsValue ds
    let u := if 2 ^ 64 ≤ v then 2 ^ 64 - 1 else if neg then (2 ^ 64 - v) % 2 ^ 64 else v
    (u, cs1.drop ds.length)

/-- The function `parse_uint_attr`, returning a `uint32_t`. -/
def parse_uint_attr (attr : Option String) (defaultValue : Nat) : Nat :=
  match attr with
  | none => defaultValue
  | some a =>
    let r := strtoul a
    if r.2.isEmpty then r.1 % 2 ^ 32 else defaultValue

/-- The function `parse_trgops_node`, called on an existing node. -/
def parse_trgops_node (node : XmlNode) : Nat :=
  let t0 := 0
  let t1 := orIf t0 (xmlGetProp node "dchg") TRG_OPT_DATA_CHANGED
  let t2 := orIf t1 (xmlGetProp node "qchg") TRG_OPT_QUALITY_CHANGED
  let t3 := orIf t2 (xmlGetProp node "dupd") TRG_OPT_DATA_UPDATE
  let t4 := orIf t3 (xmlGetProp node "period") TRG_OPT_INTEGRITY
  orIf t4 (xmlGetProp node "gi") TRG_OPT_GI

/-- The function `parse_optfields_node`, called on an existing node. -/
def parse_optfields_node (node : XmlNode) : Nat :=
  let o0 := 0
  let o1 := orIf o0 (xmlGetProp node "seqNum") RPT_OPT_SEQ_NUM
  let o2 := orIf o1 (xmlGetProp node "timeStamp") RPT_OPT_TIME_STAMP
  let o3 := orIf o2 (xmlGetProp node "reasonCode") RPT_OPT_REASON_FOR_INCLUSION
  let o4 := orIf o3 (xmlGetProp node "dataSet") RPT_OPT_DATA_SET
  let o5 := orIf o4 (xmlGetProp node "dataRef") RPT_OPT_DATA_REFERENCE
  let o6 := orIf o5 (xmlGetProp node "bufOvfl") RPT_OPT_BUFFER_OVERFLOW
  let o7 := orIf o6 (xmlGetProp node "entryID") RPT_OPT_ENTRY_ID
  orIf o7 (xmlGetProp node "configRef") RPT_OPT_CONF_REV

/-- The two conditional copies of `add_report_entry` into `entry->ldInst` and
`entry->lnName`. -/
def report_with_host (ldInst lnName : Option String) (entry : ReportEntry) : ReportEntry :=
  let e1 := match ldInst with
    | some l => { entry with ldInst := trunc 63 l }
    | none => entry
  match lnName with
  | some l => { e1 with lnName := trunc 63 l }
  | none => e1

/-- The function `add_report_entry`. -/
def add_report_entry (ldInst lnName : Option String) (entry : ReportEntry)
    (st : IcdState) : IcdState :=
  { st with report_list := report_with_host ldInst lnName entry :: st.report_list }

/-- The body of the loop over the children of a `ReportControl` element. -/
def report_child (entry : ReportEntry) (child : XmlNode) : ReportEntry :=
  if !child.isElement then entry
  else if child.tag == "TrgOps" then { entry with trgOps := parse_trgops_node child }
  else if child.tag == "OptFields" then { entry with optFields := parse_optfields_node child }
  else if child.tag == "RptEnabled" then
    { entry with rptEnabledMax := parse_uint_attr (xmlGetProp child "max") 0 % 2 ^ 16 }
  else entry

/-- The record that `collect_report_control` fills before it links it, for an
element that has a `name` attribute of value `name`. -/
def report_entry_of (rcNode : XmlNode) (name : String) : ReportEntry :=
  let bufTime := parse_uint_attr (xmlGetProp rcNode "bufTime") 0
  let entry : ReportEntry :=
    { ldInst := "", lnName := "", name := trunc 63 name,
      dataSet := copyOpt 95 (xmlGetProp rcNode "datSet"),
      rptId := copyOpt 127 (xmlGetProp rcNode "rptID"),
      confRev := parse_uint_attr (xmlGetProp rcNode "confRev") 0,
      intgPd := parse_uint_attr (xmlGetProp rcNode "intgPd") 0,
      bufTime := if bufTime == 0 then parse_uint_attr (xmlGetProp rcNode "bufTm") 0 else bufTime,
      rptEnabledMax := 0, trgOps := 0, optFields := 0,
      buffered := xml_attr_true (xmlGetProp rcNode "buffered") }
  rcNode.kids.foldl report_child entry

/-- The function `collect_report_control`, called on an existing node. -/
def collect_report_control (rcNode : XmlNode) (ldInst lnName : Option String)
    (st : IcdState) : IcdState :=
  match xmlGetProp rcNode "name" with
  | none => st
  | some name => add_report_entry ldInst lnName (report_entry_of rcNode name) st

/-! ## Node instances and datasets -/

/-- The function `register_ln_instance`. -/
def register_ln_instance (ldInst : Option String) (isLn0 : Bool)
    (pfx lnClass inst lnType lnName : Option String) (st : IcdState) : IcdState :=
  match lnName with
  | none => st
  | some n =>
    { st with ln_instances :=
        { ldInst := copyOpt 63 ldInst, pfx := copyOpt 63 pfx, lnClass := copyOpt 15 lnClass,
          lnInst := copyOpt 15 inst, lnType := copyOpt 63 lnType, lnName := trunc 63 n,
          isLn0 := isLn0 } :: st.ln_instances }

/-- The record made by `dataset_create`.  The C function also links the record
at the head of `dataset_list` and the members are then added through the pointer;
nothing reads the list in between, so the embedding links the finished record. -/
def dataset_create (ldInst lnName dsName : Option String) : DataSetEntryDef :=
  { ldInst := copyOpt 63 ldInst, lnName := copyOpt 63 lnName, name := copyOpt 95 dsName,
    members := [] }

/-- The function `dataset_add_fcda`, on the record `ds` points at. -/
def dataset_add_fcda (ds : DataSetEntryDef)
    (ldInst pfx lnClass lnInst doName daName fc : Option String) : DataSetEntryDef :=
  { ds with members :=
      { ldInst := copyOpt 63 ldInst, pfx := copyOpt 63 pfx, lnClass := copyOpt 15 lnClass,
        lnInst := copyOpt 15 lnInst, doName := copyOpt 63 doName,
        daName := copyOpt 63 daName, fc := copyOpt 7 fc } :: ds.members }

/-- The argument `a ? a : ""` built from an attribute. -/
def orEmpty (a : Option String) : Option String := some (a.getD "")

/-- The body of the loop over the children of a `DataSet` element. -/
def dataset_child (ds : DataSetEntryDef) (fcda : XmlNode) : DataSetEntryDef :=
  if !isElem fcda "FCDA" then ds
  else
    dataset_add_fcda ds (orEmpty (xmlGetProp fcda "ldInst")) (orEmpty (xmlGetProp fcda "prefix"))
      (orEmpty (xmlGetProp fcda "lnClass")) (orEmpty (xmlGetProp fcda "lnInst"))
      (orEmpty (xmlGetProp fcda "doName")) (orEmpty (xmlGetProp fcda "daName"))
      (orEmpty (xmlGetProp fcda "fc"))

/-- The body of the loop over the children of an `LN` or `LN0` element. -/
def ln_child (ldInst : Option String) (lnName : String) (st : IcdState)
    (child : XmlNode) : IcdState :=
  if !child.isElement then st
  else if child.tag == "DataSet" then
    match xmlGetProp child "name" with
    | none => st
    | some dsName =>
      let ds := dataset_create (orEmpty ldInst) (some lnName) (some dsName)
      { st with dataset_list := child.kids.foldl dataset_child ds :: st.dataset_list }
  else if child.tag == "ReportControl" then
    collect_report_control child ldInst (some lnName) st
  else st

/-- The function `process_ln_for_datasets`. -/
def process_ln_for_datasets (lnNode : XmlNode) (ldInst : Option String)
    (st : IcdState) : IcdState :=
  let isLn0 := lnNode.tag == "LN0"
  let pfx := orEmpty (xmlGetProp lnNode "prefix")
  let lnClass := orEmpty (xmlGetProp lnNode "lnClass")
  let inst := orEmpty (xmlGetProp lnNode "inst")
  let lnName := compose_ln_name isLn0 pfx lnClass inst
  let lnTypeId := orEmpty (xmlGetProp lnNode "lnType")
  let st1 := register_ln_instance ldInst isLn0 pfx lnClass inst lnTypeId (some lnName) st
  lnNode.kids.foldl (ln_child ldInst lnName) st1

/-- The body of the innermost loop of `process_access_point`. -/
def ldevice_child (ldInst : String) (st : IcdState) (ln : XmlNode) : IcdState :=
  if isElem ln "LN" || isElem ln "LN0" then process_ln_for_datasets ln (some ldInst) st
  else st

/-- The body of the loop over the children of a `Server` element. -/
def server_child (st : IcdState) (ld : XmlNode) : IcdState :=
  if !isElem ld "LDevice" then st
  else ld.kids.foldl (ldevice_child ((xmlGetProp ld "inst").getD "")) st

/-- The function `process_access_point`. -/
def process_access_point (ap : XmlNode) (st : IcdState) : IcdState :=
  ap.kids.foldl
    (fun st server => if !isElem server "Server" then st else server.kids.foldl server_child st)
    st

/-! ## The node-class table -/

/-- The function `add_ln_entry`. -/
def add_ln_entry (name lnClass : Option String) (ln_list : List LNEntry) : List LNEntry :=
  match name, lnClass with
  | some n, some c =>
    if n == "" || c == "" then ln_list
    else if ln_list.any (fun e => e.name == n) then ln_list
    else { name := trunc 63 n, lnClass := trunc 15 c } :: ln_list
  | _, _ => ln_list

/-- The name `collect_ln_nodes` builds in its local buffer `name[64]`. -/
def ln_table_name (isLn0 : Bool) (pfx lnClass inst : String) : String :=
  if isLn0 then trunc 63 "LLN0" else trunc 63 (pfx ++ lnClass ++ inst)

mutual
/-- One iteration of the loop of `collect_ln_nodes`, on the node `cur`. -/
def collect_ln_node : XmlNode → List LNEntry → List LNEntry
  | XmlNode.other _, l => l
  | XmlNode.element name attrs children, l =>
    let cur := XmlNode.element name attrs children
    let l1 :=
      if name == "LN" || name == "LN0" then
        let pfx := (xmlGetProp cur "prefix").getD ""
        let lnClass := (xmlGetProp cur "lnClass").getD ""
        let inst := (xmlGetProp cur "inst").getD ""
        add_ln_entry (some (ln_table_name (name == "LN0") pfx lnClass inst)) (some lnClass) l
      else l
    collect_ln_nodes children l1
/-- The function `collect_ln_nodes`, on `node` and the siblings that follow it. -/
def collect_ln_nodes : List XmlNode → List LNEntry → List LNEntry
  | [], l => l
  | cur :: rest, l => collect_ln_nodes rest (collect_ln_node cur l)
end

/-! ## Selection of the active device and access point -/

/-- The function `set_selected_ied`. -/
def set_selected_ied (name : Option String) (st : IcdState) : IcdState :=
  if !nonEmpty name then st
  else if st.selected_ied_name == "" then
    { st with selected_ied_name := trunc 63 (name.getD ""), selected_ap_name := "" }
  else st

/-- The function `set_selected_ap`. -/
def set_selected_ap (name : Option String) (st : IcdState) : IcdState :=
  if !nonEmpty name then st
  else if st.selected_ap_name == "" then
    { st with selected_ap_name := trunc 63 (name.getD "") }
  else st

/-- The function `icd_set_active_ied`; the `Bool` is its return value. -/
def icd_set_active_ied (name accessPoint : Option String) (st : IcdState) :
    IcdState × Bool :=
  if !nonEmpty name then (st, false)
  else
    ({ st with
        selected_ied_name := trunc 63 (name.getD "")
        selected_ap_name := if nonEmpty accessPoint then trunc 63 (accessPoint.getD "") else "" },
     true)

/-- The function `icd_get_selected_ied_name`. -/
def icd_get_selected_ied_name (st : IcdState) : String := st.selected_ied_name

/-- A node pointer together with the siblings that follow the node. -/
abbrev NodeAt := XmlNode × List XmlNode

/-- The loop of `find_active_ied` over the children of the root.  The result is
the node returned from inside the loop (if any), the value of `firstMatch` and
the state. -/
def find_active_ied_scan :
    List XmlNode → Option NodeAt → IcdState → Option NodeAt × Option NodeAt × IcdState
  | [], firstMatch, st => (none, firstMatch, st)
  | ied :: rest, firstMatch, st =>
    if !isElem ied "IED" then find_active_ied_scan rest firstMatch st
    else
      let name := (xmlGetProp ied "name").getD ""
      let firstMatch1 :=
        if firstMatch.isNone && name != "" then some (ied, rest) else firstMatch
      let st1 :=
        if st.selected_ied_name == "" && name != "" then set_selected_ied (some name) st else st
      if st1.selected_ied_name != "" && name != "" && st1.selected_ied_name == name then
        (some (ied, rest), firstMatch1, st1)
      else find_active_ied_scan rest firstMatch1 st1

/-- The function `find_active_ied`; the diagnostics on `stderr` are not modelled. -/
def find_active_ied (root : XmlNode) (st : IcdState) : Option NodeAt × IcdState :=
  let hadPreference := st.selected_ied_name != ""
  match find_active_ied_scan root.kids none st with
  | (some found, _, st1) => (some found, st1)
  | (none, some firstMatch, st1) =>
    let fallback := (xmlGetProp firstMatch.1 "name").getD ""
    if fallback != "" then
      (some firstMatch,
        { st1 with selected_ied_name := trunc 63 fallback, selected_ap_name := "" })
    else (some firstMatch, st1)
  | (none, none, st1) =>
    if hadPreference then (none, { st1 with selected_ied_name := "" }) else (none, st1)

/-- The loop of `collect_dataset_nodes` over the children of the device.  The
result tells whether the loop returned after processing an access point, and
gives `firstAp` with `firstApName` and the state. -/
def collect_dataset_scan :
    List XmlNode → Option (XmlNode × String) → IcdState →
      Bool × Option (XmlNode × String) × IcdState
  | [], firstAp, st => (false, firstAp, st)
  | ap :: rest, firstAp, st =>
    if !isElem ap "AccessPoint" then collect_dataset_scan rest firstAp st
    else
      let apName := (xmlGetProp ap "name").getD ""
      let firstAp1 :=
        match firstAp with
        | none => some (ap, if apName != "" then trunc 63 apName else "")
        | some f => some f
      let st1 :=
        if st.selected_ap_name == "" && apName != "" then set_selected_ap (some apName) st
        else st
      let apMatches :=
        st1.selected_ap_name == "" || (apName != "" && st1.selected_ap_name == apName)
      if !apMatches then collect_dataset_scan rest firstAp1 st1
      else (true, firstAp1, process_access_point ap st1)

/-- The function `collect_dataset_nodes`; the diagnostics are not modelled. -/
def collect_dataset_nodes (iedNode : XmlNode) (st : IcdState) : IcdState :=
  let hadPreference := st.selected_ap_name != ""
  match collect_dataset_scan iedNode.kids none st with
  | (true, _, st1) => st1
  | (false, some (firstAp, firstApName), st1) =>
    process_access_point firstAp { st1 with selected_ap_name := trunc 63 firstApName }
  | (false, none, st1) =>
    if hadPreference then { st1 with selected_ap_name := "" } else st1

/-! ## The type-template resolver -/

/-- The path built in `path[256]`: `prefix.name`, or `name` when there is no prefix. -/
def join_path (pfx : Option String) (nameStr : String) : String :=
  if nonEmpty pfx then trunc 255 (pfx.getD "" ++ "." ++ nameStr) else trunc 255 nameStr

/-- The three statements that set the `dchg`, `qchg` and `dupd` bits from the
attributes of `child`, starting from the mask 0. -/
def change_flags (child : XmlNode) : Nat :=
  orIf (orIf (orIf 0 (xmlGetProp child "dchg") TRG_OPT_DATA_CHANGED)
    (xmlGetProp child "qchg") TRG_OPT_QUALITY_CHANGED)
    (xmlGetProp child "dupd") TRG_OPT_DATA_UPDATE

/-- The value of `fcStr` in `collect_da_type`. -/
def member_fc (child : XmlNode) (inheritedFc : Option String) : Option String :=
  match xmlGetProp child "fc" with
  | some fc => some fc
  | none => inheritedFc

/-- The value of `trgOps` in `collect_da_type`. -/
def member_trgOps (child : XmlNode) (inheritedTrgOps : Nat) : Nat :=
  if (xmlGetProp child "dchg").isSome || (xmlGetProp child "qchg").isSome ||
      (xmlGetProp child "dupd").isSome then
    change_flags child
  else inheritedTrgOps

/-- The loop of `collect_da_type` over the children of the `DAType` element;
`recur daTypeId pfx fc trgOps` is the recursive call for the current `doTypeId`. -/
def collect_da_children
    (recur : Option String → Option String → Option String → Nat →
      List DAEntry → Option (List DAEntry))
    (doTypeId pfx inheritedFc : Option String) (inheritedTrgOps : Nat) :
    List XmlNode → List DAEntry → Option (List DAEntry)
  | [], da => some da
  | child :: rest, da =>
    if !child.isElement then
      collect_da_children recur doTypeId pfx inheritedFc inheritedTrgOps rest da
    else if child.tag != "BDA" && child.tag != "DA" then
      collect_da_children recur doTypeId pfx inheritedFc inheritedTrgOps rest da
    else
      match xmlGetProp child "name" with
      | none => collect_da_children recur doTypeId pfx inheritedFc inheritedTrgOps rest da
      | some nameStr =>
        let path := join_path pfx nameStr
        let fcStr := member_fc child inheritedFc
        let bTypeStr := xmlGetProp child "bType"
        let trgOps := member_trgOps child inheritedTrgOps
        let typeStr := xmlGetProp child "type"
        let da1 := add_da_entry doTypeId (some path) fcStr bTypeStr typeStr trgOps da
        match typeStr with
        | some t =>
          (recur (some t) (some path) fcStr trgOps da1).bind
            (collect_da_children recur doTypeId pfx inheritedFc inheritedTrgOps rest)
        | none => collect_da_children recur doTypeId pfx inheritedFc inheritedTrgOps rest da1

/-- The function `collect_da_type`, with `fuel` bounding the depth of recursion. -/
def collect_da_type :
    Nat → XmlNode → Option String → Option String → Option String → Option String → Nat →
      List DAEntry → Option (List DAEntry)
  | 0, _, _, _, _, _, _, _ => none
  | fuel + 1, templates, doTypeId, daTypeId, pfx, inheritedFc, inheritedTrgOps, da =>
    match daTypeId with
    | none => some da
    | some id =>
      match find_node templates.kids "DAType" (some "id") (some id) with
      | none => some da
      | some daTypeNode =>
        collect_da_children (collect_da_type fuel templates doTypeId) doTypeId pfx
          inheritedFc inheritedTrgOps daTypeNode.kids da

/-- The loop of `collect_do_type` over the children of the `DOType` element;
`recurDo` and `recurDa` are the two recursive calls. -/
def collect_do_children
    (recurDo : Option String → Option String → List DAEntry → Option (List DAEntry))
    (recurDa : Option String → Option String → Option String → Nat →
      List DAEntry → Option (List DAEntry))
    (doTypeId pfx : Option String) :
    List XmlNode → List DAEntry → Option (List DAEntry)
  | [], da => some da
  | child :: rest, da =>
    if !child.isElement then collect_do_children recurDo recurDa doTypeId pfx rest da
    else if child.tag == "DA" then
      match xmlGetProp child "name", xmlGetProp child "bType" with
      | some nameStr, some bTypeStr =>
        let path := join_path pfx nameStr
        let fcStr := xmlGetProp child "fc"
        let trgOps := change_flags child
        let typeStr := xmlGetProp child "type"
        let da1 := add_da_entry doTypeId (some path) fcStr (some bTypeStr) typeStr trgOps da
        match typeStr with
        | some t =>
          (recurDa (some t) (some path) fcStr trgOps da1).bind
            (collect_do_children recurDo recurDa doTypeId pfx rest)
        | none => collect_do_children recurDo recurDa doTypeId pfx rest da1
      | _, _ => collect_do_children recurDo recurDa doTypeId pfx rest da
    else if child.tag == "SDO" then
      match xmlGetProp child "name", xmlGetProp child "type" with
      | some nameStr, some t =>
        (recurDo (some t) (some (join_path pfx nameStr)) da).bind
          (collect_do_children recurDo recurDa doTypeId pfx rest)
      | _, _ => collect_do_children recurDo recurDa doTypeId pfx rest da
    else collect_do_children recurDo recurDa doTypeId pfx rest da

/-- The function `collect_do_type`, with `fuel` bounding the depth of recursion. -/
def collect_do_type :
    Nat → XmlNode → Option String → Option String → List DAEntry → Option (List DAEntry)
  | 0, _, _, _, _ => none
  | fuel + 1, templates, doTypeId, pfx, da =>
    match doTypeId with
    | none => some da
    | some id =>
      match find_node templates.kids "DOType" (some "id") (some id) with
      | none => some da
      | some doTypeNode =>
        collect_do_children (collect_do_type fuel templates)
          (collect_da_type fuel templates doTypeId) doTypeId pfx doTypeNode.kids da

/-! ## Loading and unloading -/

/-- The loop of `parse_icd` over the children of one `LNodeType` element. -/
def parse_do_nodes (fuel : Nat) (templates : XmlNode) (lnClass lnTypeId : Option String) :
    List XmlNode → IcdState → Option IcdState
  | [], st => some st
  | doNode :: rest, st =>
    if !isElem doNode "DO" then parse_do_nodes fuel templates lnClass lnTypeId rest st
    else
      let doName := xmlGetProp doNode "name"
      let doType := xmlGetProp doNode "type"
      match find_node templates.kids "DOType" (some "id") doType with
      | none => parse_do_nodes fuel templates lnClass lnTypeId rest st
      | some doTypeNode =>
        let e : DOEntry :=
          { lnType := copyOpt 63 lnTypeId, lnClass := copyOpt 31 lnClass,
            doName := copyOpt 63 doName, doType := copyOpt 63 doType,
            cdc := copyOpt 15 (xmlGetProp doTypeNode "cdc") }
        match collect_do_type fuel templates doType none st.da_list with
        | none => none
        | some da =>
          parse_do_nodes fuel templates lnClass lnTypeId rest
            { st with do_list := e :: st.do_list, da_list := da }

/-- The loop of `parse_icd` over the children of `DataTypeTemplates`. -/
def parse_lnodetypes (fuel : Nat) (templates : XmlNode) :
    List XmlNode → IcdState → Option IcdState
  | [], st => some st
  | ln :: rest, st =>
    if !isElem ln "LNodeType" then parse_lnodetypes fuel templates rest st
    else
      (parse_do_nodes fuel templates (xmlGetProp ln "lnClass") (xmlGetProp ln "id")
        ln.kids st).bind (parse_lnodetypes fuel templates rest)

/-- The function `parse_icd`, on the root element of the document. -/
def parse_icd (fuel : Nat) (root : XmlNode) (st : IcdState) : Option IcdState :=
  match find_node root.kids "DataTypeTemplates" none none with
  | none => some st
  | some templates =>
    match parse_lnodetypes fuel templates templates.kids st with
    | none => none
    | some st1 =>
      match find_active_ied root st1 with
      | (none, st2) => some st2
      | (some activeIed, st2) =>
        let st3 := { st2 with ln_list := collect_ln_nodes (activeIed.1 :: activeIed.2) st2.ln_list }
        some (collect_dataset_nodes activeIed.1 st3)

/-- The function `icd_unload`. -/
def icd_unload (st : IcdState) : IcdState :=
  { st with do_list := [], da_list := [], ln_list := [], ln_instances := [],
            dataset_list := [], report_list := [] }

/-- The function `icd_load`; `doc` is what `xmlReadFile` returns (`none` for a
file that cannot be decoded) and the `Bool` is the return value. -/
def icd_load (fuel : Nat) (doc : Option XmlNode) (st : IcdState) : Option (IcdState × Bool) :=
  match doc with
  | none => some (icd_unload st, false)
  | some root => (parse_icd fuel root (icd_unload st)).map (fun st1 => (st1, true))

/-- The state of a process that has not loaded anything yet. -/
def initialState : IcdState :=
  { do_list := [], da_list := [], ln_list := [], ln_instances := [], dataset_list := [],
    report_list := [], selected_ied_name := "", selected_ap_name := "" }

/-! ## The query facade -/

/-- The copy of a member made for the callback of `icd_foreach_dataset_fcda`. -/
def fcda_info (e : FcdaEntry) : FCDAInfo :=
  { ldInst := trunc 63 e.ldInst, pfx := trunc 63 e.pfx, lnClass := trunc 15 e.lnClass,
    lnInst := trunc 15 e.lnInst, doName := trunc 63 e.doName, daName := trunc 63 e.daName,
    fc := trunc 7 e.fc }

/-- The filter of `icd_foreach_dataset_fcda`: a dataset is skipped when a
non-empty key field differs from the stored one. -/
def dataset_matches (ldInst lnName dsName : Option String) (ds : DataSetEntryDef) : Bool :=
  !(nonEmpty ldInst && ds.ldInst != ldInst.getD "") &&
  !(nonEmpty lnName && ds.lnName != lnName.getD "") &&
  !(nonEmpty dsName && ds.name != dsName.getD "")

/-- The function `icd_foreach_dataset_fcda` with a non-null callback: the values
handed to the callback, in call order. -/
def icd_foreach_dataset_fcda (st : IcdState) (ldInst lnName dsName : Option String) :
    List FCDAInfo :=
  (st.dataset_list.filter (dataset_matches ldInst lnName dsName)).flatMap
    (fun ds => ds.members.map fcda_info)

/-- The function `icd_foreach_dataset` with a non-null callback: the triples
`(ldInst, lnName, dsName)` handed to the callback, in call order. -/
def icd_foreach_dataset (st : IcdState) : List (String × String × String) :=
  st.dataset_list.map (fun ds => (ds.ldInst, ds.lnName, ds.name))

/-- The record `ReportControlInfo` of the public header. -/
structure ReportControlInfo where
  ldInst : String
  lnName : String
  name : String
  dataSet : String
  rptId : String
  confRev : Nat
  intgPd : Nat
  bufTime : Nat
  rptEnabledMax : Nat
  trgOps : Nat
  optFields : Nat
  buffered : Bool
  deriving DecidableEq

/-- The copy of a report made for the callback of `icd_foreach_report`. -/
def report_info (e : ReportEntry) : ReportControlInfo :=
  { ldInst := trunc 63 e.ldInst, lnName := trunc 63 e.lnName, name := trunc 63 e.name,
    dataSet := trunc 95 e.dataSet, rptId := trunc 127 e.rptId, confRev := e.confRev,
    intgPd := e.intgPd, bufTime := e.bufTime, rptEnabledMax := e.rptEnabledMax,
    trgOps := e.trgOps, optFields := e.optFields, buffered := e.buffered }

/-- The function `icd_foreach_report` with a non-null callback: the values handed
to the callback, in call order. -/
def icd_foreach_report (st : IcdState) : List ReportControlInfo :=
  st.report_list.map report_info

/-- The record `DOInfo` of the public header. -/
structure DOInfo where
  do_type_id : String
  cdc : String
  deriving DecidableEq

/-- The record `LNInstanceInfo` of the public header; `pfx` is the C field `prefix`. -/
structure LNInstanceInfo where
  ldInst : String
  pfx : String
  lnClass : String
  lnInst : String
  lnType : String
  lnName : String
  isLn0 : Bool
  deriving DecidableEq

/-- The copy of an object entry made by `icd_find_do_info` and `icd_foreach_do`. -/
def do_info (e : DOEntry) : DOInfo :=
  { do_type_id := trunc 63 e.doType, cdc := trunc 15 e.cdc }

/-- The copy of an attribute entry made by `icd_find_da_info` and `icd_foreach_da`. -/
def da_info (e : DAEntry) : DAInfo :=
  { fc := e.fc, bType := e.bType, typeId := e.typeId, trgOps := e.trgOps }

/-- The function `icd_find_do_info`: `none` is the return value `false`. -/
def icd_find_do_info (do_list : List DOEntry) (lnTypeId do_name : Option String) :
    Option DOInfo :=
  match lnTypeId, do_name with
  | some t, some n => (do_list.find? (fun e => e.lnType == t && e.doName == n)).map do_info
  | _, _ => none

/-- The function `icd_foreach_da` with a non-null callback: the pairs of path and
copy handed to the callback, in call order. -/
def icd_foreach_da (st : IcdState) (do_type_id : Option String) : List (String × DAInfo) :=
  match do_type_id with
  | none => []
  | some t => (st.da_list.filter (fun e => e.doType == t)).map (fun e => (e.daPath, da_info e))

/-- The function `icd_foreach_do` with a non-null callback: the pairs of object
name and copy handed to the callback, in call order. -/
def icd_foreach_do (st : IcdState) (lnTypeId : Option String) : List (String × DOInfo) :=
  match lnTypeId with
  | none => []
  | some t => (st.do_list.filter (fun e => e.lnType == t)).map (fun e => (e.doName, do_info e))

/-- The copy of a node instance made for the callback of `icd_foreach_ln_instance`. -/
def ln_instance_info (e : LNInstEntry) : LNInstanceInfo :=
  { ldInst := trunc 63 e.ldInst, pfx := trunc 63 e.pfx, lnClass := trunc 15 e.lnClass,
    lnInst := trunc 15 e.lnInst, lnType := trunc 63 e.lnType, lnName := trunc 63 e.lnName,
    isLn0 := e.isLn0 }

/-- The function `icd_foreach_ln_instance` with a non-null callback: the values
handed to the callback, in call order. -/
def icd_foreach_ln_instance (st : IcdState) : List LNInstanceInfo :=
  st.ln_instances.map ln_instance_info

/-- The function `icd_find_ln_type_by_name`: `none` is the return value `false`. -/
def icd_find_ln_type_by_name (ln_instances : List LNInstEntry)
    (ldInst lnName : Option String) : Option String :=
  match lnName with
  | none => none
  | some n =>
    (ln_instances.find?
      (fun e => !(nonEmpty ldInst && e.ldInst != ldInst.getD "") && e.lnName == n)).map
      (fun e => trunc 63 e.lnType)

/-- The tests of one iteration of `icd_find_ln_type_by_parts`: whether the loop
reaches the `return true` for the entry `e`. -/
def parts_match (ldInst pfx lnClass lnInst : Option String) (e : LNInstEntry) : Bool :=
  !(nonEmpty ldInst && e.ldInst != ldInst.getD "") &&
  (if nonEmpty pfx then !(e.pfx != pfx.getD "") else !(e.pfx != "")) &&
  !(nonEmpty lnClass && e.lnClass != lnClass.getD "") &&
  (if nonEmpty lnInst then !(e.lnInst != lnInst.getD "") else !(e.lnInst != ""))

/-- The function `icd_find_ln_type_by_parts`: `none` is the return value `false`. -/
def icd_find_ln_type_by_parts (ln_instances : List LNInstEntry)
    (ldInst pfx lnClass lnInst : Option String) : Option String :=
  (ln_instances.find? (parts_match ldInst pfx lnClass lnInst)).map (fun e => trunc 63 e.lnType)

/-- The function `icd_lookup_ln_class`: `none` is the return value `false`. -/
def icd_lookup_ln_class (ln_list : List LNEntry) (ln_name : Option String) : Option String :=
  match ln_name with
  | none => none
  | some n => (ln_list.find? (fun e => e.name == n)).map (fun e => trunc 15 e.lnClass)

/-! ## The model builder (`model_iec.c`) -/

/-- The function `append_token` of `model_iec.c`, on the buffer `dest[destSize]`. -/
def append_token (dest : String) (destSize : Nat) (token : Option String) : String :=
  if destSize == 0 || !nonEmpty token then dest
  else if dest.length ≥ destSize - 1 then dest
  else dest ++ trunc (destSize - dest.length - 1) (token.getD "")

/-- The function `compose_ln_from_parts` of `model_iec.c`, filling `out[64]`. -/
def compose_ln_from_parts (pfx lnClass inst : Option String) : String :=
  let out0 := ""
  let out1 := if nonEmpty pfx then append_token out0 64 pfx else out0
  let out2 := if nonEmpty lnClass then append_token out1 64 lnClass else out1
  if nonEmpty inst then append_token out2 64 inst else out2

/-! ## The mapping table (`mapping.c`, `mapping.h`) -/

/-- The enumeration `MbType`. -/
inductive MbType
  | MB_COIL | MB_DI | MB_IREG | MB_HREG
  deriving DecidableEq

/-- The enumeration `CdcType`. -/
inductive CdcType
  | CDC_SPS | CDC_DPS | CDC_SPC | CDC_DPC | CDC_MV | CDC_UNKNOWN
  deriving DecidableEq

/-- The record `MapRow`. -/
structure MapRow where
  iec_path : String
  fc : String
  cdc : CdcType
  mb_type : MbType
  mb_addr : Nat
  mb_unit : Nat
  enabled : Int
  desc : String
  ld : String
  ln : String
  do_name : String
  da_path : String
  bit_index : Int
  deriving DecidableEq

/-- The characters `trim_inplace` removes: blank, tab, carriage return, line feed. -/
def is_blank (c : Char) : Bool := c == ' ' || c == '\t' || c == '\r' || c == '\n'

/-- The function `trim_inplace`. -/
def trim_inplace (s : String) : String :=
  ⟨((s.data.dropWhile is_blank).reverse.dropWhile is_blank).reverse⟩

/-- The loop of `normalize_slashes`.  Its first test turns a backslash and the byte
`0xEF` into `/`; its second turns the three bytes `E2 88 95` into `/` and two
blanks, which the following two rounds leave as they are; its third test asks
for the byte `0xEF`, which the first test has replaced, and never holds. -/
def normalize_chars : List Char → List Char
  | [] => []
  | c :: rest =>
    if c == '\\' || c.toNat == 0xEF then '/' :: normalize_chars rest
    else
      match rest with
      | c1 :: c2 :: rest2 =>
        if c.toNat == 0xE2 && c1.toNat == 0x88 && c2.toNat == 0x95 then
          '/' :: ' ' :: ' ' :: normalize_chars rest2
        else c :: normalize_chars (c1 :: c2 :: rest2)
      | short => c :: normalize_chars short

/-- The function `normalize_slashes`. -/
def normalize_slashes (s : String) : String := ⟨normalize_chars s.data⟩

/-- The call `strchr(s, c)`: the offset of the first `c`. -/
def strchr : List Char → Char → Option Nat
  | [], _ => none
  | x :: rest, c => if x == c then some 0 else (strchr rest c).map (fun i => i + 1)

/-- The call `strrchr(s, c)`: the offset of the last `c`. -/
def strrchr : List Char → Char → Option Nat
  | [], _ => none
  | x :: rest, c =>
    match strrchr rest c with
    | some i => some (i + 1)
    | none => if x == c then some 0 else none

/-- The tokens a loop of `strtok` calls with one delimiter yields: the maximal runs
of other characters; `cur` is the token being read, reversed. -/
def strtok_from (delim : Char) : List Char → List Char → List String
  | [], cur => if cur.isEmpty then [] else [⟨cur.reverse⟩]
  | c :: rest, cur =>
    if c == delim then
      if cur.isEmpty then strtok_from delim rest []
      else ⟨cur.reverse⟩ :: strtok_from delim rest []
    else strtok_from delim rest (c :: cur)

/-- All tokens of `s` for the delimiter `delim`. -/
def strtok_all (s : String) (delim : Char) : List String := strtok_from delim s.data []

/-- The call `atoi(p)` where `p` points at a digit, as `(int) strtol(p, NULL, 10)`
with a 64-bit `long`. -/
def atoi (p : List Char) : Int :=
  let v : Nat := digitsValue (p.takeWhile Char.isDigit)
  let l : Nat := if 2 ^ 63 ≤ v then 2 ^ 63 - 1 else v
  let w : Nat := l % 2 ^ 32
  if w < 2 ^ 31 then Int.ofNat w else Int.ofNat w - Int.ofNat (2 ^ 32)

/-- The test `strncasecmp(suffix, "bit", 3) == 0 && isdigit(suffix[3])`. -/
def is_bit_suffix (suffix : List Char) : Bool :=
  (suffix.take 3).map Char.toLower == ['b', 'i', 't'] &&
    (match suffix.drop 3 with
     | c :: _ => c.isDigit
     | [] => false)

/-- The function `parse_bit_suffix`: the value returned and the text left in
`da_path`. -/
def parse_bit_suffix (da_path : String) : Int × String :=
  if da_path.data.isEmpty then (-1, da_path)
  else
    let lastDot := strrchr da_path.data '.'
    let suffix := match lastDot with
      | some i => da_path.data.drop (i + 1)
      | none => da_path.data
    if is_bit_suffix suffix then
      (atoi (suffix.drop 3),
        match lastDot with
        | some i => ⟨da_path.data.take i⟩
        | none => "")
    else (-1, da_path)

/-- The choice of `sep` and `sep_is_dollar` in `split_iec_path`; `none` is the
return with -1. -/
def first_separator (firstDot firstDollar : Option Nat) : Option (Nat × Bool) :=
  match firstDot, firstDollar with
  | some d, some s => some (if d < s then d else s, false)
  | some d, none => some (d, false)
  | none, some s => some (s, true)
  | none, none => none

/-- The test of the first token against the eight tags with `strcasecmp`. -/
def is_fc_token (tok : String) : Bool :=
  let t := tok.data.map Char.toLower
  t == "st".data || t == "mx".data || t == "sp".data || t == "sv".data ||
    t == "cf".data || t == "dc".data || t == "ex".data || t == "co".data

/-- The loop that joins the remaining tokens with dots in `daBuf[160]`. -/
def join_da_tokens : List String → String → Bool → String
  | [], daBuf, _ => daBuf
  | tok :: rest, daBuf, first =>
    let daBuf1 := if first then daBuf else strncat daBuf "." (159 - daBuf.length)
    join_da_tokens rest (strncat daBuf1 tok (159 - daBuf1.length)) false

/-- The end of `split_iec_path`: both names trimmed, the bit suffix parsed, and
the return with 0. -/
def finish_split (r : MapRow) (do_name da_path : String) : Int × MapRow :=
  let bit := parse_bit_suffix (trim_inplace da_path)
  (0, { r with do_name := trim_inplace do_name, da_path := bit.2, bit_index := bit.1 })

/-- The function `split_iec_path`: the value returned and the row left behind. -/
def split_iec_path (r : MapRow) : Int × MapRow :=
  let buf := normalize_slashes (trim_inplace (trunc 255 r.iec_path))
  match first_separator (strchr buf.data '.') (strchr buf.data '$') with
  | none => (-1, r)
  | some (sep, sep_is_dollar) =>
    let ldln := trim_inplace ⟨buf.data.take (min sep 127)⟩
    let sections := (strtok_all (trunc 127 ldln) '/').take 8
    match sections.reverse with
    | [] => (-1, { r with ld := "", ln := "" })
    | last :: before =>
      let r1 := { r with
        ld := trim_inplace (match before with
          | previous :: _ => trunc 39 previous
          | [] => "")
        ln := trim_inplace (trunc 39 last) }
      let rest : String := ⟨buf.data.drop (sep + 1)⟩
      if !sep_is_dollar then
        match strchr rest.data '.' with
        | some dot2 =>
          finish_split r1 ⟨rest.data.take (min dot2 63)⟩ (trunc 63 ⟨rest.data.drop (dot2 + 1)⟩)
        | none => finish_split r1 (trunc 63 rest) ""
      else
        match strtok_all (trunc 255 rest) '$' with
        | [] => (-2, r1)
        | tok :: more =>
          match (if is_fc_token tok then more else tok :: more) with
          | [] => (-3, r1)
          | doTok :: daToks =>
            finish_split r1 (trunc 63 doTok) (trunc 63 (join_da_tokens daToks "" true))

/-! ## Specification-side definitions and example documents -/

/-- The catalog entries stored under the key `(doType, daPath)`. -/
def da_entries_with_key (da_list : List DAEntry) (doType daPath : String) : List DAEntry :=
  da_list.filter (fun e => e.doType == doType && e.daPath == daPath)

/-- One call of `add_da_entry`, as the list of its arguments. -/
structure DaCall where
  doType : Option String
  daPath : Option String
  fc : Option String
  bType : Option String
  typeId : Option String
  trgOps : Nat

/-- Whether a call of `add_da_entry` was made with the key `(d, p)`. -/
def DaCall.hasKey (c : DaCall) (d p : String) : Bool :=
  c.doType == some d && c.daPath == some p

/-- The attribute information a call asks to register, cut to the field widths
of `DAEntry`; an absent argument gives an empty field. -/
def DaCall.info (c : DaCall) : DAInfo :=
  { fc := copyOpt 7 c.fc, bType := copyOpt 31 c.bType, typeId := copyOpt 63 c.typeId,
    trgOps := c.trgOps % 256 }

/-- The catalog after a sequence of `add_da_entry` calls, made in list order. -/
def run_da_calls (calls : List DaCall) (da_list : List DAEntry) : List DAEntry :=
  calls.foldl (fun l c => add_da_entry c.doType c.daPath c.fc c.bType c.typeId c.trgOps l)
    da_list

/-- A name of 64 characters, one more than a buffer of 64 bytes holds. -/
def name64 : String := ⟨List.replicate 64 'x'⟩
/-- The invariant of the attribute catalog: a key shorter than the key buffers
is stored at most once. -/
def DaUnique (l : List DAEntry) : Prop :=
  ∀ d p : String, d.length < 63 → p.length < 127 → (da_entries_with_key l d p).length ≤ 1

/-- The `DataTypeTemplates` section of the measurement scenario: node type `T1`
(class `MMXU`) with object `Amp` of type `AnalogDO`; `AnalogDO` with attribute
`mag` (a `Struct` of type `AnalogVal`); `AnalogVal` with member `f`. -/
def scenarioTemplates : XmlNode :=
  XmlNode.element "DataTypeTemplates" []
    [ XmlNode.element "LNodeType" [("id", "T1"), ("lnClass", "MMXU")]
        [ XmlNode.element "DO" [("name", "Amp"), ("type", "AnalogDO")] [] ],
      XmlNode.element "DOType" [("id", "AnalogDO")]
        [ XmlNode.element "DA" [("name", "mag"), ("bType", "Struct"), ("type", "AnalogVal")] [] ],
      XmlNode.element "DAType" [("id", "AnalogVal")]
        [ XmlNode.element "BDA"
            [("name", "f"), ("bType", "FLOAT32"), ("fc", "MX"), ("dchg", "true")] [] ] ]

/-- A document in which two objects of one node type refer to the same object
type `SPS`, so that the resolver reaches the key `(SPS, stVal)` twice. -/
def twoRoutesDoc : XmlNode :=
  XmlNode.element "SCL" []
    [ XmlNode.element "DataTypeTemplates" []
        [ XmlNode.element "LNodeType" [("id", "T1"), ("lnClass", "GGIO")]
            [ XmlNode.element "DO" [("name", "Ind1"), ("type", "SPS")] [],
              XmlNode.element "DO" [("name", "Ind2"), ("type", "SPS")] [] ],
          XmlNode.element "DOType" [("id", "SPS"), ("cdc", "SPS")]
            [ XmlNode.element "DA"
                [("name", "stVal"), ("bType", "BOOLEAN"), ("fc", "ST"), ("dchg", "true")] [] ] ] ]

/-- The state after loading `twoRoutesDoc`. -/
def twoRoutesState : IcdState :=
  { initialState with
    do_list := [⟨"T1", "GGIO", "Ind2", "SPS", "SPS"⟩, ⟨"T1", "GGIO", "Ind1", "SPS", "SPS"⟩]
    da_list := [⟨"SPS", "stVal", "ST", "BOOLEAN", "", 1⟩] }

/-- The document `twoRoutesDoc` with an object type whose id has 64 characters. -/
def longIdDoc : XmlNode :=
  XmlNode.element "SCL" []
    [ XmlNode.element "DataTypeTemplates" []
        [ XmlNode.element "LNodeType" [("id", "T1"), ("lnClass", "GGIO")]
            [ XmlNode.element "DO" [("name", "Ind1"), ("type", name64)] [],
              XmlNode.element "DO" [("name", "Ind2"), ("type", name64)] [] ],
          XmlNode.element "DOType" [("id", name64), ("cdc", "SPS")]
            [ XmlNode.element "DA"
                [("name", "stVal"), ("bType", "BOOLEAN"), ("fc", "ST"), ("dchg", "true")] [] ] ] ]

/-- A document made of a device `IED1` with one measurement node, followed by the
`DataTypeTemplates` section of the scenario. -/
def scenarioDoc : XmlNode :=
  XmlNode.element "SCL" []
    [ XmlNode.other " ",
      XmlNode.element "IED" [("name", "IED1")]
        [ XmlNode.element "AccessPoint" [("name", "AP1")]
            [ XmlNode.element "Server" []
                [ XmlNode.element "LDevice" [("inst", "LD0")]
                    [ XmlNode.element "LN0" [("lnClass", "LLN0"), ("inst", ""), ("lnType", "T0")] [],
                      XmlNode.element "LN"
                        [("prefix", ""), ("lnClass", "MMXU"), ("inst", "1"), ("lnType", "T1")]
                        [] ] ] ] ],
      scenarioTemplates ]

/-- Whether a member element carries at least one of `dchg`, `qchg`, `dupd`. -/
def has_change_flag (child : XmlNode) : Bool :=
  (xmlGetProp child "dchg").isSome || (xmlGetProp child "qchg").isSome ||
    (xmlGetProp child "dupd").isSome

/-- The bitmask made of the three change flags of a member element alone. -/
def flag_bits (child : XmlNode) : Nat :=
  (if xml_attr_true (xmlGetProp child "dchg") then TRG_OPT_DATA_CHANGED else 0) +
    (if xml_attr_true (xmlGetProp child "qchg") then TRG_OPT_QUALITY_CHANGED else 0) +
    (if xml_attr_true (xmlGetProp child "dupd") then TRG_OPT_DATA_UPDATE else 0)

/-- The bitmask the specification gives a member: made of its own change flags
alone when it carries at least one of them, the inherited bitmask otherwise. -/
def member_trgOps_spec (child : XmlNode) (inheritedTrgOps : Nat) : Nat :=
  if has_change_flag child then flag_bits child else inheritedTrgOps

/-- A recursive call that returns at once, for members without nested type. -/
def noRecursion : Option String → Option String → Option String → Nat →
    List DAEntry → Option (List DAEntry) :=
  fun _ _ _ _ l => some l

/-- The member record kept for an `FCDA` element: each field is the attribute of
the same name (`pfx` is the attribute `prefix`), empty when the attribute is
absent, cut to the width of the field. -/
def fcda_entry_of (fcda : XmlNode) : FcdaEntry :=
  { ldInst := trunc 63 ((xmlGetProp fcda "ldInst").getD ""),
    pfx := trunc 63 ((xmlGetProp fcda "prefix").getD ""),
    lnClass := trunc 15 ((xmlGetProp fcda "lnClass").getD ""),
    lnInst := trunc 15 ((xmlGetProp fcda "lnInst").getD ""),
    doName := trunc 63 ((xmlGetProp fcda "doName").getD ""),
    daName := trunc 63 ((xmlGetProp fcda "daName").getD ""),
    fc := trunc 7 ((xmlGetProp fcda "fc").getD "") }

/-- The `FCDA` children of a `DataSet` element, in document order. -/
def fcda_children (dataSet : XmlNode) : List XmlNode :=
  dataSet.kids.filter (fun c => isElem c "FCDA")

/-- The `ReportControl` children of a node that have a `name` attribute. -/
def named_report_controls (lnNode : XmlNode) : List XmlNode :=
  lnNode.kids.filter (fun c => isElem c "ReportControl" && (xmlGetProp c "name").isSome)

/-- A document whose root node `LLN0` of `LD0` hosts the dataset `ds1` with the
members `A.stVal` and `B.stVal`, in this order. -/
def datasetDoc : XmlNode :=
  XmlNode.element "SCL" []
    [ XmlNode.element "IED" [("name", "IED1")]
        [ XmlNode.element "AccessPoint" [("name", "AP1")]
            [ XmlNode.element "Server" []
                [ XmlNode.element "LDevice" [("inst", "LD0")]
                    [ XmlNode.element "LN0" [("lnClass", "LLN0"), ("inst", ""), ("lnType", "T0")]
                        [ XmlNode.element "DataSet" [("name", "ds1")]
                            [ XmlNode.element "FCDA"
                                [("ldInst", "LD0"), ("lnClass", "GGIO"), ("lnInst", "1"),
                                 ("doName", "A"), ("daName", "stVal"), ("fc", "ST")] [],
                              XmlNode.element "FCDA"
                                [("ldInst", "LD0"), ("lnClass", "GGIO"), ("lnInst", "1"),
                                 ("doName", "B"), ("daName", "stVal"), ("fc", "ST")] [] ] ] ] ] ] ],
      XmlNode.element "DataTypeTemplates" [] [] ]

/-- A `DataSet` element with two members, the second without `ldInst` and `lnClass`. -/
def sampleDataSet : XmlNode :=
  XmlNode.element "DataSet" [("name", "ds1")]
    [ XmlNode.element "FCDA" [("ldInst", "LD0"), ("lnClass", "GGIO"), ("doName", "A")] [],
      XmlNode.other " ",
      XmlNode.element "FCDA" [("doName", "B"), ("fc", "ST")] [] ]

/-- A logical node with two report controls, the first without a name. -/
def twoReportsNode : XmlNode :=
  XmlNode.element "LN0" [("lnClass", "LLN0")]
    [ XmlNode.element "ReportControl" [("rptID", "r1"), ("confRev", "1")] [],
      XmlNode.element "ReportControl" [("name", "rcb2"), ("datSet", "ds1"), ("confRev", "2")]
        [ XmlNode.element "TrgOps" [("dchg", "true")] [] ] ]
/-- The composed name `process_ln_for_datasets` gives the node it processes. -/
def ln_name_of (lnNode : XmlNode) : String :=
  compose_ln_name (lnNode.tag == "LN0") (orEmpty (xmlGetProp lnNode "prefix"))
    (orEmpty (xmlGetProp lnNode "lnClass")) (orEmpty (xmlGetProp lnNode "inst"))

/-- The attribute `A` of a three-level chain: a `DA` of base type `btA` that
refers to the attribute type `TA`; `extraA` holds its further attributes. -/
def chainA (TA nA btA : String) (extraA : List (String × String)) : XmlNode :=
  XmlNode.element "DA" (("name", nA) :: ("bType", btA) :: ("type", TA) :: extraA) []

/-- The member `B` of a three-level chain: a `BDA` that refers to the attribute
type `TB`; `extraB` holds its further attributes. -/
def chainB (TB nB : String) (extraB : List (String × String)) : XmlNode :=
  XmlNode.element "BDA" (("name", nB) :: ("type", TB) :: extraB) []

/-- The member `C` of a three-level chain: a `BDA` with its own `fc` and none of
`dchg`, `qchg`, `dupd`. -/
def chainC (nC fcC btC : String) : XmlNode :=
  XmlNode.element "BDA" [("name", nC), ("fc", fcC), ("bType", btC)] []

/-- The templates of a three-level chain: object type `T` with the one attribute
`A`, attribute type `TA` with the one member `B`, attribute type `TB` with the
one member `C`. -/
def chainTemplates (T TA TB nA nB nC btA fcC btC : String)
    (extraA extraB : List (String × String)) : XmlNode :=
  XmlNode.element "DataTypeTemplates" []
    [ XmlNode.element "DOType" [("id", T)] [chainA TA nA btA extraA],
      XmlNode.element "DAType" [("id", TA)] [chainB TB nB extraB],
      XmlNode.element "DAType" [("id", TB)] [chainC nC fcC btC] ]

/-- The catalog after a sequence of `add_ln_entry` calls, made in list order; a
call is the pair of its arguments `(name, lnClass)`. -/
def run_ln_calls (calls : List (Option String × Option String)) (ln_list : List LNEntry) :
    List LNEntry :=
  calls.foldl (fun l c => add_ln_entry c.1 c.2 l) ln_list

/-- Whether a call of `add_ln_entry` registers the name `n`: it was made with that
name, which is not empty, and with a class that is not empty. -/
def ln_call_registers (n : String) (c : Option String × Option String) : Bool :=
  c.1 == some n && n != "" && nonEmpty c.2

/-- The match of `icd_find_ln_type_by_parts` as a rule: the prefix and the instance
number of the entry equal those of the query, an absent one counting as
empty; the device instance and the class tag are compared only when the query
gives them. -/
def parts_rule (ldInst pfx lnClass lnInst : Option String) (e : LNInstEntry) : Bool :=
  (ldInst.getD "" == "" || e.ldInst == ldInst.getD "") &&
  e.pfx == pfx.getD "" &&
  (lnClass.getD "" == "" || e.lnClass == lnClass.getD "") &&
  e.lnInst == lnInst.getD ""

/-- Whether `parse_icd` registers an object for a child of an `LNodeType`: the
child is a `DO` element and `find_node` returns a `DOType` for its `type`. -/
def do_is_registered (templates : XmlNode) (doNode : XmlNode) : Bool :=
  isElem doNode "DO" &&
    (find_node templates.kids "DOType" (some "id") (xmlGetProp doNode "type")).isSome

/-- The object entry kept for a `DO` child of the node type `(lnClass, lnTypeId)`:
node type id, object name and object type id cut to 63 characters, the class to
31, and the `cdc` of the `DOType` found, cut to 15. -/
def do_entry_of (templates : XmlNode) (lnClass lnTypeId : Option String) (doNode : XmlNode) :
    DOEntry :=
  { lnType := copyOpt 63 lnTypeId, lnClass := copyOpt 31 lnClass,
    doName := copyOpt 63 (xmlGetProp doNode "name"),
    doType := copyOpt 63 (xmlGetProp doNode "type"),
    cdc := copyOpt 15
      (((find_node templates.kids "DOType" (some "id") (xmlGetProp doNode "type")).map
        (fun n => xmlGetProp n "cdc")).getD none) }

/-- The object entries of one `LNodeType` element, in document order. -/
def lnodetype_entries (templates : XmlNode) (ln : XmlNode) : List DOEntry :=
  (ln.kids.filter (do_is_registered templates)).map
    (do_entry_of templates (xmlGetProp ln "lnClass") (xmlGetProp ln "id"))

/-- The object entries of all `LNodeType` elements, in document order. -/
def all_do_entries (templates : XmlNode) : List DOEntry :=
  (templates.kids.filter (fun n => isElem n "LNodeType")).flatMap (lnodetype_entries templates)

/-- Templates in which the node type `T1` has two objects of the same name `Ind`,
of the object types `SPS` and `INS`. -/
def sameNameTemplates (nodeTypeId : String) : XmlNode :=
  XmlNode.element "DataTypeTemplates" []
    [ XmlNode.element "LNodeType" [("id", nodeTypeId), ("lnClass", "GGIO")]
        [ XmlNode.element "DO" [("name", "Ind"), ("type", "SPS")] [],
          XmlNode.element "DO" [("name", "Ind"), ("type", "INS")] [] ],
      XmlNode.element "DOType" [("id", "SPS"), ("cdc", "SPS")] [],
      XmlNode.element "DOType" [("id", "INS"), ("cdc", "INS")] [] ]

/-- The state after loading a document made of `sameNameTemplates "T1"` only. -/
def sameNameState : IcdState :=
  { initialState with
    do_list := [⟨"T1", "GGIO", "Ind", "INS", "INS"⟩, ⟨"T1", "GGIO", "Ind", "SPS", "SPS"⟩] }

/-- The first node of a sibling list that satisfies `p`, with the siblings that
follow it. -/
def find_at (p : XmlNode → Bool) : List XmlNode → Option NodeAt
  | [] => none
  | x :: rest => if p x then some (x, rest) else find_at p rest

/-- The `name` attribute of a node, empty when absent. -/
def node_name (n : XmlNode) : String := (xmlGetProp n "name").getD ""

/-- An `IED` element with a non-empty name. -/
def is_named_ied (n : XmlNode) : Bool := isElem n "IED" && node_name n != ""

/-- An `IED` element whose name is exactly `s`. -/
def is_ied_named (s : String) (n : XmlNode) : Bool := isElem n "IED" && node_name n == s

/-- An `AccessPoint` element. -/
def is_ap (n : XmlNode) : Bool := isElem n "AccessPoint"

/-- An `AccessPoint` element whose name is exactly `t`. -/
def is_ap_named (t : String) (n : XmlNode) : Bool := isElem n "AccessPoint" && node_name n == t

/-- The device selection rule: with a preferred name `s`, the first `IED` of that
name, the selection staying as it is; failing that, or without preference, the
first `IED` with a non-empty name, whose name cut to 63 characters becomes the
selected device while the selected access point is cleared; when no `IED` has a
name, nothing, and the selected device name is empty.  The result is the node
chosen and the selected device and access point names afterwards. -/
def chosen_ied (kids : List XmlNode) (s t : String) : Option NodeAt × String × String :=
  match (if s != "" then find_at (is_ied_named s) kids else none) with
  | some x => (some x, s, t)
  | none =>
    match find_at is_named_ied kids with
    | some x0 => (some x0, trunc 63 (node_name x0.1), "")
    | none => (none, "", t)

/-- The access point selection rule: with a preferred name `t`, the first
`AccessPoint` of that name; failing that, or without preference, the first
`AccessPoint` element whatever its name, whose name cut to 63 characters becomes
the selected access point.  The result is the node chosen and the selected
access point name afterwards. -/
def chosen_ap (kids : List XmlNode) (t : String) : Option XmlNode × String :=
  match (if t != "" then kids.find? (is_ap_named t) else none) with
  | some a => (some a, t)
  | none =>
    match kids.find? is_ap with
    | some a0 => (some a0, trunc 63 (node_name a0))
    | none => (none, "")

/-- Whether the names of all `IED` children of the root and of all their
`AccessPoint` children have at most 63 characters. -/
def names_fit (root : XmlNode) : Bool :=
  root.kids.all (fun ied =>
    !isElem ied "IED" ||
      (decide ((node_name ied).length ≤ 63) &&
        ied.kids.all (fun ap => !isElem ap "AccessPoint" || decide ((node_name ap).length ≤ 63))))

/-- The value of `firstAp` and `firstApName` after an `AccessPoint` element was
seen: they are set by the first such element only. -/
def first_ap_or (fa : Option (XmlNode × String)) (ap : XmlNode) : Option (XmlNode × String) :=
  match fa with
  | none => some (ap, if node_name ap != "" then trunc 63 (node_name ap) else "")
  | some f => some f

/-- The part of `parse_icd` that follows the loop over the node types: device
selection, then the node-class table and the instance catalogs. -/
def select_and_collect (root : XmlNode) (st1 : IcdState) : IcdState :=
  match find_active_ied root st1 with
  | (none, st2) => st2
  | (some activeIed, st2) =>
    collect_dataset_nodes activeIed.1
      { st2 with ln_list := collect_ln_nodes (activeIed.1 :: activeIed.2) st2.ln_list }

/-- An access point that holds, under one `Server` and one `LDevice` of instance
name `ld`, a single root node `LLN0`. -/
def apWithDevice (attrs : List (String × String)) (ld : String) : XmlNode :=
  XmlNode.element "AccessPoint" attrs
    [ XmlNode.element "Server" []
        [ XmlNode.element "LDevice" [("inst", ld)]
            [ XmlNode.element "LN0" [("lnClass", "LLN0"), ("inst", ""), ("lnType", "T0")] [] ] ] ]

/-- A document with an empty `DataTypeTemplates` section and one device, whose
name has 64 characters. -/
def longDeviceDoc : XmlNode :=
  XmlNode.element "SCL" []
    [ XmlNode.element "IED" [("name", name64)] [],
      XmlNode.element "DataTypeTemplates" [] [] ]

/-- A document with the devices `IED1` and `IED2`, in this order. -/
def twoDevicesDoc : XmlNode :=
  XmlNode.element "SCL" []
    [ XmlNode.element "IED" [("name", "IED1")] [apWithDevice [("name", "AP1")] "LDA"],
      XmlNode.element "IED" [("name", "IED2")] [apWithDevice [("name", "AP1")] "LDB"],
      XmlNode.element "DataTypeTemplates" [] [] ]

/-- A document with the device `A` followed by a device whose name has 64
characters. -/
def longSecondDeviceDoc : XmlNode :=
  XmlNode.element "SCL" []
    [ XmlNode.element "IED" [("name", "A")] [],
      XmlNode.element "IED" [("name", name64)] [] ]

/-- A device whose first access point has no name and whose second is `AP2`. -/
def unnamedFirstDevice : XmlNode :=
  XmlNode.element "IED" [("name", "IED1")]
    [ apWithDevice [] "LDA", apWithDevice [("name", "AP2")] "LDB" ]

/-- A document without a `DataTypeTemplates` section and without any device. -/
def bareDoc : XmlNode := XmlNode.element "SCL" [] []

/-- A document with a `DataTypeTemplates` section whose only device has no name. -/
def unnamedDeviceDoc : XmlNode :=
  XmlNode.element "SCL" []
    [ XmlNode.element "IED" [] [apWithDevice [("name", "AP1")] "LDA"],
      XmlNode.element "DataTypeTemplates" [] [] ]

/-- A `DataTypeTemplates` section in which the object type `A` has a sub-object
of its own type. -/
def cyclicTemplates : XmlNode :=
  XmlNode.element "DataTypeTemplates" []
    [ XmlNode.element "LNodeType" [("id", "T1"), ("lnClass", "GGIO")]
        [ XmlNode.element "DO" [("name", "D"), ("type", "A")] [] ],
      XmlNode.element "DOType" [("id", "A"), ("cdc", "SPS")]
        [ XmlNode.element "SDO" [("name", "x"), ("type", "A")] [] ] ]

/-- A document without any device whose templates are `cyclicTemplates`. -/
def cyclicDoc : XmlNode := XmlNode.element "SCL" [] [cyclicTemplates]

/-- A document whose only device has no name, followed by the templates of the
measurement scenario. -/
def unnamedDeviceScenarioDoc : XmlNode :=
  XmlNode.element "SCL" []
    [ XmlNode.element "IED" [] [apWithDevice [("name", "AP1")] "LDA"],
      scenarioTemplates ]

/-- The state the loop over the node types of `scenarioTemplates` reaches from
the initial state. -/
def scenarioTypesState : IcdState :=
  { initialState with
    do_list := [⟨"T1", "MMXU", "Amp", "AnalogDO", ""⟩]
    da_list := [⟨"AnalogDO", "mag.f", "MX", "FLOAT32", "", 1⟩,
                ⟨"AnalogDO", "mag", "", "Struct", "AnalogVal", 0⟩] }

/-- Processing the access point chosen, if there is one. -/
def process_chosen (oa : Option XmlNode) (S : IcdState) : IcdState :=
  match oa with
  | some a => process_access_point a S
  | none => S

/-- The selection rule of a load, from the state `S` the loop over the node types
has reached: the device is chosen by `chosen_ied`; if there is none only the
selected names change; otherwise the node classes of the chosen device and of
the siblings that follow it are registered, and the access point chosen by
`chosen_ap` among the children of the device, if any, is processed. -/
def select_rule (root : XmlNode) (S : IcdState) : IcdState :=
  match chosen_ied root.kids S.selected_ied_name S.selected_ap_name with
  | (none, s1, t1) => { S with selected_ied_name := s1, selected_ap_name := t1 }
  | (some x, s1, t1) =>
    process_chosen (chosen_ap x.1.kids t1).1
      { S with ln_list := collect_ln_nodes (x.1 :: x.2) S.ln_list
               selected_ied_name := s1
               selected_ap_name := (chosen_ap x.1.kids t1).2 }

/-- A document with two devices, the first named by 64 characters and the second
by the first 63 of them; their logical devices are `LDA` and `LDB`. -/
def reloadDoc : XmlNode :=
  XmlNode.element "SCL" []
    [ XmlNode.element "IED" [("name", name64)] [apWithDevice [("name", "AP1")] "LDA"],
      XmlNode.element "IED" [("name", trunc 63 name64)] [apWithDevice [("name", "AP1")] "LDB"],
      XmlNode.element "DataTypeTemplates" [] [] ]

/-- A character that can stand in what `strtoul` accepts in base 10: a decimal
digit, a sign or white space. -/
def numeric_char (c : Char) : Bool := c.isDigit || c == '-' || c == '+' || isSpaceC c

/-- A report control without `intgPd` whose `confRev` is not a number. -/
def badNumbersReport : XmlNode :=
  XmlNode.element "ReportControl" [("name", "rcb1"), ("confRev", "1x")] []

/-- A report control whose `bufTime` is `0` and whose `bufTm` is `50`. -/
def zeroBufTimeReport : XmlNode :=
  XmlNode.element "ReportControl" [("name", "rcb1"), ("bufTime", "0"), ("bufTm", "50")] []

/-- A report control with `bufTm` only. -/
def legacyBufTimeReport : XmlNode :=
  XmlNode.element "ReportControl" [("name", "rcb1"), ("bufTm", "50")] []

/-- The attribute that decides bit `i` of the mask of a `TrgOps` element. -/
def trg_attr : Nat → Option String
  | 0 => some "dchg"
  | 1 => some "qchg"
  | 2 => some "dupd"
  | 3 => some "period"
  | 4 => some "gi"
  | _ => none

/-- The attribute that decides bit `i` of the mask of an `OptFields` element. -/
def opt_attr : Nat → Option String
  | 0 => some "seqNum"
  | 1 => some "timeStamp"
  | 2 => some "reasonCode"
  | 3 => some "dataSet"
  | 4 => some "dataRef"
  | 5 => some "bufOvfl"
  | 6 => some "entryID"
  | 7 => some "configRef"
  | _ => none

/-- Whether the attribute `a` of `node` is truthy; no attribute, no bit. -/
def attr_truthy (node : XmlNode) (a : Option String) : Bool :=
  match a with
  | some n => xml_attr_true (xmlGetProp node n)
  | none => false

/-- Templates in which the object type `D` has two attributes named `a`, the
first of the attribute type `TA` (member `p`) and the second of `TB` (member
`q`). -/
def dupKeyTemplates : XmlNode :=
  XmlNode.element "DataTypeTemplates" []
    [ XmlNode.element "DOType" [("id", "D")]
        [ XmlNode.element "DA" [("name", "a"), ("bType", "Struct"), ("type", "TA")] [],
          XmlNode.element "DA" [("name", "a"), ("bType", "Struct"), ("type", "TB")] [] ],
      XmlNode.element "DAType" [("id", "TA")]
        [ XmlNode.element "BDA" [("name", "p"), ("bType", "INT32")] [] ],
      XmlNode.element "DAType" [("id", "TB")]
        [ XmlNode.element "BDA" [("name", "q"), ("bType", "INT32")] [] ] ]

/-- The attribute catalog after the first attribute `a` of `dupKeyTemplates` has
been expanded. -/
def afterFirstA : List DAEntry :=
  [⟨"D", "a.p", "", "INT32", "", 0⟩, ⟨"D", "a", "", "Struct", "TA", 0⟩]

/-- Templates whose node type `T1` has the object `D` of type `A`; the object type
`A` has the sub-object `s` of type `B`, and `B` has the attribute `v`. -/
def sdoTemplates : XmlNode :=
  XmlNode.element "DataTypeTemplates" []
    [ XmlNode.element "LNodeType" [("id", "T1"), ("lnClass", "GGIO")]
        [ XmlNode.element "DO" [("name", "D"), ("type", "A")] [] ],
      XmlNode.element "DOType" [("id", "A"), ("cdc", "WYE")]
        [ XmlNode.element "SDO" [("name", "s"), ("type", "B")] [] ],
      XmlNode.element "DOType" [("id", "B"), ("cdc", "CMV")]
        [ XmlNode.element "DA" [("name", "v"), ("bType", "BOOLEAN"), ("fc", "ST")] [] ] ]

/-- A document made of `sdoTemplates` only. -/
def sdoDoc : XmlNode := XmlNode.element "SCL" [] [sdoTemplates]

/-- The state after loading `sdoDoc`. -/
def sdoState : IcdState :=
  { initialState with
    do_list := [⟨"T1", "GGIO", "D", "A", "WYE"⟩]
    da_list := [⟨"B", "s.v", "ST", "BOOLEAN", "", 0⟩] }

mutual
/-- The `LN` and `LN0` elements met by `collect_ln_nodes` in the subtree of one
node, in the order in which it meets them. -/
def ln_elements_of : XmlNode → List XmlNode
  | XmlNode.other _ => []
  | XmlNode.element name attrs children =>
    (if name == "LN" || name == "LN0" then [XmlNode.element name attrs children] else [])
      ++ ln_elements children
/-- The `LN` and `LN0` elements met by `collect_ln_nodes` in a list of siblings. -/
def ln_elements : List XmlNode → List XmlNode
  | [] => []
  | cur :: rest => ln_elements_of cur ++ ln_elements rest
end

/-- The arguments of the call of `add_ln_entry` that `collect_ln_nodes` makes for
an `LN` or `LN0` element. -/
def ln_call_of (e : XmlNode) : Option String × Option String :=
  (some (ln_table_name (e.tag == "LN0") ((xmlGetProp e "prefix").getD "")
      ((xmlGetProp e "lnClass").getD "") ((xmlGetProp e "inst").getD "")),
    some ((xmlGetProp e "lnClass").getD ""))

/-- The `LN` and `LN0` children of an `LDevice` element, each with the instance
name of that device, in document order. -/
def device_lns (ld : XmlNode) : List (String × XmlNode) :=
  (ld.kids.filter (fun ln => isElem ln "LN" || isElem ln "LN0")).map
    (fun ln => ((xmlGetProp ld "inst").getD "", ln))

/-- The nodes of all `LDevice` children of a `Server` element. -/
def server_lns (server : XmlNode) : List (String × XmlNode) :=
  (server.kids.filter (fun ld => isElem ld "LDevice")).flatMap device_lns

/-- The scope of an access point: the `LN` and `LN0` elements that are children of
an `LDevice` under a `Server` child of the access point, each with the instance
name of its device, in document order. -/
def scope_lns (ap : XmlNode) : List (String × XmlNode) :=
  (ap.kids.filter (fun server => isElem server "Server")).flatMap server_lns

/-- The node instance kept for a node of the scope: the instance name of the
device, prefix and node type cut to 63 characters, class and instance number cut
to 15, the composed name, and the flag that tells an `LN0` element. -/
def ln_instance_of (p : String × XmlNode) : LNInstEntry :=
  { ldInst := trunc 63 p.1,
    pfx := trunc 63 ((xmlGetProp p.2 "prefix").getD ""),
    lnClass := trunc 15 ((xmlGetProp p.2 "lnClass").getD ""),
    lnInst := trunc 15 ((xmlGetProp p.2 "inst").getD ""),
    lnType := trunc 63 ((xmlGetProp p.2 "lnType").getD ""),
    lnName := trunc 63 (ln_name_of p.2),
    isLn0 := p.2.tag == "LN0" }

/-- The access point the selection rule chooses in a document, for the preferred
device name `s` and access point name `t`. -/
def selected_ap (root : XmlNode) (s t : String) : Option XmlNode :=
  match chosen_ied root.kids s t with
  | (some x, _, t1) => (chosen_ap x.1.kids t1).1
  | (none, _, _) => none

/-- The node-instance catalog made from the scope of the chosen access point,
last registered first; empty when no access point is chosen. -/
def scope_instances (oa : Option XmlNode) : List LNInstEntry :=
  match oa with
  | some a => ((scope_lns a).map ln_instance_of).reverse
  | none => []

/-- An access point that holds, under one `Server` and one `LDevice` of instance
name `ld`, a single node of class `cls` and instance number 1. -/
def apWithNode (attrs : List (String × String)) (ld cls : String) : XmlNode :=
  XmlNode.element "AccessPoint" attrs
    [ XmlNode.element "Server" []
        [ XmlNode.element "LDevice" [("inst", ld)]
            [ XmlNode.element "LN" [("lnClass", cls), ("inst", "1"), ("lnType", "T1")] [] ] ] ]

/-- A document whose only device has the access points `AP1`, with the node
`MMXU1`, and `AP2`, with the node `GGIO1`. -/
def twoAccessPointsDoc : XmlNode :=
  XmlNode.element "SCL" []
    [ XmlNode.element "IED" [("name", "IED1")]
        [ apWithNode [("name", "AP1")] "LD1" "MMXU", apWithNode [("name", "AP2")] "LD2" "GGIO" ],
      XmlNode.element "DataTypeTemplates" [] [] ]

/-- A document whose only logical device has an instance name of 64 characters. -/
def longLdInstDoc : XmlNode :=
  XmlNode.element "SCL" []
    [ XmlNode.element "IED" [("name", "IED1")] [apWithDevice [("name", "AP1")] name64],
      XmlNode.element "DataTypeTemplates" [] [] ]

/-- A document without a `DataTypeTemplates` section whose device `IED1` has a
node, a dataset and a report control. -/
def noTemplatesDoc : XmlNode :=
  XmlNode.element "SCL" []
    [ XmlNode.element "IED" [("name", "IED1")]
        [ XmlNode.element "AccessPoint" [("name", "AP1")]
            [ XmlNode.element "Server" []
                [ XmlNode.element "LDevice" [("inst", "LD0")]
                    [ XmlNode.element "LN0" [("lnClass", "LLN0"), ("inst", ""), ("lnType", "T0")]
                        [ XmlNode.element "DataSet" [("name", "ds1")] [],
                          XmlNode.element "ReportControl" [("name", "rcb1")] [] ] ] ] ] ] ]

/-- The children of an object type: the attribute `stVal`, an attribute element
without a name, and the attribute `q`. -/
def attributesWithDefect : List XmlNode :=
  [ XmlNode.element "DA" [("name", "stVal"), ("bType", "BOOLEAN"), ("fc", "ST")] [],
    XmlNode.element "DA" [("bType", "Quality"), ("fc", "ST"), ("type", "TA")] [],
    XmlNode.element "DA" [("name", "q"), ("bType", "Quality"), ("fc", "ST")] [] ]

/-- A document whose node type `T1` has an object element without a name, of the
type `SPS`, and an object element `Ind` without a type. -/
def malformedObjectsDoc : XmlNode :=
  XmlNode.element "SCL" []
    [ XmlNode.element "DataTypeTemplates" []
        [ XmlNode.element "LNodeType" [("id", "T1"), ("lnClass", "GGIO")]
            [ XmlNode.element "DO" [("type", "SPS")] [],
              XmlNode.element "DO" [("name", "Ind")] [] ],
          XmlNode.element "DOType" [("id", "SPS"), ("cdc", "SPS")]
            [ XmlNode.element "DA" [("name", "stVal"), ("bType", "BOOLEAN"), ("fc", "ST")] [] ] ] ]

/-- The document `malformedObjectsDoc` with the two object elements removed. -/
def malformedObjectsRemovedDoc : XmlNode :=
  XmlNode.element "SCL" []
    [ XmlNode.element "DataTypeTemplates" []
        [ XmlNode.element "LNodeType" [("id", "T1"), ("lnClass", "GGIO")] [],
          XmlNode.element "DOType" [("id", "SPS"), ("cdc", "SPS")]
            [ XmlNode.element "DA" [("name", "stVal"), ("bType", "BOOLEAN"), ("fc", "ST")] [] ] ] ]

/-- A document whose only device has a first access point named by 64 characters
and a second named by the first 63 of them; their logical devices are `LDA` and
`LDB`. -/
def longApDoc : XmlNode :=
  XmlNode.element "SCL" []
    [ XmlNode.element "IED" [("name", "IED1")]
        [ apWithDevice [("name", name64)] "LDA", apWithDevice [("name", trunc 63 name64)] "LDB" ],
      XmlNode.element "DataTypeTemplates" [] [] ]

/-- A document whose only device `IED1` has the access points `AP1` and `AP2`, with
the logical devices `LDA` and `LDB`. -/
def fallbackDoc : XmlNode :=
  XmlNode.element "SCL" []
    [ XmlNode.element "IED" [("name", "IED1")]
        [ apWithDevice [("name", "AP1")] "LDA", apWithDevice [("name", "AP2")] "LDB" ],
      XmlNode.element "DataTypeTemplates" [] [] ]

/-- Templates in which the object type `A` has a sub-object with the empty name, of
type `B`, whose attribute is `v`. -/
def emptySdoNameTemplates : XmlNode :=
  XmlNode.element "DataTypeTemplates" []
    [ XmlNode.element "DOType" [("id", "A"), ("cdc", "WYE")]
        [ XmlNode.element "SDO" [("name", ""), ("type", "B")] [] ],
      XmlNode.element "DOType" [("id", "B"), ("cdc", "CMV")]
        [ XmlNode.element "DA" [("name", "v"), ("bType", "BOOLEAN"), ("fc", "ST")] [] ] ]

/-- Templates in which the object type `A` has a sub-object named by 64 characters,
of type `B`, whose attribute is named by the same 64 characters. -/
def longSdoPathTemplates : XmlNode :=
  XmlNode.element "DataTypeTemplates" []
    [ XmlNode.element "DOType" [("id", "A"), ("cdc", "WYE")]
        [ XmlNode.element "SDO" [("name", name64), ("type", "B")] [] ],
      XmlNode.element "DOType" [("id", "B"), ("cdc", "CMV")]
        [ XmlNode.element "DA" [("name", name64), ("bType", "BOOLEAN"), ("fc", "ST")] [] ] ]

/-- Templates in which the object type `A` has the sub-object `s` whose type id has
64 characters; the attribute of that type is `v`. -/
def longSdoTypeTemplates : XmlNode :=
  XmlNode.element "DataTypeTemplates" []
    [ XmlNode.element "DOType" [("id", "A"), ("cdc", "WYE")]
        [ XmlNode.element "SDO" [("name", "s"), ("type", name64)] [] ],
      XmlNode.element "DOType" [("id", name64), ("cdc", "CMV")]
        [ XmlNode.element "DA" [("name", "v"), ("bType", "BOOLEAN"), ("fc", "ST")] [] ] ]

/-! ## The type-reference graph of the templates -/

/-- A type of the templates: an object type (`DOType`) or an attribute type
(`DAType`), each with its id. -/
inductive TypeRef
  | doType (id : String)
  | daType (id : String)
  deriving DecidableEq

/-- The types a child of a `DOType` element refers to: the object type of an `SDO`
with a name, the attribute type of a `DA` with a name and a base type. -/
def do_child_refs (child : XmlNode) : List TypeRef :=
  if isElem child "DA" then
    match xmlGetProp child "name", xmlGetProp child "bType", xmlGetProp child "type" with
    | some _, some _, some t => [TypeRef.daType t]
    | _, _, _ => []
  else if isElem child "SDO" then
    match xmlGetProp child "name", xmlGetProp child "type" with
    | some _, some t => [TypeRef.doType t]
    | _, _ => []
  else []

/-- The types a child of a `DAType` element refers to: the attribute type of a `BDA`
or `DA` with a name. -/
def da_child_refs (child : XmlNode) : List TypeRef :=
  if isElem child "BDA" || isElem child "DA" then
    match xmlGetProp child "name", xmlGetProp child "type" with
    | some _, some t => [TypeRef.daType t]
    | _, _ => []
  else []

/-- The edges that start at one element of the `DataTypeTemplates` section. -/
def node_edges (node : XmlNode) : List (TypeRef × TypeRef) :=
  if isElem node "DOType" then
    match xmlGetProp node "id" with
    | some id => (node.kids.flatMap do_child_refs).map (fun s => (TypeRef.doType id, s))
    | none => []
  else if isElem node "DAType" then
    match xmlGetProp node "id" with
    | some id => (node.kids.flatMap da_child_refs).map (fun s => (TypeRef.daType id, s))
    | none => []
  else []

/-- The edges of the type-reference graph: from the id of every `DOType` element to
the types of its `SDO` and `DA` children, from the id of every `DAType` element
to the types of its `BDA` and `DA` children. -/
def type_edges (templates : XmlNode) : List (TypeRef × TypeRef) :=
  templates.kids.flatMap node_edges

/-- The type `r` refers to the type `s`. -/
def refers (templates : XmlNode) (r s : TypeRef) : Prop := (r, s) ∈ type_edges templates

/-- The type-reference graph has no cycle: no type reaches itself along one or more
references. -/
def acyclic (templates : XmlNode) : Prop :=
  ∀ r : TypeRef, ¬ Relation.TransGen (refers templates) r r

/-- A rank for the types of `scenarioTemplates`: object types above attribute
types. -/
def scenarioRank : TypeRef → Nat
  | TypeRef.doType _ => 1
  | TypeRef.daType _ => 0

/-- A row of the mapping table with the path `p` and nothing decomposed yet. -/
def rowOf (p : String) : MapRow :=
  { iec_path := p, fc := "MX", cdc := CdcType.CDC_MV, mb_type := MbType.MB_IREG, mb_addr := 0,
    mb_unit := 1, enabled := 1, desc := "", ld := "", ln := "", do_name := "", da_path := "",
    bit_index := -1 }

/-- The components `split_iec_path` leaves in a row, after its return value. -/
def components (x : Int × MapRow) : Int × String × String × String × String × Int :=
  (x.1, x.2.ld, x.2.ln, x.2.do_name, x.2.da_path, x.2.bit_index)

/-- A character of a name: not one of the separators `.`, `$`, `/`, not a backslash,
not white space as `trim_inplace` sees it, and not one of the bytes `0xE2` and
`0xEF` that `normalize_slashes` looks for. -/
def name_char (c : Char) : Bool :=
  !is_blank c && c != '.' && c != '$' && c != '/' && c != '\\' &&
    c.toNat != 0xEF && c.toNat != 0xE2

/-- A text made of name characters. -/
def is_name (s : String) : Bool := s.data.all name_char

/-- A character of a dotted path of names. -/
def path_char (c : Char) : Bool := name_char c || c == '.'

/-! ## Paths of a chain among its siblings -/

/-- Whether the path `k` lies under the prefix `p`: it starts with `p` and a dot. -/
def is_under (p k : String) : Prop := (p ++ ".").data <+: k.data

/-- The path `q` of an element cannot lead to the key `k`: it is not empty, it is
not `k`, and `k` does not lie under it. -/
def misses (k q : String) : Prop := q ≠ "" ∧ q ≠ k ∧ ¬ is_under q k

/-- A name without a dot. -/
def dot_free (n : String) : Bool := !n.data.contains '.'

/-- Whether every element of `before` that has a name has one without a dot that
differs from `n`. -/
def names_clear (before : List XmlNode) (n : String) : Bool :=
  before.all (fun x =>
    match xmlGetProp x "name" with
    | none => true
    | some m => dot_free m && m != n)

/-- Whether no element of `before` has the empty name. -/
def names_given (before : List XmlNode) : Bool :=
  before.all (fun x => xmlGetProp x "name" != some "")

/-- Templates in which the attribute type `TA` has two members named `B`: the
first carries `dchg` and refers to the empty type `TB1`, the second refers to
the type `TB` of the member `C`. -/
def dupMemberTemplates : XmlNode :=
  XmlNode.element "DataTypeTemplates" []
    [ XmlNode.element "DOType" [("id", "T")]
        [ XmlNode.element "DA" [("name", "A"), ("bType", "Struct"), ("type", "TA")] [] ],
      XmlNode.element "DAType" [("id", "TA")]
        [ XmlNode.element "BDA" [("name", "B"), ("type", "TB1"), ("dchg", "true")] [],
          XmlNode.element "BDA" [("name", "B"), ("type", "TB")] [] ],
      XmlNode.element "DAType" [("id", "TB1")] [],
      XmlNode.element "DAType" [("id", "TB")]
        [ XmlNode.element "BDA" [("name", "C"), ("fc", "MX"), ("bType", "FLOAT32")] [] ] ]

/-- Templates in which the member `B` of the attribute type `TA` comes after a
member named `B.C`. -/
def dottedMemberTemplates : XmlNode :=
  XmlNode.element "DataTypeTemplates" []
    [ XmlNode.element "DOType" [("id", "T")]
        [ XmlNode.element "DA" [("name", "A"), ("bType", "Struct"), ("type", "TA")] [] ],
      XmlNode.element "DAType" [("id", "TA")]
        [ XmlNode.element "BDA" [("name", "B.C"), ("fc", "ST"), ("bType", "INT32")] [],
          XmlNode.element "BDA" [("name", "B"), ("type", "TB")] [] ],
      XmlNode.element "DAType" [("id", "TB")]
        [ XmlNode.element "BDA" [("name", "C"), ("fc", "MX"), ("bType", "FLOAT32")] [] ] ]

/-- Templates in which the attribute `A` of the object type `T` comes after
an attribute with the empty name, whose type `TX` has a member `A` with a member
`B` that carries `dchg`. -/
def emptyAttributeNameTemplates : XmlNode :=
  XmlNode.element "DataTypeTemplates" []
    [ XmlNode.element "DOType" [("id", "T")]
        [ XmlNode.element "DA" [("name", ""), ("bType", "Struct"), ("type", "TX")] [],
          XmlNode.element "DA" [("name", "A"), ("bType", "Struct"), ("type", "TA")] [] ],
      XmlNode.element "DAType" [("id", "TX")]
        [ XmlNode.element "BDA" [("name", "A"), ("type", "TY")] [] ],
      XmlNode.element "DAType" [("id", "TY")]
        [ XmlNode.element "BDA" [("name", "B"), ("bType", "INT32"), ("dchg", "true")] [] ],
      XmlNode.element "DAType" [("id", "TA")]
        [ XmlNode.element "BDA" [("name", "B"), ("type", "TB")] [] ],
      XmlNode.element "DAType" [("id", "TB")]
        [ XmlNode.element "BDA" [("name", "C"), ("fc", "MX"), ("bType", "FLOAT32")] [] ] ]

/-- A document whose node type has an object of type `T2` and then an object of
type `T`.  The object type `T2` has a sub-object named `A` of type `T`; the
object type `T` has the attribute `B`, which carries `dchg`, and then the
attribute `A` of the chain `A`, `B`, `C`. -/
def priorRouteDoc : XmlNode :=
  XmlNode.element "SCL" []
    [ XmlNode.element "DataTypeTemplates" []
        [ XmlNode.element "LNodeType" [("id", "N1"), ("lnClass", "GGIO")]
            [ XmlNode.element "DO" [("name", "D2"), ("type", "T2")] [],
              XmlNode.element "DO" [("name", "D1"), ("type", "T")] [] ],
          XmlNode.element "DOType" [("id", "T2")]
            [ XmlNode.element "SDO" [("name", "A"), ("type", "T")] [] ],
          XmlNode.element "DOType" [("id", "T")]
            [ XmlNode.element "DA" [("name", "B"), ("bType", "INT32"), ("dchg", "true")] [],
              XmlNode.element "DA" [("name", "A"), ("bType", "Struct"), ("type", "TA")] [] ],
          XmlNode.element "DAType" [("id", "TA")]
            [ XmlNode.element "BDA" [("name", "B"), ("type", "TB")] [] ],
          XmlNode.element "DAType" [("id", "TB")]
            [ XmlNode.element "BDA" [("name", "C"), ("fc", "MX"), ("bType", "FLOAT32")] [] ] ] ]

/-- Templates of a measured value: the object type `AnalogDO` with the attributes
`q`, `mag` and `t`, the attribute type `Vector` with the members `ang` and `cVal`,
and the attribute type `AnalogVal` with the members `i` and `f`. -/
def measuredValueTemplates : XmlNode :=
  XmlNode.element "DataTypeTemplates" []
    [ XmlNode.element "DOType" [("id", "AnalogDO"), ("cdc", "MV")]
        [ XmlNode.element "DA" [("name", "q"), ("bType", "Quality"), ("fc", "MX"),
            ("qchg", "true")] [],
          XmlNode.element "DA" [("name", "mag"), ("bType", "Struct"), ("type", "Vector"),
            ("fc", "CF"), ("dchg", "true")] [],
          XmlNode.element "DA" [("name", "t"), ("bType", "Timestamp"), ("fc", "MX")] [] ],
      XmlNode.element "DAType" [("id", "Vector")]
        [ XmlNode.element "BDA" [("name", "ang"), ("bType", "FLOAT32")] [],
          XmlNode.element "BDA" [("name", "cVal"), ("bType", "Struct"), ("type", "AnalogVal")] [],
          XmlNode.element "BDA" [("name", "unit"), ("bType", "Enum")] [] ],
      XmlNode.element "DAType" [("id", "AnalogVal")]
        [ XmlNode.element "BDA" [("name", "i"), ("bType", "INT32")] [],
          XmlNode.element "BDA" [("name", "f"), ("bType", "FLOAT32"), ("fc", "MX")] [],
          XmlNode.element "BDA" [("name", "x"), ("bType", "INT32"), ("dchg", "true")] [] ] ]
/-- The attribute catalog after the expansion of `AnalogDO` in
`measuredValueTemplates`, newest entry first. -/
def measuredValueCatalog : List DAEntry :=
  [ ⟨"AnalogDO", "t", "MX", "Timestamp", "", 0⟩,
    ⟨"AnalogDO", "mag.unit", "CF", "Enum", "", 1⟩,
    ⟨"AnalogDO", "mag.cVal.x", "CF", "INT32", "", 1⟩,
    ⟨"AnalogDO", "mag.cVal.f", "MX", "FLOAT32", "", 1⟩,
    ⟨"AnalogDO", "mag.cVal.i", "CF", "INT32", "", 1⟩,
    ⟨"AnalogDO", "mag.cVal", "CF", "Struct", "AnalogVal", 1⟩,
    ⟨"AnalogDO", "mag.ang", "CF", "FLOAT32", "", 1⟩,
    ⟨"AnalogDO", "mag", "CF", "Struct", "Vector", 1⟩,
    ⟨"AnalogDO", "q", "MX", "Quality", "", 2⟩ ]

/-! # Theorems -/

/-! ## Fixed-width buffers -/

theorem trunc_data (n : Nat) (s : String) : (trunc n s).data = s.data.take n := rfl

theorem trunc_length (n : Nat) (s : String) : (trunc n s).length = min n s.length := by
  show (List.take n s.data).length = min n s.data.length
  exact List.length_take n s.data

theorem trunc_of_le {n : Nat} {s : String} (h : s.length ≤ n) : trunc n s = s := by
  apply String.ext
  rw [trunc_data]
  exact List.take_of_length_le h

theorem trunc_eq_self_of_lt {n : Nat} {s : String} (h : (trunc n s).length < n) :
    trunc n s = s := by
  rw [trunc_length] at h
  exact trunc_of_le (by omega)

theorem eq_of_trunc_eq {n : Nat} {s d : String} (h : trunc n s = d) (hd : d.length < n) :
    s = d := by
  subst h
  exact (trunc_eq_self_of_lt hd).symm

theorem trunc_append (n : Nat) (a b : String) :
    trunc n (a ++ b) = trunc n a ++ trunc (n - (trunc n a).length) b := by
  apply String.ext
  have h1 : n - (trunc n a).length = n - a.data.length := by
    rw [trunc_length]; show n - min n a.data.length = _; omega
  rw [String.data_append, trunc_data, trunc_data, trunc_data, String.data_append, h1]
  exact List.take_append_eq_append_take

theorem trunc_empty (n : Nat) : trunc n "" = "" := by
  apply String.ext
  rw [trunc_data]
  exact List.take_nil

theorem empty_append (s : String) : "" ++ s = s := by
  apply String.ext; rw [String.data_append]; rfl

theorem append_empty (s : String) : s ++ "" = s := by
  apply String.ext; rw [String.data_append]; exact List.append_nil _

theorem compose_ln_name_eq (pfx lnClass inst : Option String) :
    compose_ln_name false pfx lnClass inst
      = trunc 63 (pfx.getD "" ++ lnClass.getD "" ++ inst.getD "") := by
  have key : ∀ (out : String) (o : Option String),
      (if nonEmpty o then strncat out (o.getD "") (63 - out.length) else out)
        = out ++ trunc (63 - out.length) (o.getD "") := by
    intro out o
    cases o with
    | none => simp [nonEmpty, trunc_empty, append_empty]
    | some s =>
      by_cases hs : s = ""
      · subst hs; simp [nonEmpty, trunc_empty, append_empty]
      · simp [nonEmpty, hs, strncat]
  unfold compose_ln_name
  simp only [Bool.false_eq_true, if_false]
  rw [key, key, key]
  rw [trunc_append, trunc_append]
  simp [empty_append, trunc_empty]

/-! ## Invariants of the attribute catalog -/

theorem entries_nil_of_not_exists {l : List DAEntry} {d p : String}
    (h : da_entry_exists l d p = false) : da_entries_with_key l d p = [] := by
  unfold da_entries_with_key
  unfold da_entry_exists at h
  rw [List.filter_eq_nil_iff]
  intro e he
  have := (List.any_eq_false.mp h) e he
  simpa using this

/-- A stored key shorter than the buffers is the key that was passed. -/
theorem stored_key_short {d0 p0 d p : String} (hd : d.length < 63) (hp : p.length < 127)
    (h : (trunc 63 d0 == d && trunc 127 p0 == p) = true) : d0 = d ∧ p0 = p := by
  simp only [Bool.and_eq_true, beq_iff_eq] at h
  exact ⟨eq_of_trunc_eq h.1 hd, eq_of_trunc_eq h.2 hp⟩

theorem add_da_entry_unique (d0 p0 fc b t : Option String) (trg : Nat) (l : List DAEntry)
    (hl : DaUnique l) : DaUnique (add_da_entry d0 p0 fc b t trg l) := by
  unfold add_da_entry
  split
  · rename_i d1 p1
    split
    · exact hl
    · rename_i hex
      intro d p hd hp
      unfold da_entries_with_key
      rw [List.filter_cons]
      split
      · rename_i hk
        obtain ⟨h1, h2⟩ := stored_key_short hd hp hk
        subst h1; subst h2
        have := entries_nil_of_not_exists (Bool.eq_false_iff.mpr hex)
        unfold da_entries_with_key at this
        rw [this]; simp
      · exact hl d p hd hp
  · exact hl

theorem exists_eq_isSome (l : List DAEntry) (d p : String) :
    da_entry_exists l d p = (icd_find_da_info l d p).isSome := by
  unfold da_entry_exists icd_find_da_info
  induction l with
  | nil => rfl
  | cons e rest ih =>
    rw [List.any_cons, List.find?_cons]
    cases h : (e.doType == d && e.daPath == p)
    · simpa using ih
    · simp

theorem find_add_step (c : DaCall) (l : List DAEntry) (d p : String)
    (hd : d.length < 63) (hp : p.length < 127) :
    icd_find_da_info (add_da_entry c.doType c.daPath c.fc c.bType c.typeId c.trgOps l) d p
      = (icd_find_da_info l d p).or (if c.hasKey d p then some c.info else none) := by
  unfold add_da_entry
  split
  · rename_i d0 p0 hd0 hp0
    split
    · rename_i hex
      rw [exists_eq_isSome] at hex
      by_cases hk : c.hasKey d p = true
      · have : d0 = d ∧ p0 = p := by
          simp only [DaCall.hasKey, hd0, hp0, Bool.and_eq_true, beq_iff_eq, Option.some.injEq] at hk
          exact hk
        obtain ⟨h1, h2⟩ := this
        subst h1; subst h2
        obtain ⟨i, hi⟩ := Option.isSome_iff_exists.mp hex
        rw [hi]; rfl
      · simp only [hk]
        cases icd_find_da_info l d p <;> rfl
    · rename_i hex
      rw [exists_eq_isSome] at hex
      rw [icd_find_da_info, List.find?_cons]
      by_cases hk : c.hasKey d p = true
      · have : d0 = d ∧ p0 = p := by
          simp only [DaCall.hasKey, hd0, hp0, Bool.and_eq_true, beq_iff_eq, Option.some.injEq] at hk
          exact hk
        obtain ⟨h1, h2⟩ := this
        subst h1; subst h2
        have hn : icd_find_da_info l d0 p0 = none := by
          cases h : icd_find_da_info l d0 p0 with
          | none => rfl
          | some i => rw [h] at hex; simp at hex
        rw [hn, hk]
        simp [trunc_of_le (Nat.le_of_lt hd), trunc_of_le (Nat.le_of_lt hp), DaCall.info]
      · have hne : (trunc 63 d0 == d && trunc 127 p0 == p) = false := by
          cases h : (trunc 63 d0 == d && trunc 127 p0 == p)
          · rfl
          · exfalso
            obtain ⟨h1, h2⟩ := stored_key_short hd hp h
            apply hk
            simp [DaCall.hasKey, hd0, hp0, h1, h2]
        simp only [hne, hk]
        show icd_find_da_info l d p = _
        cases icd_find_da_info l d p <;> rfl
  · rename_i hnone
    have hk : c.hasKey d p = false := by
      cases h : c.hasKey d p
      · rfl
      · exfalso
        simp only [DaCall.hasKey, Bool.and_eq_true, beq_iff_eq] at h
        exact hnone d p h.1 h.2
    rw [hk]
    cases icd_find_da_info l d p <;> rfl

theorem find_run_calls (d p : String) (hd : d.length < 63) (hp : p.length < 127) :
    ∀ (calls : List DaCall) (l : List DAEntry),
      icd_find_da_info (run_da_calls calls l) d p
        = (icd_find_da_info l d p).or ((calls.find? (fun c => c.hasKey d p)).map DaCall.info) := by
  intro calls
  induction calls with
  | nil => intro l; simp [run_da_calls]
  | cons c rest ih =>
    intro l
    have hrun : run_da_calls (c :: rest) l
        = run_da_calls rest (add_da_entry c.doType c.daPath c.fc c.bType c.typeId c.trgOps l) := rfl
    rw [hrun, ih, find_add_step c l d p hd hp, List.find?_cons]
    cases icd_find_da_info l d p with
    | some i => rfl
    | none =>
      cases hk : c.hasKey d p
      · simp
      · simp

theorem add_registered_key_noop (c : DaCall) (l : List DAEntry) (d p : String)
    (hk : c.hasKey d p = true) (hreg : (icd_find_da_info l d p).isSome = true) :
    add_da_entry c.doType c.daPath c.fc c.bType c.typeId c.trgOps l = l := by
  simp only [DaCall.hasKey, Bool.and_eq_true, beq_iff_eq] at hk
  rw [hk.1, hk.2]
  unfold add_da_entry
  simp only
  rw [exists_eq_isSome, hreg]
  rfl

/-! ## Whatever `add_da_entry` preserves, the resolver preserves -/

theorem collect_da_children_preserves (P : List DAEntry → Prop)
    (hadd : ∀ d p fc b t trg l, P l → P (add_da_entry d p fc b t trg l))
    (recur : Option String → Option String → Option String → Nat →
      List DAEntry → Option (List DAEntry))
    (hrec : ∀ a b c n l l', P l → recur a b c n l = some l' → P l')
    (doTypeId pfx ifc : Option String) (itrg : Nat) :
    ∀ (children : List XmlNode) (l l' : List DAEntry), P l →
      collect_da_children recur doTypeId pfx ifc itrg children l = some l' → P l' := by
  intro children
  induction children with
  | nil => intro l l' hl h; simp [collect_da_children] at h; subst h; exact hl
  | cons child rest ih =>
    intro l l' hl h
    unfold collect_da_children at h
    split at h
    · exact ih l l' hl h
    · split at h
      · exact ih l l' hl h
      · split at h
        · exact ih l l' hl h
        · rename_i nameStr hname
          simp only at h
          split at h
          · rename_i t ht
            obtain ⟨l1, hr, h2⟩ := Option.bind_eq_some.mp h
            exact ih l1 l' (hrec _ _ _ _ _ _ (hadd _ _ _ _ _ _ _ hl) hr) h2
          · exact ih _ l' (hadd _ _ _ _ _ _ _ hl) h


theorem collect_da_type_preserves (P : List DAEntry → Prop)
    (hadd : ∀ d p fc b t trg l, P l → P (add_da_entry d p fc b t trg l))
    (fuel : Nat) (templates : XmlNode)
    (doTypeId daTypeId pfx ifc : Option String) (itrg : Nat) (l l' : List DAEntry)
    (hl : P l) (h : collect_da_type fuel templates doTypeId daTypeId pfx ifc itrg l = some l') :
    P l' := by
  induction fuel generalizing daTypeId pfx ifc itrg l l' with
  | zero => simp [collect_da_type] at h
  | succ n ih =>
    unfold collect_da_type at h
    split at h
    · cases h; exact hl
    · split at h
      · cases h; exact hl
      · exact collect_da_children_preserves P hadd _
          (fun a b c m x y hx hxy => ih a b c m x y hx hxy) _ _ _ _ _ _ _ hl h

theorem collect_do_children_preserves (P : List DAEntry → Prop)
    (hadd : ∀ d p fc b t trg l, P l → P (add_da_entry d p fc b t trg l))
    (recurDo : Option String → Option String → List DAEntry → Option (List DAEntry))
    (recurDa : Option String → Option String → Option String → Nat →
      List DAEntry → Option (List DAEntry))
    (hdo : ∀ a b l l', P l → recurDo a b l = some l' → P l')
    (hda : ∀ a b c n l l', P l → recurDa a b c n l = some l' → P l')
    (doTypeId pfx : Option String) :
    ∀ (children : List XmlNode) (l l' : List DAEntry), P l →
      collect_do_children recurDo recurDa doTypeId pfx children l = some l' → P l' := by
  intro children
  induction children with
  | nil => intro l l' hl h; simp [collect_do_children] at h; subst h; exact hl
  | cons child rest ih =>
    intro l l' hl h
    unfold collect_do_children at h
    split at h
    · exact ih l l' hl h
    · split at h
      · split at h
        · simp only at h
          split at h
          · obtain ⟨l1, hr, h2⟩ := Option.bind_eq_some.mp h
            exact ih l1 l' (hda _ _ _ _ _ _ (hadd _ _ _ _ _ _ _ hl) hr) h2
          · exact ih _ l' (hadd _ _ _ _ _ _ _ hl) h
        · exact ih l l' hl h
      · split at h
        · split at h
          · obtain ⟨l1, hr, h2⟩ := Option.bind_eq_some.mp h
            exact ih l1 l' (hdo _ _ _ _ hl hr) h2
          · exact ih l l' hl h
        · exact ih l l' hl h

theorem collect_do_type_preserves (P : List DAEntry → Prop)
    (hadd : ∀ d p fc b t trg l, P l → P (add_da_entry d p fc b t trg l))
    (fuel : Nat) (templates : XmlNode)
    (doTypeId pfx : Option String) (l l' : List DAEntry)
    (hl : P l) (h : collect_do_type fuel templates doTypeId pfx l = some l') : P l' := by
  induction fuel generalizing doTypeId pfx l l' with
  | zero => simp [collect_do_type] at h
  | succ n ih =>
    unfold collect_do_type at h
    split at h
    · cases h; exact hl
    · split at h
      · cases h; exact hl
      · exact collect_do_children_preserves P hadd _ _
          (fun a b x y hx hxy => ih a b x y hx hxy)
          (fun a b c m x y hx hxy => collect_da_type_preserves P hadd n templates _ a b c m x y hx hxy)
          _ _ _ _ _ hl h

theorem parse_do_nodes_preserves (P : List DAEntry → Prop)
    (hadd : ∀ d p fc b t trg l, P l → P (add_da_entry d p fc b t trg l))
    (fuel : Nat) (templates : XmlNode)
    (lnClass lnTypeId : Option String) :
    ∀ (nodes : List XmlNode) (st st' : IcdState), P st.da_list →
      parse_do_nodes fuel templates lnClass lnTypeId nodes st = some st' → P st'.da_list := by
  intro nodes
  induction nodes with
  | nil => intro st st' hl h; simp [parse_do_nodes] at h; subst h; exact hl
  | cons doNode rest ih =>
    intro st st' hl h
    unfold parse_do_nodes at h
    split at h
    · exact ih st st' hl h
    · simp only at h
      split at h
      · exact ih st st' hl h
      · split at h
        · cases h
        · rename_i da hda
          exact ih _ st' (collect_do_type_preserves P hadd _ _ _ _ _ _ hl hda) h

theorem parse_lnodetypes_preserves (P : List DAEntry → Prop)
    (hadd : ∀ d p fc b t trg l, P l → P (add_da_entry d p fc b t trg l))
    (fuel : Nat) (templates : XmlNode) :
    ∀ (nodes : List XmlNode) (st st' : IcdState), P st.da_list →
      parse_lnodetypes fuel templates nodes st = some st' → P st'.da_list := by
  intro nodes
  induction nodes with
  | nil => intro st st' hl h; simp [parse_lnodetypes] at h; subst h; exact hl
  | cons ln rest ih =>
    intro st st' hl h
    unfold parse_lnodetypes at h
    split at h
    · exact ih st st' hl h
    · obtain ⟨st1, hr, h2⟩ := Option.bind_eq_some.mp h
      exact ih st1 st' (parse_do_nodes_preserves P hadd _ _ _ _ _ _ _ hl hr) h2

/-! ## Functions that leave the attribute catalog alone -/

theorem foldl_frame {α β : Type} (g : IcdState → β) (f : IcdState → α → IcdState)
    (hf : ∀ s x, g (f s x) = g s) : ∀ (xs : List α) (s : IcdState), g (xs.foldl f s) = g s := by
  intro xs
  induction xs with
  | nil => intro s; rfl
  | cons x rest ih => intro s; rw [List.foldl_cons, ih, hf]

theorem add_report_entry_da (ldInst lnName : Option String) (e : ReportEntry) (st : IcdState) :
    (add_report_entry ldInst lnName e st).da_list = st.da_list := rfl

theorem collect_report_control_da (rc : XmlNode) (ldInst lnName : Option String)
    (st : IcdState) : (collect_report_control rc ldInst lnName st).da_list = st.da_list := by
  unfold collect_report_control
  split <;> rfl

theorem ln_child_da (ldInst : Option String) (lnName : String) (st : IcdState)
    (child : XmlNode) : (ln_child ldInst lnName st child).da_list = st.da_list := by
  unfold ln_child
  split
  · rfl
  · split
    · split <;> rfl
    · split
      · exact collect_report_control_da _ _ _ _
      · rfl

theorem register_ln_instance_da (ldInst : Option String) (isLn0 : Bool)
    (pfx lnClass inst lnType lnName : Option String) (st : IcdState) :
    (register_ln_instance ldInst isLn0 pfx lnClass inst lnType lnName st).da_list
      = st.da_list := by
  unfold register_ln_instance
  split <;> rfl

theorem process_ln_for_datasets_da (lnNode : XmlNode) (ldInst : Option String)
    (st : IcdState) : (process_ln_for_datasets lnNode ldInst st).da_list = st.da_list := by
  unfold process_ln_for_datasets
  simp only
  rw [foldl_frame IcdState.da_list _ (ln_child_da _ _)]
  exact register_ln_instance_da _ _ _ _ _ _ _ _

theorem ldevice_child_da (ldInst : String) (st : IcdState) (ln : XmlNode) :
    (ldevice_child ldInst st ln).da_list = st.da_list := by
  unfold ldevice_child
  split
  · exact process_ln_for_datasets_da _ _ _
  · rfl

theorem server_child_da (st : IcdState) (ld : XmlNode) :
    (server_child st ld).da_list = st.da_list := by
  unfold server_child
  split
  · rfl
  · exact foldl_frame IcdState.da_list _ (ldevice_child_da _) _ _

theorem process_access_point_da (ap : XmlNode) (st : IcdState) :
    (process_access_point ap st).da_list = st.da_list := by
  unfold process_access_point
  apply foldl_frame IcdState.da_list
  intro s x
  split
  · rfl
  · exact foldl_frame IcdState.da_list _ server_child_da _ _

theorem set_selected_ied_da (name : Option String) (st : IcdState) :
    (set_selected_ied name st).da_list = st.da_list := by
  unfold set_selected_ied
  split
  · rfl
  · split <;> rfl

theorem set_selected_ap_da (name : Option String) (st : IcdState) :
    (set_selected_ap name st).da_list = st.da_list := by
  unfold set_selected_ap
  split
  · rfl
  · split <;> rfl

theorem find_active_ied_scan_da :
    ∀ (nodes : List XmlNode) (fm : Option NodeAt) (st : IcdState),
      (find_active_ied_scan nodes fm st).2.2.da_list = st.da_list := by
  intro nodes
  induction nodes with
  | nil => intro fm st; rfl
  | cons ied rest ih =>
    intro fm st
    unfold find_active_ied_scan
    split
    · exact ih _ _
    · simp only
      split_ifs <;> simp [ih, set_selected_ied_da]

theorem find_active_ied_da (root : XmlNode) (st : IcdState) :
    (find_active_ied root st).2.da_list = st.da_list := by
  have h := find_active_ied_scan_da root.kids none st
  unfold find_active_ied
  simp only
  split
  · rename_i heq; rw [heq] at h; exact h
  · rename_i heq; rw [heq] at h
    split
    · exact h
    · exact h
  · rename_i heq; rw [heq] at h
    split
    · exact h
    · exact h

theorem collect_dataset_scan_da :
    ∀ (nodes : List XmlNode) (fa : Option (XmlNode × String)) (st : IcdState),
      (collect_dataset_scan nodes fa st).2.2.da_list = st.da_list := by
  intro nodes
  induction nodes with
  | nil => intro fa st; rfl
  | cons ap rest ih =>
    intro fa st
    unfold collect_dataset_scan
    split
    · exact ih _ _
    · simp only
      split_ifs <;> simp [ih, set_selected_ap_da, process_access_point_da]

theorem collect_dataset_nodes_da (ied : XmlNode) (st : IcdState) :
    (collect_dataset_nodes ied st).da_list = st.da_list := by
  have h := collect_dataset_scan_da ied.kids none st
  unfold collect_dataset_nodes
  simp only
  split
  · rename_i heq; rw [heq] at h; exact h
  · rename_i heq; rw [heq] at h
    rw [process_access_point_da]; exact h
  · rename_i heq; rw [heq] at h
    split
    · exact h
    · exact h

/-! ## Loading and the attribute catalog -/

theorem parse_icd_preserves (P : List DAEntry → Prop)
    (hadd : ∀ d p fc b t trg l, P l → P (add_da_entry d p fc b t trg l))
    (fuel : Nat) (root : XmlNode) (st st' : IcdState) (hl : P st.da_list)
    (h : parse_icd fuel root st = some st') : P st'.da_list := by
  unfold parse_icd at h
  split at h
  · cases h; exact hl
  · rename_i templates _
    split at h
    · cases h
    · rename_i st1 h1
      have hp1 : P st1.da_list := parse_lnodetypes_preserves P hadd _ _ _ _ _ hl h1
      have hfa := find_active_ied_da root st1
      split at h
      · rename_i st2 heq
        rw [heq] at hfa
        cases h
        simp only at hfa
        rw [hfa]; exact hp1
      · rename_i activeIed st2 heq
        rw [heq] at hfa
        cases h
        simp only at hfa
        rw [collect_dataset_nodes_da]
        show P st2.da_list
        rw [hfa]; exact hp1

theorem icd_load_preserves (P : List DAEntry → Prop)
    (hadd : ∀ d p fc b t trg l, P l → P (add_da_entry d p fc b t trg l)) (hnil : P [])
    (fuel : Nat) (doc : Option XmlNode) (st st' : IcdState) (ok : Bool)
    (h : icd_load fuel doc st = some (st', ok)) : P st'.da_list := by
  unfold icd_load at h
  split at h
  · cases h; exact hnil
  · rename_i root
    cases hp : parse_icd fuel root (icd_unload st) with
    | none => rw [hp] at h; cases h
    | some st1 =>
      rw [hp] at h
      cases h
      exact parse_icd_preserves P hadd fuel root _ _ hnil hp

/-! ## C1 -/

/-- C1, counterexample: loading `longIdDoc`, in which two objects refer to one
object type whose id has 64 characters, leaves two catalog entries with the same
stored key. -/
theorem long_type_id_is_registered_twice :
    (icd_load 2 (some longIdDoc) initialState).map
      (fun r => (da_entries_with_key r.1.da_list (trunc 63 name64) "stVal").length)
      = some 2 := by
  decide

/-- C1, amended: after `icd_load`, for every key whose type id is shorter than 63
characters and whose path is shorter than 127 characters, the attribute catalog
holds at most one entry, however often the resolver reaches that key. -/
theorem attribute_catalog_short_keys_unique (fuel : Nat) (doc : Option XmlNode)
    (st st' : IcdState) (ok : Bool) (h : icd_load fuel doc st = some (st', ok))
    (d p : String) (hd : d.length < 63) (hp : p.length < 127) :
    (da_entries_with_key st'.da_list d p).length ≤ 1 :=
  icd_load_preserves DaUnique add_da_entry_unique
    (fun _ _ _ _ => Nat.zero_le 1) fuel doc st st' ok h d p hd hp

/-- C1, witness: `twoRoutesDoc` reaches the key `(SPS, stVal)` twice and the
catalog holds it once. -/
theorem attribute_catalog_short_keys_unique_witness :
    icd_load 2 (some twoRoutesDoc) initialState = some (twoRoutesState, true) ∧
      (da_entries_with_key twoRoutesState.da_list "SPS" "stVal").length ≤ 1 :=
  ⟨by decide,
    attribute_catalog_short_keys_unique 2 (some twoRoutesDoc) initialState twoRoutesState true
      (by decide) "SPS" "stVal" (by decide) (by decide)⟩

/-! ## C2 -/

/-- C2, counterexample: after one call of `add_da_entry` with a type id of 64
characters, `icd_find_da_info` does not find the key that call used. -/
theorem long_key_is_never_found :
    icd_find_da_info
      (run_da_calls [⟨some name64, some "stVal", some "ST", some "BOOLEAN", none, 1⟩] [])
      name64 "stVal" = none := by
  decide

/-- C2, amended: for every sequence of `add_da_entry` calls and every key whose
type id is shorter than 63 characters and whose path is shorter than 127
characters, `icd_find_da_info` succeeds exactly when some call used that key, and
then returns the functional constraint, base type and nested type id of the first
such call, each cut to its field width (7, 31 and 63 characters, an absent
argument giving the empty string), with that call's trigger-options byte; a later
call for a key that is already registered leaves the catalog unchanged. -/
theorem attribute_catalog_first_wins (calls : List DaCall) (d p : String)
    (hd : d.length < 63) (hp : p.length < 127) :
    ((icd_find_da_info (run_da_calls calls []) d p).isSome = true ↔
        ∃ c ∈ calls, c.hasKey d p = true) ∧
      icd_find_da_info (run_da_calls calls []) d p
        = (calls.find? (fun c => c.hasKey d p)).map DaCall.info ∧
      ∀ c : DaCall, c.hasKey d p = true → (∃ c0 ∈ calls, c0.hasKey d p = true) →
        run_da_calls (calls ++ [c]) [] = run_da_calls calls [] := by
  have hfind : icd_find_da_info (run_da_calls calls []) d p
      = (calls.find? (fun c => c.hasKey d p)).map DaCall.info := by
    rw [find_run_calls d p hd hp calls []]
    rfl
  have hiff : (icd_find_da_info (run_da_calls calls []) d p).isSome = true ↔
      ∃ c ∈ calls, c.hasKey d p = true := by
    rw [hfind, Option.isSome_map', List.find?_isSome]
  refine ⟨hiff, hfind, ?_⟩
  intro c hk hex
  have hrun : run_da_calls (calls ++ [c]) []
      = add_da_entry c.doType c.daPath c.fc c.bType c.typeId c.trgOps (run_da_calls calls []) := by
    simp [run_da_calls, List.foldl_append]
  rw [hrun]
  exact add_registered_key_noop c _ d p hk (hiff.mpr hex)

/-- C2, witness: two calls for the key `(SPS, stVal)`; the lookup returns the
values of the first. -/
theorem attribute_catalog_first_wins_witness :
    icd_find_da_info
        (run_da_calls
          [⟨some "SPS", some "stVal", some "ST", some "BOOLEAN", none, 1⟩,
           ⟨some "SPS", some "stVal", some "MX", some "INT32", some "X", 2⟩] [])
        "SPS" "stVal"
      = some ⟨"ST", "BOOLEAN", "", 1⟩ :=
  ((attribute_catalog_first_wins
      [⟨some "SPS", some "stVal", some "ST", some "BOOLEAN", none, 1⟩,
       ⟨some "SPS", some "stVal", some "MX", some "INT32", some "X", 2⟩]
      "SPS" "stVal" (by decide) (by decide)).2.1).trans (by decide)

/-! ## C3 -/

theorem change_flags_eq_flag_bits (child : XmlNode) : change_flags child = flag_bits child := by
  unfold change_flags flag_bits orIf
  cases xml_attr_true (xmlGetProp child "dchg") <;>
    cases xml_attr_true (xmlGetProp child "qchg") <;>
      cases xml_attr_true (xmlGetProp child "dupd") <;> decide

theorem flag_bits_lt (child : XmlNode) : flag_bits child < 8 := by
  unfold flag_bits
  cases xml_attr_true (xmlGetProp child "dchg") <;>
    cases xml_attr_true (xmlGetProp child "qchg") <;>
      cases xml_attr_true (xmlGetProp child "dupd") <;> decide

theorem member_trgOps_eq_spec (child : XmlNode) (inheritedTrgOps : Nat) :
    member_trgOps child inheritedTrgOps = member_trgOps_spec child inheritedTrgOps := by
  unfold member_trgOps member_trgOps_spec has_change_flag
  rw [change_flags_eq_flag_bits]

theorem member_trgOps_spec_lt (child : XmlNode) (inheritedTrgOps : Nat)
    (hinh : inheritedTrgOps < 256) : member_trgOps_spec child inheritedTrgOps < 256 := by
  unfold member_trgOps_spec
  split
  · exact Nat.lt_trans (flag_bits_lt child) (by decide)
  · exact hinh

theorem collect_da_children_member
    (recur : Option String → Option String → Option String → Nat →
      List DAEntry → Option (List DAEntry))
    (doTypeId pfx inheritedFc : Option String) (inheritedTrgOps : Nat)
    (child : XmlNode) (rest : List XmlNode) (da : List DAEntry) (nameStr : String)
    (hmember : isElem child "BDA" = true ∨ isElem child "DA" = true)
    (hname : xmlGetProp child "name" = some nameStr) :
    collect_da_children recur doTypeId pfx inheritedFc inheritedTrgOps (child :: rest) da
      = (match xmlGetProp child "type" with
          | some t =>
            recur (some t) (some (join_path pfx nameStr)) (member_fc child inheritedFc)
              (member_trgOps child inheritedTrgOps)
              (add_da_entry doTypeId (some (join_path pfx nameStr)) (member_fc child inheritedFc)
                (xmlGetProp child "bType") (xmlGetProp child "type")
                (member_trgOps child inheritedTrgOps) da)
          | none =>
            some (add_da_entry doTypeId (some (join_path pfx nameStr))
              (member_fc child inheritedFc) (xmlGetProp child "bType") (xmlGetProp child "type")
              (member_trgOps child inheritedTrgOps) da)).bind
          (collect_da_children recur doTypeId pfx inheritedFc inheritedTrgOps rest) := by
  have hel : child.isElement = true := by
    rcases hmember with h | h <;> simp only [isElem, Bool.and_eq_true] at h <;> exact h.1
  have htag : (child.tag != "BDA" && child.tag != "DA") = false := by
    rcases hmember with h | h <;> simp only [isElem, Bool.and_eq_true, beq_iff_eq] at h <;>
      simp [h.2]
  rw [collect_da_children]
  simp only [hel, htag, hname, Bool.not_true, Bool.false_eq_true, if_false]
  cases xmlGetProp child "type" <;> rfl

/-- C4: when `collect_da_type` processes a member (a `BDA` or `DA` element with a
name) of a `DAType`, the trigger-options bitmask it registers through
`add_da_entry`, and passes down to the expansion of the member's own nested type,
is made of the member's own `dchg`, `qchg`, `dupd` flags alone when at least one
of the three attributes is present, whatever their values, and is the caller's
inherited bitmask when none is present; an entry the call adds to the catalog
carries exactly that bitmask. -/
theorem collect_da_type_member_trgOps
    (recur : Option String → Option String → Option String → Nat →
      List DAEntry → Option (List DAEntry))
    (doTypeId pfx inheritedFc : Option String) (inheritedTrgOps : Nat)
    (child : XmlNode) (rest : List XmlNode) (da : List DAEntry) (nameStr : String)
    (hmember : isElem child "BDA" = true ∨ isElem child "DA" = true)
    (hname : xmlGetProp child "name" = some nameStr) (hinh : inheritedTrgOps < 256) :
    collect_da_children recur doTypeId pfx inheritedFc inheritedTrgOps (child :: rest) da
      = (match xmlGetProp child "type" with
          | some t =>
            recur (some t) (some (join_path pfx nameStr)) (member_fc child inheritedFc)
              (member_trgOps_spec child inheritedTrgOps)
              (add_da_entry doTypeId (some (join_path pfx nameStr)) (member_fc child inheritedFc)
                (xmlGetProp child "bType") (xmlGetProp child "type")
                (member_trgOps_spec child inheritedTrgOps) da)
          | none =>
            some (add_da_entry doTypeId (some (join_path pfx nameStr))
              (member_fc child inheritedFc) (xmlGetProp child "bType") (xmlGetProp child "type")
              (member_trgOps_spec child inheritedTrgOps) da)).bind
          (collect_da_children recur doTypeId pfx inheritedFc inheritedTrgOps rest) ∧
      (add_da_entry doTypeId (some (join_path pfx nameStr)) (member_fc child inheritedFc)
          (xmlGetProp child "bType") (xmlGetProp child "type")
          (member_trgOps_spec child inheritedTrgOps) da = da ∨
        ∃ e : DAEntry,
          add_da_entry doTypeId (some (join_path pfx nameStr)) (member_fc child inheritedFc)
            (xmlGetProp child "bType") (xmlGetProp child "type")
            (member_trgOps_spec child inheritedTrgOps) da = e :: da ∧
          e.trgOps = member_trgOps_spec child inheritedTrgOps) := by
  constructor
  · rw [← member_trgOps_eq_spec]
    exact collect_da_children_member recur doTypeId pfx inheritedFc inheritedTrgOps child rest da
      nameStr hmember hname
  · have hlt := member_trgOps_spec_lt child inheritedTrgOps hinh
    unfold add_da_entry
    cases doTypeId with
    | none => exact Or.inl rfl
    | some d =>
      simp only
      split
      · exact Or.inl rfl
      · exact Or.inr ⟨_, rfl, Nat.mod_eq_of_lt hlt⟩

/-- C4, witness: a member with `qchg="false"` and no other flag, expanded with the
inherited bitmask 1, is registered with the bitmask 0. -/
theorem collect_da_type_member_trgOps_witness :
    collect_da_children noRecursion (some "AnalogDO") (some "mag") (some "MX") 1
        [XmlNode.element "BDA" [("name", "f"), ("bType", "FLOAT32"), ("qchg", "false")] []] []
      = some [⟨"AnalogDO", "mag.f", "MX", "FLOAT32", "", 0⟩] :=
  ((collect_da_type_member_trgOps noRecursion (some "AnalogDO") (some "mag") (some "MX") 1
      (XmlNode.element "BDA" [("name", "f"), ("bType", "FLOAT32"), ("qchg", "false")] [])
      [] [] "f" (Or.inl rfl) rfl (by decide)).1).trans (by decide)

/-- C5, counterexample: a member whose own `fc` attribute is `MEASURED` is
registered with the tag `MEASURE`. -/
theorem long_member_tag_is_cut :
    (collect_da_children noRecursion (some "AnalogDO") (some "mag") (some "MX") 0
        [XmlNode.element "BDA" [("name", "f"), ("bType", "FLOAT32"), ("fc", "MEASURED")] []]
        []).map (fun l => l.map (fun e => (e.daPath, e.fc)))
      = some [("mag.f", "MEASURE")] := by
  decide

/-- C5, amended: when `collect_da_type` processes a member (a `BDA` or `DA` element
with a name) of a `DAType`, the functional-constraint tag it hands to
`add_da_entry` and passes down to the expansion of the member's own nested type
is the member's own `fc` attribute when the member has one and the tag inherited
from the caller otherwise; the entry the call adds to the catalog keeps the first
7 characters of that tag. -/
theorem collect_da_type_member_fc
    (recur : Option String → Option String → Option String → Nat →
      List DAEntry → Option (List DAEntry))
    (doTypeId pfx inheritedFc : Option String) (inheritedTrgOps : Nat)
    (child : XmlNode) (rest : List XmlNode) (da : List DAEntry) (nameStr : String)
    (hmember : isElem child "BDA" = true ∨ isElem child "DA" = true)
    (hname : xmlGetProp child "name" = some nameStr) :
    collect_da_children recur doTypeId pfx inheritedFc inheritedTrgOps (child :: rest) da
      = (match xmlGetProp child "type" with
          | some t =>
            recur (some t) (some (join_path pfx nameStr))
              ((xmlGetProp child "fc").or inheritedFc)
              (member_trgOps child inheritedTrgOps)
              (add_da_entry doTypeId (some (join_path pfx nameStr))
                ((xmlGetProp child "fc").or inheritedFc)
                (xmlGetProp child "bType") (xmlGetProp child "type")
                (member_trgOps child inheritedTrgOps) da)
          | none =>
            some (add_da_entry doTypeId (some (join_path pfx nameStr))
              ((xmlGetProp child "fc").or inheritedFc)
              (xmlGetProp child "bType") (xmlGetProp child "type")
              (member_trgOps child inheritedTrgOps) da)).bind
          (collect_da_children recur doTypeId pfx inheritedFc inheritedTrgOps rest) ∧
      (add_da_entry doTypeId (some (join_path pfx nameStr))
          ((xmlGetProp child "fc").or inheritedFc) (xmlGetProp child "bType")
          (xmlGetProp child "type") (member_trgOps child inheritedTrgOps) da = da ∨
        ∃ e : DAEntry,
          add_da_entry doTypeId (some (join_path pfx nameStr))
            ((xmlGetProp child "fc").or inheritedFc) (xmlGetProp child "bType")
            (xmlGetProp child "type") (member_trgOps child inheritedTrgOps) da = e :: da ∧
          e.fc = copyOpt 7 ((xmlGetProp child "fc").or inheritedFc)) := by
  have hspec : member_fc child inheritedFc = (xmlGetProp child "fc").or inheritedFc := by
    unfold member_fc
    cases xmlGetProp child "fc" <;> rfl
  constructor
  · rw [← hspec]
    exact collect_da_children_member recur doTypeId pfx inheritedFc inheritedTrgOps child rest da
      nameStr hmember hname
  · unfold add_da_entry
    cases doTypeId with
    | none => exact Or.inl rfl
    | some d =>
      simp only
      split
      · exact Or.inl rfl
      · exact Or.inr ⟨_, rfl, rfl⟩

/-- C5, witness: a member without `fc`, expanded with the inherited tag `MX`, is
registered with `MX`; its sibling with `fc="CF"` is registered with `CF`. -/
theorem collect_da_type_member_fc_witness :
    collect_da_children noRecursion (some "AnalogDO") (some "mag") (some "MX") 0
        [XmlNode.element "BDA" [("name", "f"), ("bType", "FLOAT32")] [],
         XmlNode.element "BDA" [("name", "i"), ("bType", "INT32"), ("fc", "CF")] []] []
      = some [⟨"AnalogDO", "mag.i", "CF", "INT32", "", 0⟩,
              ⟨"AnalogDO", "mag.f", "MX", "FLOAT32", "", 0⟩] :=
  ((collect_da_type_member_fc noRecursion (some "AnalogDO") (some "mag") (some "MX") 0
      (XmlNode.element "BDA" [("name", "f"), ("bType", "FLOAT32")] [])
      [XmlNode.element "BDA" [("name", "i"), ("bType", "INT32"), ("fc", "CF")] []]
      [] "f" (Or.inl rfl) rfl).1).trans (by decide)

/-! ## Paths and first registrations -/

theorem ne_of_length_ne {a b : String} (h : a.length ≠ b.length) : a ≠ b := by
  intro hab; exact h (by rw [hab])

theorem nonEmpty_some {s : String} (h : s ≠ "") : nonEmpty (some s) = true := by
  simp [nonEmpty, h]

theorem join_path_none (name : String) (h : name.length ≤ 255) :
    join_path none name = name := by
  simp [join_path, nonEmpty, trunc_of_le h]

theorem join_path_some (p name : String) (hp : p ≠ "")
    (h : (p ++ "." ++ name).length ≤ 255) : join_path (some p) name = p ++ "." ++ name := by
  simp [join_path, nonEmpty, hp, trunc_of_le h]

theorem find_add (d0 p0 fc b t : Option String) (trg : Nat) (l : List DAEntry)
    (d p : String) (hd : d.length < 63) (hp : p.length < 127) :
    icd_find_da_info (add_da_entry d0 p0 fc b t trg l) d p
      = (icd_find_da_info l d p).or
          (if (d0 == some d && p0 == some p) = true then
            some { fc := copyOpt 7 fc, bType := copyOpt 31 b, typeId := copyOpt 63 t,
                   trgOps := trg % 256 }
          else none) :=
  find_add_step ⟨d0, p0, fc, b, t, trg⟩ l d p hd hp

/-! ## C7 and C8 -/

theorem dataset_child_fcda (ds : DataSetEntryDef) (fcda : XmlNode)
    (h : isElem fcda "FCDA" = true) :
    dataset_child ds fcda = { ds with members := fcda_entry_of fcda :: ds.members } := by
  unfold dataset_child
  simp only [h, Bool.not_true, Bool.false_eq_true, if_false]
  rfl

theorem dataset_child_other (ds : DataSetEntryDef) (node : XmlNode)
    (h : isElem node "FCDA" = false) : dataset_child ds node = ds := by
  unfold dataset_child
  simp [h]

theorem foldl_dataset_child (nodes : List XmlNode) (ds : DataSetEntryDef) :
    nodes.foldl dataset_child ds
      = { ds with members :=
            ((nodes.filter (fun c => isElem c "FCDA")).map fcda_entry_of).reverse ++ ds.members } := by
  induction nodes generalizing ds with
  | nil => rfl
  | cons node rest ih =>
    rw [List.foldl_cons, ih, List.filter_cons]
    cases h : isElem node "FCDA"
    · rw [dataset_child_other ds node h]; rfl
    · rw [dataset_child_fcda ds node h]
      simp

theorem trunc_trunc (n : Nat) (s : String) : trunc n (trunc n s) = trunc n s :=
  trunc_of_le (by rw [trunc_length]; exact Nat.min_le_left _ _)

theorem fcda_info_entry_of (fcda : XmlNode) :
    fcda_info (fcda_entry_of fcda)
      = { ldInst := (fcda_entry_of fcda).ldInst, pfx := (fcda_entry_of fcda).pfx,
          lnClass := (fcda_entry_of fcda).lnClass, lnInst := (fcda_entry_of fcda).lnInst,
          doName := (fcda_entry_of fcda).doName, daName := (fcda_entry_of fcda).daName,
          fc := (fcda_entry_of fcda).fc } := by
  simp only [fcda_info, fcda_entry_of, trunc_trunc]

theorem dataset_matches_own_key (ds : DataSetEntryDef) :
    dataset_matches (some ds.ldInst) (some ds.lnName) (some ds.name) ds = true := by
  simp [dataset_matches]

theorem ln_child_dataset (ldInst : Option String) (lnName : String) (st : IcdState)
    (child : XmlNode) (dsName : String) (hel : isElem child "DataSet" = true)
    (hname : xmlGetProp child "name" = some dsName) :
    ln_child ldInst lnName st child
      = { st with dataset_list :=
            { ldInst := trunc 63 (ldInst.getD ""), lnName := trunc 63 lnName,
              name := trunc 95 dsName,
              members := ((fcda_children child).map fcda_entry_of).reverse } :: st.dataset_list } := by
  simp only [isElem, Bool.and_eq_true, beq_iff_eq] at hel
  unfold ln_child
  simp only [hel.1, hel.2, hname, Bool.not_true, Bool.false_eq_true, if_false, beq_self_eq_true,
    if_true, foldl_dataset_child, dataset_create, orEmpty, copyOpt, fcda_children,
    List.append_nil]

/-- C7, counterexample: the dataset `ds1` of `datasetDoc` lists the member of
object `A` before the member of object `B`; `icd_foreach_dataset_fcda` hands the
member of `B` to the callback first. -/
theorem dataset_members_delivered_last_first :
    (icd_load 2 (some datasetDoc) initialState).map
        (fun r =>
          (icd_foreach_dataset_fcda r.1 (some "LD0") (some "LLN0") (some "ds1")).map
            (fun i => i.doName))
      = some ["B", "A"] := by
  decide

/-- C7, amended: for every `DataSet` element with a name whose `FCDA` children are
`f1, ..., fn` in document order, the dataset linked for it keeps the members in
the order `fn, ..., f1`, and `icd_foreach_dataset_fcda`, asked for the key under
which that dataset is stored, invokes the callback on `fn` first and on `f1`
last, before the members of older datasets with the same key. -/
theorem dataset_members_reverse_order (ldInst : Option String) (lnName : String)
    (st : IcdState) (child : XmlNode) (dsName : String)
    (hel : isElem child "DataSet" = true) (hname : xmlGetProp child "name" = some dsName) :
    (ln_child ldInst lnName st child).dataset_list
        = { ldInst := trunc 63 (ldInst.getD ""), lnName := trunc 63 lnName,
            name := trunc 95 dsName,
            members := ((fcda_children child).map fcda_entry_of).reverse } :: st.dataset_list ∧
      icd_foreach_dataset_fcda (ln_child ldInst lnName st child)
          (some (trunc 63 (ldInst.getD ""))) (some (trunc 63 lnName)) (some (trunc 95 dsName))
        = ((fcda_children child).map (fun f => fcda_info (fcda_entry_of f))).reverse
            ++ icd_foreach_dataset_fcda st
                (some (trunc 63 (ldInst.getD ""))) (some (trunc 63 lnName))
                (some (trunc 95 dsName)) := by
  rw [ln_child_dataset ldInst lnName st child dsName hel hname]
  refine ⟨rfl, ?_⟩
  unfold icd_foreach_dataset_fcda
  simp only
  rw [List.filter_cons]
  have hm := dataset_matches_own_key
    { ldInst := trunc 63 (ldInst.getD ""), lnName := trunc 63 lnName, name := trunc 95 dsName,
      members := ((fcda_children child).map fcda_entry_of).reverse }
  simp only at hm
  rw [if_pos hm, List.flatMap_cons]
  simp [List.map_reverse]

/-- C7, witness: the element `sampleDataSet` under the node `LLN0` of `LD0`; the
member of `B`, listed last, is delivered first. -/
theorem dataset_members_reverse_order_witness :
    (icd_foreach_dataset_fcda (ln_child (some "LD0") "LLN0" initialState sampleDataSet)
        (some (trunc 63 "LD0")) (some (trunc 63 "LLN0")) (some (trunc 95 "ds1"))).map
        (fun i => i.doName)
      = ["B", "A"] :=
  (congrArg (List.map (fun i => i.doName))
    (dataset_members_reverse_order (some "LD0") "LLN0" initialState sampleDataSet "ds1"
      rfl rfl).2).trans (by decide)

/-- C8, counterexample: a member whose `ldInst` attribute has 64 characters is
stored, and delivered, with an `ldInst` field that differs from the attribute. -/
theorem long_ldInst_is_cut :
    (icd_foreach_dataset_fcda
        { initialState with
          dataset_list :=
            [dataset_child (dataset_create (some "LD0") (some "LLN0") (some "ds1"))
              (XmlNode.element "FCDA" [("ldInst", name64), ("doName", "A")] [])] }
        none none none).map (fun i => i.ldInst)
      = [trunc 63 name64] ∧ trunc 63 name64 ≠ name64 := by
  decide

/-- C8, amended: for every `FCDA` element, each of the seven stored fields is the
value of the attribute of the same name cut to the width of the field (63
characters for `ldInst`, `prefix`, `doName` and `daName`, 15 for `lnClass` and
`lnInst`, 7 for `fc`), hence the empty string when the attribute is absent or
empty; no default is substituted, and `icd_foreach_dataset_fcda` delivers the
seven fields as they are stored. -/
theorem fcda_fields_cut_to_width (ds : DataSetEntryDef) (fcda : XmlNode) (st : IcdState)
    (h : isElem fcda "FCDA" = true) :
    (dataset_child ds fcda).members = fcda_entry_of fcda :: ds.members ∧
      icd_foreach_dataset_fcda { st with dataset_list := [dataset_child ds fcda] } none none none
        = { ldInst := (fcda_entry_of fcda).ldInst, pfx := (fcda_entry_of fcda).pfx,
            lnClass := (fcda_entry_of fcda).lnClass, lnInst := (fcda_entry_of fcda).lnInst,
            doName := (fcda_entry_of fcda).doName, daName := (fcda_entry_of fcda).daName,
            fc := (fcda_entry_of fcda).fc } :: ds.members.map fcda_info ∧
      ∀ (a : String) (n : Nat), (xmlGetProp fcda a).getD "" = "" →
        trunc n ((xmlGetProp fcda a).getD "") = "" := by
  refine ⟨?_, ?_, ?_⟩
  · rw [dataset_child_fcda ds fcda h]
  · rw [dataset_child_fcda ds fcda h]
    unfold icd_foreach_dataset_fcda
    simp only
    have hm : ∀ d : DataSetEntryDef, dataset_matches none none none d = true := by
      intro d; simp [dataset_matches, nonEmpty]
    rw [List.filter_cons, if_pos (hm _), List.filter_nil, List.flatMap_cons, List.flatMap_nil,
      List.append_nil, List.map_cons, fcda_info_entry_of]
  · intro a n he
    rw [he, trunc_empty]

/-- C8, witness: a member without `ldInst` and `lnClass` is stored and delivered
with these two fields empty. -/
theorem fcda_fields_cut_to_width_witness :
    (icd_foreach_dataset_fcda
        { initialState with
          dataset_list :=
            [dataset_child (dataset_create (some "LD0") (some "LLN0") (some "ds1"))
              (XmlNode.element "FCDA" [("doName", "B"), ("fc", "ST")] [])] }
        none none none)
      = [{ ldInst := "", pfx := "", lnClass := "", lnInst := "", doName := "B", daName := "",
           fc := "ST" }] :=
  ((fcda_fields_cut_to_width (dataset_create (some "LD0") (some "LLN0") (some "ds1"))
      (XmlNode.element "FCDA" [("doName", "B"), ("fc", "ST")] []) initialState rfl).2.1).trans
    (by decide)

/-! ## C9 -/

/-- The record linked for a report control that has a name. -/
theorem collect_report_control_named (rc : XmlNode) (ldInst lnName : Option String)
    (st : IcdState) (h : (xmlGetProp rc "name").isSome = true) :
    (collect_report_control rc ldInst lnName st).report_list
      = report_with_host ldInst lnName (report_entry_of rc ((xmlGetProp rc "name").getD ""))
          :: st.report_list := by
  obtain ⟨n, hn⟩ := Option.isSome_iff_exists.mp h
  unfold collect_report_control
  rw [hn]
  rfl

theorem ln_child_report_list (ldInst : Option String) (lnName : String) (st : IcdState)
    (child : XmlNode) :
    (ln_child ldInst lnName st child).report_list
      = if isElem child "ReportControl" && (xmlGetProp child "name").isSome then
          report_with_host ldInst (some lnName)
            (report_entry_of child ((xmlGetProp child "name").getD "")) :: st.report_list
        else st.report_list := by
  unfold ln_child isElem
  cases hel : child.isElement
  · simp
  · simp only [Bool.not_true, Bool.false_eq_true, if_false, Bool.true_and]
    by_cases hds : child.tag = "DataSet"
    · have hne : (child.tag == "ReportControl") = false := by rw [hds]; decide
      simp only [hds, beq_self_eq_true, if_true]
      have : (("DataSet" : String) == "ReportControl") = false := by decide
      simp only [this, Bool.false_and, Bool.false_eq_true, if_false]
      split <;> rfl
    · have hds2 : (child.tag == "DataSet") = false := by simpa using hds
      simp only [hds2, Bool.false_eq_true, if_false]
      cases hrc : (child.tag == "ReportControl")
      · simp
      · simp only [if_true, Bool.true_and]
        cases hn : xmlGetProp child "name" with
        | none => simp [collect_report_control, hn]
        | some n =>
          have := collect_report_control_named child ldInst (some lnName) st (by rw [hn]; rfl)
          rw [this, hn]; simp

theorem foldl_ln_child_report_list (ldInst : Option String) (lnName : String) :
    ∀ (nodes : List XmlNode) (st : IcdState),
      (nodes.foldl (ln_child ldInst lnName) st).report_list
        = ((nodes.filter
              (fun c => isElem c "ReportControl" && (xmlGetProp c "name").isSome)).map
              (fun rc => report_with_host ldInst (some lnName)
                (report_entry_of rc ((xmlGetProp rc "name").getD "")))).reverse
            ++ st.report_list := by
  intro nodes
  induction nodes with
  | nil => intro st; rfl
  | cons node rest ih =>
    intro st
    rw [List.foldl_cons, ih, ln_child_report_list, List.filter_cons]
    cases h : (isElem node "ReportControl" && (xmlGetProp node "name").isSome)
    · simp
    · simp

theorem register_ln_instance_report_list (ldInst : Option String) (isLn0 : Bool)
    (pfx lnClass inst lnType lnName : Option String) (st : IcdState) :
    (register_ln_instance ldInst isLn0 pfx lnClass inst lnType lnName st).report_list
      = st.report_list := by
  unfold register_ln_instance
  split <;> rfl

theorem process_ln_report_list (lnNode : XmlNode) (ldInst : Option String) (st : IcdState) :
    (process_ln_for_datasets lnNode ldInst st).report_list
      = ((named_report_controls lnNode).map
            (fun rc => report_with_host ldInst (some (ln_name_of lnNode))
              (report_entry_of rc ((xmlGetProp rc "name").getD "")))).reverse
          ++ st.report_list := by
  unfold process_ln_for_datasets
  simp only
  rw [foldl_ln_child_report_list, register_ln_instance_report_list]
  rfl

/-- C9: for every logical node, every hosting device instance and every state,
`process_ln_for_datasets` adds exactly one report definition for each
`ReportControl` child that has a `name` attribute and none for a child without
one; when the children are two `ReportControl` elements of which only the second
has a name, the one definition added is the second's. -/
theorem report_controls_without_name_dropped (lnNode : XmlNode) (ldInst : Option String)
    (st : IcdState) :
    (process_ln_for_datasets lnNode ldInst st).report_list.length
        = st.report_list.length + (named_report_controls lnNode).length ∧
      ∀ (tag : String) (attrs : List (String × String)) (rc1 rc2 : XmlNode) (n : String),
        isElem rc1 "ReportControl" = true → xmlGetProp rc1 "name" = none →
        isElem rc2 "ReportControl" = true → xmlGetProp rc2 "name" = some n →
        (process_ln_for_datasets (XmlNode.element tag attrs [rc1, rc2]) ldInst st).report_list
          = report_with_host ldInst
              (some (ln_name_of (XmlNode.element tag attrs [rc1, rc2])))
              (report_entry_of rc2 n) :: st.report_list := by
  constructor
  · rw [process_ln_report_list]
    simp [Nat.add_comm]
  · intro tag attrs rc1 rc2 n h1 hn1 h2 hn2
    rw [process_ln_report_list]
    simp [named_report_controls, XmlNode.kids, h1, hn1, h2, hn2]

/-- C9, witness: the node `twoReportsNode` has a report control without name
followed by the report control `rcb2`; one definition results, named `rcb2`. -/
theorem report_controls_without_name_dropped_witness :
    ((process_ln_for_datasets twoReportsNode (some "LD0") initialState).report_list.map
        (fun e => (e.ldInst, e.lnName, e.name, e.dataSet, e.confRev, e.trgOps)))
      = [("LD0", "LLN0", "rcb2", "ds1", 2, 1)] :=
  (congrArg (List.map (fun e => (e.ldInst, e.lnName, e.name, e.dataSet, e.confRev, e.trgOps)))
    ((report_controls_without_name_dropped twoReportsNode (some "LD0") initialState).2
      "LN0" [("lnClass", "LLN0")]
      (XmlNode.element "ReportControl" [("rptID", "r1"), ("confRev", "1")] [])
      (XmlNode.element "ReportControl" [("name", "rcb2"), ("datSet", "ds1"), ("confRev", "2")]
        [XmlNode.element "TrgOps" [("dchg", "true")] []])
      "rcb2" rfl rfl rfl rfl)).trans (by decide)

/-! ## C10 -/

/-- C10, counterexample: with a prefix of 64 characters the composed name of a
non-root node is not the concatenation of prefix, class and instance number. -/
theorem compose_ln_name_cuts_long_name :
    compose_ln_name false (some name64) (some "MMXU") (some "1")
      ≠ name64 ++ "MMXU" ++ "1" := by
  decide

/-- C10, amended: a root node composes to `LLN0` whatever its attributes are; a
non-root node composes to the first 63 characters of prefix, class and instance
number joined without separator or padding, a missing or empty attribute
contributing nothing; prefix `""`, class `MMXU`, instance `1` give `MMXU1`. -/
theorem compose_ln_name_spec (pfx lnClass inst : Option String) :
    compose_ln_name true pfx lnClass inst = "LLN0" ∧
      compose_ln_name false pfx lnClass inst
        = trunc 63 (pfx.getD "" ++ lnClass.getD "" ++ inst.getD "") ∧
      compose_ln_name false (some "") (some "MMXU") (some "1") = "MMXU1" :=
  ⟨rfl, compose_ln_name_eq pfx lnClass inst, by decide⟩

/-! ## C11 -/

theorem nonEmpty_eq (o : Option String) : nonEmpty o = !(o.getD "" == "") := by
  cases o with
  | none => rfl
  | some s => simp [nonEmpty, bne]

theorem parts_match_eq_rule (ldInst pfx lnClass lnInst : Option String) (e : LNInstEntry) :
    parts_match ldInst pfx lnClass lnInst e = parts_rule ldInst pfx lnClass lnInst e := by
  unfold parts_match parts_rule
  rw [nonEmpty_eq ldInst, nonEmpty_eq pfx, nonEmpty_eq lnClass, nonEmpty_eq lnInst]
  by_cases h1 : ldInst.getD "" = "" <;> by_cases h2 : pfx.getD "" = "" <;>
    by_cases h3 : lnClass.getD "" = "" <;> by_cases h4 : lnInst.getD "" = "" <;>
    simp [h1, h2, h3, h4, bne]

/-- C11, counterexample: an instance stored with device instance `LD0` is found by
a query whose device instance is empty. -/
theorem empty_device_instance_is_a_wildcard :
    icd_find_ln_type_by_parts
        [{ ldInst := "LD0", pfx := "", lnClass := "MMXU", lnInst := "1", lnType := "T1",
           lnName := "MMXU1", isLn0 := false }]
        (some "") (some "") (some "MMXU") (some "1")
      = some "T1" := by
  decide

/-- C11, amended: `icd_find_ln_type_by_parts` returns the type of the first stored instance
whose prefix and instance number equal those of the query exactly (an
empty or absent query value requires the stored value to be empty), whose device instance
equals the one of the query when the query gives a non-empty one, and
whose class tag equals the one of the query when the query gives a non-empty
one: an empty device instance and an empty class tag both match any stored
value. -/
theorem find_ln_type_by_parts_rule (l : List LNInstEntry)
    (ldInst pfx lnClass lnInst : Option String) :
    icd_find_ln_type_by_parts l ldInst pfx lnClass lnInst
        = (l.find? (parts_rule ldInst pfx lnClass lnInst)).map (fun e => trunc 63 e.lnType) ∧
      ((icd_find_ln_type_by_parts l ldInst pfx lnClass lnInst).isSome = true ↔
        ∃ e ∈ l, (ldInst.getD "" = "" ∨ e.ldInst = ldInst.getD "") ∧ e.pfx = pfx.getD "" ∧
          (lnClass.getD "" = "" ∨ e.lnClass = lnClass.getD "") ∧ e.lnInst = lnInst.getD "") := by
  have hfun : parts_match ldInst pfx lnClass lnInst = parts_rule ldInst pfx lnClass lnInst :=
    funext (parts_match_eq_rule ldInst pfx lnClass lnInst)
  have h1 : icd_find_ln_type_by_parts l ldInst pfx lnClass lnInst
      = (l.find? (parts_rule ldInst pfx lnClass lnInst)).map (fun e => trunc 63 e.lnType) := by
    unfold icd_find_ln_type_by_parts
    rw [hfun]
  refine ⟨h1, ?_⟩
  rw [h1, Option.isSome_map', List.find?_isSome]
  constructor
  · rintro ⟨e, he, hm⟩
    refine ⟨e, he, ?_⟩
    simpa [parts_rule, and_assoc] using hm
  · rintro ⟨e, he, hm⟩
    refine ⟨e, he, ?_⟩
    simpa [parts_rule, and_assoc] using hm

/-! ## C17 -/

/-- C17: from every state, after `icd_unload` the six catalogs are empty, every
lookup returns `false` and every enumeration hands nothing to its callback;
unloading a second time changes nothing, and unloading the state of a process
that never loaded yields that same state. -/
theorem icd_unload_clears_and_is_idempotent (st : IcdState) :
    ((icd_unload st).do_list = [] ∧ (icd_unload st).da_list = [] ∧
        (icd_unload st).ln_list = [] ∧ (icd_unload st).ln_instances = [] ∧
        (icd_unload st).dataset_list = [] ∧ (icd_unload st).report_list = []) ∧
      ((∀ a b, icd_find_do_info (icd_unload st).do_list a b = none) ∧
        (∀ a b, icd_find_da_info (icd_unload st).da_list a b = none) ∧
        (∀ a b, icd_da_exists (icd_unload st).da_list a b = false) ∧
        (∀ a, icd_lookup_ln_class (icd_unload st).ln_list a = none) ∧
        (∀ a b, icd_find_ln_type_by_name (icd_unload st).ln_instances a b = none) ∧
        (∀ a b c d, icd_find_ln_type_by_parts (icd_unload st).ln_instances a b c d = none)) ∧
      ((∀ a, icd_foreach_da (icd_unload st) a = []) ∧
        (∀ a, icd_foreach_do (icd_unload st) a = []) ∧
        icd_foreach_ln_instance (icd_unload st) = [] ∧
        icd_foreach_dataset (icd_unload st) = [] ∧
        (∀ a b c, icd_foreach_dataset_fcda (icd_unload st) a b c = []) ∧
        icd_foreach_report (icd_unload st) = []) ∧
      icd_unload (icd_unload st) = icd_unload st ∧
      icd_unload initialState = initialState := by
  refine ⟨⟨rfl, rfl, rfl, rfl, rfl, rfl⟩, ⟨?_, ?_, ?_, ?_, ?_, ?_⟩, ⟨?_, ?_, rfl, rfl, ?_, rfl⟩,
    rfl, rfl⟩
  · intro a b; cases a <;> cases b <;> rfl
  · intro a b; rfl
  · intro a b; rfl
  · intro a; cases a <;> rfl
  · intro a b; cases b <;> rfl
  · intro a b c d; rfl
  · intro a; cases a <;> rfl
  · intro a; cases a <;> rfl
  · intro a b c; rfl

/-! ## C20 -/

theorem ln_any_eq_isSome (l : List LNEntry) (n : String) :
    l.any (fun e => e.name == n) = (icd_lookup_ln_class l (some n)).isSome := by
  unfold icd_lookup_ln_class
  simp only [Option.isSome_map']
  induction l with
  | nil => rfl
  | cons e rest ih =>
    rw [List.any_cons, List.find?_cons]
    cases h : (e.name == n)
    · simpa using ih
    · simp

/-- One call of `add_ln_entry` seen from the lookup of the name `n`. -/
theorem lookup_add_ln_step (c : Option String × Option String) (l : List LNEntry) (n : String)
    (h : n.length < 63 ∨ ∀ m, c.1 = some m → m.length ≤ 63) :
    icd_lookup_ln_class (add_ln_entry c.1 c.2 l) (some n)
      = (icd_lookup_ln_class l (some n)).or
          (if ln_call_registers n c then some (trunc 15 (c.2.getD "")) else none) := by
  obtain ⟨c1, c2⟩ := c
  cases c1 with
  | none =>
    have : ln_call_registers n (none, c2) = false := by simp [ln_call_registers]
    simp only [add_ln_entry, this]
    cases icd_lookup_ln_class l (some n) <;> rfl
  | some m =>
    cases c2 with
    | none =>
      have : ln_call_registers n (some m, none) = false := by simp [ln_call_registers, nonEmpty]
      simp only [add_ln_entry, this]
      cases icd_lookup_ln_class l (some n) <;> rfl
    | some cls =>
      simp only [add_ln_entry]
      by_cases hempty : (m == "" || cls == "") = true
      · have : ln_call_registers n (some m, some cls) = false := by
          simp only [Bool.or_eq_true, beq_iff_eq] at hempty
          rcases hempty with h1 | h1
          · by_cases hmn : m = n
            · subst hmn; simp [ln_call_registers, h1]
            · simp [ln_call_registers, hmn]
          · simp [ln_call_registers, nonEmpty, h1]
        rw [if_pos hempty, this]
        cases icd_lookup_ln_class l (some n) <;> rfl
      · rw [if_neg hempty]
        simp only [Bool.or_eq_true, beq_iff_eq, not_or] at hempty
        by_cases hany : l.any (fun e => e.name == m) = true
        · rw [if_pos hany]
          rw [ln_any_eq_isSome] at hany
          by_cases hmn : m = n
          · subst hmn
            obtain ⟨v, hv⟩ := Option.isSome_iff_exists.mp hany
            rw [hv]; rfl
          · have : ln_call_registers n (some m, some cls) = false := by
              simp [ln_call_registers, hmn]
            rw [this]
            cases icd_lookup_ln_class l (some n) <;> rfl
        · rw [if_neg hany]
          rw [ln_any_eq_isSome] at hany
          have hkey : (trunc 63 m == n) = (m == n) := by
            by_cases hmn : m = n
            · subst hmn
              have hle : m.length ≤ 63 := by
                rcases h with h | h
                · exact Nat.le_of_lt h
                · exact h m rfl
              simp [trunc_of_le hle]
            · have : trunc 63 m ≠ n := by
                intro ht
                rcases h with h | h
                · exact hmn (eq_of_trunc_eq ht h)
                · rw [trunc_of_le (h m rfl)] at ht; exact hmn ht
              simp [hmn, this]
          rw [icd_lookup_ln_class, List.find?_cons]
          simp only [hkey]
          by_cases hmn : m = n
          · subst hmn
            have hn : icd_lookup_ln_class l (some m) = none := by
              cases hx : icd_lookup_ln_class l (some m) with
              | none => rfl
              | some v => rw [hx] at hany; simp at hany
            have hr : ln_call_registers m (some m, some cls) = true := by
              simp [ln_call_registers, nonEmpty, hempty.1, hempty.2]
            rw [hn, hr]
            simp [trunc_trunc]
          · have hr : ln_call_registers n (some m, some cls) = false := by
              simp [ln_call_registers, hmn]
            have hf : (m == n) = false := by simpa using hmn
            rw [hr, hf]
            show icd_lookup_ln_class l (some n) = _
            cases icd_lookup_ln_class l (some n) <;> rfl

theorem lookup_run_ln_calls (n : String) :
    ∀ (calls : List (Option String × Option String)) (l : List LNEntry),
      (n.length < 63 ∨ ∀ c ∈ calls, ∀ m, c.1 = some m → m.length ≤ 63) →
      icd_lookup_ln_class (run_ln_calls calls l) (some n)
        = (icd_lookup_ln_class l (some n)).or
            ((calls.find? (ln_call_registers n)).map (fun c => trunc 15 (c.2.getD ""))) := by
  intro calls
  induction calls with
  | nil => intro l _; simp [run_ln_calls]
  | cons c rest ih =>
    intro l h
    have hrun : run_ln_calls (c :: rest) l = run_ln_calls rest (add_ln_entry c.1 c.2 l) := rfl
    have hrest : n.length < 63 ∨ ∀ c ∈ rest, ∀ m, c.1 = some m → m.length ≤ 63 := by
      rcases h with h | h
      · exact Or.inl h
      · exact Or.inr (fun x hx => h x (List.mem_cons_of_mem _ hx))
    have hc : n.length < 63 ∨ ∀ m, c.1 = some m → m.length ≤ 63 := by
      rcases h with h | h
      · exact Or.inl h
      · exact Or.inr (h c (List.mem_cons_self _ _))
    rw [hrun, ih _ hrest, lookup_add_ln_step c l n hc, List.find?_cons]
    cases icd_lookup_ln_class l (some n) with
    | some v => rfl
    | none =>
      cases hk : ln_call_registers n c
      · simp
      · simp

/-- C20, counterexample: a class tag of 16 characters is returned without its
last character, and a name of 64 characters is not found at all. -/
theorem long_class_is_cut_and_long_name_is_lost :
    icd_lookup_ln_class (run_ln_calls [(some "LLN0", some "ABCDEFGHIJKLMNOP")] []) (some "LLN0")
        = some "ABCDEFGHIJKLMNO" ∧
      icd_lookup_ln_class (run_ln_calls [(some name64, some "MMXU")] []) (some name64)
        = none := by
  decide

/-- C20, amended: for every sequence of `add_ln_entry` calls and every name
shorter than 63 characters (or every name at all, when no call was made with a
name longer than 63 characters), `icd_lookup_ln_class` returns the first 15
characters of the class tag given by the first call made with that name, a
non-empty name and a non-empty class, and fails when there is no such call; a
later call for a name that is already registered leaves the table unchanged. -/
theorem node_class_first_wins (calls : List (Option String × Option String)) (n : String)
    (h : n.length < 63 ∨ ∀ c ∈ calls, ∀ m, c.1 = some m → m.length ≤ 63) :
    icd_lookup_ln_class (run_ln_calls calls []) (some n)
        = (calls.find? (ln_call_registers n)).map (fun c => trunc 15 (c.2.getD "")) ∧
      ∀ cls : Option String, (∃ c0 ∈ calls, ln_call_registers n c0 = true) →
        run_ln_calls (calls ++ [(some n, cls)]) [] = run_ln_calls calls [] := by
  have hfind : icd_lookup_ln_class (run_ln_calls calls []) (some n)
      = (calls.find? (ln_call_registers n)).map (fun c => trunc 15 (c.2.getD "")) := by
    rw [lookup_run_ln_calls n calls [] h]
    rfl
  refine ⟨hfind, ?_⟩
  intro cls hex
  have hsome : (icd_lookup_ln_class (run_ln_calls calls []) (some n)).isSome = true := by
    rw [hfind, Option.isSome_map', List.find?_isSome]
    exact hex
  have hrun : run_ln_calls (calls ++ [(some n, cls)]) []
      = add_ln_entry (some n) cls (run_ln_calls calls []) := by
    simp [run_ln_calls, List.foldl_append]
  rw [hrun]
  have hany := (ln_any_eq_isSome (run_ln_calls calls []) n).trans hsome
  unfold add_ln_entry
  cases cls with
  | none => rfl
  | some c =>
    simp only [hany, if_true]
    split <;> rfl

/-- C20, witness: `LLN0` is registered with class `LLN0` and then again with class
`GGIO`; the lookup returns `LLN0`. -/
theorem node_class_first_wins_witness :
    icd_lookup_ln_class
        (run_ln_calls [(some "LLN0", some "LLN0"), (some "LLN0", some "GGIO")] []) (some "LLN0")
      = some "LLN0" :=
  ((node_class_first_wins [(some "LLN0", some "LLN0"), (some "LLN0", some "GGIO")] "LLN0"
      (Or.inl (by decide))).1).trans (by decide)

/-! ## What each stage of the load leaves alone -/

theorem ln_child_keeps {β : Type}
    (g : IcdState → β)
    (hg : ∀ st a b c, g { st with ln_instances := a, dataset_list := b, report_list := c } = g st)
    (ldInst : Option String) (lnName : String) (st : IcdState) (child : XmlNode) :
    g (ln_child ldInst lnName st child) = g st := by
  unfold ln_child
  split
  · rfl
  · split
    · split
      · rfl
      · exact hg st st.ln_instances _ st.report_list
    · split
      · unfold collect_report_control
        split
        · rfl
        · exact hg st st.ln_instances st.dataset_list _
      · rfl

theorem process_ln_for_datasets_keeps {β : Type}
    (g : IcdState → β)
    (hg : ∀ st a b c, g { st with ln_instances := a, dataset_list := b, report_list := c } = g st)
    (lnNode : XmlNode) (ldInst : Option String) (st : IcdState) :
    g (process_ln_for_datasets lnNode ldInst st) = g st := by
  unfold process_ln_for_datasets
  simp only
  rw [foldl_frame g _ (ln_child_keeps g hg _ _)]
  unfold register_ln_instance
  exact hg st _ st.dataset_list st.report_list

theorem process_access_point_keeps {β : Type}
    (g : IcdState → β)
    (hg : ∀ st a b c, g { st with ln_instances := a, dataset_list := b, report_list := c } = g st)
    (ap : XmlNode) (st : IcdState) : g (process_access_point ap st) = g st := by
  unfold process_access_point
  apply foldl_frame g
  intro s x
  split
  · rfl
  · apply foldl_frame g
    intro s2 ld
    unfold server_child
    split
    · rfl
    · apply foldl_frame g
      intro s3 ln
      unfold ldevice_child
      split
      · exact process_ln_for_datasets_keeps g hg _ _ _
      · rfl

theorem find_active_ied_scan_keeps {β : Type}
    (g : IcdState → β)
    (hg : ∀ st a b, g { st with selected_ied_name := a, selected_ap_name := b } = g st) :
    ∀ (nodes : List XmlNode) (fm : Option NodeAt) (st : IcdState),
      g (find_active_ied_scan nodes fm st).2.2 = g st := by
  have hset : ∀ (name : Option String) (st : IcdState), g (set_selected_ied name st) = g st := by
    intro name st
    unfold set_selected_ied
    split
    · rfl
    · split
      · exact hg st _ _
      · rfl
  intro nodes
  induction nodes with
  | nil => intro fm st; rfl
  | cons ied rest ih =>
    intro fm st
    unfold find_active_ied_scan
    split
    · exact ih _ _
    · simp only
      split_ifs <;> simp [ih, hset]

theorem find_active_ied_keeps {β : Type}
    (g : IcdState → β)
    (hg : ∀ st a b, g { st with selected_ied_name := a, selected_ap_name := b } = g st)
    (root : XmlNode) (st : IcdState) : g (find_active_ied root st).2 = g st := by
  have h := find_active_ied_scan_keeps g hg root.kids none st
  unfold find_active_ied
  simp only
  split
  · rename_i heq; rw [heq] at h; exact h
  · rename_i heq; rw [heq] at h
    split
    · exact (hg _ _ _).trans h
    · exact h
  · rename_i heq; rw [heq] at h
    split
    · rename_i st1 _
      exact (hg st1 "" st1.selected_ap_name).trans h
    · exact h

theorem collect_dataset_scan_keeps {β : Type}
    (g : IcdState → β)
    (hg : ∀ st a b c, g { st with ln_instances := a, dataset_list := b, report_list := c } = g st)
    (hap : ∀ st a, g { st with selected_ap_name := a } = g st) :
    ∀ (nodes : List XmlNode) (fa : Option (XmlNode × String)) (st : IcdState),
      g (collect_dataset_scan nodes fa st).2.2 = g st := by
  have hset : ∀ (name : Option String) (st : IcdState), g (set_selected_ap name st) = g st := by
    intro name st
    unfold set_selected_ap
    split
    · rfl
    · split
      · exact hap st _
      · rfl
  intro nodes
  induction nodes with
  | nil => intro fa st; rfl
  | cons ap rest ih =>
    intro fa st
    unfold collect_dataset_scan
    split
    · exact ih _ _
    · simp only
      split_ifs <;> simp [ih, hset, process_access_point_keeps g hg]

theorem collect_dataset_nodes_keeps {β : Type}
    (g : IcdState → β)
    (hg : ∀ st a b c, g { st with ln_instances := a, dataset_list := b, report_list := c } = g st)
    (hap : ∀ st a, g { st with selected_ap_name := a } = g st)
    (ied : XmlNode) (st : IcdState) : g (collect_dataset_nodes ied st) = g st := by
  have h := collect_dataset_scan_keeps g hg hap ied.kids none st
  unfold collect_dataset_nodes
  simp only
  split
  · rename_i heq; rw [heq] at h; exact h
  · rename_i heq; rw [heq] at h
    rw [process_access_point_keeps g hg]
    exact (hap _ _).trans h
  · rename_i heq; rw [heq] at h
    split
    · exact (hap _ _).trans h
    · exact h

theorem parse_do_nodes_keeps {β : Type}
    (g : IcdState → β) (hg : ∀ st a b, g { st with do_list := a, da_list := b } = g st)
    (fuel : Nat) (templates : XmlNode) (lnClass lnTypeId : Option String) :
    ∀ (nodes : List XmlNode) (st st' : IcdState),
      parse_do_nodes fuel templates lnClass lnTypeId nodes st = some st' → g st' = g st := by
  intro nodes
  induction nodes with
  | nil => intro st st' h; simp [parse_do_nodes] at h; subst h; rfl
  | cons doNode rest ih =>
    intro st st' h
    unfold parse_do_nodes at h
    split at h
    · exact ih st st' h
    · simp only at h
      split at h
      · exact ih st st' h
      · split at h
        · cases h
        · exact (ih _ st' h).trans (hg st _ _)

theorem parse_lnodetypes_keeps {β : Type}
    (g : IcdState → β) (hg : ∀ st a b, g { st with do_list := a, da_list := b } = g st)
    (fuel : Nat) (templates : XmlNode) :
    ∀ (nodes : List XmlNode) (st st' : IcdState),
      parse_lnodetypes fuel templates nodes st = some st' → g st' = g st := by
  intro nodes
  induction nodes with
  | nil => intro st st' h; simp [parse_lnodetypes] at h; subst h; rfl
  | cons ln rest ih =>
    intro st st' h
    unfold parse_lnodetypes at h
    split at h
    · exact ih st st' h
    · obtain ⟨st1, hr, h2⟩ := Option.bind_eq_some.mp h
      exact (ih st1 st' h2).trans (parse_do_nodes_keeps g hg _ _ _ _ _ _ _ hr)

/-! ## C19 -/

theorem parse_do_nodes_do_list (fuel : Nat) (templates : XmlNode)
    (lnClass lnTypeId : Option String) :
    ∀ (nodes : List XmlNode) (st st' : IcdState),
      parse_do_nodes fuel templates lnClass lnTypeId nodes st = some st' →
      st'.do_list
        = ((nodes.filter (do_is_registered templates)).map
            (do_entry_of templates lnClass lnTypeId)).reverse ++ st.do_list := by
  intro nodes
  induction nodes with
  | nil => intro st st' h; simp [parse_do_nodes] at h; subst h; rfl
  | cons doNode rest ih =>
    intro st st' h
    unfold parse_do_nodes at h
    split at h
    · rename_i hel
      have hel' : isElem doNode "DO" = false := by simpa using hel
      have hreg : do_is_registered templates doNode = false := by
        unfold do_is_registered; rw [hel']; rfl
      rw [List.filter_cons, hreg]
      exact ih st st' h
    · rename_i hel
      have hel' : isElem doNode "DO" = true := by simpa using hel
      simp only at h
      split at h
      · rename_i hfind
        have hreg : do_is_registered templates doNode = false := by
          unfold do_is_registered; rw [hfind]; simp
        rw [List.filter_cons, hreg]
        exact ih st st' h
      · rename_i doTypeNode hfind
        have hreg : do_is_registered templates doNode = true := by
          unfold do_is_registered; rw [hfind, hel']; rfl
        split at h
        · cases h
        · rw [ih _ st' h, List.filter_cons, hreg]
          simp [do_entry_of, hfind]

theorem parse_lnodetypes_do_list (fuel : Nat) (templates : XmlNode) :
    ∀ (nodes : List XmlNode) (st st' : IcdState),
      parse_lnodetypes fuel templates nodes st = some st' →
      st'.do_list
        = ((nodes.filter (fun n => isElem n "LNodeType")).flatMap
            (lnodetype_entries templates)).reverse ++ st.do_list := by
  intro nodes
  induction nodes with
  | nil => intro st st' h; simp [parse_lnodetypes] at h; subst h; rfl
  | cons ln rest ih =>
    intro st st' h
    unfold parse_lnodetypes at h
    split at h
    · rename_i hel
      have hel' : isElem ln "LNodeType" = false := by simpa using hel
      rw [List.filter_cons, hel']
      exact ih st st' h
    · rename_i hel
      have hel' : isElem ln "LNodeType" = true := by simpa using hel
      obtain ⟨st1, hr, h2⟩ := Option.bind_eq_some.mp h
      rw [ih st1 st' h2, parse_do_nodes_do_list _ _ _ _ _ _ _ hr, List.filter_cons, hel']
      simp [lnodetype_entries]

theorem parse_icd_do_list (fuel : Nat) (root templates : XmlNode) (st st' : IcdState)
    (ht : find_node root.kids "DataTypeTemplates" none none = some templates)
    (h : parse_icd fuel root st = some st') :
    st'.do_list = (all_do_entries templates).reverse ++ st.do_list := by
  unfold parse_icd at h
  rw [ht] at h
  simp only at h
  split at h
  · cases h
  · rename_i st1 h1
    have hd := parse_lnodetypes_do_list _ _ _ _ _ h1
    have hfa := find_active_ied_keeps IcdState.do_list (fun _ _ _ => rfl) root st1
    split at h
    · rename_i st2 heq
      rw [heq] at hfa
      cases h
      exact hfa.trans hd
    · rename_i activeIed st2 heq
      rw [heq] at hfa
      cases h
      rw [collect_dataset_nodes_keeps IcdState.do_list (fun _ _ _ _ => rfl) (fun _ _ => rfl)]
      exact hfa.trans hd

theorem find_at_some_mem {p : XmlNode → Bool} :
    ∀ {l : List XmlNode} {x : NodeAt}, find_at p l = some x → x.1 ∈ l ∧ p x.1 = true := by
  intro l
  induction l with
  | nil => intro x h; simp [find_at] at h
  | cons y rest ih =>
    intro x h
    unfold find_at at h
    split at h
    · cases h
      rename_i hp
      exact ⟨List.mem_cons_self _ _, hp⟩
    · obtain ⟨h1, h2⟩ := ih h
      exact ⟨List.mem_cons_of_mem _ h1, h2⟩

theorem find_at_none {p : XmlNode → Bool} :
    ∀ {l : List XmlNode}, find_at p l = none → ∀ y ∈ l, p y = false := by
  intro l
  induction l with
  | nil => intro _ y hy; cases hy
  | cons z rest ih =>
    intro h y hy
    unfold find_at at h
    split at h
    · cases h
    · rename_i hp
      rcases List.mem_cons.mp hy with hyz | hyr
      · subst hyz; simpa using hp
      · exact ih h y hyr

/-- The first node satisfying `p` is also the first satisfying a stronger test
that it passes. -/
theorem find_at_stronger {p q : XmlNode → Bool} (hqp : ∀ y, q y = true → p y = true) :
    ∀ {l : List XmlNode} {x : NodeAt}, find_at p l = some x → q x.1 = true →
      find_at q l = some x := by
  intro l
  induction l with
  | nil => intro x h; simp [find_at] at h
  | cons y rest ih =>
    intro x h hq
    unfold find_at at h ⊢
    split at h
    · cases h
      rw [if_pos hq]
    · rename_i hp
      have hqy : ¬ q y = true := fun hc => hp (hqp y hc)
      rw [if_neg hqy]
      exact ih h hq

theorem scan_with_preference (s : String) (hs : s ≠ "") :
    ∀ (nodes : List XmlNode) (fm : Option NodeAt) (st : IcdState),
      st.selected_ied_name = s →
      find_active_ied_scan nodes fm st
        = (find_at (is_ied_named s) nodes,
            (find_active_ied_scan nodes fm st).2.1, st) ∧
      (find_at (is_ied_named s) nodes = none →
        (find_active_ied_scan nodes fm st).2.1
          = match fm with
            | some f => some f
            | none => find_at is_named_ied nodes) := by
  intro nodes
  induction nodes with
  | nil =>
    intro fm st _
    refine ⟨rfl, fun _ => ?_⟩
    cases fm <;> rfl
  | cons ied rest ih =>
    intro fm st hst
    have hsel : (st.selected_ied_name == "") = false := by
      rw [hst]; simpa using hs
    by_cases hel : isElem ied "IED" = true
    · have hscan : find_active_ied_scan (ied :: rest) fm st
          = if (node_name ied != "" && st.selected_ied_name == node_name ied) = true then
              (some (ied, rest),
                (if (fm.isNone && node_name ied != "") = true then some (ied, rest) else fm), st)
            else find_active_ied_scan rest
              (if (fm.isNone && node_name ied != "") = true then some (ied, rest) else fm) st := by
        rw [find_active_ied_scan]
        simp only [hel, hsel, Bool.not_true, Bool.false_eq_true, if_false, Bool.false_and,
          node_name, bne, Bool.not_false, Bool.true_and]
      by_cases hname : node_name ied = s
      · have hne : node_name ied ≠ "" := by rw [hname]; exact hs
        have hcond : (node_name ied != "" && st.selected_ied_name == node_name ied) = true := by
          simp [hst, hname, hs]
        have hfind : find_at (is_ied_named s) (ied :: rest) = some (ied, rest) := by
          simp [find_at, is_ied_named, hel, hname]
        rw [hscan, if_pos hcond, hfind]
        exact ⟨rfl, fun hc => by cases hc⟩
      · have hcond : ¬ (node_name ied != "" && st.selected_ied_name == node_name ied) = true := by
          rw [hst]
          simp only [Bool.and_eq_true, beq_iff_eq, not_and]
          intro _ hc
          exact hname hc.symm
        have hfind : find_at (is_ied_named s) (ied :: rest) = find_at (is_ied_named s) rest := by
          simp [find_at, is_ied_named, hel, hname]
        rw [hscan, if_neg hcond, hfind]
        obtain ⟨h1, h2⟩ := ih (if (fm.isNone && node_name ied != "") = true then some (ied, rest)
          else fm) st hst
        refine ⟨h1, fun hnone => ?_⟩
        rw [h2 hnone]
        cases fm with
        | some f => rfl
        | none =>
          by_cases hn : node_name ied = ""
          · simp [find_at, is_named_ied, hel, hn]
          · simp [find_at, is_named_ied, hel, hn]
    · have hel' : isElem ied "IED" = false := by simpa using hel
      have hscan : find_active_ied_scan (ied :: rest) fm st = find_active_ied_scan rest fm st := by
        rw [find_active_ied_scan]
        simp [hel']
      have hfind : find_at (is_ied_named s) (ied :: rest) = find_at (is_ied_named s) rest := by
        simp [find_at, is_ied_named, hel']
      have hfind2 : find_at is_named_ied (ied :: rest) = find_at is_named_ied rest := by
        simp [find_at, is_named_ied, hel']
      rw [hscan, hfind, hfind2]
      exact ih fm st hst

theorem scan_without_preference :
    ∀ (nodes : List XmlNode) (st : IcdState), st.selected_ied_name = "" →
      (find_at is_named_ied nodes = none → find_active_ied_scan nodes none st = (none, none, st)) ∧
      (∀ x : NodeAt, find_at is_named_ied nodes = some x → (node_name x.1).length ≤ 63 →
        find_active_ied_scan nodes none st
          = (some x, some x,
              { st with selected_ied_name := trunc 63 (node_name x.1), selected_ap_name := "" })) := by
  intro nodes
  induction nodes with
  | nil =>
    intro st _
    exact ⟨fun _ => rfl, fun x h => by simp [find_at] at h⟩
  | cons ied rest ih =>
    intro st hst
    have hsel : (st.selected_ied_name == "") = true := by rw [hst]; rfl
    by_cases hel : isElem ied "IED" = true
    · by_cases hn : node_name ied = ""
      · have hscan : find_active_ied_scan (ied :: rest) none st
            = find_active_ied_scan rest none st := by
          rw [find_active_ied_scan]
          have hn' : (xmlGetProp ied "name").getD "" = "" := hn
          simp [hel, hn']
        have hfind : find_at is_named_ied (ied :: rest) = find_at is_named_ied rest := by
          simp [find_at, is_named_ied, hel, hn]
        rw [hscan, hfind]
        exact ih st hst
      · have hfind : find_at is_named_ied (ied :: rest) = some (ied, rest) := by
          simp [find_at, is_named_ied, hel, hn]
        rw [hfind]
        refine ⟨fun hc => (by cases hc), fun x hx hlen => ?_⟩
        cases hx
        have hn' : ¬ (xmlGetProp ied "name").getD "" = "" := hn
        have hcut : trunc 63 ((xmlGetProp ied "name").getD "") = (xmlGetProp ied "name").getD "" :=
          trunc_of_le hlen
        rw [find_active_ied_scan]
        simp [hel, hsel, hn', set_selected_ied, nonEmpty, hcut, node_name, hst]
    · have hel' : isElem ied "IED" = false := by simpa using hel
      have hscan : find_active_ied_scan (ied :: rest) none st
          = find_active_ied_scan rest none st := by
        rw [find_active_ied_scan]
        simp [hel']
      have hfind : find_at is_named_ied (ied :: rest) = find_at is_named_ied rest := by
        simp [find_at, is_named_ied, hel']
      rw [hscan, hfind]
      exact ih st hst

theorem named_of_ied_named {s : String} (hs : s ≠ "") (y : XmlNode)
    (h : is_ied_named s y = true) : is_named_ied y = true := by
  simp only [is_ied_named, Bool.and_eq_true, beq_iff_eq] at h
  simp [is_named_ied, h.1, h.2, hs]

/-- The function `find_active_ied` follows the device selection rule; without a
preference this needs the first named device to have a name that fits. -/
theorem find_active_ied_eq (root : XmlNode) (st : IcdState)
    (hfit : st.selected_ied_name = "" → ∀ x0 : NodeAt,
      find_at is_named_ied root.kids = some x0 → (node_name x0.1).length ≤ 63) :
    find_active_ied root st
      = ((chosen_ied root.kids st.selected_ied_name st.selected_ap_name).1,
          { st with
            selected_ied_name :=
              (chosen_ied root.kids st.selected_ied_name st.selected_ap_name).2.1
            selected_ap_name :=
              (chosen_ied root.kids st.selected_ied_name st.selected_ap_name).2.2 }) := by
  by_cases hs : st.selected_ied_name = ""
  · have hb : (st.selected_ied_name != "") = false := by simp [hs]
    obtain ⟨h1, h2⟩ := scan_without_preference root.kids st hs
    unfold find_active_ied chosen_ied
    simp only [hb, Bool.false_eq_true, if_false]
    cases hnamed : find_at is_named_ied root.kids with
    | none =>
      rw [h1 hnamed]
      simp only
      cases st
      simp_all
    | some x0 =>
      rw [h2 x0 hnamed (hfit hs x0 hnamed)]
  · have hb : (st.selected_ied_name != "") = true := by simp [hs]
    obtain ⟨h1, h2⟩ := scan_with_preference st.selected_ied_name hs root.kids none st rfl
    unfold find_active_ied chosen_ied
    simp only [hb, if_true]
    cases hexact : find_at (is_ied_named st.selected_ied_name) root.kids with
    | some x =>
      rw [h1, hexact]
    | none =>
      have h3 := h2 hexact
      simp only at h3
      rw [h1, hexact, h3]
      cases hnamed : find_at is_named_ied root.kids with
      | none => rfl
      | some x0 =>
        have hx := (find_at_some_mem hnamed).2
        have hne : ¬ (xmlGetProp x0.1 "name").getD "" = "" := by
          simp only [is_named_ied, Bool.and_eq_true, bne_iff_ne, ne_eq] at hx
          exact hx.2
        simp [hne, node_name]

/-! ## The access point selection rule -/

theorem state_eta_ap (st : IcdState) : { st with selected_ap_name := st.selected_ap_name } = st := by
  cases st; rfl

theorem ap_scan_step (ap : XmlNode) (rest : List XmlNode) (fa : Option (XmlNode × String))
    (st : IcdState) (hel : isElem ap "AccessPoint" = true) :
    collect_dataset_scan (ap :: rest) fa st
      = if (!((if (st.selected_ap_name == "" && node_name ap != "") = true then
               set_selected_ap (some (node_name ap)) st else st).selected_ap_name == "" ||
            (node_name ap != "" &&
              (if (st.selected_ap_name == "" && node_name ap != "") = true then
                set_selected_ap (some (node_name ap)) st else st).selected_ap_name
                == node_name ap))) = true then
          collect_dataset_scan rest (first_ap_or fa ap)
            (if (st.selected_ap_name == "" && node_name ap != "") = true then
              set_selected_ap (some (node_name ap)) st else st)
        else
          (true, first_ap_or fa ap,
            process_access_point ap
              (if (st.selected_ap_name == "" && node_name ap != "") = true then
                set_selected_ap (some (node_name ap)) st else st)) := by
  rw [collect_dataset_scan]
  have hfa : (match fa with
      | none => some (ap, if ((xmlGetProp ap "name").getD "" != "") = true then
          trunc 63 ((xmlGetProp ap "name").getD "") else "")
      | some f => some f) = first_ap_or fa ap := by
    cases fa <;> rfl
  simp only [hel, Bool.not_true, Bool.false_eq_true, if_false, hfa, node_name]

theorem ap_scan_with_preference (t : String) (ht : t ≠ "") :
    ∀ (nodes : List XmlNode) (fa : Option (XmlNode × String)) (st : IcdState),
      st.selected_ap_name = t →
      (∀ a, nodes.find? (is_ap_named t) = some a →
        (collect_dataset_scan nodes fa st).1 = true ∧
        (collect_dataset_scan nodes fa st).2.2 = process_access_point a st) ∧
      (nodes.find? (is_ap_named t) = none →
        collect_dataset_scan nodes fa st
          = (false,
              (match fa with
                | some f => some f
                | none => (nodes.find? is_ap).map
                    (fun a => (a, if node_name a != "" then trunc 63 (node_name a) else ""))),
              st)) := by
  intro nodes
  induction nodes with
  | nil =>
    intro fa st _
    refine ⟨fun a h => (by simp at h), fun _ => ?_⟩
    cases fa <;> rfl
  | cons ap rest ih =>
    intro fa st hst
    have hsel : (st.selected_ap_name == "") = false := by
      rw [hst]; simpa using ht
    by_cases hel : isElem ap "AccessPoint" = true
    · have hst1 : (if (st.selected_ap_name == "" && node_name ap != "") = true then
          set_selected_ap (some (node_name ap)) st else st) = st := by
        simp [hsel]
      have hscan := ap_scan_step ap rest fa st hel
      rw [hst1] at hscan
      simp only [hsel, Bool.false_or] at hscan
      by_cases hname : node_name ap = t
      · have hcond : ¬ (!(node_name ap != "" && st.selected_ap_name == node_name ap)) = true := by
          simp [hst, hname, ht]
        have hfind : (ap :: rest).find? (is_ap_named t) = some ap := by
          simp [is_ap_named, hel, hname]
        rw [hscan, if_neg hcond, hfind]
        refine ⟨fun a ha => ?_, fun hc => (by cases hc)⟩
        cases ha
        exact ⟨rfl, rfl⟩
      · have hcond : (!(node_name ap != "" && st.selected_ap_name == node_name ap)) = true := by
          rw [hst]
          have : ¬ t = node_name ap := fun hc => hname hc.symm
          simp [this]
        have hfind : (ap :: rest).find? (is_ap_named t) = rest.find? (is_ap_named t) := by
          simp [is_ap_named, hel, hname]
        have hfirst : (ap :: rest).find? is_ap = some ap := by
          simp [is_ap, hel]
        rw [hscan, if_pos hcond, hfind, hfirst]
        obtain ⟨h1, h2⟩ := ih (first_ap_or fa ap) st hst
        refine ⟨h1, fun hnone => ?_⟩
        rw [h2 hnone]
        cases fa <;> rfl
    · have hel' : isElem ap "AccessPoint" = false := by simpa using hel
      have hscan : collect_dataset_scan (ap :: rest) fa st = collect_dataset_scan rest fa st := by
        rw [collect_dataset_scan]
        simp [hel']
      have hfind : (ap :: rest).find? (is_ap_named t) = rest.find? (is_ap_named t) := by
        simp [is_ap_named, hel']
      have hfirst : (ap :: rest).find? is_ap = rest.find? is_ap := by
        simp [is_ap, hel']
      rw [hscan, hfind, hfirst]
      exact ih fa st hst

theorem ap_scan_without_preference :
    ∀ (nodes : List XmlNode) (st : IcdState), st.selected_ap_name = "" →
      (nodes.find? is_ap = none → collect_dataset_scan nodes none st = (false, none, st)) ∧
      (∀ a0, nodes.find? is_ap = some a0 → (node_name a0).length ≤ 63 →
        (collect_dataset_scan nodes none st).1 = true ∧
        (collect_dataset_scan nodes none st).2.2
          = process_access_point a0 { st with selected_ap_name := trunc 63 (node_name a0) }) := by
  intro nodes
  induction nodes with
  | nil =>
    intro st _
    exact ⟨fun _ => rfl, fun a h => (by simp at h)⟩
  | cons ap rest ih =>
    intro st hst
    have hsel : (st.selected_ap_name == "") = true := by rw [hst]; rfl
    by_cases hel : isElem ap "AccessPoint" = true
    · have hfirst : (ap :: rest).find? is_ap = some ap := by
        simp [is_ap, hel]
      rw [hfirst]
      refine ⟨fun hc => (by cases hc), fun a0 ha hlen => ?_⟩
      cases ha
      have hcut : trunc 63 (node_name ap) = node_name ap := trunc_of_le hlen
      have hscan := ap_scan_step ap rest none st hel
      by_cases hn : node_name ap = ""
      · have hst1 : (if (st.selected_ap_name == "" && node_name ap != "") = true then
            set_selected_ap (some (node_name ap)) st else st) = st := by
          simp [hn]
        have hst2 : { st with selected_ap_name := trunc 63 (node_name ap) } = st := by
          rw [hcut, hn, ← hst]
        rw [hst1] at hscan
        simp only [hsel, Bool.true_or, Bool.not_true, Bool.false_eq_true, if_false] at hscan
        rw [hscan, hst2]
        exact ⟨rfl, rfl⟩
      · have hst1 : (if (st.selected_ap_name == "" && node_name ap != "") = true then
            set_selected_ap (some (node_name ap)) st else st)
            = { st with selected_ap_name := trunc 63 (node_name ap) } := by
          simp [hsel, hn, set_selected_ap, nonEmpty, hst]
        rw [hst1] at hscan
        have hcond : ¬ (!(({ st with selected_ap_name := trunc 63 (node_name ap) } : IcdState).selected_ap_name == "" ||
            (node_name ap != "" &&
              ({ st with selected_ap_name := trunc 63 (node_name ap) } : IcdState).selected_ap_name
                == node_name ap))) = true := by
          simp [hcut, hn]
        rw [if_neg hcond] at hscan
        rw [hscan]
        exact ⟨rfl, rfl⟩
    · have hel' : isElem ap "AccessPoint" = false := by simpa using hel
      have hscan : collect_dataset_scan (ap :: rest) none st
          = collect_dataset_scan rest none st := by
        rw [collect_dataset_scan]
        simp [hel']
      have hfirst : (ap :: rest).find? is_ap = rest.find? is_ap := by
        simp [is_ap, hel']
      rw [hscan, hfirst]
      exact ih st hst

/-- The function `collect_dataset_nodes` follows the access point selection rule;
without a preference this needs the first access point to have a name that
fits. -/
theorem collect_dataset_nodes_eq (ied : XmlNode) (st : IcdState)
    (hfit : st.selected_ap_name = "" → ∀ a0,
      ied.kids.find? is_ap = some a0 → (node_name a0).length ≤ 63) :
    collect_dataset_nodes ied st
      = match (chosen_ap ied.kids st.selected_ap_name).1 with
        | some a =>
          process_access_point a
            { st with selected_ap_name := (chosen_ap ied.kids st.selected_ap_name).2 }
        | none => { st with selected_ap_name := (chosen_ap ied.kids st.selected_ap_name).2 } := by
  by_cases hs : st.selected_ap_name = ""
  · have hb : (st.selected_ap_name != "") = false := by simp [hs]
    obtain ⟨h1, h2⟩ := ap_scan_without_preference ied.kids st hs
    unfold chosen_ap
    simp only [hb, Bool.false_eq_true, if_false]
    cases hfirst : ied.kids.find? is_ap with
    | none =>
      unfold collect_dataset_nodes
      rw [h1 hfirst]
      simp only [hb, Bool.false_eq_true, if_false]
      rw [← hs]
    | some a0 =>
      obtain ⟨h3, h4⟩ := h2 a0 hfirst (hfit hs a0 hfirst)
      unfold collect_dataset_nodes
      simp only
      rw [← h4]
      cases hscan : collect_dataset_scan ied.kids none st with
      | mk b r =>
        rw [hscan] at h3
        simp only at h3
        subst h3
        rfl
  · have hb : (st.selected_ap_name != "") = true := by simp [hs]
    obtain ⟨h1, h2⟩ := ap_scan_with_preference st.selected_ap_name hs ied.kids none st rfl
    unfold chosen_ap
    simp only [hb, if_true]
    cases hexact : ied.kids.find? (is_ap_named st.selected_ap_name) with
    | some a =>
      obtain ⟨h3, h4⟩ := h1 a hexact
      unfold collect_dataset_nodes
      simp only
      rw [state_eta_ap, ← h4]
      cases hscan : collect_dataset_scan ied.kids none st with
      | mk b r =>
        rw [hscan] at h3
        simp only at h3
        subst h3
        rfl
    | none =>
      unfold collect_dataset_nodes
      rw [h2 hexact]
      simp only [hb, if_true]
      cases hfirst : ied.kids.find? is_ap with
      | none => rfl
      | some a0 =>
        simp only [Option.map_some']
        by_cases hn : node_name a0 = ""
        · simp [hn]
        · simp [hn, trunc_trunc]

/-! ## The shape of a load -/

theorem parse_icd_eq (fuel : Nat) (root : XmlNode) (st : IcdState) :
    parse_icd fuel root st
      = match find_node root.kids "DataTypeTemplates" none none with
        | none => some st
        | some templates =>
          (parse_lnodetypes fuel templates templates.kids st).map (select_and_collect root) := by
  unfold parse_icd
  cases find_node root.kids "DataTypeTemplates" none none with
  | none => rfl
  | some templates =>
    simp only
    cases parse_lnodetypes fuel templates templates.kids st with
    | none => rfl
    | some st1 =>
      simp only [Option.map_some', select_and_collect]
      cases find_active_ied root st1 with
      | mk o st2 => cases o <;> rfl

theorem icd_load_eq (fuel : Nat) (root templates : XmlNode) (st : IcdState)
    (ht : find_node root.kids "DataTypeTemplates" none none = some templates) :
    icd_load fuel (some root) st
      = (parse_lnodetypes fuel templates templates.kids (icd_unload st)).map
          (fun st1 => (select_and_collect root st1, true)) := by
  unfold icd_load
  simp only [parse_icd_eq, ht]
  cases parse_lnodetypes fuel templates templates.kids (icd_unload st) <;> rfl

theorem icd_load_no_templates (fuel : Nat) (root : XmlNode) (st : IcdState)
    (ht : find_node root.kids "DataTypeTemplates" none none = none) :
    icd_load fuel (some root) st = some (icd_unload st, true) := by
  unfold icd_load
  simp only [parse_icd_eq, ht]
  rfl

theorem parse_do_nodes_selection (fuel : Nat) (templates : XmlNode)
    (lnClass lnTypeId : Option String) (a b : String) :
    ∀ (nodes : List XmlNode) (st : IcdState),
      parse_do_nodes fuel templates lnClass lnTypeId nodes
          { st with selected_ied_name := a, selected_ap_name := b }
        = (parse_do_nodes fuel templates lnClass lnTypeId nodes st).map
            (fun r => { r with selected_ied_name := a, selected_ap_name := b }) := by
  intro nodes
  induction nodes with
  | nil => intro st; rfl
  | cons doNode rest ih =>
    intro st
    rw [parse_do_nodes, parse_do_nodes]
    split
    · exact ih st
    · simp only
      split
      · exact ih st
      · split
        · rfl
        · exact ih { st with do_list := _ :: st.do_list, da_list := _ }

theorem parse_lnodetypes_selection (fuel : Nat) (templates : XmlNode) (a b : String) :
    ∀ (nodes : List XmlNode) (st : IcdState),
      parse_lnodetypes fuel templates nodes
          { st with selected_ied_name := a, selected_ap_name := b }
        = (parse_lnodetypes fuel templates nodes st).map
            (fun r => { r with selected_ied_name := a, selected_ap_name := b }) := by
  intro nodes
  induction nodes with
  | nil => intro st; rfl
  | cons ln rest ih =>
    intro st
    rw [parse_lnodetypes, parse_lnodetypes]
    split
    · exact ih st
    · rw [parse_do_nodes_selection]
      cases parse_do_nodes fuel templates (xmlGetProp ln "lnClass") (xmlGetProp ln "id")
          ln.kids st with
      | none => rfl
      | some st1 =>
        simp only [Option.map_some', Option.bind_some]
        exact ih st1

/-- What the loop over the node types keeps: everything but the object and attribute
catalogs. -/
theorem parse_lnodetypes_rest (fuel : Nat) (templates : XmlNode) (nodes : List XmlNode)
    (st st' : IcdState) (h : parse_lnodetypes fuel templates nodes st = some st') :
    st'.ln_list = st.ln_list ∧ st'.ln_instances = st.ln_instances ∧
      st'.dataset_list = st.dataset_list ∧ st'.report_list = st.report_list ∧
      st'.selected_ied_name = st.selected_ied_name ∧
      st'.selected_ap_name = st.selected_ap_name :=
  ⟨parse_lnodetypes_keeps IcdState.ln_list (fun _ _ _ => rfl) _ _ _ _ _ h,
    parse_lnodetypes_keeps IcdState.ln_instances (fun _ _ _ => rfl) _ _ _ _ _ h,
    parse_lnodetypes_keeps IcdState.dataset_list (fun _ _ _ => rfl) _ _ _ _ _ h,
    parse_lnodetypes_keeps IcdState.report_list (fun _ _ _ => rfl) _ _ _ _ _ h,
    parse_lnodetypes_keeps IcdState.selected_ied_name (fun _ _ _ => rfl) _ _ _ _ _ h,
    parse_lnodetypes_keeps IcdState.selected_ap_name (fun _ _ _ => rfl) _ _ _ _ _ h⟩

/-! ## Documents without a named device -/

theorem scan_no_named :
    ∀ (nodes : List XmlNode) (fm : Option NodeAt) (st : IcdState),
      find_at is_named_ied nodes = none → find_active_ied_scan nodes fm st = (none, fm, st) := by
  intro nodes
  induction nodes with
  | nil => intro fm st _; rfl
  | cons ied rest ih =>
    intro fm st h
    have hy := find_at_none h ied (List.mem_cons_self _ _)
    have hrest : find_at is_named_ied rest = none := by
      unfold find_at at h
      rw [hy] at h
      simpa using h
    rw [find_active_ied_scan]
    by_cases hel : isElem ied "IED" = true
    · have hn : (xmlGetProp ied "name").getD "" = "" := by
        simp only [is_named_ied, hel, Bool.true_and, node_name] at hy
        simpa using hy
      simp only [hel, hn, Bool.not_true, Bool.false_eq_true, if_false]
      simp only [bne_self_eq_false, Bool.and_false, Bool.false_eq_true, if_false]
      exact ih fm st hrest
    · have hel' : isElem ied "IED" = false := by simpa using hel
      simp only [hel', Bool.not_false, if_true]
      exact ih fm st hrest

theorem scan_first_match :
    ∀ (nodes : List XmlNode) (fm : Option NodeAt) (st : IcdState),
      (find_active_ied_scan nodes fm st).1 = none →
      (find_active_ied_scan nodes fm st).2.1
        = match fm with
          | some f => some f
          | none => find_at is_named_ied nodes := by
  intro nodes
  induction nodes with
  | nil => intro fm st _; cases fm <;> rfl
  | cons ied rest ih =>
    intro fm st
    rw [find_active_ied_scan]
    by_cases hel : isElem ied "IED" = true
    · simp only [hel, Bool.not_true, Bool.false_eq_true, if_false]
      generalize (if (st.selected_ied_name == "" && (xmlGetProp ied "name").getD "" != "") = true
        then set_selected_ied (some ((xmlGetProp ied "name").getD "")) st else st) = st1
      split
      · intro hc; cases hc
      · intro h
        rw [ih _ _ h]
        cases fm with
        | some f => rfl
        | none =>
          by_cases hn : (xmlGetProp ied "name").getD "" = ""
          · simp [find_at, is_named_ied, hel, hn, node_name]
          · simp [find_at, is_named_ied, hel, hn, node_name]
    · have hel' : isElem ied "IED" = false := by simpa using hel
      simp only [hel', Bool.not_false, if_true]
      intro h
      rw [ih _ _ h]
      cases fm with
      | some f => rfl
      | none => simp [find_at, is_named_ied, hel']

/-- The function `find_active_ied` returns no device exactly when no `IED` child
of the root has a non-empty name, and then leaves the selected name empty. -/
theorem find_active_ied_none_iff (root : XmlNode) (st : IcdState) :
    ((find_active_ied root st).1 = none ↔ find_at is_named_ied root.kids = none) ∧
      ((find_active_ied root st).1 = none →
        (find_active_ied root st).2.selected_ied_name = "") := by
  have hback : find_at is_named_ied root.kids = none →
      (find_active_ied root st).1 = none ∧
        (find_active_ied root st).2.selected_ied_name = "" := by
    intro hn
    unfold find_active_ied
    rw [scan_no_named root.kids none st hn]
    simp only
    by_cases hs : st.selected_ied_name = ""
    · simp [hs]
    · simp [hs]
  have hforth : (find_active_ied root st).1 = none → find_at is_named_ied root.kids = none := by
    intro h
    have hfm := scan_first_match root.kids none st
    unfold find_active_ied at h
    cases hscan : find_active_ied_scan root.kids none st with
    | mk found r =>
      cases r with
      | mk fmr st1 =>
        rw [hscan] at h hfm
        cases found with
        | some f => simp at h
        | none =>
          cases fmr with
          | some f =>
            simp only at h
            split at h <;> simp at h
          | none => exact (hfm rfl).symm
  exact ⟨⟨hforth, fun hn => (hback hn).1⟩, fun h => (hback (hforth h)).2⟩

/-! ## The selection made by a load -/

theorem find_active_ied_no_named (root : XmlNode) (st : IcdState)
    (hno : find_at is_named_ied root.kids = none) :
    find_active_ied root st = (none, { st with selected_ied_name := "" }) := by
  unfold find_active_ied
  rw [scan_no_named root.kids none st hno]
  simp only
  by_cases hs : st.selected_ied_name = ""
  · have hb : (st.selected_ied_name != "") = false := by simp [hs]
    simp only [hb, Bool.false_eq_true, if_false]
    cases st
    simp_all
  · have hb : (st.selected_ied_name != "") = true := by simp [hs]
    simp only [hb, if_true]

theorem select_and_collect_ied_name (root : XmlNode) (st : IcdState) :
    (select_and_collect root st).selected_ied_name
      = (find_active_ied root st).2.selected_ied_name := by
  unfold select_and_collect
  cases find_active_ied root st with
  | mk o st2 =>
    cases o with
    | none => rfl
    | some x =>
      exact collect_dataset_nodes_keeps IcdState.selected_ied_name (fun _ _ _ _ => rfl)
        (fun _ _ => rfl) _ _

/-- The device name after a load of a document with a `DataTypeTemplates` section
is the one `find_active_ied` leaves, and that function is called with the
names the load started from. -/
theorem icd_load_selected_ied_name (fuel : Nat) (root templates : XmlNode)
    (st st' : IcdState) (ok : Bool)
    (ht : find_node root.kids "DataTypeTemplates" none none = some templates)
    (hload : icd_load fuel (some root) st = some (st', ok)) :
    ∃ S1 : IcdState, parse_lnodetypes fuel templates templates.kids (icd_unload st) = some S1 ∧
      S1.selected_ied_name = st.selected_ied_name ∧
      S1.selected_ap_name = st.selected_ap_name ∧
      st' = select_and_collect root S1 ∧ ok = true := by
  rw [icd_load_eq fuel root templates st ht] at hload
  obtain ⟨S1, hS1, heq⟩ := Option.map_eq_some'.mp hload
  have hrest := parse_lnodetypes_rest _ _ _ _ _ hS1
  cases heq
  exact ⟨S1, hS1, hrest.2.2.2.2.1, hrest.2.2.2.2.2, rfl, rfl⟩

/-- The device `find_active_ied` returns and the device name it leaves depend on
the state through the two selected names only. -/
theorem find_active_ied_names (root : XmlNode) (st S1 : IcdState)
    (h1 : S1.selected_ied_name = st.selected_ied_name)
    (h2 : S1.selected_ap_name = st.selected_ap_name) :
    (find_active_ied root S1).1 = (find_active_ied root st).1 ∧
      (find_active_ied root S1).2.selected_ied_name
        = (find_active_ied root st).2.selected_ied_name ∧
      (find_active_ied root S1).2.selected_ap_name
        = (find_active_ied root st).2.selected_ap_name := by
  have key : ∀ (nodes : List XmlNode) (fm : Option NodeAt) (a b : IcdState),
      a.selected_ied_name = b.selected_ied_name → a.selected_ap_name = b.selected_ap_name →
      (find_active_ied_scan nodes fm a).1 = (find_active_ied_scan nodes fm b).1 ∧
      (find_active_ied_scan nodes fm a).2.1 = (find_active_ied_scan nodes fm b).2.1 ∧
      (find_active_ied_scan nodes fm a).2.2.selected_ied_name
        = (find_active_ied_scan nodes fm b).2.2.selected_ied_name ∧
      (find_active_ied_scan nodes fm a).2.2.selected_ap_name
        = (find_active_ied_scan nodes fm b).2.2.selected_ap_name := by
    intro nodes
    induction nodes with
    | nil => intro fm a b ha hb; exact ⟨rfl, rfl, ha, hb⟩
    | cons ied rest ih =>
      intro fm a b ha hb
      rw [find_active_ied_scan, find_active_ied_scan]
      by_cases hel : isElem ied "IED" = true
      · simp only [hel, Bool.not_true, Bool.false_eq_true, if_false]
        have hset : (if (a.selected_ied_name == "" && (xmlGetProp ied "name").getD "" != "") = true
              then set_selected_ied (some ((xmlGetProp ied "name").getD "")) a else a).selected_ied_name
            = (if (b.selected_ied_name == "" && (xmlGetProp ied "name").getD "" != "") = true
              then set_selected_ied (some ((xmlGetProp ied "name").getD "")) b else b).selected_ied_name ∧
            (if (a.selected_ied_name == "" && (xmlGetProp ied "name").getD "" != "") = true
              then set_selected_ied (some ((xmlGetProp ied "name").getD "")) a else a).selected_ap_name
            = (if (b.selected_ied_name == "" && (xmlGetProp ied "name").getD "" != "") = true
              then set_selected_ied (some ((xmlGetProp ied "name").getD "")) b else b).selected_ap_name := by
          rw [ha]
          split
          · unfold set_selected_ied
            rw [ha]
            split
            · exact ⟨ha, hb⟩
            · split
              · exact ⟨rfl, rfl⟩
              · exact ⟨ha, hb⟩
          · exact ⟨ha, hb⟩
        generalize (if (a.selected_ied_name == "" && (xmlGetProp ied "name").getD "" != "") = true
              then set_selected_ied (some ((xmlGetProp ied "name").getD "")) a else a) = a1 at hset ⊢
        generalize (if (b.selected_ied_name == "" && (xmlGetProp ied "name").getD "" != "") = true
              then set_selected_ied (some ((xmlGetProp ied "name").getD "")) b else b) = b1 at hset ⊢
        rw [hset.1]
        split
        · exact ⟨rfl, rfl, hset.1, hset.2⟩
        · exact ih _ a1 b1 hset.1 hset.2
      · have hel' : isElem ied "IED" = false := by simpa using hel
        simp only [hel', Bool.not_false, if_true]
        exact ih fm a b ha hb
  obtain ⟨k1, k2, k3, k4⟩ := key root.kids none S1 st h1 h2
  unfold find_active_ied
  rw [h1]
  cases hA : find_active_ied_scan root.kids none S1 with
  | mk fa ra =>
    cases ra with
    | mk fma sa =>
      cases hB : find_active_ied_scan root.kids none st with
      | mk fb rb =>
        cases rb with
        | mk fmb sb =>
          rw [hA, hB] at k1 k2 k3 k4
          simp only at k1 k2 k3 k4
          subst k1
          subst k2
          cases fa with
          | some f => exact ⟨rfl, k3, k4⟩
          | none =>
            cases fma with
            | some f =>
              simp only
              split
              · exact ⟨rfl, rfl, rfl⟩
              · exact ⟨rfl, k3, k4⟩
            | none =>
              simp only
              split
              · exact ⟨rfl, rfl, k4⟩
              · exact ⟨rfl, k3, k4⟩

/-! ## C12 -/

/-- C12, counterexample: the device of `longDeviceDoc` has a name of 64
characters; with the absent preference `X` the load falls back to it, and the
name returned afterwards is the 63-character cut, not the device name. -/
theorem long_device_name_is_cut :
    find_at (is_ied_named "X") longDeviceDoc.kids = none ∧
      (find_at is_named_ied longDeviceDoc.kids).map (fun x => node_name x.1) = some name64 ∧
      (icd_load 1 (some longDeviceDoc)
          (icd_set_active_ied (some "X") none initialState).1).map
        (fun r => (icd_get_selected_ied_name r.1, r.2)) = some (trunc 63 name64, true) ∧
      trunc 63 name64 ≠ name64 := by
  refine ⟨rfl, by decide, by decide, by decide⟩

/-- C12, amended: when a preference is set, no `IED` has exactly the preferred
name and `x0` is the first `IED` with a non-empty name, `find_active_ied` returns
`x0` and leaves the first 63 characters of its name as the selected name; after a
load that is the name returned when the document has a `DataTypeTemplates` section,
while for a document without that section the name stays the
preference. -/
theorem device_fallback (fuel : Nat) (root : XmlNode) (st st' : IcdState) (ok : Bool)
    (x0 : NodeAt)
    (hpref : st.selected_ied_name ≠ "")
    (hnone : find_at (is_ied_named st.selected_ied_name) root.kids = none)
    (hfirst : find_at is_named_ied root.kids = some x0)
    (hload : icd_load fuel (some root) st = some (st', ok)) :
    (find_active_ied root st).1 = some x0 ∧
      icd_get_selected_ied_name (find_active_ied root st).2 = trunc 63 (node_name x0.1) ∧
      icd_get_selected_ied_name st'
        = if (find_node root.kids "DataTypeTemplates" none none).isSome then
            trunc 63 (node_name x0.1)
          else st.selected_ied_name := by
  have hfa := find_active_ied_eq root st (fun h => absurd h hpref)
  have hb : (st.selected_ied_name != "") = true := by simp [hpref]
  have hc : chosen_ied root.kids st.selected_ied_name st.selected_ap_name
      = (some x0, trunc 63 (node_name x0.1), "") := by
    unfold chosen_ied
    simp only [hb, if_true, hnone, hfirst]
  rw [hc] at hfa
  have h1 : (find_active_ied root st).1 = some x0 := by rw [hfa]
  have h2 : (find_active_ied root st).2.selected_ied_name = trunc 63 (node_name x0.1) := by
    rw [hfa]
  refine ⟨h1, h2, ?_⟩
  cases ht : find_node root.kids "DataTypeTemplates" none none with
  | none =>
    rw [icd_load_no_templates fuel root st ht] at hload
    cases hload
    rfl
  | some templates =>
    obtain ⟨S1, _, hn1, hn2, hst', _⟩ := icd_load_selected_ied_name fuel root templates st st' ok ht hload
    have hn := (find_active_ied_names root st S1 hn1 hn2).2.1
    simp only [Option.isSome_some, if_true]
    unfold icd_get_selected_ied_name
    rw [hst', select_and_collect_ied_name, hn, h2]

/-- C12, witness: the document `twoDevicesDoc` with the absent preference
`IED9`. -/
theorem device_fallback_witness :
    (find_active_ied twoDevicesDoc (icd_set_active_ied (some "IED9") none initialState).1).1
        = find_at is_named_ied twoDevicesDoc.kids ∧
      icd_get_selected_ied_name
          (find_active_ied twoDevicesDoc (icd_set_active_ied (some "IED9") none initialState).1).2
        = "IED1" ∧
      icd_get_selected_ied_name (select_and_collect twoDevicesDoc
          (icd_set_active_ied (some "IED9") none initialState).1) = "IED1" :=
  device_fallback 1 twoDevicesDoc (icd_set_active_ied (some "IED9") none initialState).1
    (select_and_collect twoDevicesDoc (icd_set_active_ied (some "IED9") none initialState).1)
    true
    (XmlNode.element "IED" [("name", "IED1")] [apWithDevice [("name", "AP1")] "LDA"],
      [ XmlNode.element "IED" [("name", "IED2")] [apWithDevice [("name", "AP1")] "LDB"],
        XmlNode.element "DataTypeTemplates" [] [] ])
    (by decide) rfl rfl (by decide)

/-! ## C13 -/

/-- C13, counterexample: the preference is a name of 64 characters and the
second device of `longSecondDeviceDoc` has exactly that name; the stored
preference is the 63-character cut, no device matches it, and `find_active_ied`
returns the first device, `A`. -/
theorem long_preference_misses_its_device :
    (find_at (is_ied_named name64) longSecondDeviceDoc.kids).map (fun x => node_name x.1)
        = some name64 ∧
      (find_active_ied longSecondDeviceDoc
          (icd_set_active_ied (some name64) none initialState).1).1.map
        (fun x => node_name x.1) = some "A" := by
  refine ⟨by decide, by decide⟩

/-- C13, amended: a preference `p` of at most 63 characters set with
`icd_set_active_ied` makes `find_active_ied` return the first `IED` named exactly
`p`, whatever precedes it; with no preference set it returns the first `IED`
with a non-empty name, provided that name has at most 63 characters. -/
theorem device_selection_rule (root : XmlNode) (st : IcdState) :
    (∀ (p : String) (ap : Option String) (x : NodeAt), p ≠ "" → p.length ≤ 63 →
        find_at (is_ied_named p) root.kids = some x →
        (find_active_ied root (icd_set_active_ied (some p) ap st).1).1 = some x) ∧
      (∀ x0 : NodeAt, st.selected_ied_name = "" →
        find_at is_named_ied root.kids = some x0 → (node_name x0.1).length ≤ 63 →
        (find_active_ied root st).1 = some x0) := by
  constructor
  · intro p ap x hp hlen hx
    have hsel : (icd_set_active_ied (some p) ap st).1.selected_ied_name = p := by
      have hne : nonEmpty (some p) = true := by simp [nonEmpty, hp]
      unfold icd_set_active_ied
      simp only [hne, Bool.not_true, Bool.false_eq_true, if_false, Option.getD_some]
      exact trunc_of_le hlen
    have hfa := find_active_ied_eq root (icd_set_active_ied (some p) ap st).1
      (fun h => absurd (hsel ▸ h) hp)
    rw [hfa, hsel]
    have hb : (p != "") = true := by simp [hp]
    unfold chosen_ied
    simp only [hb, if_true, hx]
  · intro x0 hs hx hlen
    have hfa := find_active_ied_eq root st (fun _ y hy => by
      rw [hx] at hy
      cases hy
      exact hlen)
    rw [hfa, hs]
    unfold chosen_ied
    have hb : (("" : String) != "") = false := by decide
    simp only [hb, Bool.false_eq_true, if_false, hx]

/-- C13, witness: in `twoDevicesDoc` the preference `IED2` selects the second
device although `IED1` precedes it, and without preference `IED1` is selected. -/
theorem device_selection_rule_witness :
    (find_active_ied twoDevicesDoc (icd_set_active_ied (some "IED2") none initialState).1).1
        = find_at (is_ied_named "IED2") twoDevicesDoc.kids ∧
      (find_active_ied twoDevicesDoc initialState).1
        = find_at is_named_ied twoDevicesDoc.kids :=
  ⟨(device_selection_rule twoDevicesDoc initialState).1 "IED2" none
      (XmlNode.element "IED" [("name", "IED2")] [apWithDevice [("name", "AP1")] "LDB"],
        [XmlNode.element "DataTypeTemplates" [] []])
      (by decide) (by decide) rfl,
    (device_selection_rule twoDevicesDoc initialState).2
      (XmlNode.element "IED" [("name", "IED1")] [apWithDevice [("name", "AP1")] "LDA"],
        [ XmlNode.element "IED" [("name", "IED2")] [apWithDevice [("name", "AP1")] "LDB"],
          XmlNode.element "DataTypeTemplates" [] [] ])
      rfl rfl (by decide)⟩

/-! ## C14 -/

/-- C14, counterexample: the first access point of `unnamedFirstDevice` has no
name and the second is `AP2`; without preference, and also with the absent
preference `AP9`, the instances registered are those of the first, unnamed
access point (logical device `LDA`), not those of `AP2` (`LDB`). -/
theorem unnamed_first_access_point_is_processed :
    ((collect_dataset_nodes unnamedFirstDevice initialState).ln_instances.map
        (fun e => e.ldInst)) = ["LDA"] ∧
      ((collect_dataset_nodes unnamedFirstDevice
          { initialState with selected_ap_name := "AP9" }).ln_instances.map
        (fun e => e.ldInst)) = ["LDA"] ∧
      unnamedFirstDevice.kids.find? (fun a => is_ap a && node_name a != "")
        = some (apWithDevice [("name", "AP2")] "LDB") := by
  refine ⟨by decide, by decide, rfl⟩

/-- C14, amended: when a preferred access point name is set and some
`AccessPoint` child of the device has exactly that name, `collect_dataset_nodes`
processes the first such child; otherwise it processes the first `AccessPoint`
child whatever its name (also one without a name) and records the first 63
characters of that name as the selected one; without a preference this needs
the name of the first `AccessPoint` child to have at most 63 characters. -/
theorem access_point_selection_rule (ied : XmlNode) (st : IcdState) :
    (∀ a : XmlNode, st.selected_ap_name ≠ "" →
        ied.kids.find? (is_ap_named st.selected_ap_name) = some a →
        collect_dataset_nodes ied st = process_access_point a st) ∧
      (∀ a0 : XmlNode,
        (st.selected_ap_name ≠ "" → ied.kids.find? (is_ap_named st.selected_ap_name) = none) →
        (st.selected_ap_name = "" → (node_name a0).length ≤ 63) →
        ied.kids.find? is_ap = some a0 →
        collect_dataset_nodes ied st
          = process_access_point a0 { st with selected_ap_name := trunc 63 (node_name a0) }) := by
  constructor
  · intro a hs ha
    have h := collect_dataset_nodes_eq ied st (fun h => absurd h hs)
    have hb : (st.selected_ap_name != "") = true := by simp [hs]
    have hc : chosen_ap ied.kids st.selected_ap_name = (some a, st.selected_ap_name) := by
      unfold chosen_ap
      simp only [hb, if_true, ha]
    rw [h, hc]
  · intro a0 hnone hlen ha0
    have h := collect_dataset_nodes_eq ied st (fun hs y hy => by
      rw [ha0] at hy
      cases hy
      exact hlen hs)
    have hc : chosen_ap ied.kids st.selected_ap_name = (some a0, trunc 63 (node_name a0)) := by
      unfold chosen_ap
      by_cases hs : st.selected_ap_name = ""
      · have hb : (st.selected_ap_name != "") = false := by simp [hs]
        simp only [hb, Bool.false_eq_true, if_false, ha0]
      · have hb : (st.selected_ap_name != "") = true := by simp [hs]
        simp only [hb, if_true, hnone hs, ha0]
    rw [h, hc]

/-- C14, witness: in the first device of `twoDevicesDoc` the preference `AP1`
selects the access point of that name, and in `unnamedFirstDevice` the absent
preference `AP9` selects the first access point, which has no name. -/
theorem access_point_selection_rule_witness :
    collect_dataset_nodes
        (XmlNode.element "IED" [("name", "IED1")] [apWithDevice [("name", "AP1")] "LDA"])
        { initialState with selected_ap_name := "AP1" }
      = process_access_point (apWithDevice [("name", "AP1")] "LDA")
          { initialState with selected_ap_name := "AP1" } ∧
    collect_dataset_nodes unnamedFirstDevice { initialState with selected_ap_name := "AP9" }
      = process_access_point (apWithDevice [] "LDA")
          { initialState with selected_ap_name := trunc 63 (node_name (apWithDevice [] "LDA")) } :=
  ⟨(access_point_selection_rule
      (XmlNode.element "IED" [("name", "IED1")] [apWithDevice [("name", "AP1")] "LDA"])
      { initialState with selected_ap_name := "AP1" }).1 (apWithDevice [("name", "AP1")] "LDA")
      (by decide) rfl,
    (access_point_selection_rule unnamedFirstDevice
      { initialState with selected_ap_name := "AP9" }).2 (apWithDevice [] "LDA")
      (fun _ => rfl) (fun _ => by decide) rfl⟩

/-! ## C18 -/

/-- C18, counterexample: `bareDoc` has no `DataTypeTemplates` section and no
device at all; loaded after the preference `IED1` was set, it resolves no
device, yet the name returned afterwards is `IED1`. -/
theorem unresolved_device_keeps_the_preference :
    find_at is_named_ied bareDoc.kids = none ∧
      (icd_load 1 (some bareDoc) (icd_set_active_ied (some "IED1") none initialState).1).map
        (fun r => (icd_get_selected_ied_name r.1, r.2)) = some ("IED1", true) := by
  refine ⟨rfl, by decide⟩

/-- C18, amended: for a document with a `DataTypeTemplates` section on whose
node types the expansion returns with the state `S1`, `find_active_ied` resolves
no device exactly when no `IED` has a non-empty name, and then the load returns
true and the name returned afterwards is empty. -/
theorem unresolved_device_name_empty (fuel : Nat) (root templates : XmlNode)
    (st S1 : IcdState)
    (ht : find_node root.kids "DataTypeTemplates" none none = some templates)
    (htypes : parse_lnodetypes fuel templates templates.kids (icd_unload st) = some S1) :
    ((find_active_ied root S1).1 = none ↔ find_at is_named_ied root.kids = none) ∧
      ((find_active_ied root S1).1 = none →
        icd_load fuel (some root) st = some ((find_active_ied root S1).2, true) ∧
        icd_get_selected_ied_name (find_active_ied root S1).2 = "") := by
  have hiff := find_active_ied_none_iff root S1
  refine ⟨hiff.1, fun hnone => ⟨?_, hiff.2 hnone⟩⟩
  rw [icd_load_eq fuel root templates st ht, htypes]
  simp only [Option.map_some', select_and_collect]
  cases hf : find_active_ied root S1 with
  | mk o st2 =>
    rw [hf] at hnone
    simp only at hnone
    subst hnone
    rfl

/-- C18, witness: `unnamedDeviceDoc`, whose only device has no name, loaded after
the preference `IED1` was set. -/
theorem unresolved_device_name_empty_witness :
    icd_load 1 (some unnamedDeviceDoc) (icd_set_active_ied (some "IED1") none initialState).1
        = some (initialState, true) ∧
      icd_get_selected_ied_name initialState = "" :=
  ((unresolved_device_name_empty 1 unnamedDeviceDoc (XmlNode.element "DataTypeTemplates" [] [])
      (icd_set_active_ied (some "IED1") none initialState).1
      (icd_set_active_ied (some "IED1") none initialState).1 rfl (by decide)).2 rfl)

/-! ## C15 -/

theorem cyclic_expansion_never_returns :
    ∀ (fuel : Nat) (pfx : Option String) (da : List DAEntry),
      collect_do_type fuel cyclicTemplates (some "A") pfx da = none := by
  intro fuel
  induction fuel with
  | zero => intro pfx da; rfl
  | succ n ih =>
    intro pfx da
    have hstep : collect_do_type (n + 1) cyclicTemplates (some "A") pfx da
        = (collect_do_type n cyclicTemplates (some "A") (some (join_path pfx "x")) da).bind
            (collect_do_children (collect_do_type n cyclicTemplates)
              (collect_da_type n cyclicTemplates (some "A")) (some "A") pfx []) := rfl
    rw [hstep, ih]
    rfl

theorem cyclic_load_never_returns (fuel : Nat) (st : IcdState) :
    icd_load fuel (some cyclicDoc) st = none := by
  have hdo : parse_do_nodes fuel cyclicTemplates (some "GGIO") (some "T1")
      [XmlNode.element "DO" [("name", "D"), ("type", "A")] []] (icd_unload st)
      = match collect_do_type fuel cyclicTemplates (some "A") none (icd_unload st).da_list with
        | none => none
        | some da =>
          parse_do_nodes fuel cyclicTemplates (some "GGIO") (some "T1") []
            { icd_unload st with
              do_list := ⟨"T1", "GGIO", "D", "A", "SPS"⟩ :: (icd_unload st).do_list
              da_list := da } := rfl
  have hln : parse_lnodetypes fuel cyclicTemplates cyclicTemplates.kids (icd_unload st)
      = (parse_do_nodes fuel cyclicTemplates (some "GGIO") (some "T1")
          [XmlNode.element "DO" [("name", "D"), ("type", "A")] []] (icd_unload st)).bind
          (parse_lnodetypes fuel cyclicTemplates
            [XmlNode.element "DOType" [("id", "A"), ("cdc", "SPS")]
              [XmlNode.element "SDO" [("name", "x"), ("type", "A")] []]]) := rfl
  rw [icd_load_eq fuel cyclicDoc cyclicTemplates st rfl, hln, hdo,
    cyclic_expansion_never_returns]
  rfl

/-- C15, counterexample: `cyclicDoc` is decodable and has no device at all, but
its object type `A` contains a sub-object of type `A`; `collect_do_type` calls
itself without end, so that with no bound on the depth of recursion does
`icd_load` return. -/
theorem cyclic_templates_load_does_not_return :
    find_at is_named_ied cyclicDoc.kids = none ∧
      ¬ ∃ fuel : Nat, (icd_load fuel (some cyclicDoc) initialState).isSome = true := by
  refine ⟨rfl, ?_⟩
  rintro ⟨fuel, h⟩
  rw [cyclic_load_never_returns] at h
  cases h

/-- C15, amended: for a decodable document in which no `IED` element has a
non-empty name, `icd_load` returns true whenever the expansion of the node
types returns: without a `DataTypeTemplates` section every catalog is empty, and
with one the node-instance, node-class, dataset and report catalogs are empty
while the object and attribute catalogs are those the loop over the node types
built from the emptied state, the object catalog holding the entries of all
node types in reverse document order. -/
theorem load_without_named_device (fuel : Nat) (root : XmlNode) (st : IcdState)
    (hno : find_at is_named_ied root.kids = none) :
    (find_node root.kids "DataTypeTemplates" none none = none →
        icd_load fuel (some root) st = some (icd_unload st, true)) ∧
      (∀ (templates : XmlNode) (S1 : IcdState),
        find_node root.kids "DataTypeTemplates" none none = some templates →
        parse_lnodetypes fuel templates templates.kids (icd_unload st) = some S1 →
        icd_load fuel (some root) st = some ({ S1 with selected_ied_name := "" }, true) ∧
          S1.ln_instances = [] ∧ S1.ln_list = [] ∧ S1.dataset_list = [] ∧
          S1.report_list = [] ∧ S1.do_list = (all_do_entries templates).reverse) := by
  refine ⟨fun ht => icd_load_no_templates fuel root st ht, fun templates S1 ht hS1 => ?_⟩
  have hrest := parse_lnodetypes_rest _ _ _ _ _ hS1
  have hdo := parse_lnodetypes_do_list _ _ _ _ _ hS1
  refine ⟨?_, hrest.2.1, hrest.1, hrest.2.2.1, hrest.2.2.2.1, ?_⟩
  · rw [icd_load_eq fuel root templates st ht, hS1]
    simp only [Option.map_some', select_and_collect, find_active_ied_no_named root S1 hno]
  · rw [hdo]
    simp [all_do_entries, icd_unload]

/-- C15, witness: the templates of the measurement scenario preceded by a device
without a name. -/
theorem load_without_named_device_witness :
    icd_load 2 (some unnamedDeviceScenarioDoc) initialState = some (scenarioTypesState, true) ∧
      scenarioTypesState.ln_instances = [] ∧ scenarioTypesState.ln_list = [] ∧
      scenarioTypesState.dataset_list = [] ∧ scenarioTypesState.report_list = [] ∧
      scenarioTypesState.do_list = (all_do_entries scenarioTemplates).reverse :=
  (load_without_named_device 2 unnamedDeviceScenarioDoc initialState rfl).2
    scenarioTemplates scenarioTypesState rfl (by decide)

/-! ## The selection rule of a load -/

theorem names_fit_ied (root : XmlNode) (hfit : names_fit root = true) :
    ∀ x ∈ root.kids, isElem x "IED" = true →
      (node_name x).length ≤ 63 ∧
        ∀ a ∈ x.kids, isElem a "AccessPoint" = true → (node_name a).length ≤ 63 := by
  intro x hx hel
  unfold names_fit at hfit
  have h1 := List.all_eq_true.mp hfit x hx
  simp only [hel, Bool.not_true, Bool.false_or, Bool.and_eq_true, decide_eq_true_eq] at h1
  refine ⟨h1.1, fun a ha hap => ?_⟩
  have h2 := List.all_eq_true.mp h1.2 a ha
  simpa [hap] using h2

theorem find_stronger {p q : XmlNode → Bool} (hqp : ∀ y, q y = true → p y = true) :
    ∀ {l : List XmlNode} {a : XmlNode}, l.find? p = some a → q a = true →
      l.find? q = some a := by
  intro l
  induction l with
  | nil => intro a h; simp at h
  | cons y rest ih =>
    intro a h hq
    rw [List.find?_cons] at h ⊢
    by_cases hp : p y = true
    · rw [hp] at h
      cases h
      rw [hq]
    · have hp' : p y = false := by simpa using hp
      have hqy : q y = false := by
        cases hqy : q y with
        | false => rfl
        | true => exact absurd (hqp y hqy) hp
      rw [hp'] at h
      rw [hqy]
      exact ih h hq

theorem chosen_ied_some (kids : List XmlNode) (s t : String) (x : NodeAt) (s1 t1 : String)
    (h : chosen_ied kids s t = (some x, s1, t1)) : x.1 ∈ kids ∧ isElem x.1 "IED" = true := by
  unfold chosen_ied at h
  split at h
  · rename_i y hy
    cases h
    split at hy
    · have hm := find_at_some_mem hy
      simp only [is_ied_named, Bool.and_eq_true] at hm
      exact ⟨hm.1, hm.2.1⟩
    · cases hy
  · split at h
    · rename_i y hy
      cases h
      have hm := find_at_some_mem hy
      simp only [is_named_ied, Bool.and_eq_true] at hm
      exact ⟨hm.1, hm.2.1⟩
    · cases h

theorem chosen_ied_fallback_again (kids : List XmlNode) (x0 : NodeAt) (t' : String)
    (hlen : (node_name x0.1).length ≤ 63)
    (hfirst : find_at is_named_ied kids = some x0) :
    chosen_ied kids (trunc 63 (node_name x0.1)) t' = (some x0, trunc 63 (node_name x0.1), t') := by
  rw [trunc_of_le hlen]
  have hm := (find_at_some_mem hfirst).2
  have hne : node_name x0.1 ≠ "" := by
    simp only [is_named_ied, Bool.and_eq_true, bne_iff_ne, ne_eq] at hm
    exact hm.2
  have hself : is_ied_named (node_name x0.1) x0.1 = true := by
    simp only [is_named_ied, Bool.and_eq_true] at hm
    simp [is_ied_named, hm.1]
  have hex := find_at_stronger (named_of_ied_named hne) hfirst hself
  have hb : (node_name x0.1 != "") = true := by simp [hne]
  unfold chosen_ied
  simp only [hb, if_true, hex]

theorem chosen_ied_again (kids : List XmlNode) (s t : String) (x : NodeAt) (s1 t1 : String)
    (hfit : ∀ x0 : NodeAt, find_at is_named_ied kids = some x0 → (node_name x0.1).length ≤ 63)
    (h : chosen_ied kids s t = (some x, s1, t1)) (t' : String) :
    chosen_ied kids s1 t' = (some x, s1, t') := by
  have hfall : (match find_at is_named_ied kids with
      | some x0 => ((some x0, trunc 63 (node_name x0.1), "") : Option NodeAt × String × String)
      | none => (none, "", t)) = (some x, s1, t1) → chosen_ied kids s1 t' = (some x, s1, t') := by
    intro h2
    cases hfa : find_at is_named_ied kids with
    | none => rw [hfa] at h2; cases h2
    | some x0 =>
      rw [hfa] at h2
      simp only [Prod.mk.injEq, Option.some.injEq] at h2
      rw [← h2.1, ← h2.2.1]
      exact chosen_ied_fallback_again kids x0 t' (hfit x0 hfa) hfa
  unfold chosen_ied at h
  by_cases hs : s = ""
  · have hb : (s != "") = false := by simp [hs]
    simp only [hb, Bool.false_eq_true, if_false] at h
    exact hfall h
  · have hb : (s != "") = true := by simp [hs]
    simp only [hb, if_true] at h
    cases hex : find_at (is_ied_named s) kids with
    | none =>
      rw [hex] at h
      exact hfall h
    | some y =>
      rw [hex] at h
      cases h
      unfold chosen_ied
      simp only [hb, if_true, hex]

theorem chosen_ied_none (kids : List XmlNode) (s t : String) (s1 t1 : String)
    (h : chosen_ied kids s t = (none, s1, t1)) (t' : String) :
    chosen_ied kids s1 t' = (none, s1, t') := by
  unfold chosen_ied at h
  split at h
  · cases h
  · split at h
    · cases h
    · rename_i hnone
      cases h
      have hb : (("" : String) != "") = false := by decide
      unfold chosen_ied
      simp only [hb, Bool.false_eq_true, if_false, hnone]

theorem chosen_ap_again (kids : List XmlNode) (t : String)
    (hfit : ∀ a0 : XmlNode, kids.find? is_ap = some a0 → (node_name a0).length ≤ 63) :
    chosen_ap kids (chosen_ap kids t).2 = chosen_ap kids t := by
  have hfall : ∀ a0 : XmlNode, kids.find? is_ap = some a0 →
      chosen_ap kids (trunc 63 (node_name a0)) = (some a0, trunc 63 (node_name a0)) := by
    intro a0 ha0
    by_cases hn : node_name a0 = ""
    · rw [hn, trunc_empty]
      have hb : (("" : String) != "") = false := by decide
      unfold chosen_ap
      simp only [hb, Bool.false_eq_true, if_false, ha0, hn, trunc_empty]
    · rw [trunc_of_le (hfit a0 ha0)]
      have hb : (node_name a0 != "") = true := by simp [hn]
      have hap : is_ap a0 = true := List.find?_some ha0
      have hself : is_ap_named (node_name a0) a0 = true := by
        simp only [is_ap] at hap
        simp [is_ap_named, hap]
      have hqp : ∀ y, is_ap_named (node_name a0) y = true → is_ap y = true := by
        intro y hy
        simp only [is_ap_named, Bool.and_eq_true] at hy
        exact hy.1
      have hex := find_stronger hqp ha0 hself
      unfold chosen_ap
      simp only [hb, if_true, hex]
  have hnone : kids.find? is_ap = none → chosen_ap kids "" = (none, "") := by
    intro h
    have hb : (("" : String) != "") = false := by decide
    unfold chosen_ap
    simp only [hb, Bool.false_eq_true, if_false, h]
  cases hc : chosen_ap kids t with
  | mk oa t2 =>
    simp only
    unfold chosen_ap at hc
    split at hc
    · rename_i a ha
      cases hc
      split at ha
      · rename_i ht
        unfold chosen_ap
        simp only [ht, if_true, ha]
      · cases ha
    · split at hc
      · rename_i a0 ha0
        cases hc
        exact hfall a0 ha0
      · rename_i hno
        cases hc
        exact hnone hno

theorem select_rule_none (root : XmlNode) (S : IcdState) (s1 t1 : String)
    (hc : chosen_ied root.kids S.selected_ied_name S.selected_ap_name = (none, s1, t1)) :
    select_rule root S = { S with selected_ied_name := s1, selected_ap_name := t1 } := by
  unfold select_rule
  rw [hc]

theorem select_rule_some (root : XmlNode) (S : IcdState) (x : NodeAt) (s1 t1 : String)
    (hc : chosen_ied root.kids S.selected_ied_name S.selected_ap_name = (some x, s1, t1)) :
    select_rule root S
      = process_chosen (chosen_ap x.1.kids t1).1
          { S with ln_list := collect_ln_nodes (x.1 :: x.2) S.ln_list
                   selected_ied_name := s1
                   selected_ap_name := (chosen_ap x.1.kids t1).2 } := by
  unfold select_rule
  rw [hc]

/-- On a document whose device and access point names fit the name buffers, what
`parse_icd` does after the loop over the node types is the selection rule. -/
theorem select_and_collect_eq (root : XmlNode) (S : IcdState) (hfit : names_fit root = true) :
    select_and_collect root S = select_rule root S := by
  have hfit1 : S.selected_ied_name = "" → ∀ x0 : NodeAt,
      find_at is_named_ied root.kids = some x0 → (node_name x0.1).length ≤ 63 := by
    intro _ x0 hx0
    have hm := find_at_some_mem hx0
    simp only [is_named_ied, Bool.and_eq_true] at hm
    exact (names_fit_ied root hfit x0.1 hm.1 hm.2.1).1
  unfold select_and_collect
  rw [find_active_ied_eq root S hfit1]
  cases hc : chosen_ied root.kids S.selected_ied_name S.selected_ap_name with
  | mk o r =>
    cases r with
    | mk s1 t1 =>
      cases o with
      | none =>
        rw [select_rule_none root S s1 t1 hc]
      | some x =>
        have hx := chosen_ied_some _ _ _ _ _ _ hc
        have hfit2 : ∀ a0 : XmlNode, x.1.kids.find? is_ap = some a0 →
            (node_name a0).length ≤ 63 := by
          intro a0 ha0
          have hap : is_ap a0 = true := List.find?_some ha0
          exact (names_fit_ied root hfit x.1 hx.1 hx.2).2 a0 (List.mem_of_find?_eq_some ha0) hap
        rw [select_rule_some root S x s1 t1 hc]
        simp only
        rw [collect_dataset_nodes_eq x.1 _ (fun _ => hfit2)]
        simp only [process_chosen]

theorem select_rule_names (root : XmlNode) (S : IcdState) (x : NodeAt) (s1 t1 : String)
    (hc : chosen_ied root.kids S.selected_ied_name S.selected_ap_name = (some x, s1, t1)) :
    (select_rule root S).selected_ied_name = s1 ∧
      (select_rule root S).selected_ap_name = (chosen_ap x.1.kids t1).2 := by
  rw [select_rule_some root S x s1 t1 hc]
  unfold process_chosen
  cases (chosen_ap x.1.kids t1).1 with
  | none => exact ⟨rfl, rfl⟩
  | some a =>
    exact ⟨process_access_point_keeps IcdState.selected_ied_name (fun _ _ _ _ => rfl) _ _,
      process_access_point_keeps IcdState.selected_ap_name (fun _ _ _ _ => rfl) _ _⟩

/-- The selection rule is stable: applied again with the names it has left as
the preference, it gives the same result. -/
theorem select_rule_again (root : XmlNode) (S : IcdState) (hfit : names_fit root = true) :
    select_rule root
        { S with selected_ied_name := (select_rule root S).selected_ied_name
                 selected_ap_name := (select_rule root S).selected_ap_name }
      = select_rule root S := by
  have hfit1 : ∀ x0 : NodeAt,
      find_at is_named_ied root.kids = some x0 → (node_name x0.1).length ≤ 63 := by
    intro x0 hx0
    have hm := find_at_some_mem hx0
    simp only [is_named_ied, Bool.and_eq_true] at hm
    exact (names_fit_ied root hfit x0.1 hm.1 hm.2.1).1
  cases hc : chosen_ied root.kids S.selected_ied_name S.selected_ap_name with
  | mk o r =>
    cases r with
    | mk s1 t1 =>
      cases o with
      | none =>
        have hR := select_rule_none root S s1 t1 hc
        have hc2 := chosen_ied_none _ _ _ _ _ hc t1
        rw [hR]
        exact select_rule_none root
          { S with selected_ied_name := s1, selected_ap_name := t1 } s1 t1 hc2
      | some x =>
        have hx := chosen_ied_some _ _ _ _ _ _ hc
        have hfit2 : ∀ a0 : XmlNode, x.1.kids.find? is_ap = some a0 →
            (node_name a0).length ≤ 63 := by
          intro a0 ha0
          have hap : is_ap a0 = true := List.find?_some ha0
          exact (names_fit_ied root hfit x.1 hx.1 hx.2).2 a0 (List.mem_of_find?_eq_some ha0) hap
        obtain ⟨hn1, hn2⟩ := select_rule_names root S x s1 t1 hc
        have hc2 := chosen_ied_again _ _ _ _ _ _ hfit1 hc (chosen_ap x.1.kids t1).2
        have hca2 := chosen_ap_again x.1.kids t1 hfit2
        rw [hn1, hn2, select_rule_some root S x s1 t1 hc,
          select_rule_some root
            { S with selected_ied_name := s1, selected_ap_name := (chosen_ap x.1.kids t1).2 }
            x s1 (chosen_ap x.1.kids t1).2 hc2, hca2]

/-! ## C16 -/

/-- C16, counterexample: in `reloadDoc` the first device is named by 64
characters and the second by the first 63 of them.  With the absent preference
`X` the first load falls back to the first device (logical device `LDA`) and
leaves the 63-character cut as the selected name; after `icd_unload` the second
load takes that name as the preference and selects the second device (`LDB`). -/
theorem reload_after_long_name_selects_another_device :
    (icd_load 1 (some reloadDoc) (icd_set_active_ied (some "X") none initialState).1).map
        (fun r => r.1.ln_instances.map (fun e => e.ldInst)) = some ["LDA"] ∧
      ((icd_load 1 (some reloadDoc) (icd_set_active_ied (some "X") none initialState).1).bind
          (fun r => icd_load 1 (some reloadDoc) (icd_unload r.1))).map
        (fun r => r.1.ln_instances.map (fun e => e.ldInst)) = some ["LDB"] := by
  refine ⟨by decide, by decide⟩

/-- C16, amended: for every document in which the names of all `IED` elements
and of their `AccessPoint` children have at most 63 characters, and every
initial state, if a load returns then a second load after `icd_unload` returns
as well, with the same result and the same state: all six catalogs and the
selected names are exactly as after the first load. -/
theorem reload_is_deterministic (fuel : Nat) (root : XmlNode) (st st1 : IcdState) (ok : Bool)
    (hfit : names_fit root = true)
    (hload : icd_load fuel (some root) st = some (st1, ok)) :
    icd_load fuel (some root) (icd_unload st1) = some (st1, ok) := by
  cases ht : find_node root.kids "DataTypeTemplates" none none with
  | none =>
    rw [icd_load_no_templates fuel root st ht] at hload
    cases hload
    rw [icd_load_no_templates fuel root _ ht]
    rfl
  | some templates =>
    obtain ⟨S1, hS1, _, _, hst1, hok⟩ :=
      icd_load_selected_ied_name fuel root templates st st1 ok ht hload
    have hu : icd_unload (icd_unload st1)
        = { icd_unload st with selected_ied_name := st1.selected_ied_name
                               selected_ap_name := st1.selected_ap_name } := rfl
    rw [icd_load_eq fuel root templates _ ht, hu, parse_lnodetypes_selection, hS1]
    simp only [Option.map_some']
    rw [select_and_collect_eq _ _ hfit, hok]
    rw [select_and_collect_eq _ _ hfit] at hst1
    rw [hst1, select_rule_again root S1 hfit]

/-- C16, witness: the scenario document, loaded from the initial state and then
loaded again after `icd_unload`. -/
theorem reload_is_deterministic_witness :
    icd_load 2 (some scenarioDoc) (icd_unload (select_and_collect scenarioDoc scenarioTypesState))
      = some (select_and_collect scenarioDoc scenarioTypesState, true) :=
  reload_is_deterministic 2 scenarioDoc initialState
    (select_and_collect scenarioDoc scenarioTypesState) true (by decide) (by decide)

/-! ## Numbers in report controls -/

theorem report_child_numbers (e : ReportEntry) (child : XmlNode) :
    (report_child e child).confRev = e.confRev ∧ (report_child e child).intgPd = e.intgPd ∧
      (report_child e child).bufTime = e.bufTime := by
  unfold report_child
  split_ifs <;> exact ⟨rfl, rfl, rfl⟩

theorem foldl_report_child_numbers :
    ∀ (kids : List XmlNode) (e : ReportEntry),
      (kids.foldl report_child e).confRev = e.confRev ∧
        (kids.foldl report_child e).intgPd = e.intgPd ∧
        (kids.foldl report_child e).bufTime = e.bufTime := by
  intro kids
  induction kids with
  | nil => intro e; exact ⟨rfl, rfl, rfl⟩
  | cons c rest ih =>
    intro e
    obtain ⟨h1, h2, h3⟩ := ih (report_child e c)
    obtain ⟨k1, k2, k3⟩ := report_child_numbers e c
    rw [List.foldl_cons]
    exact ⟨h1.trans k1, h2.trans k2, h3.trans k3⟩

theorem report_entry_of_numbers (rc : XmlNode) (name : String) :
    (report_entry_of rc name).confRev = parse_uint_attr (xmlGetProp rc "confRev") 0 ∧
      (report_entry_of rc name).intgPd = parse_uint_attr (xmlGetProp rc "intgPd") 0 ∧
      (report_entry_of rc name).bufTime
        = if parse_uint_attr (xmlGetProp rc "bufTime") 0 = 0 then
            parse_uint_attr (xmlGetProp rc "bufTm") 0
          else parse_uint_attr (xmlGetProp rc "bufTime") 0 := by
  unfold report_entry_of
  simp only
  obtain ⟨h1, h2, h3⟩ := foldl_report_child_numbers rc.kids
    { ldInst := "", lnName := "", name := trunc 63 name,
      dataSet := copyOpt 95 (xmlGetProp rc "datSet"),
      rptId := copyOpt 127 (xmlGetProp rc "rptID"),
      confRev := parse_uint_attr (xmlGetProp rc "confRev") 0,
      intgPd := parse_uint_attr (xmlGetProp rc "intgPd") 0,
      bufTime := if parse_uint_attr (xmlGetProp rc "bufTime") 0 == 0 then
        parse_uint_attr (xmlGetProp rc "bufTm") 0 else parse_uint_attr (xmlGetProp rc "bufTime") 0,
      rptEnabledMax := 0, trgOps := 0, optFields := 0,
      buffered := xml_attr_true (xmlGetProp rc "buffered") }
  refine ⟨h1, h2, ?_⟩
  rw [h3]
  simp only [beq_iff_eq]

theorem mem_dropWhile_of_not {p : Char → Bool} {c : Char} (hc : p c = false) :
    ∀ {l : List Char}, c ∈ l → c ∈ l.dropWhile p := by
  intro l
  induction l with
  | nil => intro h; cases h
  | cons x rest ih =>
    intro h
    rw [List.dropWhile_cons]
    by_cases hx : p x = true
    · rw [if_pos hx]
      rcases List.mem_cons.mp h with hcx | hr
      · rw [hcx, hx] at hc
        cases hc
      · exact ih hr
    · rw [if_neg hx]
      exact h

theorem drop_length_takeWhile (p : Char → Bool) :
    ∀ l : List Char, l.drop (l.takeWhile p).length = l.dropWhile p := by
  intro l
  induction l with
  | nil => rfl
  | cons x rest ih =>
    rw [List.takeWhile_cons, List.dropWhile_cons]
    by_cases hx : p x = true
    · rw [if_pos hx, if_pos hx]
      exact ih
    · rw [if_neg hx, if_neg hx]
      rfl

/-- The text `strtoul` leaves unread is not empty when the string holds a
character that is neither a digit, a sign nor white space. -/
theorem strtoul_rest_of_bad_char (s : String) (c : Char) (hmem : c ∈ s.data)
    (hbad : numeric_char c = false) : (strtoul s).2 ≠ [] := by
  simp only [numeric_char, Bool.or_eq_false_iff, beq_eq_false_iff_ne, ne_eq] at hbad
  obtain ⟨⟨⟨hdig, hminus⟩, hplus⟩, hspace⟩ := hbad
  have h1 : c ∈ s.data.dropWhile isSpaceC := mem_dropWhile_of_not hspace hmem
  have h2 : c ∈ (if ((s.data.dropWhile isSpaceC).head? == some '-' ||
      (s.data.dropWhile isSpaceC).head? == some '+') = true
      then (s.data.dropWhile isSpaceC).tail else s.data.dropWhile isSpaceC) := by
    split
    · rename_i hsign
      cases hcs : s.data.dropWhile isSpaceC with
      | nil => rw [hcs] at h1; cases h1
      | cons x rest =>
        rw [hcs] at h1 hsign
        simp only [List.head?_cons, Bool.or_eq_true, beq_iff_eq, Option.some.injEq] at hsign
        rcases List.mem_cons.mp h1 with hcx | hr
        · rcases hsign with hs | hs
          · exact absurd (hcx.trans hs) hminus
          · exact absurd (hcx.trans hs) hplus
        · exact hr
    · exact h1
  unfold strtoul
  simp only
  by_cases hsign : ((s.data.dropWhile isSpaceC).head? == some '-' ||
      (s.data.dropWhile isSpaceC).head? == some '+') = true
  · simp only [hsign, if_true] at h2 ⊢
    by_cases hemp : (List.takeWhile Char.isDigit (s.data.dropWhile isSpaceC).tail).isEmpty = true
    · rw [if_pos hemp]
      exact List.ne_nil_of_mem hmem
    · rw [if_neg hemp]
      simp only
      rw [drop_length_takeWhile]
      exact List.ne_nil_of_mem (mem_dropWhile_of_not hdig h2)
  · simp only [hsign, Bool.false_eq_true, if_false] at h2 ⊢
    by_cases hemp : (List.takeWhile Char.isDigit (s.data.dropWhile isSpaceC)).isEmpty = true
    · rw [if_pos hemp]
      exact List.ne_nil_of_mem hmem
    · rw [if_neg hemp]
      simp only
      rw [drop_length_takeWhile]
      exact List.ne_nil_of_mem (mem_dropWhile_of_not hdig h2)

theorem parse_uint_attr_rest (v : String) (d : Nat) (h : (strtoul v).2 ≠ []) :
    parse_uint_attr (some v) d = d := by
  unfold parse_uint_attr
  simp only
  have : (strtoul v).2.isEmpty = false := by
    cases hr : (strtoul v).2 with
    | nil => exact absurd hr h
    | cons _ _ => rfl
  rw [this]
  rfl

/-! ## C22 -/

/-- C22: for every `ReportControl` element with a name, the stored configuration
revision and integrity period are what `parse_uint_attr` makes of the attributes
`confRev` and `intgPd` with default 0: they are 0 when the attribute is absent,
0 when `strtoul` in base 10 does not consume the whole value, and so in
particular 0 when the value holds a character that is neither a digit, a sign
nor white space; a value that gives a number other than 0 was consumed
whole. -/
theorem report_numbers_default_to_zero (rc : XmlNode) (name : String) :
    (xmlGetProp rc "confRev" = none → (report_entry_of rc name).confRev = 0) ∧
      (xmlGetProp rc "intgPd" = none → (report_entry_of rc name).intgPd = 0) ∧
      (∀ v, xmlGetProp rc "confRev" = some v → (strtoul v).2 ≠ [] →
        (report_entry_of rc name).confRev = 0) ∧
      (∀ v, xmlGetProp rc "intgPd" = some v → (strtoul v).2 ≠ [] →
        (report_entry_of rc name).intgPd = 0) ∧
      (∀ v c, xmlGetProp rc "confRev" = some v → c ∈ v.data → numeric_char c = false →
        (report_entry_of rc name).confRev = 0) ∧
      (∀ v c, xmlGetProp rc "intgPd" = some v → c ∈ v.data → numeric_char c = false →
        (report_entry_of rc name).intgPd = 0) ∧
      (∀ v, xmlGetProp rc "confRev" = some v → (report_entry_of rc name).confRev ≠ 0 →
        (strtoul v).2 = []) ∧
      (∀ v, xmlGetProp rc "intgPd" = some v → (report_entry_of rc name).intgPd ≠ 0 →
        (strtoul v).2 = []) := by
  obtain ⟨h1, h2, _⟩ := report_entry_of_numbers rc name
  rw [h1, h2]
  refine ⟨?_, ?_, ?_, ?_, ?_, ?_, ?_, ?_⟩
  · intro h; rw [h]; rfl
  · intro h; rw [h]; rfl
  · intro v h hr; rw [h]; exact parse_uint_attr_rest v 0 hr
  · intro v h hr; rw [h]; exact parse_uint_attr_rest v 0 hr
  · intro v c h hc hbad; rw [h]
    exact parse_uint_attr_rest v 0 (strtoul_rest_of_bad_char v c hc hbad)
  · intro v c h hc hbad; rw [h]
    exact parse_uint_attr_rest v 0 (strtoul_rest_of_bad_char v c hc hbad)
  · intro v h hne
    rw [h] at hne
    by_contra hr
    exact hne (parse_uint_attr_rest v 0 hr)
  · intro v h hne
    rw [h] at hne
    by_contra hr
    exact hne (parse_uint_attr_rest v 0 hr)

/-- C22, witness: `badNumbersReport` has no `intgPd` and the `confRev` value `1x`;
both stored numbers are 0. -/
theorem report_numbers_default_to_zero_witness :
    (report_entry_of badNumbersReport "rcb1").intgPd = 0 ∧
      (report_entry_of badNumbersReport "rcb1").confRev = 0 :=
  ⟨(report_numbers_default_to_zero badNumbersReport "rcb1").2.1 rfl,
    (report_numbers_default_to_zero badNumbersReport "rcb1").2.2.2.2.1 "1x" 'x' rfl
      (by decide) (by decide)⟩

/-! ## C23 -/

/-- C23, counterexample: `zeroBufTimeReport` has the attribute `bufTime`, of value
`0`, and `bufTm` of value `50`; the stored buffer time is 50, not the value of
`bufTime`. -/
theorem zero_buffer_time_falls_back :
    xmlGetProp zeroBufTimeReport "bufTime" = some "0" ∧
      (report_entry_of zeroBufTimeReport "rcb1").bufTime = 50 := by
  decide

/-- C23, amended: the stored buffer time is the number `bufTime` yields when that
number is not 0; whenever `bufTime` yields 0 (the attribute is absent, is not a
number, or is 0) the legacy attribute `bufTm` is consulted and the number it
yields is stored, which is 0 when `bufTm` is absent or not a number. -/
theorem buffer_time_resolution (rc : XmlNode) (name : String) :
    (report_entry_of rc name).bufTime
        = (if parse_uint_attr (xmlGetProp rc "bufTime") 0 = 0 then
            parse_uint_attr (xmlGetProp rc "bufTm") 0
          else parse_uint_attr (xmlGetProp rc "bufTime") 0) ∧
      (xmlGetProp rc "bufTime" = none →
        (report_entry_of rc name).bufTime = parse_uint_attr (xmlGetProp rc "bufTm") 0) ∧
      (parse_uint_attr (xmlGetProp rc "bufTime") 0 = 0 →
        parse_uint_attr (xmlGetProp rc "bufTm") 0 = 0 → (report_entry_of rc name).bufTime = 0) := by
  obtain ⟨_, _, h3⟩ := report_entry_of_numbers rc name
  refine ⟨h3, ?_, ?_⟩
  · intro h
    rw [h3, h]
    rfl
  · intro h a
    rw [h3, if_pos h, a]

/-- C23, witness: `legacyBufTimeReport` has `bufTm` only and stores its value. -/
theorem buffer_time_resolution_witness :
    (report_entry_of legacyBufTimeReport "rcb1").bufTime = 50 ∧
      (report_entry_of badNumbersReport "rcb1").bufTime = 0 :=
  ⟨((buffer_time_resolution legacyBufTimeReport "rcb1").2.1 rfl).trans (by decide),
    (buffer_time_resolution badNumbersReport "rcb1").2.2 rfl rfl⟩

/-! ## C24 -/

/-- C24, counterexample: the values `True` and `tRuE` are not truthy. -/
theorem mixed_case_true_is_falsy :
    xml_attr_true (some "True") = false ∧ xml_attr_true (some "tRuE") = false ∧
      orIf 0 (some "True") TRG_OPT_DATA_CHANGED = 0 := by
  decide

/-- C24, amended: a value is truthy exactly when it is `1`, `true` or `TRUE`,
compared as written; an absent attribute and every other value, other spellings
of `true` included, are falsy, and a bit is set exactly for a truthy value. -/
theorem xml_attr_true_iff (a : Option String) (mask bit : Nat) :
    (xml_attr_true a = true ↔ a = some "1" ∨ a = some "true" ∨ a = some "TRUE") ∧
      xml_attr_true none = false ∧
      orIf mask a bit = if xml_attr_true a = true then (mask ||| bit) % 256 else mask := by
  refine ⟨?_, rfl, rfl⟩
  cases a with
  | none => simp [xml_attr_true]
  | some v =>
    simp only [xml_attr_true, Bool.or_eq_true, beq_iff_eq, Option.some.injEq]
    constructor
    · rintro ((h | h) | h)
      · exact Or.inr (Or.inl h)
      · exact Or.inr (Or.inr h)
      · exact Or.inl h
    · rintro (h | h | h)
      · exact Or.inr h
      · exact Or.inl (Or.inl h)
      · exact Or.inl (Or.inr h)

/-! ## C25 -/

theorem orIf_lt (mask : Nat) (a : Option String) (bit : Nat) (hm : mask < 256) :
    orIf mask a bit < 256 := by
  unfold orIf
  split
  · exact Nat.mod_lt _ (by decide)
  · exact hm

theorem orIf_testBit (mask : Nat) (a : Option String) (bit k i : Nat) (hm : mask < 256)
    (hk : k < 8) (hbit : bit = 2 ^ k) :
    (orIf mask a bit).testBit i = (mask.testBit i || (xml_attr_true a && decide (k = i))) := by
  have hb : 2 ^ k < 2 ^ 8 := Nat.pow_lt_pow_right (by decide) hk
  have hm8 : mask < 2 ^ 8 := hm
  have hor8 : mask ||| 2 ^ k < 2 ^ 8 := Nat.or_lt_two_pow hm8 hb
  have hor : mask ||| 2 ^ k < 256 := hor8
  unfold orIf
  rw [hbit]
  split
  · rename_i ht
    rw [Nat.mod_eq_of_lt hor, Nat.testBit_or, Nat.testBit_two_pow, ht]
    simp
  · rename_i ht
    have ht2 : xml_attr_true a = false := by simpa using ht
    rw [ht2]
    simp

theorem parse_trgops_node_testBit (node : XmlNode) (i : Nat) :
    (parse_trgops_node node).testBit i
      = ((xml_attr_true (xmlGetProp node "dchg") && decide (0 = i)) ||
          (xml_attr_true (xmlGetProp node "qchg") && decide (1 = i)) ||
          (xml_attr_true (xmlGetProp node "dupd") && decide (2 = i)) ||
          (xml_attr_true (xmlGetProp node "period") && decide (3 = i)) ||
          (xml_attr_true (xmlGetProp node "gi") && decide (4 = i))) := by
  have h1 := orIf_lt 0 (xmlGetProp node "dchg") TRG_OPT_DATA_CHANGED (by decide)
  have h2 := orIf_lt _ (xmlGetProp node "qchg") TRG_OPT_QUALITY_CHANGED h1
  have h3 := orIf_lt _ (xmlGetProp node "dupd") TRG_OPT_DATA_UPDATE h2
  have h4 := orIf_lt _ (xmlGetProp node "period") TRG_OPT_INTEGRITY h3
  unfold parse_trgops_node
  simp only
  rw [orIf_testBit _ _ TRG_OPT_GI 4 i h4 (by decide) rfl,
    orIf_testBit _ _ TRG_OPT_INTEGRITY 3 i h3 (by decide) rfl,
    orIf_testBit _ _ TRG_OPT_DATA_UPDATE 2 i h2 (by decide) rfl,
    orIf_testBit _ _ TRG_OPT_QUALITY_CHANGED 1 i h1 (by decide) rfl,
    orIf_testBit _ _ TRG_OPT_DATA_CHANGED 0 i (by decide) (by decide) rfl]
  simp only [Nat.zero_testBit, Bool.false_or]

theorem parse_optfields_node_testBit (node : XmlNode) (i : Nat) :
    (parse_optfields_node node).testBit i
      = ((xml_attr_true (xmlGetProp node "seqNum") && decide (0 = i)) ||
          (xml_attr_true (xmlGetProp node "timeStamp") && decide (1 = i)) ||
          (xml_attr_true (xmlGetProp node "reasonCode") && decide (2 = i)) ||
          (xml_attr_true (xmlGetProp node "dataSet") && decide (3 = i)) ||
          (xml_attr_true (xmlGetProp node "dataRef") && decide (4 = i)) ||
          (xml_attr_true (xmlGetProp node "bufOvfl") && decide (5 = i)) ||
          (xml_attr_true (xmlGetProp node "entryID") && decide (6 = i)) ||
          (xml_attr_true (xmlGetProp node "configRef") && decide (7 = i))) := by
  have h1 := orIf_lt 0 (xmlGetProp node "seqNum") RPT_OPT_SEQ_NUM (by decide)
  have h2 := orIf_lt _ (xmlGetProp node "timeStamp") RPT_OPT_TIME_STAMP h1
  have h3 := orIf_lt _ (xmlGetProp node "reasonCode") RPT_OPT_REASON_FOR_INCLUSION h2
  have h4 := orIf_lt _ (xmlGetProp node "dataSet") RPT_OPT_DATA_SET h3
  have h5 := orIf_lt _ (xmlGetProp node "dataRef") RPT_OPT_DATA_REFERENCE h4
  have h6 := orIf_lt _ (xmlGetProp node "bufOvfl") RPT_OPT_BUFFER_OVERFLOW h5
  have h7 := orIf_lt _ (xmlGetProp node "entryID") RPT_OPT_ENTRY_ID h6
  unfold parse_optfields_node
  simp only
  rw [orIf_testBit _ _ RPT_OPT_CONF_REV 7 i h7 (by decide) rfl,
    orIf_testBit _ _ RPT_OPT_ENTRY_ID 6 i h6 (by decide) rfl,
    orIf_testBit _ _ RPT_OPT_BUFFER_OVERFLOW 5 i h5 (by decide) rfl,
    orIf_testBit _ _ RPT_OPT_DATA_REFERENCE 4 i h4 (by decide) rfl,
    orIf_testBit _ _ RPT_OPT_DATA_SET 3 i h3 (by decide) rfl,
    orIf_testBit _ _ RPT_OPT_REASON_FOR_INCLUSION 2 i h2 (by decide) rfl,
    orIf_testBit _ _ RPT_OPT_TIME_STAMP 1 i h1 (by decide) rfl,
    orIf_testBit _ _ RPT_OPT_SEQ_NUM 0 i (by decide) (by decide) rfl]
  simp only [Nat.zero_testBit, Bool.false_or]

/-- C25: the five trigger-option constants are the bits 0 to 4 and the eight
optional-field constants are the bits 0 to 7, each a single bit and no two the
same; for every element, bit `i` of what `parse_trgops_node` returns is set
exactly when the attribute `dchg`, `qchg`, `dupd`, `period`, `gi` that belongs
to bit `i` is truthy, and bit `i` of what `parse_optfields_node` returns is set
exactly when the attribute `seqNum`, `timeStamp`, `reasonCode`, `dataSet`,
`dataRef`, `bufOvfl`, `entryID`, `configRef` that belongs to bit `i` is truthy;
a bit that belongs to no attribute is never set. -/
theorem report_bitmask_mapping (node : XmlNode) :
    [TRG_OPT_DATA_CHANGED, TRG_OPT_QUALITY_CHANGED, TRG_OPT_DATA_UPDATE, TRG_OPT_INTEGRITY,
        TRG_OPT_GI] = [2 ^ 0, 2 ^ 1, 2 ^ 2, 2 ^ 3, 2 ^ 4] ∧
      [RPT_OPT_SEQ_NUM, RPT_OPT_TIME_STAMP, RPT_OPT_REASON_FOR_INCLUSION, RPT_OPT_DATA_SET,
        RPT_OPT_DATA_REFERENCE, RPT_OPT_BUFFER_OVERFLOW, RPT_OPT_ENTRY_ID, RPT_OPT_CONF_REV]
        = [2 ^ 0, 2 ^ 1, 2 ^ 2, 2 ^ 3, 2 ^ 4, 2 ^ 5, 2 ^ 6, 2 ^ 7] ∧
      (∀ i : Nat, (parse_trgops_node node).testBit i = attr_truthy node (trg_attr i)) ∧
      (∀ i : Nat, (parse_optfields_node node).testBit i = attr_truthy node (opt_attr i)) := by
  refine ⟨rfl, rfl, ?_, ?_⟩
  · intro i
    rw [parse_trgops_node_testBit]
    rcases i with _ | _ | _ | _ | _ | i <;> simp [trg_attr, attr_truthy]
  · intro i
    rw [parse_optfields_node_testBit]
    rcases i with _ | _ | _ | _ | _ | _ | _ | _ | i <;> simp [opt_attr, attr_truthy]

/-! ## C26 -/

theorem add_da_entry_registered (d p : String) (fc bType typeId : Option String)
    (trgOps : Nat) (da : List DAEntry) (hkey : da_entry_exists da d p = true) :
    add_da_entry (some d) (some p) fc bType typeId trgOps da = da := by
  unfold add_da_entry
  simp only [hkey, if_true]

theorem collect_do_children_attribute
    (recurDo : Option String → Option String → List DAEntry → Option (List DAEntry))
    (recurDa : Option String → Option String → Option String → Nat →
      List DAEntry → Option (List DAEntry))
    (doTypeId pfx : Option String) (child : XmlNode) (rest : List XmlNode)
    (da : List DAEntry) (nameStr bTypeStr t : String)
    (hel : isElem child "DA" = true)
    (hname : xmlGetProp child "name" = some nameStr)
    (hbType : xmlGetProp child "bType" = some bTypeStr)
    (htype : xmlGetProp child "type" = some t) :
    collect_do_children recurDo recurDa doTypeId pfx (child :: rest) da
      = (recurDa (some t) (some (join_path pfx nameStr)) (xmlGetProp child "fc")
            (change_flags child)
            (add_da_entry doTypeId (some (join_path pfx nameStr)) (xmlGetProp child "fc")
              (some bTypeStr) (some t) (change_flags child) da)).bind
          (collect_do_children recurDo recurDa doTypeId pfx rest) := by
  simp only [isElem, Bool.and_eq_true, beq_iff_eq] at hel
  have htag : (child.tag == "DA") = true := by rw [hel.2]; decide
  rw [collect_do_children]
  simp only [hel.1, htag, hname, hbType, htype, Bool.not_true, Bool.false_eq_true, if_false,
    if_true]

/-- C28, counterexample: in `dupKeyTemplates` the second attribute `a` of the object
type `D` is reached when the key `(D, a)` is already registered; its attribute
type `TB` is expanded all the same and the entry `(D, a.q)` is registered. -/
theorem registered_key_is_expanded_again :
    da_entry_exists afterFirstA "D" "a" = true ∧
      collect_do_children (collect_do_type 1 dupKeyTemplates)
          (collect_da_type 1 dupKeyTemplates (some "D")) (some "D") none
          [XmlNode.element "DA" [("name", "a"), ("bType", "Struct"), ("type", "TB")] []]
          afterFirstA
        = some (⟨"D", "a.q", "", "INT32", "", 0⟩ :: afterFirstA) ∧
      (collect_do_type 2 dupKeyTemplates (some "D") none []).map
          (fun l => l.map (fun e => (e.doType, e.daPath, e.typeId)))
        = some [("D", "a.q", ""), ("D", "a.p", ""), ("D", "a", "TA")] := by
  decide

/-- C28, amended: the duplicate check guards the registration only.  When the
resolver reaches a member or an attribute whose key `(typeId, path)` is already
in the attribute catalog, `add_da_entry` leaves the catalog unchanged, and the
nested type the element refers to is expanded again all the same, from the
unchanged catalog: in `collect_da_type` and in `collect_do_type` the recursive
call does not depend on the outcome of the check. -/
theorem registered_key_skips_registration_only
    (recurDo : Option String → Option String → List DAEntry → Option (List DAEntry))
    (recur : Option String → Option String → Option String → Nat →
      List DAEntry → Option (List DAEntry))
    (d : String) (pfx inheritedFc : Option String) (inheritedTrgOps : Nat)
    (child : XmlNode) (rest : List XmlNode) (da : List DAEntry) (nameStr t : String)
    (hname : xmlGetProp child "name" = some nameStr)
    (htype : xmlGetProp child "type" = some t)
    (hkey : da_entry_exists da d (join_path pfx nameStr) = true) :
    (isElem child "BDA" = true ∨ isElem child "DA" = true →
        collect_da_children recur (some d) pfx inheritedFc inheritedTrgOps (child :: rest) da
          = (recur (some t) (some (join_path pfx nameStr)) (member_fc child inheritedFc)
                (member_trgOps child inheritedTrgOps) da).bind
              (collect_da_children recur (some d) pfx inheritedFc inheritedTrgOps rest)) ∧
      (∀ bTypeStr : String, isElem child "DA" = true →
        xmlGetProp child "bType" = some bTypeStr →
        collect_do_children recurDo recur (some d) pfx (child :: rest) da
          = (recur (some t) (some (join_path pfx nameStr)) (xmlGetProp child "fc")
                (change_flags child) da).bind
              (collect_do_children recurDo recur (some d) pfx rest)) := by
  constructor
  · intro hmember
    rw [collect_da_children_member recur (some d) pfx inheritedFc inheritedTrgOps child rest da
      nameStr hmember hname, htype]
    simp only
    rw [add_da_entry_registered d _ _ _ _ _ da hkey]
  · intro bTypeStr hel hbType
    rw [collect_do_children_attribute recurDo recur (some d) pfx child rest da nameStr bTypeStr t
      hel hname hbType htype, add_da_entry_registered d _ _ _ _ _ da hkey]

/-- C28, witness: the second attribute `a` of `dupKeyTemplates`, reached with the
catalog `afterFirstA`: the expansion of `TB` runs from that catalog. -/
theorem registered_key_skips_registration_only_witness :
    collect_do_children (collect_do_type 1 dupKeyTemplates)
        (collect_da_type 1 dupKeyTemplates (some "D")) (some "D") none
        [XmlNode.element "DA" [("name", "a"), ("bType", "Struct"), ("type", "TB")] []]
        afterFirstA
      = (collect_da_type 1 dupKeyTemplates (some "D") (some "TB") (some (join_path none "a"))
            (xmlGetProp
              (XmlNode.element "DA" [("name", "a"), ("bType", "Struct"), ("type", "TB")] []) "fc")
            (change_flags
              (XmlNode.element "DA" [("name", "a"), ("bType", "Struct"), ("type", "TB")] []))
            afterFirstA).bind
          (collect_do_children (collect_do_type 1 dupKeyTemplates)
            (collect_da_type 1 dupKeyTemplates (some "D")) (some "D") none []) :=
  (registered_key_skips_registration_only (collect_do_type 1 dupKeyTemplates)
    (collect_da_type 1 dupKeyTemplates (some "D")) "D" none none 0
    (XmlNode.element "DA" [("name", "a"), ("bType", "Struct"), ("type", "TB")] []) []
    afterFirstA "a" "TB" rfl rfl (by decide)).2 "Struct" rfl rfl

/-! ## C29 -/

theorem collect_do_children_sdo
    (recurDo : Option String → Option String → List DAEntry → Option (List DAEntry))
    (recurDa : Option String → Option String → Option String → Nat →
      List DAEntry → Option (List DAEntry))
    (doTypeId pfx : Option String) (child : XmlNode) (rest : List XmlNode)
    (da : List DAEntry) (nameStr t : String)
    (hel : isElem child "SDO" = true)
    (hname : xmlGetProp child "name" = some nameStr)
    (htype : xmlGetProp child "type" = some t) :
    collect_do_children recurDo recurDa doTypeId pfx (child :: rest) da
      = (recurDo (some t) (some (join_path pfx nameStr)) da).bind
          (collect_do_children recurDo recurDa doTypeId pfx rest) := by
  simp only [isElem, Bool.and_eq_true, beq_iff_eq] at hel
  have htag : (child.tag == "DA") = false := by rw [hel.2]; decide
  have htag2 : (child.tag == "SDO") = true := by rw [hel.2]; decide
  rw [collect_do_children]
  simp only [hel.1, htag, htag2, hname, htype, Bool.not_true, Bool.false_eq_true, if_false,
    if_true]

theorem mem_all_do_entries (templates : XmlNode) (e : DOEntry)
    (he : e ∈ all_do_entries templates) :
    ∃ ln ∈ templates.kids, isElem ln "LNodeType" = true ∧
      ∃ doNode ∈ ln.kids, isElem doNode "DO" = true ∧
        e = do_entry_of templates (xmlGetProp ln "lnClass") (xmlGetProp ln "id") doNode := by
  unfold all_do_entries at he
  obtain ⟨ln, hln, hmem⟩ := List.mem_flatMap.mp he
  obtain ⟨hk, hel⟩ := List.mem_filter.mp hln
  unfold lnodetype_entries at hmem
  obtain ⟨doNode, hdo, heq⟩ := List.mem_map.mp hmem
  obtain ⟨hd, hreg⟩ := List.mem_filter.mp hdo
  simp only [do_is_registered, Bool.and_eq_true] at hreg
  exact ⟨ln, hk, hel, doNode, hd, hreg.1, heq.symm⟩

/-- C29, counterexample: in `sdoDoc` the object type `A` has the sub-object `s` of
type `B`.  After the load the object catalog holds the one entry of the object
`D` and none for `s`, which `icd_find_do_info` does not find under the node type,
while the attribute `v` of `B` is registered under the extended path `s.v`. -/
theorem sub_object_yields_no_object_entry :
    (icd_load 3 (some sdoDoc) initialState).map
        (fun r => (r.1.do_list.map (fun e => (e.lnType, e.doName, e.doType)),
          icd_find_do_info r.1.do_list (some "T1") (some "s"),
          r.1.da_list.map (fun e => (e.doType, e.daPath))))
      = some ([("T1", "D", "A")], none, [("B", "s.v")]) := by
  decide

/-- C29, amended: in `collect_do_type` a sub-object (`SDO`) child that has a name
and a type yields no entry of the object catalog; its only effect is the
expansion of the referenced object type with the path extended by the name of
the child.  After a load every entry of the object catalog is the entry of a
`DO` child of an `LNodeType` element. -/
theorem sub_object_only_recurses
    (recurDo : Option String → Option String → List DAEntry → Option (List DAEntry))
    (recurDa : Option String → Option String → Option String → Nat →
      List DAEntry → Option (List DAEntry))
    (doTypeId pfx : Option String) (child : XmlNode) (rest : List XmlNode)
    (da : List DAEntry) (nameStr t : String)
    (hel : isElem child "SDO" = true)
    (hname : xmlGetProp child "name" = some nameStr)
    (htype : xmlGetProp child "type" = some t) :
    collect_do_children recurDo recurDa doTypeId pfx (child :: rest) da
        = (recurDo (some t) (some (join_path pfx nameStr)) da).bind
            (collect_do_children recurDo recurDa doTypeId pfx rest) ∧
      ∀ (fuel : Nat) (root templates : XmlNode) (st st' : IcdState) (ok : Bool),
        find_node root.kids "DataTypeTemplates" none none = some templates →
        icd_load fuel (some root) st = some (st', ok) →
        ∀ e ∈ st'.do_list, ∃ ln ∈ templates.kids, isElem ln "LNodeType" = true ∧
          ∃ doNode ∈ ln.kids, isElem doNode "DO" = true ∧
            e = do_entry_of templates (xmlGetProp ln "lnClass") (xmlGetProp ln "id") doNode := by
  refine ⟨collect_do_children_sdo recurDo recurDa doTypeId pfx child rest da nameStr t hel hname
    htype, ?_⟩
  intro fuel root templates st st' ok ht hload e he
  unfold icd_load at hload
  simp only at hload
  obtain ⟨st1, hp, hst⟩ := Option.map_eq_some'.mp hload
  cases hst
  rw [parse_icd_do_list fuel root templates _ _ ht hp] at he
  have he2 : e ∈ all_do_entries templates := by
    simpa [icd_unload] using he
  exact mem_all_do_entries templates e he2

/-- C29, witness: the sub-object `s` of the object type `A` of `sdoTemplates`: the
expansion of `A` is the expansion of `B` under the path `s`, which registers the attribute
`s.v`; the one entry of the object catalog of `sdoState` is that of the
object `D`. -/
theorem sub_object_only_recurses_witness :
    collect_do_children (collect_do_type 1 sdoTemplates)
        (collect_da_type 1 sdoTemplates (some "A")) (some "A") none
        [XmlNode.element "SDO" [("name", "s"), ("type", "B")] []] []
      = some [⟨"B", "s.v", "ST", "BOOLEAN", "", 0⟩] ∧
    ∃ ln ∈ sdoTemplates.kids, isElem ln "LNodeType" = true ∧
      ∃ doNode ∈ ln.kids, isElem doNode "DO" = true ∧
        (⟨"T1", "GGIO", "D", "A", "WYE"⟩ : DOEntry)
          = do_entry_of sdoTemplates (xmlGetProp ln "lnClass") (xmlGetProp ln "id") doNode :=
  ⟨((sub_object_only_recurses (collect_do_type 1 sdoTemplates)
      (collect_da_type 1 sdoTemplates (some "A")) (some "A") none
      (XmlNode.element "SDO" [("name", "s"), ("type", "B")] []) [] [] "s" "B"
      rfl rfl rfl).1).trans (by decide),
    (sub_object_only_recurses (collect_do_type 1 sdoTemplates)
      (collect_da_type 1 sdoTemplates (some "A")) (some "A") none
      (XmlNode.element "SDO" [("name", "s"), ("type", "B")] []) [] [] "s" "B"
      rfl rfl rfl).2 3 sdoDoc sdoTemplates initialState sdoState true rfl (by decide)
      ⟨"T1", "GGIO", "D", "A", "WYE"⟩ (List.mem_cons_self _ _)⟩

/-! ## The node-class table after a load -/

theorem run_ln_calls_append (a b : List (Option String × Option String)) (l : List LNEntry) :
    run_ln_calls (a ++ b) l = run_ln_calls b (run_ln_calls a l) := by
  unfold run_ln_calls
  rw [List.foldl_append]

mutual
theorem collect_ln_node_calls :
    ∀ (cur : XmlNode) (l : List LNEntry),
      collect_ln_node cur l = run_ln_calls ((ln_elements_of cur).map ln_call_of) l
  | XmlNode.other _, l => rfl
  | XmlNode.element name attrs children, l => by
    rw [collect_ln_node, ln_elements_of, List.map_append, run_ln_calls_append,
      collect_ln_nodes_calls children]
    by_cases h : (name == "LN" || name == "LN0") = true
    · simp only [h, if_true]
      rfl
    · simp only [h, if_false]
      rfl
theorem collect_ln_nodes_calls :
    ∀ (nodes : List XmlNode) (l : List LNEntry),
      collect_ln_nodes nodes l = run_ln_calls ((ln_elements nodes).map ln_call_of) l
  | [], l => rfl
  | cur :: rest, l => by
    rw [collect_ln_nodes, ln_elements, List.map_append, run_ln_calls_append,
      collect_ln_node_calls cur, collect_ln_nodes_calls rest]
end

/-! ## The node instances of an access point -/

theorem ln_child_ln_instances (ldInst : Option String) (lnName : String) (st : IcdState)
    (child : XmlNode) : (ln_child ldInst lnName st child).ln_instances = st.ln_instances := by
  unfold ln_child
  split
  · rfl
  · split
    · split <;> rfl
    · split
      · unfold collect_report_control
        split <;> rfl
      · rfl

theorem process_ln_ln_instances (ln : XmlNode) (inst : String) (st : IcdState) :
    (process_ln_for_datasets ln (some inst) st).ln_instances
      = ln_instance_of (inst, ln) :: st.ln_instances := by
  unfold process_ln_for_datasets
  simp only
  rw [foldl_frame IcdState.ln_instances _ (ln_child_ln_instances _ _)]
  rfl

theorem foldl_ln_instances {α : Type} (step : IcdState → α → IcdState) (p : α → Bool)
    (f : α → List LNInstEntry)
    (h1 : ∀ s x, p x = true → (step s x).ln_instances = (f x).reverse ++ s.ln_instances)
    (h2 : ∀ s x, p x = false → (step s x).ln_instances = s.ln_instances) :
    ∀ (xs : List α) (s : IcdState),
      (xs.foldl step s).ln_instances = ((xs.filter p).flatMap f).reverse ++ s.ln_instances := by
  intro xs
  induction xs with
  | nil => intro s; rfl
  | cons x rest ih =>
    intro s
    rw [List.foldl_cons, ih]
    cases hp : p x with
    | true =>
      rw [List.filter_cons_of_pos hp, List.flatMap_cons, List.reverse_append,
        List.append_assoc, h1 s x hp]
    | false =>
      have hp2 : ¬ p x = true := by simp [hp]
      rw [List.filter_cons_of_neg hp2, h2 s x hp]

theorem ldevice_ln_instances (ld : XmlNode) (st : IcdState) :
    (ld.kids.foldl (ldevice_child ((xmlGetProp ld "inst").getD "")) st).ln_instances
      = ((device_lns ld).map ln_instance_of).reverse ++ st.ln_instances := by
  rw [foldl_ln_instances (ldevice_child ((xmlGetProp ld "inst").getD ""))
    (fun ln => isElem ln "LN" || isElem ln "LN0")
    (fun ln => [ln_instance_of ((xmlGetProp ld "inst").getD "", ln)])]
  · have hmap : ∀ l : List XmlNode,
        l.flatMap (fun ln => [ln_instance_of ((xmlGetProp ld "inst").getD "", ln)])
          = (l.map (fun ln => ((xmlGetProp ld "inst").getD "", ln))).map ln_instance_of := by
      intro l
      induction l with
      | nil => rfl
      | cons y rest ih => rw [List.flatMap_cons, ih]; rfl
    rw [hmap]
    rfl
  · intro s x hp
    unfold ldevice_child
    rw [if_pos hp, process_ln_ln_instances]
    rfl
  · intro s x hp
    unfold ldevice_child
    have hp2 : ¬ (isElem x "LN" || isElem x "LN0") = true := by simp [hp]
    rw [if_neg hp2]

theorem server_ln_instances (server : XmlNode) (st : IcdState) :
    (server.kids.foldl server_child st).ln_instances
      = ((server_lns server).map ln_instance_of).reverse ++ st.ln_instances := by
  rw [foldl_ln_instances server_child (fun ld => isElem ld "LDevice")
    (fun ld => (device_lns ld).map ln_instance_of)]
  · unfold server_lns
    rw [List.map_flatMap]
  · intro s x hp
    unfold server_child
    simp only [hp, Bool.not_true, Bool.false_eq_true, if_false]
    exact ldevice_ln_instances x s
  · intro s x hp
    unfold server_child
    simp only [hp, Bool.not_false, if_true]

/-- The function `process_access_point` registers one node instance for every node
of the scope of the access point, in document order, and nothing else. -/
theorem process_access_point_ln_instances (ap : XmlNode) (st : IcdState) :
    (process_access_point ap st).ln_instances
      = ((scope_lns ap).map ln_instance_of).reverse ++ st.ln_instances := by
  unfold process_access_point
  rw [foldl_ln_instances _ (fun server => isElem server "Server")
    (fun server => (server_lns server).map ln_instance_of)]
  · unfold scope_lns
    rw [List.map_flatMap]
  · intro s x hp
    simp only [hp, Bool.not_true, Bool.false_eq_true, if_false]
    exact server_ln_instances x s
  · intro s x hp
    simp only [hp, Bool.not_false, if_true]

/-! ## C21 -/

theorem chosen_ied_name (kids : List XmlNode) (s t : String) (x : NodeAt) (s1 t1 : String)
    (h : chosen_ied kids s t = (some x, s1, t1)) (hlen : (node_name x.1).length ≤ 63) :
    s1 = node_name x.1 := by
  have hfall : (match find_at is_named_ied kids with
      | some x0 => ((some x0, trunc 63 (node_name x0.1), "") : Option NodeAt × String × String)
      | none => (none, "", t)) = (some x, s1, t1) → s1 = node_name x.1 := by
    intro h2
    cases hfa : find_at is_named_ied kids with
    | none => rw [hfa] at h2; cases h2
    | some x0 =>
      rw [hfa] at h2
      simp only [Prod.mk.injEq, Option.some.injEq] at h2
      rw [← h2.2.1, h2.1]
      exact trunc_of_le hlen
  unfold chosen_ied at h
  by_cases hs : s = ""
  · have hb : (s != "") = false := by simp [hs]
    simp only [hb, Bool.false_eq_true, if_false] at h
    exact hfall h
  · have hb : (s != "") = true := by simp [hs]
    simp only [hb, if_true] at h
    cases hex : find_at (is_ied_named s) kids with
    | none =>
      rw [hex] at h
      exact hfall h
    | some y =>
      rw [hex] at h
      simp only [Prod.mk.injEq, Option.some.injEq] at h
      have hm := (find_at_some_mem hex).2
      simp only [is_ied_named, Bool.and_eq_true, beq_iff_eq] at hm
      rw [← h.2.1, ← h.1]
      exact hm.2.symm

theorem chosen_ap_some (kids : List XmlNode) (t : String) (a : XmlNode)
    (h : (chosen_ap kids t).1 = some a) :
    a ∈ kids ∧ isElem a "AccessPoint" = true ∧
      ((node_name a).length ≤ 63 → (chosen_ap kids t).2 = node_name a) := by
  have hfall : ((match kids.find? is_ap with
      | some a0 => ((some a0, trunc 63 (node_name a0)) : Option XmlNode × String)
      | none => (none, "")).1 = some a) →
      a ∈ kids ∧ isElem a "AccessPoint" = true ∧
        ((node_name a).length ≤ 63 →
          (match kids.find? is_ap with
            | some a0 => ((some a0, trunc 63 (node_name a0)) : Option XmlNode × String)
            | none => (none, "")).2 = node_name a) := by
    intro h2
    cases hfa : kids.find? is_ap with
    | none => rw [hfa] at h2; cases h2
    | some a0 =>
      rw [hfa] at h2
      simp only [Option.some.injEq] at h2
      subst h2
      have hap : is_ap a0 = true := List.find?_some hfa
      exact ⟨List.mem_of_find?_eq_some hfa, hap, fun hlen => trunc_of_le hlen⟩
  unfold chosen_ap at h ⊢
  by_cases ht : t = ""
  · have hb : (t != "") = false := by simp [ht]
    simp only [hb, Bool.false_eq_true, if_false] at h ⊢
    exact hfall h
  · have hb : (t != "") = true := by simp [ht]
    simp only [hb, if_true] at h ⊢
    cases hex : kids.find? (is_ap_named t) with
    | none =>
      rw [hex] at h
      exact hfall h
    | some y =>
      rw [hex] at h
      simp only [Option.some.injEq] at h
      subst h
      have hm : is_ap_named t y = true := List.find?_some hex
      simp only [is_ap_named, Bool.and_eq_true, beq_iff_eq] at hm
      exact ⟨List.mem_of_find?_eq_some hex, hm.1, fun _ => hm.2.symm⟩

/-- C21, counterexample: the logical device of `longLdInstDoc` has an instance name
of 64 characters; the node instance registered for its node carries the first 63
of them, not the instance name. -/
theorem long_device_instance_is_cut :
    (icd_load 1 (some longLdInstDoc) initialState).map
        (fun r => r.1.ln_instances.map (fun e => (e.ldInst, e.lnName, e.isLn0)))
      = some [(trunc 63 name64, "LLN0", true)] ∧
      trunc 63 name64 ≠ name64 := by
  refine ⟨by decide, by decide⟩

/-- C21, amended: for a document with a `DataTypeTemplates` section in which the
names of the devices and access points have at most 63 characters, after a load
the node-instance catalog holds exactly one instance for each `LN` or `LN0`
element that is a child of an `LDevice` under a `Server` of the access point the
selection rule chooses, last registered first, and nothing else; an instance
carries the first 63 characters of the instance name of the device, of the
prefix and of the node type, the first 15 of the class and of the instance
number (each empty when the attribute is missing), the composed name, and the
flag set exactly for `LN0`.  The chosen access point is a child of a device of
the name returned after the load, and has the selected access point name. -/
theorem node_instances_from_selected_scope (fuel : Nat) (root templates : XmlNode)
    (st st' : IcdState) (ok : Bool)
    (hfit : names_fit root = true)
    (ht : find_node root.kids "DataTypeTemplates" none none = some templates)
    (hload : icd_load fuel (some root) st = some (st', ok)) :
    st'.ln_instances
        = scope_instances (selected_ap root st.selected_ied_name st.selected_ap_name) ∧
      ∀ a : XmlNode, selected_ap root st.selected_ied_name st.selected_ap_name = some a →
        ∃ ied ∈ root.kids, isElem ied "IED" = true ∧ node_name ied = st'.selected_ied_name ∧
          a ∈ ied.kids ∧ isElem a "AccessPoint" = true ∧ node_name a = st'.selected_ap_name := by
  obtain ⟨S1, hS1, hn1, hn2, hst', _⟩ :=
    icd_load_selected_ied_name fuel root templates st st' ok ht hload
  have hempty : S1.ln_instances = [] := (parse_lnodetypes_rest _ _ _ _ _ hS1).2.1
  rw [select_and_collect_eq root S1 hfit] at hst'
  cases hc : chosen_ied root.kids st.selected_ied_name st.selected_ap_name with
  | mk o r =>
    cases r with
    | mk s1 t1 =>
      have hc1 : chosen_ied root.kids S1.selected_ied_name S1.selected_ap_name = (o, s1, t1) := by
        rw [hn1, hn2]; exact hc
      cases o with
      | none =>
        have hsel : selected_ap root st.selected_ied_name st.selected_ap_name = none := by
          unfold selected_ap
          rw [hc]
        rw [hsel, hst', select_rule_none root S1 s1 t1 hc1]
        exact ⟨hempty, fun a ha => by cases ha⟩
      | some x =>
        have hsel : selected_ap root st.selected_ied_name st.selected_ap_name
            = (chosen_ap x.1.kids t1).1 := by
          unfold selected_ap
          rw [hc]
        have hx := chosen_ied_some _ _ _ _ _ _ hc
        have hxfit := names_fit_ied root hfit x.1 hx.1 hx.2
        obtain ⟨hname1, hname2⟩ := select_rule_names root S1 x s1 t1 hc1
        rw [← hst'] at hname1 hname2
        constructor
        · rw [hsel, hst', select_rule_some root S1 x s1 t1 hc1]
          cases (chosen_ap x.1.kids t1).1 with
          | none => exact hempty
          | some a =>
            show (process_access_point a _).ln_instances = _
            rw [process_access_point_ln_instances]
            show _ ++ S1.ln_instances = _
            rw [hempty, List.append_nil]
            rfl
        · intro a ha
          rw [hsel] at ha
          obtain ⟨hmem, hap, hapname⟩ := chosen_ap_some x.1.kids t1 a ha
          refine ⟨x.1, hx.1, hx.2, ?_, hmem, hap, ?_⟩
          · rw [hname1]
            exact (chosen_ied_name _ _ _ _ _ _ hc hxfit.1).symm
          · rw [hname2]
            exact (hapname (hxfit.2 a hmem hap)).symm

/-- C21, witness: `twoAccessPointsDoc` loaded without preference: the access point
chosen is `AP1` and the catalog holds the one node of its scope, `MMXU1`. -/
theorem node_instances_from_selected_scope_witness :
    (select_and_collect twoAccessPointsDoc initialState).ln_instances
        = [{ ldInst := "LD1", pfx := "", lnClass := "MMXU", lnInst := "1", lnType := "T1",
             lnName := "MMXU1", isLn0 := false }] ∧
      (selected_ap twoAccessPointsDoc "" "").map node_name = some "AP1" :=
  ⟨((node_instances_from_selected_scope 1 twoAccessPointsDoc
      (XmlNode.element "DataTypeTemplates" [] []) initialState
      (select_and_collect twoAccessPointsDoc initialState) true (by decide) rfl
      (by decide)).1).trans (by decide),
    by decide⟩

/-! ## C30 -/

theorem ln_call_name_length (e : XmlNode) :
    ∀ m, (ln_call_of e).1 = some m → m.length ≤ 63 := by
  intro m hm
  simp only [ln_call_of, Option.some.injEq] at hm
  rw [← hm]
  unfold ln_table_name
  split
  · rw [trunc_length]
    exact Nat.min_le_left _ _
  · rw [trunc_length]
    exact Nat.min_le_left _ _

/-- The node-class table after a load of a document with a `DataTypeTemplates` section:
what `collect_ln_nodes` makes of the device `find_active_ied` returns and
of the siblings that follow it. -/
theorem icd_load_ln_list (fuel : Nat) (root templates : XmlNode) (st st' : IcdState)
    (ok : Bool)
    (ht : find_node root.kids "DataTypeTemplates" none none = some templates)
    (hload : icd_load fuel (some root) st = some (st', ok)) :
    st'.ln_list
      = match (find_active_ied root st).1 with
        | some x => collect_ln_nodes (x.1 :: x.2) []
        | none => [] := by
  obtain ⟨S1, hS1, hn1, hn2, hst', _⟩ :=
    icd_load_selected_ied_name fuel root templates st st' ok ht hload
  have hempty : S1.ln_list = [] := (parse_lnodetypes_rest _ _ _ _ _ hS1).1
  have hsame := (find_active_ied_names root st S1 hn1 hn2).1
  have hkeep := find_active_ied_keeps IcdState.ln_list (fun _ _ _ => rfl) root S1
  rw [← hsame, hst']
  unfold select_and_collect
  cases hf : find_active_ied root S1 with
  | mk o st2 =>
    rw [hf] at hkeep
    simp only at hkeep
    cases o with
    | none =>
      simp only
      rw [hkeep, hempty]
    | some x =>
      simp only
      rw [collect_dataset_nodes_keeps IcdState.ln_list (fun _ _ _ _ => rfl) (fun _ _ => rfl)]
      simp only
      rw [hkeep, hempty]

/-- C30, counterexample: in `twoAccessPointsDoc`, loaded without preference, the
access point chosen is `AP1` and the node instances are those of `AP1` alone; the
node `GGIO1` of the other access point `AP2` is in the node-class table all the
same. -/
theorem node_class_of_other_access_point_is_registered :
    (icd_load 1 (some twoAccessPointsDoc) initialState).map
        (fun r => (r.1.selected_ap_name, r.1.ln_instances.map (fun e => e.lnName),
          icd_lookup_ln_class r.1.ln_list (some "GGIO1")))
      = some ("AP1", ["MMXU1"], some "GGIO") := by
  decide

/-- C30, amended: the node-class table is not confined to the access point
chosen.  After a load of a document with a `DataTypeTemplates` section, every `LN`
or `LN0` element located anywhere inside the device `find_active_ied` returns, in
whichever access point, registers the name `collect_ln_nodes` builds for it,
unless that name or the class is empty: `icd_lookup_ln_class` succeeds for the
name and returns the first 15 characters of the class of the first such element
of that name inside the device, in document order. -/
theorem node_classes_of_selected_device (fuel : Nat) (root templates : XmlNode)
    (st st' : IcdState) (ok : Bool) (x : NodeAt) (n : String)
    (ht : find_node root.kids "DataTypeTemplates" none none = some templates)
    (hload : icd_load fuel (some root) st = some (st', ok))
    (hx : (find_active_ied root st).1 = some x)
    (hreg : ∃ e ∈ ln_elements_of x.1, ln_call_registers n (ln_call_of e) = true) :
    icd_lookup_ln_class st'.ln_list (some n)
      = ((ln_elements_of x.1).find? (fun e => ln_call_registers n (ln_call_of e))).map
          (fun e => trunc 15 ((xmlGetProp e "lnClass").getD "")) := by
  have hlist := icd_load_ln_list fuel root templates st st' ok ht hload
  rw [hx] at hlist
  simp only at hlist
  have hlen : ∀ c ∈ (ln_elements (x.1 :: x.2)).map ln_call_of,
      ∀ m, c.1 = some m → m.length ≤ 63 := by
    intro c hc m hm
    obtain ⟨e, _, he⟩ := List.mem_map.mp hc
    rw [← he] at hm
    exact ln_call_name_length e m hm
  have hfirst : ((ln_elements_of x.1).find?
      (fun e => ln_call_registers n (ln_call_of e))).isSome = true := by
    rw [List.find?_isSome]
    exact hreg
  obtain ⟨e0, he0⟩ := Option.isSome_iff_exists.mp hfirst
  rw [hlist, collect_ln_nodes_calls, lookup_run_ln_calls n _ [] (Or.inr hlen)]
  have hnil : icd_lookup_ln_class [] (some n) = none := rfl
  rw [hnil, Option.none_or, ln_elements, List.map_append, List.find?_append, List.find?_map]
  have hcomp : (ln_call_registers n ∘ ln_call_of)
      = fun e => ln_call_registers n (ln_call_of e) := rfl
  rw [hcomp, he0]
  rfl

/-- C30, witness: the node `GGIO1` of the access point `AP2` of
`twoAccessPointsDoc`, which is not the one chosen. -/
theorem node_classes_of_selected_device_witness :
    icd_lookup_ln_class (select_and_collect twoAccessPointsDoc initialState).ln_list
        (some "GGIO1") = some "GGIO" :=
  (node_classes_of_selected_device 1 twoAccessPointsDoc
    (XmlNode.element "DataTypeTemplates" [] []) initialState
    (select_and_collect twoAccessPointsDoc initialState) true
    (XmlNode.element "IED" [("name", "IED1")]
        [ apWithNode [("name", "AP1")] "LD1" "MMXU", apWithNode [("name", "AP2")] "LD2" "GGIO" ],
      [XmlNode.element "DataTypeTemplates" [] []])
    "GGIO1" rfl (by decide) rfl
    ⟨XmlNode.element "LN" [("lnClass", "GGIO"), ("inst", "1"), ("lnType", "T1")] [],
      List.mem_cons_of_mem _ (List.mem_cons_self _ _), by decide⟩).trans (by decide)

/-! ## C40 -/

theorem compose_ln_from_parts_eq (pfx lnClass inst : Option String) :
    compose_ln_from_parts pfx lnClass inst
      = trunc 63 (pfx.getD "" ++ lnClass.getD "" ++ inst.getD "") := by
  have key : ∀ (out : String) (o : Option String),
      (if nonEmpty o then append_token out 64 o else out)
        = out ++ trunc (63 - out.length) (o.getD "") := by
    intro out o
    by_cases ho : nonEmpty o = true
    · rw [if_pos ho]
      unfold append_token
      simp only [ho, Bool.not_true, Bool.or_false]
      have h0 : ((64 : Nat) == 0) = false := by decide
      rw [h0]
      simp only [Bool.false_eq_true, if_false]
      by_cases hlen : out.length ≥ 64 - 1
      · rw [if_pos hlen]
        have hz : 63 - out.length = 0 := by omega
        rw [hz]
        have : trunc 0 (o.getD "") = "" := by
          apply String.ext
          rw [trunc_data]
          rfl
        rw [this, append_empty]
      · rw [if_neg hlen]
        have hz : 64 - out.length - 1 = 63 - out.length := by omega
        rw [hz]
    · rw [if_neg ho]
      have he : o.getD "" = "" := by
        cases o with
        | none => rfl
        | some s =>
          simp only [nonEmpty, bne_iff_ne, ne_eq, Decidable.not_not] at ho
          exact ho
      rw [he, trunc_empty, append_empty]
  unfold compose_ln_from_parts
  simp only
  rw [key, key, key]
  rw [trunc_append, trunc_append]
  simp [empty_append, trunc_empty]

/-- C40: for every prefix, class and instance number, the name `collect_ln_nodes`
builds for a node that is not the root node, the name `compose_ln_name` builds
and the name `compose_ln_from_parts` builds are the same string, the first 63
characters of prefix, class and instance number joined; for a root node
`collect_ln_nodes` and `compose_ln_name` both give `LLN0`.  Hence for every node
the name under which `collect_ln_nodes` registers its class is the composed name
of the node instance `process_ln_for_datasets` registers for it. -/
theorem name_compositions_agree (pfx lnClass inst : Option String) (e : XmlNode) (ld : String) :
    ln_table_name false (pfx.getD "") (lnClass.getD "") (inst.getD "")
        = trunc 63 (pfx.getD "" ++ lnClass.getD "" ++ inst.getD "") ∧
      compose_ln_name false pfx lnClass inst
        = trunc 63 (pfx.getD "" ++ lnClass.getD "" ++ inst.getD "") ∧
      compose_ln_from_parts pfx lnClass inst
        = trunc 63 (pfx.getD "" ++ lnClass.getD "" ++ inst.getD "") ∧
      ln_table_name true (pfx.getD "") (lnClass.getD "") (inst.getD "") = "LLN0" ∧
      compose_ln_name true pfx lnClass inst = "LLN0" ∧
      (ln_call_of e).1 = some (ln_instance_of (ld, e)).lnName := by
  refine ⟨rfl, compose_ln_name_eq pfx lnClass inst, compose_ln_from_parts_eq pfx lnClass inst,
    rfl, rfl, ?_⟩
  have hname : ln_name_of e
      = ln_table_name (e.tag == "LN0") ((xmlGetProp e "prefix").getD "")
          ((xmlGetProp e "lnClass").getD "") ((xmlGetProp e "inst").getD "") := by
    unfold ln_name_of ln_table_name
    cases htag : (e.tag == "LN0") with
    | true => rfl
    | false =>
      simp only [Bool.false_eq_true, if_false]
      rw [compose_ln_name_eq]
      rfl
  have hcut : trunc 63 (ln_name_of e) = ln_name_of e := by
    rw [hname]
    unfold ln_table_name
    split <;> exact trunc_trunc 63 _
  show some _ = some (trunc 63 (ln_name_of e))
  rw [hcut, hname]

/-! ## C37 -/

/-- C37: for every document whose root has no `DataTypeTemplates` child and every
state, `icd_load` returns true, the six catalogs are empty afterwards, whatever
devices, nodes, datasets and report controls the document holds, and the
selected device and access point names are those from before the load. -/
theorem load_without_templates (fuel : Nat) (root : XmlNode) (st : IcdState)
    (ht : find_node root.kids "DataTypeTemplates" none none = none) :
    ∃ st' : IcdState, icd_load fuel (some root) st = some (st', true) ∧
      st'.do_list = [] ∧ st'.da_list = [] ∧ st'.ln_list = [] ∧ st'.ln_instances = [] ∧
      st'.dataset_list = [] ∧ st'.report_list = [] ∧
      st'.selected_ied_name = st.selected_ied_name ∧
      st'.selected_ap_name = st.selected_ap_name :=
  ⟨icd_unload st, icd_load_no_templates fuel root st ht, rfl, rfl, rfl, rfl, rfl, rfl, rfl, rfl⟩

/-- C37, witness: `noTemplatesDoc` holds a named device with a node, a dataset and
a report control, and is loaded with the preference `IED1`, `AP1` set. -/
theorem load_without_templates_witness :
    ∃ st' : IcdState,
      icd_load 1 (some noTemplatesDoc)
          (icd_set_active_ied (some "IED1") (some "AP1") scenarioTypesState).1
        = some (st', true) ∧
      st'.do_list = [] ∧ st'.da_list = [] ∧ st'.ln_list = [] ∧ st'.ln_instances = [] ∧
      st'.dataset_list = [] ∧ st'.report_list = [] ∧
      st'.selected_ied_name = "IED1" ∧ st'.selected_ap_name = "AP1" :=
  load_without_templates 1 noTemplatesDoc
    (icd_set_active_ied (some "IED1") (some "AP1") scenarioTypesState).1 rfl

/-! ## C38 -/

/-- C38: for every state, `icd_unload` leaves the selected device name and the
selected access point name as they are; a load that follows, of a document with
a `DataTypeTemplates` section, hands `find_active_ied` a state with these two
names, so that the device it selects is the one selected with the names left by
the load before. -/
theorem icd_unload_keeps_selection (st : IcdState) :
    (icd_unload st).selected_ied_name = st.selected_ied_name ∧
      (icd_unload st).selected_ap_name = st.selected_ap_name ∧
      ∀ (fuel : Nat) (root templates : XmlNode) (st2 : IcdState) (ok : Bool),
        find_node root.kids "DataTypeTemplates" none none = some templates →
        icd_load fuel (some root) (icd_unload st) = some (st2, ok) →
        ∃ S1 : IcdState, S1.selected_ied_name = st.selected_ied_name ∧
          S1.selected_ap_name = st.selected_ap_name ∧
          st2 = select_and_collect root S1 ∧
          (find_active_ied root S1).1 = (find_active_ied root st).1 := by
  refine ⟨rfl, rfl, ?_⟩
  intro fuel root templates st2 ok ht hload
  obtain ⟨S1, _, hn1, hn2, hst2, _⟩ :=
    icd_load_selected_ied_name fuel root templates (icd_unload st) st2 ok ht hload
  exact ⟨S1, hn1, hn2, hst2, (find_active_ied_names root st S1 hn1 hn2).1⟩

/-- C38, witness: `twoDevicesDoc` was loaded with the preference `IED2`; after
`icd_unload` a second load selects `IED2` again, not the first device. -/
theorem icd_unload_keeps_selection_witness :
    ∃ S1 : IcdState, S1.selected_ied_name = "IED2" ∧ S1.selected_ap_name = "AP1" ∧
      select_and_collect twoDevicesDoc (icd_set_active_ied (some "IED2") none initialState).1
        = select_and_collect twoDevicesDoc S1 ∧
      (find_active_ied twoDevicesDoc S1).1
        = (find_active_ied twoDevicesDoc
            (select_and_collect twoDevicesDoc
              (icd_set_active_ied (some "IED2") none initialState).1)).1 :=
  (icd_unload_keeps_selection
    (select_and_collect twoDevicesDoc (icd_set_active_ied (some "IED2") none initialState).1)).2.2
    1 twoDevicesDoc (XmlNode.element "DataTypeTemplates" [] [])
    (select_and_collect twoDevicesDoc (icd_set_active_ied (some "IED2") none initialState).1)
    true rfl (by decide)

/-! ## C36 -/

theorem find?_reverse_eq_getLast? {α : Type} (p : α → Bool) :
    ∀ l : List α, l.reverse.find? p = (l.filter p).getLast? := by
  intro l
  induction l with
  | nil => rfl
  | cons x rest ih =>
    rw [List.reverse_cons, List.find?_append, ih]
    by_cases hx : p x = true
    · rw [List.filter_cons_of_pos hx]
      cases hr : rest.filter p with
      | nil => simp [hx]
      | cons y ys =>
        rw [List.getLast?_cons_cons]
        have hsome : (y :: ys).getLast? = some ((y :: ys).getLast (List.cons_ne_nil y ys)) :=
          List.getLast?_eq_getLast _ _
        rw [hsome]
        rfl
    · rw [List.filter_cons_of_neg hx]
      have hx2 : p x = false := by simpa using hx
      simp [hx2]

theorem do_info_of_entry (templates : XmlNode) (e : DOEntry)
    (he : e ∈ all_do_entries templates) : do_info e = { do_type_id := e.doType, cdc := e.cdc } := by
  obtain ⟨ln, _, _, doNode, _, _, heq⟩ := mem_all_do_entries templates e he
  have hcut : ∀ (n : Nat) (o : Option String), trunc n (copyOpt n o) = copyOpt n o := by
    intro n o
    cases o with
    | none => exact trunc_empty n
    | some s => exact trunc_trunc n s
  rw [heq]
  simp only [do_info, do_entry_of, hcut]

/-- C36: after a load of a document with a `DataTypeTemplates` section,
`icd_find_do_info` for a node type id and an object name returns the object type
id and the `cdc` of the last entry with that stored key, in document order,
among the entries registered, and `icd_foreach_do` delivers the entries of a node
type in the reverse of the order in which they were registered. -/
theorem object_lookup_last_wins (fuel : Nat) (root templates : XmlNode) (st st' : IcdState)
    (ok : Bool) (t n : String)
    (ht : find_node root.kids "DataTypeTemplates" none none = some templates)
    (hload : icd_load fuel (some root) st = some (st', ok)) :
    icd_find_do_info st'.do_list (some t) (some n)
        = (((all_do_entries templates).filter
              (fun e => e.lnType == t && e.doName == n)).getLast?).map
            (fun e => ({ do_type_id := e.doType, cdc := e.cdc } : DOInfo)) ∧
      icd_foreach_do st' (some t)
        = (((all_do_entries templates).filter (fun e => e.lnType == t)).map
            (fun e => (e.doName, do_info e))).reverse := by
  have hdo : st'.do_list = (all_do_entries templates).reverse := by
    unfold icd_load at hload
    simp only at hload
    obtain ⟨st1, hp, hst⟩ := Option.map_eq_some'.mp hload
    cases hst
    rw [parse_icd_do_list fuel root templates _ _ ht hp]
    exact List.append_nil _
  constructor
  · unfold icd_find_do_info
    simp only
    rw [hdo, find?_reverse_eq_getLast?]
    cases hl : ((all_do_entries templates).filter
        (fun e => e.lnType == t && e.doName == n)).getLast? with
    | none => rfl
    | some e =>
      have hmem : e ∈ all_do_entries templates :=
        (List.mem_filter.mp (List.mem_of_getLast?_eq_some hl)).1
      simp only [Option.map_some', do_info_of_entry templates e hmem]
  · unfold icd_foreach_do
    simp only
    rw [hdo, List.filter_reverse, List.map_reverse]

/-- C36, witness: the node type `T1` of `sameNameTemplates` has two objects named
`Ind`, of the types `SPS` and then `INS`; the lookup returns `INS`, and the
enumeration delivers `INS` before `SPS`. -/
theorem object_lookup_last_wins_witness :
    icd_find_do_info sameNameState.do_list (some "T1") (some "Ind")
        = some { do_type_id := "INS", cdc := "INS" } ∧
      icd_foreach_do sameNameState (some "T1")
        = [("Ind", { do_type_id := "INS", cdc := "INS" }),
           ("Ind", { do_type_id := "SPS", cdc := "SPS" })] :=
  ⟨((object_lookup_last_wins 1 (XmlNode.element "SCL" [] [sameNameTemplates "T1"])
      (sameNameTemplates "T1") initialState sameNameState true "T1" "Ind" rfl (by decide)).1).trans
      (by decide),
    ((object_lookup_last_wins 1 (XmlNode.element "SCL" [] [sameNameTemplates "T1"])
      (sameNameTemplates "T1") initialState sameNameState true "T1" "Ind" rfl (by decide)).2).trans
      (by decide)⟩

/-! ## The loop over the children of an object type, child by child -/

theorem collect_do_children_cons
    (recurDo : Option String → Option String → List DAEntry → Option (List DAEntry))
    (recurDa : Option String → Option String → Option String → Nat →
      List DAEntry → Option (List DAEntry))
    (doTypeId pfx : Option String) (child : XmlNode) (rest : List XmlNode) (da : List DAEntry) :
    collect_do_children recurDo recurDa doTypeId pfx (child :: rest) da
      = (collect_do_children recurDo recurDa doTypeId pfx [child] da).bind
          (collect_do_children recurDo recurDa doTypeId pfx rest) := by
  have hnil : ∀ l, collect_do_children recurDo recurDa doTypeId pfx [] l = some l := by
    intro l
    rw [collect_do_children]
  have hbind : ∀ (x : Option (List DAEntry)),
      x.bind (collect_do_children recurDo recurDa doTypeId pfx rest)
        = (x.bind (collect_do_children recurDo recurDa doTypeId pfx [])).bind
            (collect_do_children recurDo recurDa doTypeId pfx rest) := by
    intro x
    cases x with
    | none => rfl
    | some l => simp only [Option.bind_some, hnil]
  rw [collect_do_children, collect_do_children]
  split
  · rw [hnil]; rfl
  · split
    · split
      · simp only
        cases xmlGetProp child "type" with
        | some t => exact hbind _
        | none => simp only [hnil]; rfl
      · rw [hnil]; rfl
    · split
      · split
        · exact hbind _
        · rw [hnil]; rfl
      · rw [hnil]; rfl

theorem collect_do_children_append
    (recurDo : Option String → Option String → List DAEntry → Option (List DAEntry))
    (recurDa : Option String → Option String → Option String → Nat →
      List DAEntry → Option (List DAEntry))
    (doTypeId pfx : Option String) (ys : List XmlNode) :
    ∀ (xs : List XmlNode) (da : List DAEntry),
      collect_do_children recurDo recurDa doTypeId pfx (xs ++ ys) da
        = (collect_do_children recurDo recurDa doTypeId pfx xs da).bind
            (collect_do_children recurDo recurDa doTypeId pfx ys) := by
  intro xs
  induction xs with
  | nil =>
    intro da
    rw [List.nil_append, collect_do_children]
    rfl
  | cons x rest ih =>
    intro da
    rw [List.cons_append, collect_do_children_cons, collect_do_children_cons _ _ _ _ x rest]
    cases collect_do_children recurDo recurDa doTypeId pfx [x] da with
    | none => rfl
    | some l =>
      simp only [Option.some_bind]
      exact ih l

theorem collect_do_children_malformed
    (recurDo : Option String → Option String → List DAEntry → Option (List DAEntry))
    (recurDa : Option String → Option String → Option String → Nat →
      List DAEntry → Option (List DAEntry))
    (doTypeId pfx : Option String) (child : XmlNode) (da : List DAEntry)
    (hel : isElem child "DA" = true)
    (hbad : xmlGetProp child "name" = none ∨ xmlGetProp child "bType" = none) :
    collect_do_children recurDo recurDa doTypeId pfx [child] da = some da := by
  simp only [isElem, Bool.and_eq_true, beq_iff_eq] at hel
  have htag : (child.tag == "DA") = true := by rw [hel.2]; decide
  rw [collect_do_children]
  simp only [hel.1, htag, Bool.not_true, Bool.false_eq_true, if_false, if_true]
  split
  · rename_i n b hn hb
    rcases hbad with h | h
    · rw [h] at hn; cases hn
    · rw [h] at hb; cases hb
  · rw [collect_do_children]

/-! ## C32 -/

/-- C32: in the loop of `collect_do_type` a `DA` child without a name or without a
base type registers nothing and starts no recursion, whatever the recursive
calls would do, and the loop over children that contain it gives what the loop
over the same children without it gives: the siblings before and after it are
processed as if it were absent. -/
theorem malformed_attribute_is_skipped
    (recurDo : Option String → Option String → List DAEntry → Option (List DAEntry))
    (recurDa : Option String → Option String → Option String → Nat →
      List DAEntry → Option (List DAEntry))
    (doTypeId pfx : Option String) (before after : List XmlNode) (child : XmlNode)
    (da : List DAEntry)
    (hel : isElem child "DA" = true)
    (hbad : xmlGetProp child "name" = none ∨ xmlGetProp child "bType" = none) :
    collect_do_children recurDo recurDa doTypeId pfx [child] da = some da ∧
      collect_do_children recurDo recurDa doTypeId pfx (before ++ child :: after) da
        = collect_do_children recurDo recurDa doTypeId pfx (before ++ after) da := by
  refine ⟨collect_do_children_malformed recurDo recurDa doTypeId pfx child da hel hbad, ?_⟩
  rw [collect_do_children_append, collect_do_children_append]
  cases collect_do_children recurDo recurDa doTypeId pfx before da with
  | none => rfl
  | some l =>
    simp only [Option.some_bind]
    rw [collect_do_children_cons,
      collect_do_children_malformed recurDo recurDa doTypeId pfx child l hel hbad]
    rfl

/-- C32, witness: the second of the three children `attributesWithDefect` has no
name (and refers to a type); with recursive calls that would fail, the loop
registers the attributes `stVal` and `q` and nothing else. -/
theorem malformed_attribute_is_skipped_witness :
    collect_do_children (fun _ _ _ => none) (fun _ _ _ _ _ => none) (some "SPS") none
        attributesWithDefect []
      = some [⟨"SPS", "q", "ST", "Quality", "", 0⟩, ⟨"SPS", "stVal", "ST", "BOOLEAN", "", 0⟩] :=
  ((malformed_attribute_is_skipped (fun _ _ _ => none) (fun _ _ _ _ _ => none) (some "SPS") none
      [XmlNode.element "DA" [("name", "stVal"), ("bType", "BOOLEAN"), ("fc", "ST")] []]
      [XmlNode.element "DA" [("name", "q"), ("bType", "Quality"), ("fc", "ST")] []]
      (XmlNode.element "DA" [("bType", "Quality"), ("fc", "ST"), ("type", "TA")] []) []
      rfl (Or.inl rfl)).2).trans (by decide)

/-! ## C33 -/

/-- C33, the code at the failing input: the node type of `malformedObjectsDoc` has
an object element without a name and one without a type.  After the load the
object catalog holds an entry for each, the first with an empty name and the
second with an empty type id and the `cdc` of the first `DOType` of the section,
and the attribute of `SPS` is registered; with the two elements removed both
catalogs are empty. -/
theorem malformed_objects_are_registered :
    (icd_load 2 (some malformedObjectsDoc) initialState).map
        (fun r => (r.1.do_list, r.1.da_list.map (fun e => (e.doType, e.daPath))))
      = some ([⟨"T1", "GGIO", "Ind", "", "SPS"⟩, ⟨"T1", "GGIO", "", "SPS", "SPS"⟩],
          [("SPS", "stVal")]) ∧
    (icd_load 2 (some malformedObjectsRemovedDoc) initialState).map
        (fun r => (r.1.do_list, r.1.da_list.map (fun e => (e.doType, e.daPath))))
      = some ([], []) := by
  refine ⟨by decide, by decide⟩

/-! ## C39 -/

/-- C39, counterexample: `noTemplatesDoc` has no `DataTypeTemplates` section; loaded
with the absent device preference `IEDX` and the access point preference `AP9`,
nothing is processed and the access point preference stays.  In `longApDoc` the
first access point of the fallback device has a name of 64 characters and the
second is named by the first 63 of them; the one processed is the second
(logical device `LDB`). -/
theorem fallback_keeps_or_misses_first_access_point :
    (icd_load 1 (some noTemplatesDoc)
        (icd_set_active_ied (some "IEDX") (some "AP9") initialState).1).map
        (fun r => (r.1.selected_ap_name, r.1.ln_instances)) = some ("AP9", []) ∧
      (icd_load 1 (some longApDoc)
        (icd_set_active_ied (some "IEDX") (some "AP9") initialState).1).map
        (fun r => r.1.ln_instances.map (fun e => e.ldInst)) = some ["LDB"] := by
  refine ⟨by decide, by decide⟩

/-- C39, amended: for a document with a `DataTypeTemplates` section, when a device
preference is set, no `IED` has exactly the preferred name, `x0` is the first
`IED` with a non-empty name and the first `AccessPoint` child `a0` of `x0` has a
name of at most 63 characters, `find_active_ied` clears the access point
preference and the load processes `a0`, whatever the preference was and whatever
the other access points of `x0` are named: afterwards the selected access point
name is the name of `a0` and the node instances are those of the scope of
`a0`. -/
theorem device_fallback_clears_access_point (fuel : Nat) (root templates : XmlNode)
    (st st' : IcdState) (ok : Bool) (x0 : NodeAt) (a0 : XmlNode)
    (hpref : st.selected_ied_name ≠ "")
    (hnone : find_at (is_ied_named st.selected_ied_name) root.kids = none)
    (hfirst : find_at is_named_ied root.kids = some x0)
    (hap : x0.1.kids.find? is_ap = some a0)
    (hlen : (node_name a0).length ≤ 63)
    (ht : find_node root.kids "DataTypeTemplates" none none = some templates)
    (hload : icd_load fuel (some root) st = some (st', ok)) :
    (find_active_ied root st).1 = some x0 ∧
      (find_active_ied root st).2.selected_ap_name = "" ∧
      st'.selected_ap_name = node_name a0 ∧
      st'.ln_instances = ((scope_lns a0).map ln_instance_of).reverse := by
  have hchosen : ∀ s t : String, s = st.selected_ied_name →
      chosen_ied root.kids s t = (some x0, trunc 63 (node_name x0.1), "") := by
    intro s t hs
    have hb : (s != "") = true := by rw [hs]; simp [hpref]
    unfold chosen_ied
    rw [hs] at hb ⊢
    simp only [hb, if_true, hnone, hfirst]
  have hfa := find_active_ied_eq root st (fun h => absurd h hpref)
  rw [hchosen _ _ rfl] at hfa
  obtain ⟨S1, hS1, hn1, hn2, hst', _⟩ :=
    icd_load_selected_ied_name fuel root templates st st' ok ht hload
  have hempty : S1.ln_instances = [] := (parse_lnodetypes_rest _ _ _ _ _ hS1).2.1
  have hfa1 := find_active_ied_eq root S1 (fun h => absurd (hn1 ▸ h) hpref)
  rw [hchosen _ _ hn1] at hfa1
  have hca : chosen_ap x0.1.kids "" = (some a0, trunc 63 (node_name a0)) := by
    have hb : (("" : String) != "") = false := by decide
    unfold chosen_ap
    simp only [hb, Bool.false_eq_true, if_false, hap]
  have hst2 : st' = process_access_point a0
      { S1 with ln_list := collect_ln_nodes (x0.1 :: x0.2) S1.ln_list
                selected_ied_name := trunc 63 (node_name x0.1)
                selected_ap_name := trunc 63 (node_name a0) } := by
    rw [hst']
    unfold select_and_collect
    rw [hfa1]
    simp only
    rw [collect_dataset_nodes_eq x0.1 _ (fun _ y hy => by
      rw [hap] at hy
      cases hy
      exact hlen)]
    simp only [hca]
  refine ⟨by rw [hfa], by rw [hfa], ?_, ?_⟩
  · rw [hst2, process_access_point_keeps IcdState.selected_ap_name (fun _ _ _ _ => rfl)]
    exact trunc_of_le hlen
  · rw [hst2, process_access_point_ln_instances]
    show _ ++ S1.ln_instances = _
    rw [hempty, List.append_nil]

/-- C39, witness: `fallbackDoc` loaded with the absent device preference `IEDX` and
the access point preference `AP2`: the fallback device `IED1` has an access point
`AP2`, yet the one processed is its first, `AP1` (logical device `LDA`). -/
theorem device_fallback_clears_access_point_witness :
    (select_and_collect fallbackDoc
        (icd_set_active_ied (some "IEDX") (some "AP2") initialState).1).selected_ap_name = "AP1" ∧
      (select_and_collect fallbackDoc
        (icd_set_active_ied (some "IEDX") (some "AP2") initialState).1).ln_instances.map
          (fun e => e.ldInst) = ["LDA"] :=
  ⟨(device_fallback_clears_access_point 1 fallbackDoc (XmlNode.element "DataTypeTemplates" [] [])
      (icd_set_active_ied (some "IEDX") (some "AP2") initialState).1
      (select_and_collect fallbackDoc (icd_set_active_ied (some "IEDX") (some "AP2") initialState).1)
      true
      (XmlNode.element "IED" [("name", "IED1")]
          [ apWithDevice [("name", "AP1")] "LDA", apWithDevice [("name", "AP2")] "LDB" ],
        [XmlNode.element "DataTypeTemplates" [] []])
      (apWithDevice [("name", "AP1")] "LDA")
      (by decide) rfl rfl rfl (by decide) rfl (by decide)).2.2.1,
    (congrArg (List.map (fun e => e.ldInst))
      (device_fallback_clears_access_point 1 fallbackDoc
        (XmlNode.element "DataTypeTemplates" [] [])
        (icd_set_active_ied (some "IEDX") (some "AP2") initialState).1
        (select_and_collect fallbackDoc
          (icd_set_active_ied (some "IEDX") (some "AP2") initialState).1)
        true
        (XmlNode.element "IED" [("name", "IED1")]
            [ apWithDevice [("name", "AP1")] "LDA", apWithDevice [("name", "AP2")] "LDB" ],
          [XmlNode.element "DataTypeTemplates" [] []])
        (apWithDevice [("name", "AP1")] "LDA")
        (by decide) rfl rfl rfl (by decide) rfl (by decide)).2.2.2).trans (by decide)⟩

/-! ## C31 -/

theorem add_da_entry_has_key (d p : String) (fc bType typeId : Option String) (trgOps : Nat)
    (l : List DAEntry) (hd : d.length ≤ 63) (hp : p.length ≤ 127) :
    icd_da_exists (add_da_entry (some d) (some p) fc bType typeId trgOps l) d p = true := by
  unfold add_da_entry
  simp only
  by_cases h : da_entry_exists l d p = true
  · rw [if_pos h]
    exact h
  · rw [if_neg h]
    simp [icd_da_exists, List.any_cons, trunc_of_le hd, trunc_of_le hp]

theorem add_da_entry_keeps_key (d p : String) (d0 p0 fc bType typeId : Option String)
    (trgOps : Nat) (l : List DAEntry) (h : icd_da_exists l d p = true) :
    icd_da_exists (add_da_entry d0 p0 fc bType typeId trgOps l) d p = true := by
  unfold add_da_entry
  split
  · split
    · exact h
    · simp only [icd_da_exists, List.any_cons, Bool.or_eq_true]
      exact Or.inr h
  · exact h

theorem collect_do_children_registers
    (recurDo : Option String → Option String → List DAEntry → Option (List DAEntry))
    (recurDa : Option String → Option String → Option String → Nat →
      List DAEntry → Option (List DAEntry))
    (d p : String)
    (hdo : ∀ x y l l', icd_da_exists l d p = true → recurDo x y l = some l' →
      icd_da_exists l' d p = true)
    (hda : ∀ x y z n l l', icd_da_exists l d p = true → recurDa x y z n l = some l' →
      icd_da_exists l' d p = true)
    (pfx : Option String) (children : List XmlNode) (child : XmlNode) (a b : String)
    (hmem : child ∈ children) (hel : isElem child "DA" = true)
    (hname : xmlGetProp child "name" = some a) (hbType : xmlGetProp child "bType" = some b)
    (hd : d.length ≤ 63) (hp : p = join_path pfx a) (hplen : p.length ≤ 127)
    (da da' : List DAEntry)
    (h : collect_do_children recurDo recurDa (some d) pfx children da = some da') :
    icd_da_exists da' d p = true := by
  obtain ⟨before, after, rfl⟩ := List.append_of_mem hmem
  rw [collect_do_children_append] at h
  obtain ⟨l1, _, h2⟩ := Option.bind_eq_some.mp h
  rw [collect_do_children_cons] at h2
  obtain ⟨l2, h3, h4⟩ := Option.bind_eq_some.mp h2
  have hkeep := collect_do_children_preserves (fun l => icd_da_exists l d p = true)
    (fun d0 p0 fc b0 t trg l hl => add_da_entry_keeps_key d p d0 p0 fc b0 t trg l hl)
    recurDo recurDa hdo hda (some d) pfx after l2 da'
  refine hkeep ?_ h4
  simp only [isElem, Bool.and_eq_true, beq_iff_eq] at hel
  have htag : (child.tag == "DA") = true := by rw [hel.2]; decide
  rw [collect_do_children] at h3
  simp only [hel.1, htag, hname, hbType, Bool.not_true, Bool.false_eq_true, if_false,
    if_true] at h3
  have hkey := add_da_entry_has_key d p (xmlGetProp child "fc") (some b)
    (xmlGetProp child "type") (change_flags child) l1 hd hplen
  rw [hp] at hkey hda ⊢
  cases hty : xmlGetProp child "type" with
  | none =>
    rw [hty] at h3 hkey
    simp only at h3
    rw [collect_do_children] at h3
    cases h3
    exact hkey
  | some t =>
    rw [hty] at h3 hkey
    simp only at h3
    obtain ⟨l3, h5, h6⟩ := Option.bind_eq_some.mp h3
    rw [collect_do_children] at h6
    cases h6
    exact hda _ _ _ _ _ _ hkey h5

theorem collect_do_children_sub_object
    (recurDo : Option String → Option String → List DAEntry → Option (List DAEntry))
    (recurDa : Option String → Option String → Option String → Nat →
      List DAEntry → Option (List DAEntry))
    (P : List DAEntry → Prop)
    (hadd : ∀ d p fc b t trg l, P l → P (add_da_entry d p fc b t trg l))
    (hdo : ∀ x y l l', P l → recurDo x y l = some l' → P l')
    (hda : ∀ x y z n l l', P l → recurDa x y z n l = some l' → P l')
    (doTypeId pfx : Option String) (children : List XmlNode) (child : XmlNode) (n t : String)
    (hmem : child ∈ children) (hel : isElem child "SDO" = true)
    (hname : xmlGetProp child "name" = some n) (htype : xmlGetProp child "type" = some t)
    (da da' : List DAEntry)
    (h : collect_do_children recurDo recurDa doTypeId pfx children da = some da') :
    ∃ l1 l2, recurDo (some t) (some (join_path pfx n)) l1 = some l2 ∧ (P l2 → P da') := by
  obtain ⟨before, after, rfl⟩ := List.append_of_mem hmem
  rw [collect_do_children_append] at h
  obtain ⟨l1, _, h2⟩ := Option.bind_eq_some.mp h
  rw [collect_do_children_sdo recurDo recurDa doTypeId pfx child after l1 n t hel hname htype]
    at h2
  obtain ⟨l2, h3, h4⟩ := Option.bind_eq_some.mp h2
  exact ⟨l1, l2, h3, fun hl => collect_do_children_preserves P hadd recurDo recurDa hdo hda
    doTypeId pfx after l2 da' hl h4⟩

/-- C31, counterexample: in `emptySdoNameTemplates` the sub-object has the empty
name, and the attribute `v` of its type `B` is registered under the path `v`, not
`.v`; in `longSdoTypeTemplates` the type id of the sub-object has 64 characters,
and the attribute is registered under the first 63 of them, so that the key made
of the id itself is not in the catalog; in `longSdoPathTemplates` the extended
path has 129 characters and the entry holds the first 127 of them. -/
theorem nested_key_without_name_or_with_long_type :
    (collect_do_type 2 emptySdoNameTemplates (some "A") none []).map
        (fun l => (l.map (fun e => (e.doType, e.daPath)),
          icd_da_exists l "B" ("" ++ "." ++ "v")))
      = some ([("B", "v")], false) ∧
    (collect_do_type 2 longSdoTypeTemplates (some "A") none []).map
        (fun l => (l.map (fun e => (e.doType, e.daPath)),
          icd_da_exists l name64 ("s" ++ "." ++ "v")))
      = some ([(trunc 63 name64, "s.v")], false) ∧
    (collect_do_type 2 longSdoPathTemplates (some "A") none []).map
        (fun l => (l.map (fun e => (e.doType, e.daPath)),
          icd_da_exists l "B" (name64 ++ "." ++ name64)))
      = some ([("B", trunc 127 (name64 ++ "." ++ name64))], false) := by
  refine ⟨by decide, by decide, by decide⟩

/-- C31, amended: let the object type `T` have an `SDO` child with the non-empty name
`n` and the type `S` of at most 63 characters, let the object type `S` have a
`DA` child named `a` with a base type, and let `n.a` have at most 127 characters.
When the expansion of `T` with the empty prefix returns, the attribute catalog
holds an entry under the key (`S`, `n.a`). -/
theorem nested_attribute_keyed_by_referenced_type (fuel : Nat) (templates : XmlNode)
    (T S n a b : String) (tNode sNode sdo daNode : XmlNode) (da da' : List DAEntry)
    (hT : find_node templates.kids "DOType" (some "id") (some T) = some tNode)
    (hsdo : sdo ∈ tNode.kids) (hsel : isElem sdo "SDO" = true)
    (hn : xmlGetProp sdo "name" = some n) (hty : xmlGetProp sdo "type" = some S)
    (hS : find_node templates.kids "DOType" (some "id") (some S) = some sNode)
    (hda : daNode ∈ sNode.kids) (hdel : isElem daNode "DA" = true)
    (ha : xmlGetProp daNode "name" = some a) (hb : xmlGetProp daNode "bType" = some b)
    (hne : n ≠ "") (hSlen : S.length ≤ 63) (hplen : (n ++ "." ++ a).length ≤ 127)
    (hret : collect_do_type fuel templates (some T) none da = some da') :
    icd_da_exists da' S (n ++ "." ++ a) = true := by
  have hadd : ∀ (d p fc b0 t : Option String) (trg : Nat) (l : List DAEntry),
      icd_da_exists l S (n ++ "." ++ a) = true →
      icd_da_exists (add_da_entry d p fc b0 t trg l) S (n ++ "." ++ a) = true :=
    fun d p fc b0 t trg l hl => add_da_entry_keeps_key S (n ++ "." ++ a) d p fc b0 t trg l hl
  have hnlen : n.length ≤ 255 := by
    simp only [String.length_append] at hplen
    omega
  have hpath : n ++ "." ++ a = join_path (some (join_path none n)) a := by
    rw [join_path_none n hnlen, join_path_some n a hne (by omega)]
  cases fuel with
  | zero => simp [collect_do_type] at hret
  | succ f =>
    unfold collect_do_type at hret
    simp only [hT] at hret
    obtain ⟨l1, l2, hrec, hkeep⟩ := collect_do_children_sub_object
      (collect_do_type f templates) (collect_da_type f templates (some T))
      (fun l => icd_da_exists l S (n ++ "." ++ a) = true) hadd
      (fun x y l l' hl h => collect_do_type_preserves _ hadd f templates x y l l' hl h)
      (fun x y z m l l' hl h =>
        collect_da_type_preserves _ hadd f templates (some T) x y z m l l' hl h)
      (some T) none tNode.kids sdo n S hsdo hsel hn hty da da' hret
    apply hkeep
    cases f with
    | zero => simp [collect_do_type] at hrec
    | succ g =>
      unfold collect_do_type at hrec
      simp only [hS] at hrec
      exact collect_do_children_registers
        (collect_do_type g templates) (collect_da_type g templates (some S))
        S (n ++ "." ++ a)
        (fun x y l l' hl h => collect_do_type_preserves _ hadd g templates x y l l' hl h)
        (fun x y z m l l' hl h =>
          collect_da_type_preserves _ hadd g templates (some S) x y z m l l' hl h)
        (some (join_path none n)) sNode.kids daNode a b hda hdel ha hb hSlen hpath hplen
        l1 l2 hrec

/-- C31, witness: in `sdoTemplates` the object type `A` has the sub-object `s` of type
`B`, whose attribute is `v`; the expansion of `A` registers the key (`B`, `s.v`). -/
theorem nested_attribute_keyed_by_referenced_type_witness :
    collect_do_type 2 sdoTemplates (some "A") none []
        = some [⟨"B", "s.v", "ST", "BOOLEAN", "", 0⟩] ∧
      icd_da_exists [⟨"B", "s.v", "ST", "BOOLEAN", "", 0⟩] "B" ("s" ++ "." ++ "v") = true :=
  ⟨by decide,
    nested_attribute_keyed_by_referenced_type 2 sdoTemplates "A" "B" "s" "v" "BOOLEAN"
      (XmlNode.element "DOType" [("id", "A"), ("cdc", "WYE")]
        [ XmlNode.element "SDO" [("name", "s"), ("type", "B")] [] ])
      (XmlNode.element "DOType" [("id", "B"), ("cdc", "CMV")]
        [ XmlNode.element "DA" [("name", "v"), ("bType", "BOOLEAN"), ("fc", "ST")] [] ])
      (XmlNode.element "SDO" [("name", "s"), ("type", "B")] [])
      (XmlNode.element "DA" [("name", "v"), ("bType", "BOOLEAN"), ("fc", "ST")] [])
      [] [⟨"B", "s.v", "ST", "BOOLEAN", "", 0⟩]
      rfl (List.mem_cons_self _ _) rfl rfl rfl rfl (List.mem_cons_self _ _) rfl rfl rfl
      (by decide) (by decide) (by decide) (by decide)⟩

/-! ## C35 -/

theorem find_node_id_some {nodes : List XmlNode} {name id : String} {node : XmlNode}
    (h : find_node nodes name (some "id") (some id) = some node) :
    node ∈ nodes ∧ isElem node name = true ∧ xmlGetProp node "id" = some id := by
  unfold find_node at h
  have hp := List.find?_some h
  simp only [Bool.and_eq_true, beq_iff_eq] at hp
  exact ⟨List.mem_of_find?_eq_some h, hp.1, hp.2⟩

theorem refers_of_do_child {templates node child : XmlNode} {id : String} {s : TypeRef}
    (h : find_node templates.kids "DOType" (some "id") (some id) = some node)
    (hchild : child ∈ node.kids) (hs : s ∈ do_child_refs child) :
    refers templates (TypeRef.doType id) s := by
  obtain ⟨hmem, hel, hid⟩ := find_node_id_some h
  unfold refers type_edges
  refine List.mem_flatMap.mpr ⟨node, hmem, ?_⟩
  unfold node_edges
  simp only [hel, if_true, hid]
  exact List.mem_map.mpr ⟨s, List.mem_flatMap.mpr ⟨child, hchild, hs⟩, rfl⟩

theorem refers_of_da_child {templates node child : XmlNode} {id : String} {s : TypeRef}
    (h : find_node templates.kids "DAType" (some "id") (some id) = some node)
    (hchild : child ∈ node.kids) (hs : s ∈ da_child_refs child) :
    refers templates (TypeRef.daType id) s := by
  obtain ⟨hmem, hel, hid⟩ := find_node_id_some h
  have hno : isElem node "DOType" = false := by
    simp only [isElem, Bool.and_eq_true, beq_iff_eq] at hel
    simp [isElem, hel.2]
  unfold refers type_edges
  refine List.mem_flatMap.mpr ⟨node, hmem, ?_⟩
  unfold node_edges
  simp only [hno, hel, if_true, hid, Bool.false_eq_true, if_false]
  exact List.mem_map.mpr ⟨s, List.mem_flatMap.mpr ⟨child, hchild, hs⟩, rfl⟩

theorem collect_do_children_returns
    (recurDo : Option String → Option String → List DAEntry → Option (List DAEntry))
    (recurDa : Option String → Option String → Option String → Nat →
      List DAEntry → Option (List DAEntry))
    (doTypeId pfx : Option String) :
    ∀ (children : List XmlNode),
      (∀ child ∈ children, ∀ t, TypeRef.doType t ∈ do_child_refs child →
        ∀ p l, (recurDo (some t) p l).isSome = true) →
      (∀ child ∈ children, ∀ t, TypeRef.daType t ∈ do_child_refs child →
        ∀ p fc trg l, (recurDa (some t) p fc trg l).isSome = true) →
      ∀ da, (collect_do_children recurDo recurDa doTypeId pfx children da).isSome = true := by
  intro children
  induction children with
  | nil => intro _ _ da; rw [collect_do_children]; rfl
  | cons child rest ih =>
    intro hdo hda da
    have ihr := ih (fun c hc => hdo c (List.mem_cons_of_mem _ hc))
      (fun c hc => hda c (List.mem_cons_of_mem _ hc))
    rw [collect_do_children]
    split
    · exact ihr da
    · rename_i hel
      simp only [Bool.not_eq_true, Bool.not_eq_eq_eq_not, Bool.not_true, Bool.not_false] at hel
      split
      · rename_i htag
        have hDA : isElem child "DA" = true := by
          simp only [isElem, Bool.and_eq_true]
          exact ⟨by simpa using hel, htag⟩
        split
        · rename_i n b hn hb
          simp only
          cases hty : xmlGetProp child "type" with
          | none => exact ihr _
          | some t =>
            simp only
            have href : TypeRef.daType t ∈ do_child_refs child := by
              unfold do_child_refs
              simp only [hDA, if_true, hn, hb, hty, List.mem_singleton]
            obtain ⟨l1, h1⟩ := Option.isSome_iff_exists.mp
              (hda child (List.mem_cons_self _ _) t href (some (join_path pfx n))
                (xmlGetProp child "fc") (change_flags child)
                (add_da_entry doTypeId (some (join_path pfx n)) (xmlGetProp child "fc")
                  (some b) (some t) (change_flags child) da))
            rw [h1]
            exact ihr l1
        · exact ihr da
      · rename_i htag
        split
        · rename_i htag2
          have hDA : isElem child "DA" = false := by
            simp only [isElem, Bool.and_eq_false_iff]
            exact Or.inr (by simpa using htag)
          have hSDO : isElem child "SDO" = true := by
            simp only [isElem, Bool.and_eq_true]
            exact ⟨by simpa using hel, htag2⟩
          split
          · rename_i n t hn hty
            have href : TypeRef.doType t ∈ do_child_refs child := by
              unfold do_child_refs
              simp only [hDA, hSDO, if_true, hn, hty, List.mem_singleton, Bool.false_eq_true,
                if_false]
            obtain ⟨l1, h1⟩ := Option.isSome_iff_exists.mp
              (hdo child (List.mem_cons_self _ _) t href (some (join_path pfx n)) da)
            rw [h1]
            exact ihr l1
          · exact ihr da
        · exact ihr da

theorem collect_da_children_returns
    (recur : Option String → Option String → Option String → Nat →
      List DAEntry → Option (List DAEntry))
    (doTypeId pfx inheritedFc : Option String) (inheritedTrgOps : Nat) :
    ∀ (children : List XmlNode),
      (∀ child ∈ children, ∀ t, TypeRef.daType t ∈ da_child_refs child →
        ∀ p fc trg l, (recur (some t) p fc trg l).isSome = true) →
      ∀ da, (collect_da_children recur doTypeId pfx inheritedFc inheritedTrgOps
        children da).isSome = true := by
  intro children
  induction children with
  | nil => intro _ da; rw [collect_da_children]; rfl
  | cons child rest ih =>
    intro hda da
    have ihr := ih (fun c hc => hda c (List.mem_cons_of_mem _ hc))
    rw [collect_da_children]
    split
    · exact ihr da
    · rename_i hel
      split
      · exact ihr da
      · rename_i htag
        have hmember : (isElem child "BDA" || isElem child "DA") = true := by
          simp only [isElem]
          cases h1 : child.isElement
          · simp [h1] at hel
          · cases h2 : (child.tag == "BDA")
            · cases h3 : (child.tag == "DA")
              · simp [bne, h2, h3] at htag
              · simp
            · simp
        split
        · exact ihr da
        · rename_i n hn
          simp only
          cases hty : xmlGetProp child "type" with
          | none => exact ihr _
          | some t =>
            simp only
            have href : TypeRef.daType t ∈ da_child_refs child := by
              unfold da_child_refs
              simp only [hmember, if_true, hn, hty, List.mem_singleton]
            obtain ⟨l1, h1⟩ := Option.isSome_iff_exists.mp
              (hda child (List.mem_cons_self _ _) t href (some (join_path pfx n))
                (member_fc child inheritedFc) (member_trgOps child inheritedTrgOps)
                (add_da_entry doTypeId (some (join_path pfx n)) (member_fc child inheritedFc)
                  (xmlGetProp child "bType") (some t) (member_trgOps child inheritedTrgOps) da))
            rw [h1]
            exact ihr l1

theorem expansion_returns_below (templates : XmlNode) (hacyc : acyclic templates) :
    ∀ (fuel : Nat) (seen : List TypeRef), seen.Nodup →
      (∀ x ∈ seen, x ∈ (type_edges templates).map Prod.fst) →
      (type_edges templates).length < fuel + seen.length →
      (∀ T pfx da,
        (∀ x ∈ seen, Relation.TransGen (refers templates) x (TypeRef.doType T)) →
        (collect_do_type fuel templates (some T) pfx da).isSome = true) ∧
      (∀ doT D pfx fc trg da,
        (∀ x ∈ seen, Relation.TransGen (refers templates) x (TypeRef.daType D)) →
        (collect_da_type fuel templates doT (some D) pfx fc trg da).isSome = true) := by
  intro fuel
  induction fuel with
  | zero =>
    intro seen hnd hsub hlen
    have hle : seen.length ≤ ((type_edges templates).map Prod.fst).length :=
      (List.subperm_of_subset hnd hsub).length_le
    rw [List.length_map] at hle
    omega
  | succ f ih =>
    intro seen hnd hsub hlen
    have hnext : ∀ r s : TypeRef, refers templates r s →
        (∀ x ∈ seen, Relation.TransGen (refers templates) x r) →
        (r :: seen).Nodup ∧ (∀ x ∈ r :: seen, x ∈ (type_edges templates).map Prod.fst) ∧
          (type_edges templates).length < f + (r :: seen).length ∧
          (∀ x ∈ r :: seen, Relation.TransGen (refers templates) x s) := by
      intro r s hrs hreach
      refine ⟨List.nodup_cons.mpr ⟨fun hr => hacyc r (hreach r hr), hnd⟩, ?_, ?_, ?_⟩
      · intro x hx
        rcases List.mem_cons.mp hx with hx | hx
        · rw [hx]
          exact List.mem_map.mpr ⟨(r, s), hrs, rfl⟩
        · exact hsub x hx
      · rw [List.length_cons]
        omega
      · intro x hx
        rcases List.mem_cons.mp hx with hx | hx
        · rw [hx]
          exact Relation.TransGen.single hrs
        · exact Relation.TransGen.tail (hreach x hx) hrs
    constructor
    · intro T pfx da hreach
      unfold collect_do_type
      simp only
      cases hfind : find_node templates.kids "DOType" (some "id") (some T) with
      | none => rfl
      | some node =>
        simp only
        apply collect_do_children_returns
        · intro child hchild t ht p l
          obtain ⟨h1, h2, h3, h4⟩ := hnext (TypeRef.doType T) (TypeRef.doType t)
            (refers_of_do_child hfind hchild ht) hreach
          exact (ih _ h1 h2 h3).1 t p l h4
        · intro child hchild t ht p fc trg l
          obtain ⟨h1, h2, h3, h4⟩ := hnext (TypeRef.doType T) (TypeRef.daType t)
            (refers_of_do_child hfind hchild ht) hreach
          exact (ih _ h1 h2 h3).2 (some T) t p fc trg l h4
    · intro doT D pfx fc trg da hreach
      unfold collect_da_type
      simp only
      cases hfind : find_node templates.kids "DAType" (some "id") (some D) with
      | none => rfl
      | some node =>
        simp only
        apply collect_da_children_returns
        intro child hchild t ht p fc0 trg0 l
        obtain ⟨h1, h2, h3, h4⟩ := hnext (TypeRef.daType D) (TypeRef.daType t)
          (refers_of_da_child hfind hchild ht) hreach
        exact (ih _ h1 h2 h3).2 doT t p fc0 trg0 l h4

theorem acyclic_of_rank (templates : XmlNode) (rank : TypeRef → Nat)
    (h : (type_edges templates).all (fun e => decide (rank e.2 < rank e.1)) = true) :
    acyclic templates := by
  have hstep : ∀ r s, refers templates r s → rank s < rank r := by
    intro r s hrs
    have := List.all_eq_true.mp h (r, s) hrs
    simpa using this
  have hpath : ∀ r s, Relation.TransGen (refers templates) r s → rank s < rank r := by
    intro r s hrs
    induction hrs with
    | single h1 => exact hstep _ _ h1
    | tail _ h2 ih => exact lt_trans (hstep _ _ h2) ih
  intro r hr
  exact lt_irrefl _ (hpath r r hr)

/-- C35: when the type-reference graph of the templates (from every `DOType` to the
types of its `SDO` and `DA` children, from every `DAType` to the types of its
`BDA` and `DA` children) has no cycle, the expansions `collect_do_type` and
`collect_da_type` return, from every type id, prefix and catalog: a depth of
recursion above the number of references in the templates is never exceeded. -/
theorem resolver_terminates_on_acyclic_templates (templates : XmlNode)
    (hacyc : acyclic templates) (fuel : Nat)
    (hfuel : (type_edges templates).length < fuel) :
    (∀ (T pfx : Option String) (da : List DAEntry),
        (collect_do_type fuel templates T pfx da).isSome = true) ∧
      (∀ (doT D pfx fc : Option String) (trg : Nat) (da : List DAEntry),
        (collect_da_type fuel templates doT D pfx fc trg da).isSome = true) := by
  have hmain := expansion_returns_below templates hacyc fuel [] List.nodup_nil
    (fun x hx => absurd hx (List.not_mem_nil x)) (by simpa using hfuel)
  constructor
  · intro T pfx da
    cases T with
    | none =>
      cases fuel with
      | zero => omega
      | succ f => rfl
    | some T => exact hmain.1 T pfx da (fun x hx => absurd hx (List.not_mem_nil x))
  · intro doT D pfx fc trg da
    cases D with
    | none =>
      cases fuel with
      | zero => omega
      | succ f => rfl
    | some D => exact hmain.2 doT D pfx fc trg da (fun x hx => absurd hx (List.not_mem_nil x))

/-- C35, witness: the templates of the measurement scenario have two references,
from the object type `AnalogDO` to the attribute type `AnalogVal` and none back;
the expansion of `AnalogDO` returns with the depth 3. -/
theorem resolver_terminates_on_acyclic_templates_witness :
    (type_edges scenarioTemplates).length < 3 ∧
      (collect_do_type 3 scenarioTemplates (some "AnalogDO") none []).isSome = true :=
  ⟨by decide,
    (resolver_terminates_on_acyclic_templates scenarioTemplates
      (acyclic_of_rank scenarioTemplates scenarioRank (by decide)) 3 (by decide)).1
      (some "AnalogDO") none []⟩

/-! ## C34 -/

theorem name_char_spec {c : Char} (h : name_char c = true) :
    is_blank c = false ∧ c ≠ '.' ∧ c ≠ '$' ∧ c ≠ '/' ∧ c ≠ '\\' ∧
      c.toNat ≠ 0xEF ∧ c.toNat ≠ 0xE2 := by
  simp only [name_char, Bool.and_eq_true, Bool.not_eq_true', bne_iff_ne, ne_eq] at h
  obtain ⟨⟨⟨⟨⟨⟨h1, h2⟩, h3⟩, h4⟩, h5⟩, h6⟩, h7⟩ := h
  exact ⟨h1, h2, h3, h4, h5, h6, h7⟩

theorem path_char_spec {c : Char} (h : path_char c = true) :
    is_blank c = false ∧ c ≠ '$' ∧ c ≠ '\\' ∧ c.toNat ≠ 0xEF ∧ c.toNat ≠ 0xE2 := by
  simp only [path_char, Bool.or_eq_true, beq_iff_eq] at h
  rcases h with h | h
  · obtain ⟨h1, _, h3, _, h5, h6, h7⟩ := name_char_spec h
    exact ⟨h1, h3, h5, h6, h7⟩
  · rw [h]
    decide

theorem dropWhile_blank_self (s : List Char) (h : ∀ c ∈ s, is_blank c = false) :
    s.dropWhile is_blank = s := by
  cases s with
  | nil => rfl
  | cons c rest =>
    rw [List.dropWhile_cons, h c (List.mem_cons_self _ _)]
    rfl

theorem trim_inplace_self (s : List Char) (h : ∀ c ∈ s, is_blank c = false) :
    trim_inplace ⟨s⟩ = ⟨s⟩ := by
  unfold trim_inplace
  simp only
  rw [dropWhile_blank_self s h, dropWhile_blank_self s.reverse
    (fun c hc => h c (List.mem_reverse.mp hc)), List.reverse_reverse]

theorem normalize_chars_self :
    ∀ (s : List Char), (∀ c ∈ s, c ≠ '\\' ∧ c.toNat ≠ 0xEF ∧ c.toNat ≠ 0xE2) →
      normalize_chars s = s := by
  intro s
  induction s with
  | nil => intro _; rfl
  | cons c rest ih =>
    intro h
    obtain ⟨h1, h2, h3⟩ := h c (List.mem_cons_self _ _)
    have ihr := ih (fun x hx => h x (List.mem_cons_of_mem _ hx))
    have hfirst : (c == '\\' || c.toNat == 0xEF) = false := by
      simp [h1, h2]
    have hsecond : (c.toNat == 0xE2) = false := by
      simp [h3]
    unfold normalize_chars
    simp only [hfirst, Bool.false_eq_true, if_false]
    split
    · simp only [hsecond, Bool.false_and, Bool.false_eq_true, if_false]
      rw [ihr]
    · rw [ihr]

theorem strchr_none (x : Char) :
    ∀ (s : List Char), (∀ c ∈ s, c ≠ x) → strchr s x = none := by
  intro s
  induction s with
  | nil => intro _; rfl
  | cons c rest ih =>
    intro h
    have hc : (c == x) = false := by simpa using h c (List.mem_cons_self _ _)
    unfold strchr
    simp only [hc, Bool.false_eq_true, if_false]
    rw [ih (fun y hy => h y (List.mem_cons_of_mem _ hy))]
    rfl

theorem strchr_append (x : Char) (b : List Char) :
    ∀ (a : List Char), (∀ c ∈ a, c ≠ x) → strchr (a ++ x :: b) x = some a.length := by
  intro a
  induction a with
  | nil =>
    intro _
    simp [strchr]
  | cons c rest ih =>
    intro h
    have hc : (c == x) = false := by simpa using h c (List.mem_cons_self _ _)
    rw [List.cons_append]
    unfold strchr
    simp only [hc, Bool.false_eq_true, if_false]
    rw [ih (fun y hy => h y (List.mem_cons_of_mem _ hy))]
    rfl

theorem strrchr_none (x : Char) :
    ∀ (s : List Char), (∀ c ∈ s, c ≠ x) → strrchr s x = none := by
  intro s
  induction s with
  | nil => intro _; rfl
  | cons c rest ih =>
    intro h
    have hc : (c == x) = false := by simpa using h c (List.mem_cons_self _ _)
    unfold strrchr
    rw [ih (fun y hy => h y (List.mem_cons_of_mem _ hy))]
    simp only [hc, Bool.false_eq_true, if_false]

theorem strrchr_append (x : Char) (b : List Char) (hb : ∀ c ∈ b, c ≠ x) :
    ∀ (a : List Char), strrchr (a ++ x :: b) x = some a.length := by
  intro a
  induction a with
  | nil =>
    rw [List.nil_append]
    unfold strrchr
    rw [strrchr_none x b hb]
    simp
  | cons c rest ih =>
    rw [List.cons_append]
    unfold strrchr
    rw [ih]
    rfl

theorem strtok_from_run (delim : Char) (rest : List Char) :
    ∀ (a cur : List Char), (∀ c ∈ a, c ≠ delim) →
      strtok_from delim (a ++ rest) cur = strtok_from delim rest (a.reverse ++ cur) := by
  intro a
  induction a with
  | nil => intro cur _; rfl
  | cons c tail ih =>
    intro cur h
    have hc : (c == delim) = false := by simpa using h c (List.mem_cons_self _ _)
    rw [List.cons_append]
    conv => lhs; unfold strtok_from
    simp only [hc, Bool.false_eq_true, if_false]
    rw [ih (c :: cur) (fun y hy => h y (List.mem_cons_of_mem _ hy))]
    simp

theorem strtok_all_two (delim : Char) (a b : List Char)
    (ha : ∀ c ∈ a, c ≠ delim) (hb : ∀ c ∈ b, c ≠ delim) (hne : b ≠ []) :
    ((strtok_all ⟨a ++ delim :: b⟩ delim).take 8).reverse
      = if a.isEmpty then [⟨b⟩] else [⟨b⟩, ⟨a⟩] := by
  have hlast : strtok_from delim b [] = [⟨b⟩] := by
    have h := strtok_from_run delim [] b [] hb
    rw [List.append_nil, List.append_nil] at h
    rw [h]
    unfold strtok_from
    have hr : b.reverse.isEmpty = false := by
      cases b with
      | nil => exact absurd rfl hne
      | cons y ys => simp
    simp only [hr, Bool.false_eq_true, if_false, List.reverse_reverse]
  unfold strtok_all
  simp only
  rw [strtok_from_run delim (delim :: b) a [] ha, List.append_nil]
  unfold strtok_from
  simp only [beq_self_eq_true, if_true, hlast]
  cases a with
  | nil => simp
  | cons y ys => simp

theorem drop_past (a b : List Char) (x : Char) :
    List.drop (a.length + 1) (a ++ x :: b) = b := by
  have h := List.drop_left (a ++ [x]) b
  rw [List.length_append, List.length_singleton, List.append_assoc,
    List.singleton_append] at h
  exact h

theorem parse_bit_suffix_plain (a sub : List Char) (hsub : ∀ c ∈ sub, c ≠ '.')
    (hbit : is_bit_suffix sub = false) :
    parse_bit_suffix ⟨a ++ '.' :: sub⟩ = (-1, ⟨a ++ '.' :: sub⟩) := by
  have hne : (a ++ '.' :: sub).isEmpty = false := by
    cases a <;> rfl
  unfold parse_bit_suffix
  simp only [hne, Bool.false_eq_true, if_false, strrchr_append '.' sub hsub a]
  rw [drop_past a sub '.', hbit]
  rfl

theorem split_dot_core (r : MapRow) (ld ln dn da : List Char)
    (hld : ld.all name_char = true) (hln : ln.all name_char = true) (hne : ln ≠ [])
    (hdn : dn.all name_char = true) (hda : da.all path_char = true)
    (hldlen : ld.length ≤ 39) (hlnlen : ln.length ≤ 39) (hdnlen : dn.length ≤ 63)
    (hdalen : da.length ≤ 63)
    (hbit : parse_bit_suffix ⟨da⟩ = (-1, ⟨da⟩))
    (hpath : r.iec_path = ⟨ld ++ '/' :: (ln ++ '.' :: (dn ++ '.' :: da))⟩) :
    split_iec_path r
      = (0, { r with ld := ⟨ld⟩, ln := ⟨ln⟩, do_name := ⟨dn⟩, da_path := ⟨da⟩,
                     bit_index := -1 }) := by
  have hld1 := fun c hc => name_char_spec (List.all_eq_true.mp hld c hc)
  have hln1 := fun c hc => name_char_spec (List.all_eq_true.mp hln c hc)
  have hdn1 := fun c hc => name_char_spec (List.all_eq_true.mp hdn c hc)
  have hda1 := fun c hc => path_char_spec (List.all_eq_true.mp hda c hc)
  -- the characters of the whole path
  have hall : ∀ c ∈ ld ++ '/' :: (ln ++ '.' :: (dn ++ '.' :: da)),
      is_blank c = false ∧ c ≠ '$' ∧ c ≠ '\\' ∧ c.toNat ≠ 0xEF ∧ c.toNat ≠ 0xE2 := by
    intro c hc
    simp only [List.mem_append, List.mem_cons] at hc
    rcases hc with h | h | h | h | h | h | h
    · obtain ⟨h1, _, h3, _, h5, h6, h7⟩ := hld1 c h
      exact ⟨h1, h3, h5, h6, h7⟩
    · rw [h]; decide
    · obtain ⟨h1, _, h3, _, h5, h6, h7⟩ := hln1 c h
      exact ⟨h1, h3, h5, h6, h7⟩
    · rw [h]; decide
    · obtain ⟨h1, _, h3, _, h5, h6, h7⟩ := hdn1 c h
      exact ⟨h1, h3, h5, h6, h7⟩
    · rw [h]; decide
    · exact hda1 c h
  have hhead : ∀ c ∈ ld ++ '/' :: ln, is_blank c = false ∧ c ≠ '.' := by
    intro c hc
    simp only [List.mem_append, List.mem_cons] at hc
    rcases hc with h | h | h
    · exact ⟨(hld1 c h).1, (hld1 c h).2.1⟩
    · rw [h]; decide
    · exact ⟨(hln1 c h).1, (hln1 c h).2.1⟩
  have hlen : (ld ++ '/' :: (ln ++ '.' :: (dn ++ '.' :: da))).length ≤ 255 := by
    simp only [List.length_append, List.length_cons]
    omega
  have hbuf : normalize_slashes (trim_inplace (trunc 255 r.iec_path))
      = ⟨(ld ++ '/' :: ln) ++ '.' :: (dn ++ '.' :: da)⟩ := by
    rw [hpath, trunc_of_le (by exact hlen), trim_inplace_self _ (fun c hc => (hall c hc).1)]
    unfold normalize_slashes
    simp only
    rw [normalize_chars_self _ (fun c hc => (hall c hc).2.2), List.append_assoc,
      List.cons_append]
  have hdot : strchr ((ld ++ '/' :: ln) ++ '.' :: (dn ++ '.' :: da)) '.'
      = some (ld ++ '/' :: ln).length :=
    strchr_append '.' _ _ (fun c hc => (hhead c hc).2)
  have hdollar : strchr ((ld ++ '/' :: ln) ++ '.' :: (dn ++ '.' :: da)) '$' = none := by
    apply strchr_none
    intro c hc
    rw [List.append_assoc, List.cons_append] at hc
    exact (hall c hc).2.1
  have hk : (ld ++ '/' :: ln).length ≤ 127 := by
    simp only [List.length_append, List.length_cons]
    omega
  have htake : List.take (min (ld ++ '/' :: ln).length 127)
      ((ld ++ '/' :: ln) ++ '.' :: (dn ++ '.' :: da)) = ld ++ '/' :: ln := by
    rw [Nat.min_eq_left hk, List.take_left]
  have hdrop : List.drop ((ld ++ '/' :: ln).length + 1)
      ((ld ++ '/' :: ln) ++ '.' :: (dn ++ '.' :: da)) = dn ++ '.' :: da :=
    drop_past _ _ _
  have hldln : trunc 127 (trim_inplace ⟨ld ++ '/' :: ln⟩) = ⟨ld ++ '/' :: ln⟩ := by
    rw [trim_inplace_self _ (fun c hc => (hhead c hc).1)]
    exact trunc_of_le (by exact hk)
  have hsections := strtok_all_two '/' ld ln (fun c hc => (hld1 c hc).2.2.2.1)
    (fun c hc => (hln1 c hc).2.2.2.1) hne
  have hdot2 : strchr (dn ++ '.' :: da) '.' = some dn.length :=
    strchr_append '.' _ _ (fun c hc => (hdn1 c hc).2.1)
  have htake2 : List.take (min dn.length 63) (dn ++ '.' :: da) = dn := by
    rw [Nat.min_eq_left hdnlen, List.take_left]
  have hdrop2 : List.drop (dn.length + 1) (dn ++ '.' :: da) = da := drop_past _ _ _
  have hfin : ∀ r1 : MapRow, finish_split r1 ⟨dn⟩ (trunc 63 ⟨da⟩)
      = (0, { r1 with do_name := ⟨dn⟩, da_path := ⟨da⟩, bit_index := -1 }) := by
    intro r1
    unfold finish_split
    rw [trunc_of_le (by exact hdalen), trim_inplace_self _ (fun c hc => (hda1 c hc).1),
      trim_inplace_self _ (fun c hc => (hdn1 c hc).1), hbit]
  unfold split_iec_path
  simp only [hbuf, hdot, hdollar, first_separator, htake, hdrop, hldln, hsections]
  by_cases hemp : ld.isEmpty = true
  · have hld0 : ld = [] := List.isEmpty_iff.mp hemp
    subst hld0
    simp only [List.isEmpty_nil, if_true, Bool.not_false, hdot2, htake2, hdrop2, hfin]
    rw [show trunc 39 (⟨ln⟩ : String) = ⟨ln⟩ from trunc_of_le (by exact hlnlen),
      trim_inplace_self _ (fun c hc => (hln1 c hc).1)]
    rfl
  · rw [if_neg hemp]
    simp only [Bool.not_false, if_true, hdot2, htake2, hdrop2, hfin]
    rw [show trunc 39 (⟨ln⟩ : String) = ⟨ln⟩ from trunc_of_le (by exact hlnlen),
      show trunc 39 (⟨ld⟩ : String) = ⟨ld⟩ from trunc_of_le (by exact hldlen),
      trim_inplace_self _ (fun c hc => (hln1 c hc).1),
      trim_inplace_self _ (fun c hc => (hld1 c hc).1)]

theorem is_name_path_char {s : String} (h : is_name s = true) :
    ∀ c ∈ s.data, path_char c = true := by
  intro c hc
  have := List.all_eq_true.mp h c hc
  simp only [path_char, this, Bool.true_or]

/-- By design, in the dot form a last component `bit3` is taken off the attribute
path and becomes the bit index, and a device name of 40 characters is cut to
the 39 the field `ld[40]` holds. -/
theorem split_takes_bit_suffix_and_cuts_long_names :
    components (split_iec_path (rowOf "LD0/MMXU1.Amp.mag.f.bit3"))
        = (0, "LD0", "MMXU1", "Amp", "mag.f", 3) ∧
      components (split_iec_path (rowOf (trunc 40 name64 ++ "/MMXU1.Amp.mag.f.x")))
        = (0, trunc 39 name64, "MMXU1", "Amp", "mag.f.x", -1) := by
  refine ⟨by decide, by decide⟩

/-- C34, the code at the failing input: the path `LD0/MMXU1$MX$Amp$mag$f.sub` is
in dollar notation with a dotted last component, the form the comment in
`split_iec_path` gives as `LD/LN$FC$DO$DAbranch$DAname[.sub...]`.  Since the
buffer holds a dot, `sep_is_dollar` stays 0 and the text after the first `$` is
split as dot notation: the call returns 0 with the object name `MX$Amp$mag$f`
and the attribute path `sub`, where the dot form of the same path gives `Amp`
and `mag.f.sub`; the dollar form without any dot does give `Amp` and `mag.f`. -/
theorem dollar_form_with_dotted_tail_is_split_as_dot_form :
    components (split_iec_path (rowOf "LD0/MMXU1$MX$Amp$mag$f.sub"))
        = (0, "LD0", "MMXU1", "MX$Amp$mag$f", "sub", -1) ∧
      components (split_iec_path (rowOf "LD0/MMXU1.Amp.mag.f.sub"))
        = (0, "LD0", "MMXU1", "Amp", "mag.f.sub", -1) ∧
      components (split_iec_path (rowOf "LD0/MMXU1$MX$Amp$mag$f"))
        = (0, "LD0", "MMXU1", "Amp", "mag.f", -1) := by
  refine ⟨by decide, by decide, by decide⟩

/-- The dot notation: for names free of the separators `.`, `$`, `/`, of the backslash,
of white space and of the bytes `0xE2` and `0xEF`, with a non-empty node name,
a device name and a node name of at most 39 characters, an object name of at
most 63, an attribute path `DAbranch.DAname.sub` of at most 63, and a last
component that does not start with `bit` and a digit, `split_iec_path` returns 0
on the dot form `LD/LN.DO.DAbranch.DAname.sub` and leaves `ld = LD`, `ln = LN`,
`do_name = DO`, `da_path = DAbranch.DAname.sub` and `bit_index = -1`, the
other fields of the row as they were; and `LD0/MMXU1.Amp.mag.f` gives `LD0`,
`MMXU1`, `Amp`, `mag.f` and -1. -/
theorem dot_form_decomposes (r : MapRow) (ld ln dn daBranch daName sub : String)
    (hld : is_name ld = true) (hln : is_name ln = true) (hlnne : ln ≠ "")
    (hdn : is_name dn = true) (hbr : is_name daBranch = true)
    (hnm : is_name daName = true) (hsub : is_name sub = true)
    (hldlen : ld.length ≤ 39) (hlnlen : ln.length ≤ 39) (hdnlen : dn.length ≤ 63)
    (hdalen : (daBranch ++ "." ++ daName ++ "." ++ sub).length ≤ 63)
    (hbit : is_bit_suffix sub.data = false)
    (hpath : r.iec_path
      = ld ++ "/" ++ ln ++ "." ++ dn ++ "." ++ daBranch ++ "." ++ daName ++ "." ++ sub) :
    split_iec_path r
        = (0, { r with ld := ld, ln := ln, do_name := dn,
                       da_path := daBranch ++ "." ++ daName ++ "." ++ sub,
                       bit_index := -1 }) ∧
      components (split_iec_path (rowOf "LD0/MMXU1.Amp.mag.f"))
        = (0, "LD0", "MMXU1", "Amp", "mag.f", -1) := by
  refine ⟨?_, by decide⟩
  have e1 : ("/" : String).data = ['/'] := rfl
  have e2 : ("." : String).data = ['.'] := rfl
  have hdaeq : daBranch ++ "." ++ daName ++ "." ++ sub
      = ⟨(daBranch.data ++ '.' :: daName.data) ++ '.' :: sub.data⟩ := by
    apply String.ext
    simp only [String.data_append, e1, e2, List.append_assoc, List.singleton_append,
      List.nil_append,
      List.cons_append]
  have hpatheq : r.iec_path = ⟨ld.data ++ '/' :: (ln.data ++ '.' :: (dn.data ++ '.' ::
      ((daBranch.data ++ '.' :: daName.data) ++ '.' :: sub.data)))⟩ := by
    rw [hpath]
    apply String.ext
    simp only [String.data_append, e1, e2, List.append_assoc, List.singleton_append,
      List.nil_append,
      List.cons_append]
  have hsubdot : ∀ c ∈ sub.data, c ≠ '.' :=
    fun c hc => (name_char_spec (List.all_eq_true.mp hsub c hc)).2.1
  have hda : ((daBranch.data ++ '.' :: daName.data) ++ '.' :: sub.data).all path_char
      = true := by
    apply List.all_eq_true.mpr
    intro c hc
    simp only [List.mem_append, List.mem_cons] at hc
    rcases hc with (h | h | h) | h | h
    · exact is_name_path_char hbr c h
    · rw [h]; decide
    · exact is_name_path_char hnm c h
    · rw [h]; decide
    · exact is_name_path_char hsub c h
  have hlen : ((daBranch.data ++ '.' :: daName.data) ++ '.' :: sub.data).length ≤ 63 := by
    rw [hdaeq] at hdalen
    exact hdalen
  have hne : ln.data ≠ [] := fun h => hlnne (String.ext h)
  have hcore := split_dot_core r ld.data ln.data dn.data
    ((daBranch.data ++ '.' :: daName.data) ++ '.' :: sub.data) hld hln hne hdn hda
    hldlen hlnlen hdnlen hlen (parse_bit_suffix_plain _ _ hsubdot hbit) hpatheq
  rw [hcore, hdaeq]

/-- An instance of the dot notation: the path `LD0/MMXU1.Amp.cVal.mag.f`, with the
object `Amp` and the attribute path `cVal.mag.f`. -/
theorem dot_form_decomposes_witness :
    split_iec_path (rowOf "LD0/MMXU1.Amp.cVal.mag.f")
      = (0, { rowOf "LD0/MMXU1.Amp.cVal.mag.f" with
                ld := "LD0", ln := "MMXU1", do_name := "Amp",
                da_path := "cVal" ++ "." ++ "mag" ++ "." ++ "f", bit_index := -1 }) :=
  (dot_form_decomposes (rowOf "LD0/MMXU1.Amp.cVal.mag.f") "LD0" "MMXU1" "Amp" "cVal" "mag" "f"
    (by decide) (by decide) (by decide) (by decide) (by decide) (by decide) (by decide)
    (by decide) (by decide) (by decide) (by decide) (by decide) (by decide)).1

/-! ## C6 -/

theorem first_component :
    ∀ (a b x y : List Char), '.' ∉ a → '.' ∉ b → a ++ '.' :: x <+: b ++ '.' :: y → a = b := by
  intro a
  induction a with
  | nil =>
    intro b x y _ hb h
    cases b with
    | nil => rfl
    | cons c b' =>
      rw [List.nil_append, List.cons_append] at h
      have := (List.cons_prefix_cons.mp h).1
      exact absurd (this ▸ List.mem_cons_self _ _) hb
  | cons c a' ih =>
    intro b x y ha hb h
    cases b with
    | nil =>
      rw [List.nil_append, List.cons_append] at h
      have := (List.cons_prefix_cons.mp h).1
      exact absurd (this ▸ List.mem_cons_self _ _) ha
    | cons c' b' =>
      rw [List.cons_append, List.cons_append] at h
      obtain ⟨h1, h2⟩ := List.cons_prefix_cons.mp h
      rw [h1, ih b' x y (fun hm => ha (List.mem_cons_of_mem _ hm))
        (fun hm => hb (List.mem_cons_of_mem _ hm)) h2]

theorem sibling_misses (pre m c rest : List Char) (hm : '.' ∉ m) (hc : '.' ∉ c)
    (hne : m ≠ c) (hrest : rest = [] ∨ ∃ r, rest = '.' :: r) :
    pre ++ m ≠ pre ++ (c ++ rest) ∧ ¬ (pre ++ (m ++ ['.']) <+: pre ++ (c ++ rest)) := by
  constructor
  · intro h
    have h1 : m = c ++ rest := List.append_cancel_left h
    rcases hrest with h0 | ⟨r, hr⟩
    · rw [h0, List.append_nil] at h1
      exact hne h1
    · apply hm
      rw [h1, hr]
      exact List.mem_append_right _ (List.mem_cons_self _ _)
  · intro h
    have h1 : m ++ ['.'] <+: c ++ rest := (List.prefix_append_right_inj pre).mp h
    rcases hrest with h0 | ⟨r, hr⟩
    · rw [h0, List.append_nil] at h1
      exact hc (h1.subset (List.mem_append_right _ (List.mem_cons_self _ _)))
    · rw [hr] at h1
      exact hne (first_component m c [] r hm hc h1)

theorem string_length_data (s : String) : s.length = s.data.length := rfl

theorem join_path_misses (p n k : String) (hk : k.length < 127) (hp : misses k p) :
    misses k (join_path (some p) n) := by
  obtain ⟨hp0, _, hnu⟩ := hp
  have hjoin : join_path (some p) n = trunc 255 (p ++ "." ++ n) := by
    simp [join_path, nonEmpty, hp0]
  have hdot : (".").length = 1 := rfl
  rw [hjoin]
  by_cases hlen : (p ++ "." ++ n).length ≤ 255
  · rw [trunc_of_le hlen]
    refine ⟨?_, ?_, ?_⟩
    · apply ne_of_length_ne
      simp only [String.length_append]
      have : ("").length = 0 := rfl
      omega
    · intro h
      apply hnu
      unfold is_under
      rw [← h, String.data_append]
      exact List.prefix_append _ _
    · intro h
      apply hnu
      unfold is_under at h ⊢
      rw [String.data_append, String.data_append] at h
      exact List.IsPrefix.trans (List.prefix_append _ _)
        (List.IsPrefix.trans (List.prefix_append _ _) h)
  · have hq : (trunc 255 (p ++ "." ++ n)).length = 255 := by
      rw [trunc_length]
      omega
    refine ⟨?_, ?_, ?_⟩
    · apply ne_of_length_ne
      have : ("").length = 0 := rfl
      omega
    · apply ne_of_length_ne
      omega
    · intro h
      unfold is_under at h
      have hle := h.length_le
      rw [String.data_append, List.length_append, ← string_length_data, ← string_length_data,
        ← string_length_data] at hle
      omega

theorem find_add_other (d0 : Option String) (q : String) (fc b t : Option String) (trg : Nat)
    (l : List DAEntry) (d k : String) (hd : d.length < 63) (hk : k.length < 127)
    (hq : q ≠ k) :
    icd_find_da_info (add_da_entry d0 (some q) fc b t trg l) d k = icd_find_da_info l d k := by
  rw [find_add _ _ _ _ _ _ _ d k hd hk]
  have hc : (d0 == some d && some q == some k) = false := by
    simp [hq]
  rw [hc]
  cases icd_find_da_info l d k <;> rfl

theorem find_add_kept (d0 p0 fc b t : Option String) (trg : Nat)
    (l : List DAEntry) (d k : String) (hd : d.length < 63) (hk : k.length < 127)
    (v : DAInfo) (h : icd_find_da_info l d k = some v) :
    icd_find_da_info (add_da_entry d0 p0 fc b t trg l) d k = some v := by
  rw [find_add _ _ _ _ _ _ _ d k hd hk, h]
  rfl

theorem find_add_fresh (fc b t : Option String) (trg : Nat)
    (l : List DAEntry) (d k : String) (hd : d.length < 63) (hk : k.length < 127)
    (h : icd_find_da_info l d k = none) :
    icd_find_da_info (add_da_entry (some d) (some k) fc b t trg l) d k
      = some { fc := copyOpt 7 fc, bType := copyOpt 31 b, typeId := copyOpt 63 t,
               trgOps := trg % 256 } := by
  rw [find_add _ _ _ _ _ _ _ d k hd hk, h]
  simp

theorem collect_da_children_cons
    (recur : Option String → Option String → Option String → Nat →
      List DAEntry → Option (List DAEntry))
    (doTypeId pfx ifc : Option String) (itrg : Nat) (child : XmlNode) (rest : List XmlNode)
    (da : List DAEntry) :
    collect_da_children recur doTypeId pfx ifc itrg (child :: rest) da
      = (collect_da_children recur doTypeId pfx ifc itrg [child] da).bind
          (collect_da_children recur doTypeId pfx ifc itrg rest) := by
  have hnil : ∀ l, collect_da_children recur doTypeId pfx ifc itrg [] l = some l := by
    intro l
    rw [collect_da_children]
  have hbind : ∀ (x : Option (List DAEntry)),
      x.bind (collect_da_children recur doTypeId pfx ifc itrg rest)
        = (x.bind (collect_da_children recur doTypeId pfx ifc itrg [])).bind
            (collect_da_children recur doTypeId pfx ifc itrg rest) := by
    intro x
    cases x with
    | none => rfl
    | some l => simp only [Option.some_bind, hnil]
  rw [collect_da_children, collect_da_children]
  split
  · rw [hnil]; rfl
  · split
    · rw [hnil]; rfl
    · split
      · rw [hnil]; rfl
      · simp only
        cases xmlGetProp child "type" with
        | some t => exact hbind _
        | none => simp only [hnil]; rfl

theorem collect_da_children_append
    (recur : Option String → Option String → Option String → Nat →
      List DAEntry → Option (List DAEntry))
    (doTypeId pfx ifc : Option String) (itrg : Nat) (ys : List XmlNode) :
    ∀ (xs : List XmlNode) (da : List DAEntry),
      collect_da_children recur doTypeId pfx ifc itrg (xs ++ ys) da
        = (collect_da_children recur doTypeId pfx ifc itrg xs da).bind
            (collect_da_children recur doTypeId pfx ifc itrg ys) := by
  intro xs
  induction xs with
  | nil =>
    intro da
    rw [List.nil_append, collect_da_children]
    rfl
  | cons x rest ih =>
    intro da
    rw [List.cons_append, collect_da_children_cons, collect_da_children_cons _ _ _ _ _ x rest]
    cases collect_da_children recur doTypeId pfx ifc itrg [x] da with
    | none => rfl
    | some l =>
      simp only [Option.some_bind]
      exact ih l

theorem collect_da_children_misses
    (recur : Option String → Option String → Option String → Nat →
      List DAEntry → Option (List DAEntry))
    (d k : String) (hd : d.length < 63) (hk : k.length < 127)
    (hrec : ∀ t q fc trg l l', misses k q → recur t (some q) fc trg l = some l' →
      icd_find_da_info l' d k = icd_find_da_info l d k)
    (doTypeId pfx ifc : Option String) (itrg : Nat) :
    ∀ (children : List XmlNode),
      (∀ x ∈ children, ∀ m, xmlGetProp x "name" = some m → misses k (join_path pfx m)) →
      ∀ (l l' : List DAEntry),
        collect_da_children recur doTypeId pfx ifc itrg children l = some l' →
        icd_find_da_info l' d k = icd_find_da_info l d k := by
  intro children
  induction children with
  | nil =>
    intro _ l l' h
    rw [collect_da_children] at h
    cases h
    rfl
  | cons child rest ih =>
    intro hch l l' h
    have ihr := ih (fun x hx => hch x (List.mem_cons_of_mem _ hx))
    rw [collect_da_children] at h
    split at h
    · exact ihr l l' h
    · split at h
      · exact ihr l l' h
      · split at h
        · exact ihr l l' h
        · rename_i n hn
          have hq := hch child (List.mem_cons_self _ _) n hn
          simp only at h
          have hadd := find_add_other doTypeId (join_path pfx n) (member_fc child ifc)
            (xmlGetProp child "bType") (xmlGetProp child "type") (member_trgOps child itrg)
            l d k hd hk hq.2.1
          cases hty : xmlGetProp child "type" with
          | none =>
            rw [hty] at h hadd
            simp only at h
            rw [ihr _ l' h, hadd]
          | some t =>
            rw [hty] at h hadd
            simp only at h
            obtain ⟨l1, h1, h2⟩ := Option.bind_eq_some.mp h
            rw [ihr _ l' h2, hrec _ _ _ _ _ _ hq h1, hadd]

theorem collect_do_children_misses
    (recurDo : Option String → Option String → List DAEntry → Option (List DAEntry))
    (recurDa : Option String → Option String → Option String → Nat →
      List DAEntry → Option (List DAEntry))
    (d k : String) (hd : d.length < 63) (hk : k.length < 127)
    (hdo : ∀ t q l l', misses k q → recurDo t (some q) l = some l' →
      icd_find_da_info l' d k = icd_find_da_info l d k)
    (hda : ∀ t q fc trg l l', misses k q → recurDa t (some q) fc trg l = some l' →
      icd_find_da_info l' d k = icd_find_da_info l d k)
    (doTypeId pfx : Option String) :
    ∀ (children : List XmlNode),
      (∀ x ∈ children, ∀ m, xmlGetProp x "name" = some m → misses k (join_path pfx m)) →
      ∀ (l l' : List DAEntry),
        collect_do_children recurDo recurDa doTypeId pfx children l = some l' →
        icd_find_da_info l' d k = icd_find_da_info l d k := by
  intro children
  induction children with
  | nil =>
    intro _ l l' h
    rw [collect_do_children] at h
    cases h
    rfl
  | cons child rest ih =>
    intro hch l l' h
    have ihr := ih (fun x hx => hch x (List.mem_cons_of_mem _ hx))
    rw [collect_do_children] at h
    split at h
    · exact ihr l l' h
    · split at h
      · split at h
        · rename_i n b hn hb
          have hq := hch child (List.mem_cons_self _ _) n hn
          simp only at h
          have hadd := find_add_other doTypeId (join_path pfx n) (xmlGetProp child "fc")
            (some b) (xmlGetProp child "type") (change_flags child) l d k hd hk hq.2.1
          cases hty : xmlGetProp child "type" with
          | none =>
            rw [hty] at h hadd
            simp only at h
            rw [ihr _ l' h, hadd]
          | some t =>
            rw [hty] at h hadd
            simp only at h
            obtain ⟨l1, h1, h2⟩ := Option.bind_eq_some.mp h
            rw [ihr _ l' h2, hda _ _ _ _ _ _ hq h1, hadd]
        · exact ihr l l' h
      · split at h
        · split at h
          · rename_i n t hn ht
            have hq := hch child (List.mem_cons_self _ _) n hn
            obtain ⟨l1, h1, h2⟩ := Option.bind_eq_some.mp h
            rw [ihr _ l' h2, hdo _ _ _ _ hq h1]
          · exact ihr l l' h
        · exact ihr l l' h

theorem expansion_misses (templates : XmlNode) (d k : String) (hd : d.length < 63)
    (hk : k.length < 127) :
    ∀ (fuel : Nat),
      (∀ (doT : Option String) (p : String) (l l' : List DAEntry), misses k p →
        collect_do_type fuel templates doT (some p) l = some l' →
        icd_find_da_info l' d k = icd_find_da_info l d k) ∧
      (∀ (doT daT : Option String) (p : String) (fc : Option String) (trg : Nat)
        (l l' : List DAEntry), misses k p →
        collect_da_type fuel templates doT daT (some p) fc trg l = some l' →
        icd_find_da_info l' d k = icd_find_da_info l d k) := by
  intro fuel
  induction fuel with
  | zero =>
    constructor
    · intro doT p l l' _ h
      simp [collect_do_type] at h
    · intro doT daT p fc trg l l' _ h
      simp [collect_da_type] at h
  | succ f ih =>
    constructor
    · intro doT p l l' hp h
      unfold collect_do_type at h
      split at h
      · cases h; rfl
      · split at h
        · cases h; rfl
        · exact collect_do_children_misses _ _ d k hd hk
            (fun t q l0 l1 hq h0 => ih.1 t q l0 l1 hq h0)
            (fun t q fc trg l0 l1 hq h0 => ih.2 _ t q fc trg l0 l1 hq h0)
            _ (some p) _ (fun x _ m _ => join_path_misses p m k hk hp) l l' h
    · intro doT daT p fc trg l l' hp h
      unfold collect_da_type at h
      split at h
      · cases h; rfl
      · split at h
        · cases h; rfl
        · exact collect_da_children_misses _ d k hd hk
            (fun t q fc0 trg0 l0 l1 hq h0 => ih.2 _ t q fc0 trg0 l0 l1 hq h0)
            _ (some p) _ _ _ (fun x _ m _ => join_path_misses p m k hk hp) l l' h

theorem dot_free_spec {n : String} (h : dot_free n = true) : '.' ∉ n.data := by
  simpa [dot_free] using h

theorem names_clear_spec {before : List XmlNode} {n : String} (h : names_clear before n = true)
    {x : XmlNode} (hx : x ∈ before) {m : String} (hm : xmlGetProp x "name" = some m) :
    '.' ∉ m.data ∧ m ≠ n := by
  have h1 := List.all_eq_true.mp h x hx
  rw [hm] at h1
  simp only [Bool.and_eq_true, bne_iff_ne, ne_eq] at h1
  exact ⟨dot_free_spec h1.1, h1.2⟩

theorem names_given_spec {before : List XmlNode} (h : names_given before = true)
    {x : XmlNode} (hx : x ∈ before) {m : String} (hm : xmlGetProp x "name" = some m) :
    m ≠ "" := by
  have h1 := List.all_eq_true.mp h x hx
  rw [hm] at h1
  intro h0
  rw [h0] at h1
  simp at h1

theorem sibling_path_misses (k s : String) (pre m c rest : List Char)
    (hkd : k.data = pre ++ (c ++ rest)) (hsd : s.data = pre ++ m)
    (hm : '.' ∉ m) (hc : '.' ∉ c) (hne : m ≠ c) (hrest : rest = [] ∨ ∃ r, rest = '.' :: r)
    (hk : k.length < 127) (hs0 : s ≠ "") : misses k (trunc 255 s) := by
  obtain ⟨h1, h2⟩ := sibling_misses pre m c rest hm hc hne hrest
  by_cases hlen : s.length ≤ 255
  · rw [trunc_of_le hlen]
    refine ⟨hs0, ?_, ?_⟩
    · intro h
      apply h1
      rw [← hsd, ← hkd, h]
    · intro h
      apply h2
      unfold is_under at h
      have e2 : (".").data = ['.'] := rfl
      rw [String.data_append, hsd, hkd, e2, List.append_assoc] at h
      exact h
  · have hq : (trunc 255 s).length = 255 := by
      rw [trunc_length]
      omega
    refine ⟨?_, ?_, ?_⟩
    · apply ne_of_length_ne
      have : ("").length = 0 := rfl
      omega
    · apply ne_of_length_ne
      omega
    · intro h
      unfold is_under at h
      have hle := h.length_le
      have hdot : (".").length = 1 := rfl
      rw [String.data_append, List.length_append, ← string_length_data, ← string_length_data,
        ← string_length_data] at hle
      omega

theorem find_map_kept {β : Type} (g : DAInfo → β) (x : β) (d k : String)
    (hd : d.length < 63) (hk : k.length < 127)
    (d0 p0 fc b t : Option String) (trg : Nat) (l : List DAEntry)
    (h : (icd_find_da_info l d k).map g = some x) :
    (icd_find_da_info (add_da_entry d0 p0 fc b t trg l) d k).map g = some x := by
  obtain ⟨v, hv, hg⟩ := Option.map_eq_some'.mp h
  rw [find_add_kept d0 p0 fc b t trg l d k hd hk v hv]
  exact congrArg some hg

theorem member_fc_own {c : XmlNode} {fcC : String} (h : xmlGetProp c "fc" = some fcC)
    (inherited : Option String) : member_fc c inherited = some fcC := by
  unfold member_fc
  rw [h]

theorem member_trgOps_inherited {c : XmlNode} (h : has_change_flag c = false) (inherited : Nat) :
    member_trgOps c inherited = inherited := by
  unfold member_trgOps
  unfold has_change_flag at h
  rw [h]
  rfl

theorem chain_member_entry (f : Nat) (templates : XmlNode) (T TB kB kC nC fcC : String)
    (tbNode c : XmlNode) (beforeC afterC : List XmlNode) (fcB : Option String) (tB : Nat)
    (l l' : List DAEntry)
    (hTB : find_node templates.kids "DAType" (some "id") (some TB) = some tbNode)
    (hkids : tbNode.kids = beforeC ++ c :: afterC)
    (hc : isElem c "BDA" = true ∨ isElem c "DA" = true)
    (hcName : xmlGetProp c "name" = some nC) (hcFc : xmlGetProp c "fc" = some fcC)
    (hcFlags : has_change_flag c = false)
    (hpC : join_path (some kB) nC = kC)
    (hclear : ∀ x ∈ beforeC, ∀ m, xmlGetProp x "name" = some m →
      misses kC (join_path (some kB) m))
    (hT : T.length < 63) (hkC : kC.length < 127)
    (hfresh : icd_find_da_info l T kC = none)
    (hret : collect_da_type f templates (some T) (some TB) (some kB) fcB tB l = some l') :
    (icd_find_da_info l' T kC).map (fun i => (i.fc, i.trgOps))
      = some (trunc 7 fcC, tB % 256) := by
  have hmisses := expansion_misses templates T kC hT hkC
  have hkept : ∀ (d0 p0 fc b t : Option String) (trg : Nat) (l0 : List DAEntry),
      (icd_find_da_info l0 T kC).map (fun i => (i.fc, i.trgOps)) = some (trunc 7 fcC, tB % 256) →
      (icd_find_da_info (add_da_entry d0 p0 fc b t trg l0) T kC).map
        (fun i => (i.fc, i.trgOps)) = some (trunc 7 fcC, tB % 256) :=
    fun d0 p0 fc b t trg l0 h => find_map_kept _ _ T kC hT hkC d0 p0 fc b t trg l0 h
  cases f with
  | zero => simp [collect_da_type] at hret
  | succ g =>
    unfold collect_da_type at hret
    simp only [hTB] at hret
    rw [hkids, collect_da_children_append] at hret
    obtain ⟨l1, h1, h2⟩ := Option.bind_eq_some.mp hret
    have hf1 : icd_find_da_info l1 T kC = none := by
      rw [collect_da_children_misses _ T kC hT hkC
        (fun t q fc0 trg0 l0 l2 hq h0 => (hmisses g).2 _ t q fc0 trg0 l0 l2 hq h0)
        _ _ _ _ beforeC hclear l l1 h1]
      exact hfresh
    rw [collect_da_children_member _ _ _ _ _ c afterC l1 nC hc hcName] at h2
    obtain ⟨l2, h3, h4⟩ := Option.bind_eq_some.mp h2
    rw [hpC, member_fc_own hcFc, member_trgOps_inherited hcFlags] at h3
    have hreg : (icd_find_da_info
        (add_da_entry (some T) (some kC) (some fcC) (xmlGetProp c "bType")
          (xmlGetProp c "type") tB l1) T kC).map (fun i => (i.fc, i.trgOps))
        = some (trunc 7 fcC, tB % 256) := by
      rw [find_add_fresh _ _ _ _ l1 T kC hT hkC hf1]
      rfl
    have hl2 : (icd_find_da_info l2 T kC).map (fun i => (i.fc, i.trgOps))
        = some (trunc 7 fcC, tB % 256) := by
      cases hty : xmlGetProp c "type" with
      | none =>
        rw [hty] at h3 hreg
        simp only [Option.some.injEq] at h3
        rw [← h3]
        exact hreg
      | some t =>
        rw [hty] at h3 hreg
        simp only at h3
        exact collect_da_type_preserves _ hkept g templates _ _ _ _ _ _ l2 hreg h3
    exact collect_da_children_preserves _ hkept _
      (fun a0 b0 c0 n0 l0 l3 hl0 h0 =>
        collect_da_type_preserves _ hkept g templates _ a0 b0 c0 n0 l0 l3 hl0 h0)
      _ _ _ _ afterC l2 l' hl2 h4

theorem chain_inner_entries (f : Nat) (templates : XmlNode)
    (T TA TB pA kB kC nB nC fcC : String)
    (taNode tbNode b c : XmlNode) (beforeB afterB beforeC afterC : List XmlNode)
    (fcA : Option String) (tA : Nat) (l l' : List DAEntry)
    (hTA : find_node templates.kids "DAType" (some "id") (some TA) = some taNode)
    (hkidsTA : taNode.kids = beforeB ++ b :: afterB)
    (hb : isElem b "BDA" = true ∨ isElem b "DA" = true)
    (hbName : xmlGetProp b "name" = some nB) (hbType : xmlGetProp b "type" = some TB)
    (hTB : find_node templates.kids "DAType" (some "id") (some TB) = some tbNode)
    (hkidsTB : tbNode.kids = beforeC ++ c :: afterC)
    (hc : isElem c "BDA" = true ∨ isElem c "DA" = true)
    (hcName : xmlGetProp c "name" = some nC) (hcFc : xmlGetProp c "fc" = some fcC)
    (hcFlags : has_change_flag c = false)
    (hpB : join_path (some pA) nB = kB) (hpC : join_path (some kB) nC = kC)
    (hclearB : ∀ x ∈ beforeB, ∀ m, xmlGetProp x "name" = some m →
      misses kB (join_path (some pA) m) ∧ misses kC (join_path (some pA) m))
    (hclearC : ∀ x ∈ beforeC, ∀ m, xmlGetProp x "name" = some m →
      misses kC (join_path (some kB) m))
    (hne : kB ≠ kC)
    (hT : T.length < 63) (hkB : kB.length < 127) (hkC : kC.length < 127)
    (hfreshB : icd_find_da_info l T kB = none) (hfreshC : icd_find_da_info l T kC = none)
    (hret : collect_da_type f templates (some T) (some TA) (some pA) fcA tA l = some l') :
    (icd_find_da_info l' T kC).map (fun i => (i.fc, i.trgOps))
        = some (trunc 7 fcC, member_trgOps b tA % 256) ∧
      (icd_find_da_info l' T kB).map (fun i => i.trgOps) = some (member_trgOps b tA % 256) := by
  have hkeptC : ∀ (d0 p0 fc b0 t : Option String) (trg : Nat) (l0 : List DAEntry),
      (icd_find_da_info l0 T kC).map (fun i => (i.fc, i.trgOps))
        = some (trunc 7 fcC, member_trgOps b tA % 256) →
      (icd_find_da_info (add_da_entry d0 p0 fc b0 t trg l0) T kC).map
        (fun i => (i.fc, i.trgOps)) = some (trunc 7 fcC, member_trgOps b tA % 256) :=
    fun d0 p0 fc b0 t trg l0 h => find_map_kept _ _ T kC hT hkC d0 p0 fc b0 t trg l0 h
  have hkeptB : ∀ (d0 p0 fc b0 t : Option String) (trg : Nat) (l0 : List DAEntry),
      (icd_find_da_info l0 T kB).map (fun i => i.trgOps) = some (member_trgOps b tA % 256) →
      (icd_find_da_info (add_da_entry d0 p0 fc b0 t trg l0) T kB).map
        (fun i => i.trgOps) = some (member_trgOps b tA % 256) :=
    fun d0 p0 fc b0 t trg l0 h => find_map_kept _ _ T kB hT hkB d0 p0 fc b0 t trg l0 h
  cases f with
  | zero => simp [collect_da_type] at hret
  | succ g =>
    unfold collect_da_type at hret
    simp only [hTA] at hret
    rw [hkidsTA, collect_da_children_append] at hret
    obtain ⟨l1, h1, h2⟩ := Option.bind_eq_some.mp hret
    have hf1B : icd_find_da_info l1 T kB = none := by
      rw [collect_da_children_misses _ T kB hT hkB
        (fun t q fc0 trg0 l0 l2 hq h0 =>
          (expansion_misses templates T kB hT hkB g).2 _ t q fc0 trg0 l0 l2 hq h0)
        _ _ _ _ beforeB (fun x hx m hm => (hclearB x hx m hm).1) l l1 h1]
      exact hfreshB
    have hf1C : icd_find_da_info l1 T kC = none := by
      rw [collect_da_children_misses _ T kC hT hkC
        (fun t q fc0 trg0 l0 l2 hq h0 =>
          (expansion_misses templates T kC hT hkC g).2 _ t q fc0 trg0 l0 l2 hq h0)
        _ _ _ _ beforeB (fun x hx m hm => (hclearB x hx m hm).2) l l1 h1]
      exact hfreshC
    rw [collect_da_children_member _ _ _ _ _ b afterB l1 nB hb hbName] at h2
    obtain ⟨l2, h3, h4⟩ := Option.bind_eq_some.mp h2
    rw [hbType, hpB] at h3
    simp only at h3
    have hregB : (icd_find_da_info
        (add_da_entry (some T) (some kB) (member_fc b fcA) (xmlGetProp b "bType")
          (some TB) (member_trgOps b tA) l1) T kB).map (fun i => i.trgOps)
        = some (member_trgOps b tA % 256) := by
      rw [find_add_fresh _ _ _ _ l1 T kB hT hkB hf1B]
      rfl
    have hregC : icd_find_da_info
        (add_da_entry (some T) (some kB) (member_fc b fcA) (xmlGetProp b "bType")
          (some TB) (member_trgOps b tA) l1) T kC = none := by
      rw [find_add_other _ _ _ _ _ _ l1 T kC hT hkC hne]
      exact hf1C
    have hl2C := chain_member_entry g templates T TB kB kC nC fcC tbNode c beforeC afterC
      (member_fc b fcA) (member_trgOps b tA) _ l2 hTB hkidsTB hc hcName hcFc hcFlags hpC
      hclearC hT hkC hregC h3
    have hl2B : (icd_find_da_info l2 T kB).map (fun i => i.trgOps)
        = some (member_trgOps b tA % 256) :=
      collect_da_type_preserves _ hkeptB g templates _ _ _ _ _ _ l2 hregB h3
    exact ⟨collect_da_children_preserves _ hkeptC _
        (fun a0 b0 c0 n0 l0 l3 hl0 h0 =>
          collect_da_type_preserves _ hkeptC g templates _ a0 b0 c0 n0 l0 l3 hl0 h0)
        _ _ _ _ afterB l2 l' hl2C h4,
      collect_da_children_preserves _ hkeptB _
        (fun a0 b0 c0 n0 l0 l3 hl0 h0 =>
          collect_da_type_preserves _ hkeptB g templates _ a0 b0 c0 n0 l0 l3 hl0 h0)
        _ _ _ _ afterB l2 l' hl2B h4⟩

/-- C6, counterexample: in the bare chain `A`, `B`, `C` where `C` has the tag
`MEASURED`, the entry at path `A.B.C` has the tag `MEASURE`; in a chain whose
names `A` and `B` have 64 characters each the catalog has no entry at the path of
`C`.  In `dupMemberTemplates` an earlier member also named `B` carries `dchg`:
the entry at `A.B` is its entry, with the bitmask 1, while the entry at `A.B.C`
has the bitmask 0 inherited through the second `B`.  In `dottedMemberTemplates`
an earlier member named `B.C` with the tag `ST` takes the path `A.B.C`.  In
`emptyAttributeNameTemplates` an earlier attribute with the empty name hands its
members down without a prefix, so that they take the paths `A` and `A.B`.  In
`priorRouteDoc` the type `T` is first expanded as the sub-object `A` of another
type, which registers its attribute `B` under the key (`T`, `A.B`) with the
bitmask 1 before the chain is reached.  With a type id of 64 characters no
entry is found under the id. -/
theorem chain_entry_is_cut_or_taken_by_a_sibling :
    (collect_do_type 3
        (chainTemplates "T" "TA" "TB" "A" "B" "C" "Struct" "MEASURED" "FLOAT32" [] [])
        (some "T") none []).map (fun l => (icd_find_da_info l "T" "A.B.C").map (fun i => i.fc))
      = some (some "MEASURE") ∧
    (collect_do_type 3
        (chainTemplates "T" "TA" "TB" name64 name64 "C" "Struct" "MX" "FLOAT32" [] [])
        (some "T") none []).map
        (fun l => icd_find_da_info l "T" (name64 ++ "." ++ name64 ++ "." ++ "C"))
      = some none ∧
    (collect_do_type 3 dupMemberTemplates (some "T") none []).map
        (fun l => ((icd_find_da_info l "T" "A.B.C").map (fun i => (i.fc, i.trgOps)),
          (icd_find_da_info l "T" "A.B").map (fun i => i.trgOps)))
      = some (some ("MX", 0), some 1) ∧
    (collect_do_type 3 dottedMemberTemplates (some "T") none []).map
        (fun l => (icd_find_da_info l "T" "A.B.C").map (fun i => i.fc))
      = some (some "ST") ∧
    (collect_do_type 3 emptyAttributeNameTemplates (some "T") none []).map
        (fun l => ((icd_find_da_info l "T" "A.B.C").map (fun i => (i.fc, i.trgOps)),
          (icd_find_da_info l "T" "A.B").map (fun i => i.trgOps)))
      = some (some ("MX", 0), some 1) ∧
    (icd_load 5 (some priorRouteDoc) initialState).map
        (fun r => ((icd_find_da_info r.1.da_list "T" "A.B.C").map (fun i => (i.fc, i.trgOps)),
          (icd_find_da_info r.1.da_list "T" "A.B").map (fun i => i.trgOps)))
      = some (some ("MX", 0), some 1) ∧
    (collect_do_type 3
        (chainTemplates name64 "TA" "TB" "A" "B" "C" "Struct" "MX" "FLOAT32" [] [])
        (some name64) none []).map (fun l => icd_find_da_info l name64 "A.B.C")
      = some none := by
  refine ⟨by decide, by decide, by decide, by decide, by decide, by decide, by decide⟩

/-- C6, amended: let `a` be a `DA` child named `A` (not empty) of the object type
`T`, with a base type and the attribute type `TA`; let `b` be a member named `B`
of `TA` with the attribute type `TB`; let `c` be a member named `C` of `TB` that
carries its own `fc` and none of `dchg`, `qchg`, `dupd`.  Let the three names
hold no dot, let every element before `a`, before `b` and before `c` among
its siblings have a name without a dot other than `A`, `B`, `C` respectively, none
before `a` the empty name, let `T` be shorter than 63 characters and the path
`A.B.C` shorter than 127.  When the expansion of `T` with the empty prefix, from
a catalog that holds neither of the keys (`T`, `A.B`) and (`T`, `A.B.C`),
returns, the catalog entry at path `A.B.C` has the first 7 characters of the tag
of `C`, and its trigger-options bitmask equals that of the entry at path `A.B`:
the flags of `b` alone when it carries one of `dchg`, `qchg`, `dupd`, those of
`a` otherwise.  Siblings after `a`, `b`, `c` are free. -/
theorem chain_entry_inherits (fuel : Nat) (templates : XmlNode)
    (T TA TB nA nB nC btA fcC : String) (tNode taNode tbNode a b c : XmlNode)
    (beforeA afterA beforeB afterB beforeC afterC : List XmlNode) (da da' : List DAEntry)
    (hT : find_node templates.kids "DOType" (some "id") (some T) = some tNode)
    (hkidsT : tNode.kids = beforeA ++ a :: afterA)
    (ha : isElem a "DA" = true) (haName : xmlGetProp a "name" = some nA)
    (haBType : xmlGetProp a "bType" = some btA) (haType : xmlGetProp a "type" = some TA)
    (hTA : find_node templates.kids "DAType" (some "id") (some TA) = some taNode)
    (hkidsTA : taNode.kids = beforeB ++ b :: afterB)
    (hb : isElem b "BDA" = true ∨ isElem b "DA" = true)
    (hbName : xmlGetProp b "name" = some nB) (hbType : xmlGetProp b "type" = some TB)
    (hTB : find_node templates.kids "DAType" (some "id") (some TB) = some tbNode)
    (hkidsTB : tbNode.kids = beforeC ++ c :: afterC)
    (hc : isElem c "BDA" = true ∨ isElem c "DA" = true)
    (hcName : xmlGetProp c "name" = some nC) (hcFc : xmlGetProp c "fc" = some fcC)
    (hcFlags : has_change_flag c = false)
    (hA : nA ≠ "") (hdA : dot_free nA = true) (hdB : dot_free nB = true)
    (hdC : dot_free nC = true)
    (hgivenA : names_given beforeA = true) (hclearA : names_clear beforeA nA = true)
    (hclearB : names_clear beforeB nB = true) (hclearC : names_clear beforeC nC = true)
    (hTlen : T.length < 63) (hlen : (nA ++ "." ++ nB ++ "." ++ nC).length < 127)
    (hfreshB : icd_find_da_info da T (nA ++ "." ++ nB) = none)
    (hfreshC : icd_find_da_info da T (nA ++ "." ++ nB ++ "." ++ nC) = none)
    (hret : collect_do_type fuel templates (some T) none da = some da') :
    (icd_find_da_info da' T (nA ++ "." ++ nB ++ "." ++ nC)).map (fun i => (i.fc, i.trgOps))
        = some (trunc 7 fcC, member_trgOps_spec b (flag_bits a)) ∧
      (icd_find_da_info da' T (nA ++ "." ++ nB)).map (fun i => i.trgOps)
        = some (member_trgOps_spec b (flag_bits a)) := by
  have hdot : (".").length = 1 := rfl
  have e2 : (".").data = ['.'] := rfl
  have hlenB : (nA ++ "." ++ nB).length < 127 := by
    simp only [String.length_append] at hlen ⊢; omega
  have hlenA : nA.length < 127 := by
    simp only [String.length_append] at hlen ⊢; omega
  have hkBne : nA ++ "." ++ nB ≠ "" := by
    apply ne_of_length_ne
    simp only [String.length_append]
    have : ("").length = 0 := rfl
    omega
  have hne : nA ++ "." ++ nB ≠ nA ++ "." ++ nB ++ "." ++ nC := by
    apply ne_of_length_ne; simp only [String.length_append]; omega
  have hneA1 : nA ≠ nA ++ "." ++ nB := by
    apply ne_of_length_ne; simp only [String.length_append]; omega
  have hneA2 : nA ≠ nA ++ "." ++ nB ++ "." ++ nC := by
    apply ne_of_length_ne; simp only [String.length_append]; omega
  have hpA : join_path none nA = nA := join_path_none nA (by omega)
  have hpB : join_path (some nA) nB = nA ++ "." ++ nB := join_path_some nA nB hA (by omega)
  have hpC : join_path (some (nA ++ "." ++ nB)) nC = nA ++ "." ++ nB ++ "." ++ nC :=
    join_path_some _ nC hkBne (by omega)
  have hxA := dot_free_spec hdA
  have hxB := dot_free_spec hdB
  have hxC := dot_free_spec hdC
  -- the paths of the elements before `a`, `b` and `c`
  have hbeforeA : ∀ k : String, k.length < 127 →
      (∃ rest, k.data = [] ++ (nA.data ++ '.' :: rest)) →
      ∀ x ∈ beforeA, ∀ m, xmlGetProp x "name" = some m → misses k (join_path none m) := by
    intro k hk ⟨rest, hkd⟩ x hx m hm
    obtain ⟨h1, h2⟩ := names_clear_spec hclearA hx hm
    have h0 := names_given_spec hgivenA hx hm
    have hj : join_path none m = trunc 255 m := by simp [join_path, nonEmpty]
    rw [hj]
    exact sibling_path_misses k m [] m.data nA.data ('.' :: rest) hkd (List.nil_append _).symm
      h1 hxA (fun h => h2 (String.ext h)) (Or.inr ⟨rest, rfl⟩) hk h0
  have hbeforeB : ∀ k : String, k.length < 127 →
      (∃ rest, (rest = [] ∨ ∃ r, rest = '.' :: r) ∧
        k.data = (nA.data ++ ['.']) ++ (nB.data ++ rest)) →
      ∀ x ∈ beforeB, ∀ m, xmlGetProp x "name" = some m → misses k (join_path (some nA) m) := by
    intro k hk ⟨rest, hrest, hkd⟩ x hx m hm
    obtain ⟨h1, h2⟩ := names_clear_spec hclearB hx hm
    have hj : join_path (some nA) m = trunc 255 (nA ++ "." ++ m) := by
      simp [join_path, nonEmpty, hA]
    rw [hj]
    refine sibling_path_misses k (nA ++ "." ++ m) (nA.data ++ ['.']) m.data nB.data rest hkd ?_
      h1 hxB (fun h => h2 (String.ext h)) hrest hk ?_
    · rw [String.data_append, String.data_append, e2]
    · apply ne_of_length_ne
      simp only [String.length_append]
      have : ("").length = 0 := rfl
      omega
  have hbeforeC : ∀ x ∈ beforeC, ∀ m, xmlGetProp x "name" = some m →
      misses (nA ++ "." ++ nB ++ "." ++ nC) (join_path (some (nA ++ "." ++ nB)) m) := by
    intro x hx m hm
    obtain ⟨h1, h2⟩ := names_clear_spec hclearC hx hm
    have hj : join_path (some (nA ++ "." ++ nB)) m = trunc 255 (nA ++ "." ++ nB ++ "." ++ m) := by
      simp [join_path, nonEmpty, hkBne]
    rw [hj]
    refine sibling_path_misses _ (nA ++ "." ++ nB ++ "." ++ m)
      ((nA ++ "." ++ nB).data ++ ['.']) m.data nC.data [] ?_ ?_
      h1 hxC (fun h => h2 (String.ext h)) (Or.inl rfl) hlen ?_
    · rw [String.data_append, String.data_append, e2, List.append_nil]
    · rw [String.data_append, String.data_append, e2]
    · apply ne_of_length_ne
      simp only [String.length_append]
      have : ("").length = 0 := rfl
      omega
  have hkdB1 : ∃ rest, (nA ++ "." ++ nB).data = [] ++ (nA.data ++ '.' :: rest) :=
    ⟨nB.data, by
      simp only [String.data_append, e2, List.append_assoc, List.singleton_append,
        List.nil_append, List.cons_append, List.append_nil]⟩
  have hkdC1 : ∃ rest, (nA ++ "." ++ nB ++ "." ++ nC).data = [] ++ (nA.data ++ '.' :: rest) :=
    ⟨nB.data ++ '.' :: nC.data, by
      simp only [String.data_append, e2, List.append_assoc, List.singleton_append,
        List.nil_append, List.cons_append, List.append_nil]⟩
  have hkdB2 : ∃ rest, (rest = [] ∨ ∃ r, rest = '.' :: r) ∧
      (nA ++ "." ++ nB).data = (nA.data ++ ['.']) ++ (nB.data ++ rest) :=
    ⟨[], Or.inl rfl, by
      simp only [String.data_append, e2, List.append_assoc, List.singleton_append,
        List.nil_append, List.cons_append, List.append_nil]⟩
  have hkdC2 : ∃ rest, (rest = [] ∨ ∃ r, rest = '.' :: r) ∧
      (nA ++ "." ++ nB ++ "." ++ nC).data = (nA.data ++ ['.']) ++ (nB.data ++ rest) :=
    ⟨'.' :: nC.data, Or.inr ⟨_, rfl⟩, by
      simp only [String.data_append, e2, List.append_assoc, List.singleton_append,
        List.nil_append, List.cons_append, List.append_nil]⟩
  have hkeptC : ∀ (x : String × Nat) (d0 p0 fc b0 t : Option String) (trg : Nat)
      (l0 : List DAEntry),
      (icd_find_da_info l0 T (nA ++ "." ++ nB ++ "." ++ nC)).map (fun i => (i.fc, i.trgOps))
        = some x →
      (icd_find_da_info (add_da_entry d0 p0 fc b0 t trg l0) T
        (nA ++ "." ++ nB ++ "." ++ nC)).map (fun i => (i.fc, i.trgOps)) = some x :=
    fun x d0 p0 fc b0 t trg l0 h => find_map_kept _ _ T _ hTlen hlen d0 p0 fc b0 t trg l0 h
  have hkeptB : ∀ (x : Nat) (d0 p0 fc b0 t : Option String) (trg : Nat) (l0 : List DAEntry),
      (icd_find_da_info l0 T (nA ++ "." ++ nB)).map (fun i => i.trgOps) = some x →
      (icd_find_da_info (add_da_entry d0 p0 fc b0 t trg l0) T (nA ++ "." ++ nB)).map
        (fun i => i.trgOps) = some x :=
    fun x d0 p0 fc b0 t trg l0 h => find_map_kept _ _ T _ hTlen hlenB d0 p0 fc b0 t trg l0 h
  have hx : member_trgOps b (change_flags a) % 256 = member_trgOps_spec b (flag_bits a) := by
    rw [member_trgOps_eq_spec, change_flags_eq_flag_bits]
    exact Nat.mod_eq_of_lt
      (member_trgOps_spec_lt _ _ (Nat.lt_trans (flag_bits_lt _) (by decide)))
  cases fuel with
  | zero => simp [collect_do_type] at hret
  | succ f =>
    unfold collect_do_type at hret
    simp only [hT] at hret
    rw [hkidsT, collect_do_children_append] at hret
    obtain ⟨l1, h1, h2⟩ := Option.bind_eq_some.mp hret
    have hkeep1 : ∀ k : String, k.length < 127 →
        (∃ rest, k.data = [] ++ (nA.data ++ '.' :: rest)) →
        icd_find_da_info l1 T k = icd_find_da_info da T k := by
      intro k hk hkd
      exact collect_do_children_misses _ _ T k hTlen hk
        (fun t q l0 l2 hq h0 => (expansion_misses templates T k hTlen hk f).1 t q l0 l2 hq h0)
        (fun t q fc0 trg0 l0 l2 hq h0 =>
          (expansion_misses templates T k hTlen hk f).2 _ t q fc0 trg0 l0 l2 hq h0)
        _ _ beforeA (hbeforeA k hk hkd) da l1 h1
    rw [collect_do_children_attribute _ _ _ _ a afterA l1 nA btA TA ha haName haBType haType,
      hpA] at h2
    obtain ⟨l2, h3, h4⟩ := Option.bind_eq_some.mp h2
    have hAB : icd_find_da_info
        (add_da_entry (some T) (some nA) (xmlGetProp a "fc") (some btA) (some TA)
          (change_flags a) l1) T (nA ++ "." ++ nB) = none := by
      rw [find_add_other _ _ _ _ _ _ l1 T _ hTlen hlenB hneA1, hkeep1 _ hlenB hkdB1]
      exact hfreshB
    have hAC : icd_find_da_info
        (add_da_entry (some T) (some nA) (xmlGetProp a "fc") (some btA) (some TA)
          (change_flags a) l1) T (nA ++ "." ++ nB ++ "." ++ nC) = none := by
      rw [find_add_other _ _ _ _ _ _ l1 T _ hTlen hlen hneA2, hkeep1 _ hlen hkdC1]
      exact hfreshC
    obtain ⟨hC, hB⟩ := chain_inner_entries f templates T TA TB nA (nA ++ "." ++ nB)
      (nA ++ "." ++ nB ++ "." ++ nC) nB nC fcC taNode tbNode b c beforeB afterB beforeC afterC
      (xmlGetProp a "fc") (change_flags a) _ l2 hTA hkidsTA hb hbName hbType hTB hkidsTB
      hc hcName hcFc hcFlags hpB hpC
      (fun x hx m hm => ⟨hbeforeB _ hlenB hkdB2 x hx m hm, hbeforeB _ hlen hkdC2 x hx m hm⟩)
      hbeforeC hne hTlen hlenB hlen hAB hAC h3
    rw [hx] at hC hB
    exact ⟨collect_do_children_preserves _ (hkeptC _) _ _
        (fun a0 b0 l0 l3 hl0 h0 =>
          collect_do_type_preserves _ (hkeptC _) f templates a0 b0 l0 l3 hl0 h0)
        (fun a0 b0 c0 n0 l0 l3 hl0 h0 =>
          collect_da_type_preserves _ (hkeptC _) f templates _ a0 b0 c0 n0 l0 l3 hl0 h0)
        _ _ afterA l2 da' hC h4,
      collect_do_children_preserves _ (hkeptB _) _ _
        (fun a0 b0 l0 l3 hl0 h0 =>
          collect_do_type_preserves _ (hkeptB _) f templates a0 b0 l0 l3 hl0 h0)
        (fun a0 b0 c0 n0 l0 l3 hl0 h0 =>
          collect_da_type_preserves _ (hkeptB _) f templates _ a0 b0 c0 n0 l0 l3 hl0 h0)
        _ _ afterA l2 da' hB h4⟩

/-- C6, witness: in `measuredValueTemplates` the chain `mag`, `cVal`, `f` lies among
siblings on every level; `mag` carries `dchg`, `cVal` no flag, and `f` the tag
`MX`.  The entry at `mag.cVal.f` has the tag `MX` and the bitmask 1 of the entry
at `mag.cVal`. -/
theorem chain_entry_inherits_witness :
    collect_do_type 3 measuredValueTemplates (some "AnalogDO") none []
        = some measuredValueCatalog ∧
      (icd_find_da_info measuredValueCatalog "AnalogDO" ("mag" ++ "." ++ "cVal" ++ "." ++ "f")).map
          (fun i => (i.fc, i.trgOps)) = some ("MX", 1) ∧
      (icd_find_da_info measuredValueCatalog "AnalogDO" ("mag" ++ "." ++ "cVal")).map
          (fun i => i.trgOps) = some 1 :=
  ⟨by decide,
    (fun h => ⟨h.1.trans (by decide), h.2.trans (by decide)⟩)
      (chain_entry_inherits 3 measuredValueTemplates "AnalogDO" "Vector" "AnalogVal"
        "mag" "cVal" "f" "Struct" "MX"
        (XmlNode.element "DOType" [("id", "AnalogDO"), ("cdc", "MV")]
          [ XmlNode.element "DA" [("name", "q"), ("bType", "Quality"), ("fc", "MX"),
              ("qchg", "true")] [],
            XmlNode.element "DA" [("name", "mag"), ("bType", "Struct"), ("type", "Vector"),
              ("fc", "CF"), ("dchg", "true")] [],
            XmlNode.element "DA" [("name", "t"), ("bType", "Timestamp"), ("fc", "MX")] [] ])
        (XmlNode.element "DAType" [("id", "Vector")]
          [ XmlNode.element "BDA" [("name", "ang"), ("bType", "FLOAT32")] [],
            XmlNode.element "BDA" [("name", "cVal"), ("bType", "Struct"),
              ("type", "AnalogVal")] [],
            XmlNode.element "BDA" [("name", "unit"), ("bType", "Enum")] [] ])
        (XmlNode.element "DAType" [("id", "AnalogVal")]
          [ XmlNode.element "BDA" [("name", "i"), ("bType", "INT32")] [],
            XmlNode.element "BDA" [("name", "f"), ("bType", "FLOAT32"), ("fc", "MX")] [],
            XmlNode.element "BDA" [("name", "x"), ("bType", "INT32"), ("dchg", "true")] [] ])
        (XmlNode.element "DA" [("name", "mag"), ("bType", "Struct"), ("type", "Vector"),
          ("fc", "CF"), ("dchg", "true")] [])
        (XmlNode.element "BDA" [("name", "cVal"), ("bType", "Struct"), ("type", "AnalogVal")] [])
        (XmlNode.element "BDA" [("name", "f"), ("bType", "FLOAT32"), ("fc", "MX")] [])
        [ XmlNode.element "DA" [("name", "q"), ("bType", "Quality"), ("fc", "MX"),
            ("qchg", "true")] [] ]
        [ XmlNode.element "DA" [("name", "t"), ("bType", "Timestamp"), ("fc", "MX")] [] ]
        [ XmlNode.element "BDA" [("name", "ang"), ("bType", "FLOAT32")] [] ]
        [ XmlNode.element "BDA" [("name", "unit"), ("bType", "Enum")] [] ]
        [ XmlNode.element "BDA" [("name", "i"), ("bType", "INT32")] [] ]
        [ XmlNode.element "BDA" [("name", "x"), ("bType", "INT32"), ("dchg", "true")] [] ]
        [] measuredValueCatalog
        rfl rfl rfl rfl rfl rfl rfl rfl (Or.inl rfl) rfl rfl rfl rfl (Or.inl rfl) rfl rfl rfl
        (by decide) (by decide) (by decide) (by decide) (by decide) (by decide) (by decide)
        (by decide) (by decide) (by decide) rfl rfl (by decide))⟩

end Icd
